import Mathlib

/-!
# GenSolver: the genetic operators of `libgensolver.ipp`

A shallow embedding of the population / generation / chromosome classes of
`src/include/libgensolver.ipp` and of the random helpers of `src/src/librand.cpp`.

Modelling conventions.

* A `vector<T>` is a `List`; an index read that the source guards with `assert`
  (`ChromosomeClass::operator()`) is a partial read: when the index is out of range the
  operation yields `none`.
* The reads `subGeneSizes[ i ]` of `crossOver` go through `vector::operator[]`, which
  checks nothing. `crossOverUnchecked` is `crossOver` with these reads as the source makes
  them: a read outside the vector yields the `int` found in the memory behind it, a
  parameter `stray`. `crossOver` is its restriction to the calls none of whose reads
  leaves its vector (such a read yields `none` there); whatever `crossOver` returns,
  `crossOverUnchecked` returns for every `stray` (`crossOverUnchecked_of_checked`).
* `double` and `long double` values (fitness, rates, percentages, uniform draws) are
  rationals. The crosspoint bounds of `crossOver`, whose values are truncated to `int`,
  are computed with every operation rounded to IEEE 754 binary64 (round to nearest, ties
  to even). `grabChromosomeRounded` is `grabChromosome` with the roundings of the source:
  the sums are rounded as `long double` (a parameter `longDouble`, the format being
  platform dependent), the uniform draw and the product stored in `randomFitness` as
  `double`. `grabChromosome` is the same walk on exact sums and an exact product.
* `unsigned int` arithmetic that can wrap is taken modulo `2^32`, `size_t` subtraction
  modulo `2^64`; `int` results outside `[-2^31, 2^31)` are undefined (`none`).
* `rand()` is a stream `rand : ℕ → ℕ` read through a cursor; `RAND_MAX` is a parameter.
* `while` loops that need not terminate carry a bound `fuel` on their iterations and
  yield `none` when it is exhausted.
* A generation file is the list of the strings that the successive reads `f >> s` yield
  until the end of the file; the library function `atof` is a parameter whose results are
  the values of a `double`: a finite number, an infinity or NaN.
* Where null pointers matter (`GenerationClass::operator=`), a vector of chromosome
  pointers is a list of `Option`s, `none` being the null pointer.
-/

namespace GenSolver

/-! ## Machine constants -/

/-- Smallest value of `int`. -/
def INT_MIN : Int := -2147483648

/-- Largest value of `int`. -/
def INT_MAX : Int := 2147483647

/-- Number of values of `unsigned int`. -/
def UINT_MOD : Nat := 4294967296

/-- Number of values of `size_t`. -/
def SIZE_MOD : Nat := 18446744073709551616

/-- An `int` result: defined only inside the range of `int`. -/
def chkInt (z : Int) : Option Int :=
  if INT_MIN ≤ z ∧ z ≤ INT_MAX then some z else none

/-- Conversion `int( x )` of a `double`: truncation toward zero, defined only when the
truncated value fits an `int`. -/
def doubleToInt (x : ℚ) : Option Int :=
  chkInt (if 0 ≤ x then ⌊x⌋ else ⌈x⌉)

/-! ## Floating point -/

/-- Rounding of a rational to the nearest integer, ties to the even one. -/
def roundHalfEven (q : ℚ) : Int :=
  if q - ⌊q⌋ < 1 / 2 then ⌊q⌋
  else if 1 / 2 < q - ⌊q⌋ then ⌊q⌋ + 1
  else if ⌊q⌋ % 2 = 0 then ⌊q⌋ else ⌊q⌋ + 1

/-- The binary exponent of the spacing of the `double` values around `x`: 52 below the
binary exponent of `x`, and `-1074` for the subnormal values. -/
def doubleGrid (x : ℚ) : Int :=
  max (Int.log 2 |x|) (-1022) - 52

/-- The `double` nearest to `x` (IEEE 754 binary64, round to nearest, ties to even): the
result of an arithmetic operation whose exact value is `x`. Overflow to infinity is not
modelled. -/
def roundDouble (x : ℚ) : ℚ :=
  (roundHalfEven (x / 2 ^ doubleGrid x) : ℚ) * 2 ^ doubleGrid x

/-! ## librand.cpp -/

/-- Function `randFloat()`: `rand() / (RAND_MAX + 1.0)`, for the value `r` returned by `rand()`. -/
def randFloat (RAND_MAX : Nat) (r : Nat) : ℚ :=
  (r : ℚ) / ((RAND_MAX : ℚ) + 1)

/-- Function `randInt(x, y)`: `rand() % (y - x + 1) + x`, for the value `r` returned by
`rand()`; `%` truncates toward zero, a zero modulus and `int` overflow are undefined. -/
def randInt (r : Nat) (x y : Int) : Option Int :=
  match chkInt (y - x) with
  | none => none
  | some d =>
    match chkInt (d + 1) with
    | none => none
    | some m => if m = 0 then none else chkInt (Int.tmod (r : Int) m + x)

/-! ## ChromosomeClass -/

/-- Class `ChromosomeClass<T>`: the inherited `vector<T>` of values, the public
`vector<int> subGeneSizes` and the private `double _fitness`. -/
structure Chromosome (α : Type) where
  /-- the inherited `vector<T>` -/
  values : List α
  /-- member `subGeneSizes` -/
  subGeneSizes : List Int
  /-- member `_fitness` -/
  fitness : ℚ
deriving DecidableEq

/-- The default constructor: no values, no sub genes, fitness 0. -/
def Chromosome.empty {α : Type} : Chromosome α :=
  { values := [], subGeneSizes := [], fitness := 0 }

/-- Loop `for ( i = start; i < start + cnt; i++ ) acc.push_back( src( i ) )`: every read
is an indexed read of `src`, undefined out of range. -/
def pushRange {β : Type} (src : List β) : Nat → Nat → List β → Option (List β)
  | 0, _, acc => some acc
  | cnt + 1, i, acc =>
    match src[i]? with
    | none => none
    | some v => pushRange src cnt (i + 1) (acc ++ [v])

/-- Loop `for ( i = 0; i < cnt; i++ ) real += subGeneSizes[ i ]` on an `unsigned int`
accumulator. -/
def sumLoop (sizes : List Int) : Nat → Nat → Nat → Option Nat
  | 0, _, acc => some acc
  | cnt + 1, i, acc =>
    match sizes[i]? with
    | none => none
    | some s => sumLoop sizes cnt (i + 1) (Int.toNat (((acc : Int) + s) % (UINT_MOD : Int)))

/-- Loop `for ( i = 0; i < subGeneNumber; i++ ) startIndex += subGeneSizes[ i ]` of
`getSubGene`, on an `int` accumulator. -/
def startLoop (sizes : List Int) : Nat → Nat → Int → Option Int
  | 0, _, acc => some acc
  | cnt + 1, i, acc =>
    match sizes[i]? with
    | none => none
    | some s =>
      match chkInt (acc + s) with
      | none => none
      | some a => startLoop sizes cnt (i + 1) a

/-- Method `getSubGene( subGeneNumber )`: the values at the indices from `startIndex` up to
`endIndex = startIndex + subGeneSizes[ subGeneNumber ]`; the loop index is an
`unsigned int`, so both `int` bounds are converted to `unsigned int`. -/
def Chromosome.getSubGene {α : Type} (c : Chromosome α) (subGeneNumber : Nat) :
    Option (List α) :=
  match startLoop c.subGeneSizes subGeneNumber 0 0 with
  | none => none
  | some startIndex =>
    match c.subGeneSizes[subGeneNumber]? with
    | none => none
    | some sz =>
      match chkInt (startIndex + sz) with
      | none => none
      | some endIndex =>
        let first : Nat := Int.toNat (startIndex % (UINT_MOD : Int))
        let last : Nat := Int.toNat (endIndex % (UINT_MOD : Int))
        pushRange c.values (last - first) first []

/-! ## PopulationClass -/

/-- Class `PopulationClass`: the two generation buffers (null before the population is
set up) and the configuration members. The transient `parent1` / `parent2` pointers are
returned by `selectParents` as indices. -/
structure Population (α : Type) where
  /-- member `newGeneration` -/
  newGeneration : Option (List (Chromosome α))
  /-- member `oldGeneration` -/
  oldGeneration : Option (List (Chromosome α))
  /-- member `initialized` -/
  initialized : Bool
  /-- member `equalCrossPoints` -/
  equalCrossPoints : Bool
  /-- member `minRandValue` -/
  minRandValue : ℚ
  /-- member `maxRandValue` -/
  maxRandValue : ℚ
  /-- member `minSubGeneSize` -/
  minSubGeneSize : Nat
  /-- member `maxSubGeneSize` -/
  maxSubGeneSize : Nat
  /-- member `mutationRate` -/
  mutationRate : ℚ
  /-- member `crossOverRate` -/
  crossOverRate : ℚ
  /-- member `minCrossValue`, a vector of two entries -/
  minCrossValue : Fin 2 → ℚ
  /-- member `maxCrossValue`, a vector of two entries -/
  maxCrossValue : Fin 2 → ℚ
  /-- member `realRandom` -/
  realRandom : Bool
  /-- member `srandValue` -/
  srandValue : Int
  /-- member `cloneParents` -/
  cloneParents : Bool

/-- Sum of the fitness values: `for ( i = 0; i < generation.size(); i++ )
totalFitness += generation( i )->fitness()`. -/
def totalFitness {α : Type} (generation : List (Chromosome α)) : ℚ :=
  generation.foldl (fun acc c => acc + c.fitness) 0

/-- The selection loop of `grabChromosome`:
`while ( tmpFitness <= randomFitness ) { i++; if ( i >= size ) i = 0;
tmpFitness += generation( i )->fitness(); }`, returning the final `i`. -/
def grabLoop {α : Type} (generation : List (Chromosome α)) (randomFitness : ℚ) :
    Nat → Nat → ℚ → Option Nat
  | 0, i, tmpFitness => if tmpFitness ≤ randomFitness then none else some i
  | fuel + 1, i, tmpFitness =>
    if tmpFitness ≤ randomFitness then
      let j := if i + 1 ≥ generation.length then 0 else i + 1
      match generation[j]? with
      | none => none
      | some c => grabLoop generation randomFitness fuel j (tmpFitness + c.fitness)
    else some i

/-- Method `grabChromosome`, for the value `r` returned by its call of `rand()`, on exact
sums and an exact product `randomFitness`; `grabChromosomeRounded` has the roundings of the
source. -/
def grabChromosome {α : Type} (RAND_MAX : Nat) (generation : List (Chromosome α))
    (fuel : Nat) (r : Nat) : Option Nat :=
  grabLoop generation (randFloat RAND_MAX r * totalFitness generation) fuel 0 0

/-- The rejection loop of `selectParents`:
`while ( iTmp2 == iTmp1 ) iTmp2 = grabChromosome( generation );`; returns the final
`iTmp2` and the cursor of the random stream. -/
def selectLoop {α : Type} (RAND_MAX : Nat) (rand : Nat → Nat)
    (generation : List (Chromosome α)) (gfuel : Nat) (iTmp1 : Nat) :
    Nat → Nat → Nat → Option (Nat × Nat)
  | 0, k, iTmp2 => if iTmp2 = iTmp1 then none else some (iTmp2, k)
  | fuel + 1, k, iTmp2 =>
    if iTmp2 = iTmp1 then
      match grabChromosome RAND_MAX generation gfuel (rand k) with
      | none => none
      | some j => selectLoop RAND_MAX rand generation gfuel iTmp1 fuel (k + 1) j
    else some (iTmp2, k)

/-- Method `selectParents`: returns the indices of `parent1` and `parent2`, the two
chromosomes read at these indices, and the cursor of the random stream. -/
def selectParents {α : Type} (P : Population α) (RAND_MAX : Nat) (rand : Nat → Nat)
    (generation : List (Chromosome α)) (fuel : Nat) (k : Nat) :
    Option ((Nat × Chromosome α) × (Nat × Chromosome α) × Nat) :=
  match grabChromosome RAND_MAX generation fuel (rand k) with
  | none => none
  | some iTmp1 =>
    match generation[iTmp1]? with
    | none => none
    | some parent1 =>
      let second : Option (Nat × Nat) :=
        if P.cloneParents then
          match grabChromosome RAND_MAX generation fuel (rand (k + 1)) with
          | none => none
          | some j => some (j, k + 2)
        else selectLoop RAND_MAX rand generation fuel iTmp1 fuel (k + 1) iTmp1
      match second with
      | none => none
      | some (iTmp2, k2) =>
        match generation[iTmp2]? with
        | none => none
        | some parent2 => some ((iTmp1, parent1), (iTmp2, parent2), k2)

/-- The `size_t` value `subGeneSizes.size() - 1` for a vector of `n` entries: it wraps to
the largest `size_t` when the vector is empty. -/
def sizeMinusOne (n : Nat) : Nat :=
  if n = 0 then SIZE_MOD - 1 else n - 1

/-- The `double` bound `1. * ( subGeneSizes.size() - 1 ) / 100 * v` of a crosspoint, for
a chromosome of `n` sub genes: the conversion of the `size_t` value, the division and the
multiplication are each rounded to `double`. -/
def crossBound (n : Nat) (v : ℚ) : ℚ :=
  roundDouble (roundDouble (roundDouble (sizeMinusOne n : ℚ) / 100) * v)

/-- The sub-gene index drawn for one parent:
`unsigned int crossPoint = randInt( int( minCrossPoint ), int( maxCrossPoint ) )`, for the
value `r` returned by `rand()`. -/
def crossPoint (n : Nat) (minCross maxCross : ℚ) (r : Nat) : Option Nat :=
  match doubleToInt (crossBound n minCross), doubleToInt (crossBound n maxCross) with
  | some lo, some hi =>
    match randInt r lo hi with
    | none => none
    | some c => some (Int.toNat (c % (UINT_MOD : Int)))
  | _, _ => none

/-- The crosspoints used by one `crossOver` call: `(crossPoint1, realCrossPoint1,
crossPoint2, realCrossPoint2)` after the `equalCrossPoints` override, for the values
`d1`, `d2` returned by the two `rand()` calls of `randInt`. -/
def crossPoints {α : Type} (P : Population α) (parent1 parent2 : Chromosome α)
    (d1 d2 : Nat) : Option (Nat × Nat × Nat × Nat) :=
  match crossPoint parent1.subGeneSizes.length (P.minCrossValue 0) (P.maxCrossValue 0) d1 with
  | none => none
  | some crossPoint1 =>
    match sumLoop parent1.subGeneSizes crossPoint1 0 0 with
    | none => none
    | some realCrossPoint1 =>
      match crossPoint parent2.subGeneSizes.length (P.minCrossValue 1)
          (P.maxCrossValue 1) d2 with
      | none => none
      | some crossPoint2 =>
        match sumLoop parent2.subGeneSizes crossPoint2 0 0 with
        | none => none
        | some realCrossPoint2 =>
          if P.equalCrossPoints then
            some (crossPoint1, realCrossPoint1, crossPoint1, realCrossPoint1)
          else
            some (crossPoint1, realCrossPoint1, crossPoint2, realCrossPoint2)

/-- The crossing branch of `crossOver`: the eight copy loops into `tmpBaby1`, `tmpBaby2`,
`tmpSubGeneSizes1`, `tmpSubGeneSizes2` and the four assignments. The temporaries are
default-constructed, so the fitness assigned to both babies is 0. The reads of
`subGeneSizes` are taken inside the vectors only: a read outside yields `none` here, while
the source returns what the memory holds; `recombineUnchecked` has these reads as the source
makes them. -/
def recombine {α : Type} (parent1 parent2 : Chromosome α)
    (crossPoint1 realCrossPoint1 crossPoint2 realCrossPoint2 : Nat) :
    Option (Chromosome α × Chromosome α) :=
  match pushRange parent1.values realCrossPoint1 0 [] with
  | none => none
  | some t1 =>
    match pushRange parent2.values (parent2.values.length - realCrossPoint2)
        realCrossPoint2 t1 with
    | none => none
    | some tmpBaby1 =>
      match pushRange parent2.values realCrossPoint2 0 [] with
      | none => none
      | some t2 =>
        match pushRange parent1.values (parent1.values.length - realCrossPoint1)
            realCrossPoint1 t2 with
        | none => none
        | some tmpBaby2 =>
          match pushRange parent1.subGeneSizes crossPoint1 0 [] with
          | none => none
          | some s1 =>
            match pushRange parent2.subGeneSizes
                (parent2.subGeneSizes.length - crossPoint2) crossPoint2 s1 with
            | none => none
            | some tmpSubGeneSizes1 =>
              match pushRange parent2.subGeneSizes crossPoint2 0 [] with
              | none => none
              | some s2 =>
                match pushRange parent1.subGeneSizes
                    (parent1.subGeneSizes.length - crossPoint1) crossPoint1 s2 with
                | none => none
                | some tmpSubGeneSizes2 =>
                  some ({ values := tmpBaby1, subGeneSizes := tmpSubGeneSizes1, fitness := 0 },
                        { values := tmpBaby2, subGeneSizes := tmpSubGeneSizes2, fitness := 0 })

/-- The part of `crossOver` after `selectParents`, for the chosen parents and the values
`d1`, `d2`, `d3` returned by the three `rand()` calls; the result is the pair
`(baby1, baby2)`. -/
def crossOverBody {α : Type} (P : Population α) (RAND_MAX : Nat)
    (parent1 parent2 : Chromosome α) (d1 d2 d3 : Nat) :
    Option (Chromosome α × Chromosome α) :=
  match crossPoints P parent1 parent2 d1 d2 with
  | none => none
  | some (crossPoint1, realCrossPoint1, crossPoint2, realCrossPoint2) =>
    if randFloat RAND_MAX d3 < P.crossOverRate then
      recombine parent1 parent2 crossPoint1 realCrossPoint1 crossPoint2 realCrossPoint2
    else some (parent1, parent2)

/-- Method `crossOver( generation, baby1, baby2 )` on the calls none of whose reads of
`subGeneSizes` leaves its vector: returns the chromosomes written to `baby1` and `baby2` and
the cursor of the random stream. `crossOverUnchecked` is the method on all calls. -/
def crossOver {α : Type} (P : Population α) (RAND_MAX : Nat) (rand : Nat → Nat)
    (generation : List (Chromosome α)) (fuel : Nat) (k : Nat) :
    Option (Chromosome α × Chromosome α × Nat) :=
  match selectParents P RAND_MAX rand generation fuel k with
  | none => none
  | some ((_, parent1), (_, parent2), k1) =>
    match crossOverBody P RAND_MAX parent1 parent2 (rand k1) (rand (k1 + 1))
        (rand (k1 + 2)) with
    | none => none
    | some (baby1, baby2) => some (baby1, baby2, k1 + 3)


/-- Method `ChromosomeClass::mutate( i, minRandValue, maxRandValue )`:
`( *this )( i ) = randFunction( minRandValue, maxRandValue )`, for the value `v` returned by
`randFunction`; the write is an asserted indexed access. -/
def Chromosome.mutate {α : Type} (c : Chromosome α) (i : Nat) (v : α) : Option (Chromosome α) :=
  if i < c.values.length then some { c with values := c.values.set i v } else none

/-- The loop of `PopulationClass::mutate`:
`for ( i = 0; i < chromosome->size(); i++ ) if ( randFloat() < mutationRate )
chromosome->mutate( i, minRandValue, maxRandValue )`. The virtual `randFunction` is a
parameter; as overridden in `GenInt` and `GenFloat` it calls `rand()` once, and it gets the
value returned by that call. -/
def mutateLoop {α : Type} (P : Population α) (RAND_MAX : Nat) (rand : Nat → Nat)
    (randFunction : ℚ → ℚ → Nat → Option α) :
    Nat → Nat → Nat → Chromosome α → Option (Chromosome α × Nat)
  | 0, _, k, c => some (c, k)
  | cnt + 1, i, k, c =>
    if randFloat RAND_MAX (rand k) < P.mutationRate then
      match randFunction P.minRandValue P.maxRandValue (rand (k + 1)) with
      | none => none
      | some v =>
        match c.mutate i v with
        | none => none
        | some c1 => mutateLoop P RAND_MAX rand randFunction cnt (i + 1) (k + 2) c1
    else mutateLoop P RAND_MAX rand randFunction cnt (i + 1) (k + 1) c

/-- Method `PopulationClass::mutate( chromosome )`: returns the mutated chromosome and the
cursor of the random stream. -/
def mutate {α : Type} (P : Population α) (RAND_MAX : Nat) (rand : Nat → Nat)
    (randFunction : ℚ → ℚ → Nat → Option α) (chromosome : Chromosome α) (k : Nat) :
    Option (Chromosome α × Nat) :=
  mutateLoop P RAND_MAX rand randFunction chromosome.values.length 0 k chromosome

/-- The loop of `createNewGeneration`:
`for ( i = 0; i < newGeneration->size() - 1; i += 2 ) { crossOver( *oldGeneration,
*newGeneration( i ), *newGeneration( i + 1 ) ); mutate( newGeneration( i ) );
mutate( newGeneration( i + 1 ) ); }`, with `bound` the `size_t` value
`newGeneration->size() - 1` and `steps` a bound on the number of iterations. -/
def generationLoop {α : Type} (P : Population α) (RAND_MAX : Nat) (rand : Nat → Nat)
    (randFunction : ℚ → ℚ → Nat → Option α) (oldGen : List (Chromosome α))
    (bound fuel : Nat) :
    Nat → Nat → Nat → List (Chromosome α) → Option (List (Chromosome α) × Nat)
  | 0, i, k, newGen => if i < bound then none else some (newGen, k)
  | steps + 1, i, k, newGen =>
    if i < bound then
      if i + 1 < newGen.length then
        match crossOver P RAND_MAX rand oldGen fuel k with
        | none => none
        | some (baby1, baby2, k1) =>
          match mutate P RAND_MAX rand randFunction baby1 k1 with
          | none => none
          | some (m1, k2) =>
            match mutate P RAND_MAX rand randFunction baby2 k2 with
            | none => none
            | some (m2, k3) =>
              generationLoop P RAND_MAX rand randFunction oldGen bound fuel steps (i + 2) k3
                ((newGen.set i m1).set (i + 1) m2)
      else none
    else some (newGen, k)

/-- Method `createNewGeneration`: the two generation pointers are swapped, then the loop
overwrites the new current generation pair by pair. Returns the population and the cursor of
the random stream. -/
def createNewGeneration {α : Type} (P : Population α) (RAND_MAX : Nat) (rand : Nat → Nat)
    (randFunction : ℚ → ℚ → Nat → Option α) (fuel : Nat) (k : Nat) :
    Option (Population α × Nat) :=
  match P.oldGeneration, P.newGeneration with
  | some og, some ng =>
    match generationLoop P RAND_MAX rand randFunction ng (sizeMinusOne og.length) fuel
        og.length 0 k og with
    | none => none
    | some (g, k1) => some ({ P with oldGeneration := some ng, newGeneration := some g }, k1)
  | _, _ => none

/-- Method `GenInt::ChromosomeClass::randFunction( minRand, maxRand )`:
`randInt( minRand, maxRand )`, for the value `r` returned by `rand()`. The population hands
over its `double` bounds, which are converted to `int`. -/
def GenInt.randFunction (minRand maxRand : ℚ) (r : Nat) : Option Int :=
  match doubleToInt minRand, doubleToInt maxRand with
  | some a, some b => randInt r a b
  | _, _ => none

/-! ## PopulationClass: `grabChromosome` with the roundings of the source -/

/-- The sum `totalFitness` of `grabChromosome` as the source accumulates it, in
`long double`. The format of `long double` depends on the platform, so its rounding is a
parameter: `longDouble x` is the `long double` that an addition or a multiplication with the
exact result `x` yields. -/
def totalFitnessRounded {α : Type} (longDouble : ℚ → ℚ) (generation : List (Chromosome α)) :
    ℚ :=
  generation.foldl (fun acc c => longDouble (acc + c.fitness)) 0

/-- The value of `double randomFitness = randFloat() * totalFitness` in `grabChromosome`,
for the value `r` returned by `rand()`: the quotient of `randFloat()` is rounded to
`double`, the product is computed in `long double` and stored in a `double`. -/
def randomFitness {α : Type} (longDouble : ℚ → ℚ) (RAND_MAX : Nat)
    (generation : List (Chromosome α)) (r : Nat) : ℚ :=
  roundDouble (longDouble (roundDouble (randFloat RAND_MAX r) *
    totalFitnessRounded longDouble generation))

/-- The selection loop of `grabChromosome` with the `long double` accumulator
`tmpFitness` as the source updates it: every addition `tmpFitness += fitness` is rounded to
`long double`. -/
def grabLoopRounded {α : Type} (longDouble : ℚ → ℚ) (generation : List (Chromosome α))
    (randomFitness : ℚ) : Nat → Nat → ℚ → Option Nat
  | 0, i, tmpFitness => if tmpFitness ≤ randomFitness then none else some i
  | fuel + 1, i, tmpFitness =>
    if tmpFitness ≤ randomFitness then
      let j := if i + 1 ≥ generation.length then 0 else i + 1
      match generation[j]? with
      | none => none
      | some c =>
        grabLoopRounded longDouble generation randomFitness fuel j
          (longDouble (tmpFitness + c.fitness))
    else some i

/-- Method `grabChromosome` with the roundings of the source, for the value `r` returned by
its call of `rand()`. With `longDouble` the identity and a draw and a product that are
`double` values it is `grabChromosome`. -/
def grabChromosomeRounded {α : Type} (longDouble : ℚ → ℚ) (RAND_MAX : Nat)
    (generation : List (Chromosome α)) (fuel : Nat) (r : Nat) : Option Nat :=
  grabLoopRounded longDouble generation (randomFitness longDouble RAND_MAX generation r)
    fuel 0 0

/-! ## PopulationClass: `crossOver` with the unchecked reads of the source -/

/-- The read `subGeneSizes[ i ]` of a `vector<int>` through `operator[]`, which checks
nothing: inside the vector it yields the entry, outside it the `int` that the memory behind
the vector holds at that place, `stray i`. -/
def uncheckedRead (stray : Nat → Int) (sizes : List Int) (i : Nat) : Int :=
  (sizes[i]?).getD (stray i)

/-- Loop `for ( i = 0; i < cnt; i++ ) real += subGeneSizes[ i ]` of `crossOver` on an
`unsigned int` accumulator, every read unchecked. -/
def sumSizes (stray : Nat → Int) (sizes : List Int) : Nat → Nat → Nat → Nat
  | 0, _, acc => acc
  | cnt + 1, i, acc =>
    sumSizes stray sizes cnt (i + 1)
      (Int.toNat (((acc : Int) + uncheckedRead stray sizes i) % (UINT_MOD : Int)))

/-- Loop `for ( i = start; i < start + cnt; i++ ) acc.push_back( subGeneSizes[ i ] )` of
`crossOver`, every read unchecked. -/
def pushSizes (stray : Nat → Int) (sizes : List Int) : Nat → Nat → List Int → List Int
  | 0, _, acc => acc
  | cnt + 1, i, acc => pushSizes stray sizes cnt (i + 1) (acc ++ [uncheckedRead stray sizes i])

/-- The crosspoints used by one `crossOver` call, with the sum loops reading `subGeneSizes`
unchecked; `stray1` and `stray2` are the memory behind the `subGeneSizes` of parent 1 and of
parent 2. -/
def crossPointsUnchecked {α : Type} (stray1 stray2 : Nat → Int) (P : Population α)
    (parent1 parent2 : Chromosome α) (d1 d2 : Nat) : Option (Nat × Nat × Nat × Nat) :=
  match crossPoint parent1.subGeneSizes.length (P.minCrossValue 0) (P.maxCrossValue 0) d1 with
  | none => none
  | some crossPoint1 =>
    match crossPoint parent2.subGeneSizes.length (P.minCrossValue 1)
        (P.maxCrossValue 1) d2 with
    | none => none
    | some crossPoint2 =>
      if P.equalCrossPoints then
        some (crossPoint1, sumSizes stray1 parent1.subGeneSizes crossPoint1 0 0,
          crossPoint1, sumSizes stray1 parent1.subGeneSizes crossPoint1 0 0)
      else
        some (crossPoint1, sumSizes stray1 parent1.subGeneSizes crossPoint1 0 0,
          crossPoint2, sumSizes stray2 parent2.subGeneSizes crossPoint2 0 0)

/-- The crossing branch of `crossOver` as the source reads: the four loops over the values
go through the asserting `operator()`, the four loops over `subGeneSizes` through the
unchecked `operator[]`. The temporaries are default-constructed, so the fitness assigned to
both babies is 0. -/
def recombineUnchecked {α : Type} (stray1 stray2 : Nat → Int) (parent1 parent2 : Chromosome α)
    (crossPoint1 realCrossPoint1 crossPoint2 realCrossPoint2 : Nat) :
    Option (Chromosome α × Chromosome α) :=
  match pushRange parent1.values realCrossPoint1 0 [] with
  | none => none
  | some t1 =>
    match pushRange parent2.values (parent2.values.length - realCrossPoint2)
        realCrossPoint2 t1 with
    | none => none
    | some tmpBaby1 =>
      match pushRange parent2.values realCrossPoint2 0 [] with
      | none => none
      | some t2 =>
        match pushRange parent1.values (parent1.values.length - realCrossPoint1)
            realCrossPoint1 t2 with
        | none => none
        | some tmpBaby2 =>
          let s1 := pushSizes stray1 parent1.subGeneSizes crossPoint1 0 []
          let tmpSubGeneSizes1 := pushSizes stray2 parent2.subGeneSizes
            (parent2.subGeneSizes.length - crossPoint2) crossPoint2 s1
          let s2 := pushSizes stray2 parent2.subGeneSizes crossPoint2 0 []
          let tmpSubGeneSizes2 := pushSizes stray1 parent1.subGeneSizes
            (parent1.subGeneSizes.length - crossPoint1) crossPoint1 s2
          some ({ values := tmpBaby1, subGeneSizes := tmpSubGeneSizes1, fitness := 0 },
                { values := tmpBaby2, subGeneSizes := tmpSubGeneSizes2, fitness := 0 })

/-- The part of `crossOver` after `selectParents`, with the unchecked reads of the
source. -/
def crossOverBodyUnchecked {α : Type} (stray1 stray2 : Nat → Int) (P : Population α)
    (RAND_MAX : Nat) (parent1 parent2 : Chromosome α) (d1 d2 d3 : Nat) :
    Option (Chromosome α × Chromosome α) :=
  match crossPointsUnchecked stray1 stray2 P parent1 parent2 d1 d2 with
  | none => none
  | some (crossPoint1, realCrossPoint1, crossPoint2, realCrossPoint2) =>
    if randFloat RAND_MAX d3 < P.crossOverRate then
      recombineUnchecked stray1 stray2 parent1 parent2 crossPoint1 realCrossPoint1 crossPoint2
        realCrossPoint2
    else some (parent1, parent2)

/-- Method `crossOver( generation, baby1, baby2 )` with the reads of `subGeneSizes` as the
source makes them, through the unchecked `operator[]` of `vector`: `stray c i` is the `int`
that `generation( c )->subGeneSizes[ i ]` yields for an index `i` outside the vector.
`crossOver` is this function on the calls none of whose reads of `subGeneSizes` leaves the
vector. -/
def crossOverUnchecked {α : Type} (stray : Nat → Nat → Int) (P : Population α)
    (RAND_MAX : Nat) (rand : Nat → Nat) (generation : List (Chromosome α)) (fuel : Nat)
    (k : Nat) : Option (Chromosome α × Chromosome α × Nat) :=
  match selectParents P RAND_MAX rand generation fuel k with
  | none => none
  | some ((i1, parent1), (i2, parent2), k1) =>
    match crossOverBodyUnchecked (stray i1) (stray i2) P RAND_MAX parent1 parent2 (rand k1)
        (rand (k1 + 1)) (rand (k1 + 2)) with
    | none => none
    | some (baby1, baby2) => some (baby1, baby2, k1 + 3)

/-! ## Preconditions checked with `assert` -/

/-- Result of a call of a method that checks its preconditions with `assert`: the call
returns, or one of its `assert`s fails and the program is aborted, or there is no result
(an undefined operation, or a loop whose bound `fuel` is exhausted). -/
inductive Checked (σ : Type) where
  /-- the call returns -/
  | returned (result : σ) : Checked σ
  /-- an `assert` of the method fails -/
  | assertFailed : Checked σ
  /-- no result -/
  | noResult : Checked σ

/-- Conversion of an `unsigned int` to `int`: values from `2^31` on wrap to negative ones. -/
def uintToInt (n : Nat) : Int :=
  if n % UINT_MOD < 2147483648 then ((n % UINT_MOD : Nat) : Int)
  else ((n % UINT_MOD : Nat) : Int) - (UINT_MOD : Int)

/-- Conversion of an `int` to `unsigned int`. -/
def intToUint (z : Int) : Nat :=
  Int.toNat (z % (UINT_MOD : Int))

/-! ## ChromosomeClass and GenerationClass: random initialisation -/

/-- The loop `while ( tmpSize < chromosomeSize ) { int tmpSubGeneSize = getSubGeneSize(
minSubSize, maxSubSize ); subGeneSizes.push_back( tmpSubGeneSize ); tmpSize +=
tmpSubGeneSize; }` of `initializeChromosome`; `getSubGeneSize` is
`randInt( minSubSize, maxSubSize )` and `tmpSize` is an `unsigned int`. Returns the
sub-gene sizes, the final `tmpSize` and the cursor of the random stream. -/
def subGeneSizeLoop (rand : Nat → Nat) (chromosomeSize minSubSize maxSubSize : Nat) :
    Nat → Nat → Nat → List Int → Option (List Int × Nat × Nat)
  | 0, tmpSize, k, sizes => if tmpSize < chromosomeSize then none else some (sizes, tmpSize, k)
  | fuel + 1, tmpSize, k, sizes =>
    if tmpSize < chromosomeSize then
      match randInt (rand k) (uintToInt minSubSize) (uintToInt maxSubSize) with
      | none => none
      | some tmpSubGeneSize =>
        subGeneSizeLoop rand chromosomeSize minSubSize maxSubSize fuel
          (intToUint ((tmpSize : Int) + tmpSubGeneSize)) (k + 1) (sizes ++ [tmpSubGeneSize])
    else some (sizes, tmpSize, k)

/-- The loop `for ( i = 0; i < tmpSize; i++ ) this->push_back( randFunction( minRand,
maxRand ) )` of `initializeChromosome`; every call of `randFunction` gets the value
returned by its call of `rand()`. -/
def fillLoop {α : Type} (rand : Nat → Nat) (randFunction : ℚ → ℚ → Nat → Option α)
    (minRand maxRand : ℚ) : Nat → Nat → List α → Option (List α × Nat)
  | 0, k, values => some (values, k)
  | cnt + 1, k, values =>
    match randFunction minRand maxRand (rand k) with
    | none => none
    | some v => fillLoop rand randFunction minRand maxRand cnt (k + 1) (values ++ [v])

/-- Method `ChromosomeClass::initializeChromosome`: the chromosome size is
`getChromosomeSize( minCSize, maxCSize ) = randInt( minCSize, maxCSize )`, converted to
`unsigned int`; sub-gene sizes are drawn until they sum to at least that size, and as many
values as they sum to are drawn. -/
def Chromosome.initializeChromosome {α : Type} (c : Chromosome α) (rand : Nat → Nat)
    (randFunction : ℚ → ℚ → Nat → Option α) (fuel : Nat)
    (minCSize maxCSize minSubSize maxSubSize : Nat) (minRand maxRand : ℚ) (k : Nat) :
    Option (Chromosome α × Nat) :=
  match randInt (rand k) (uintToInt minCSize) (uintToInt maxCSize) with
  | none => none
  | some size =>
    match subGeneSizeLoop rand (intToUint size) minSubSize maxSubSize fuel 0 (k + 1)
        c.subGeneSizes with
    | none => none
    | some (sizes, tmpSize, k1) =>
      match fillLoop rand randFunction minRand maxRand tmpSize k1 c.values with
      | none => none
      | some (values, k2) => some ({ c with values := values, subGeneSizes := sizes }, k2)

/-- Constructor `GenerationClass( numberOfChromosomes )`: as many default-constructed
chromosomes. -/
def GenerationClass.new {α : Type} (numberOfChromosomes : Nat) : List (Chromosome α) :=
  List.replicate numberOfChromosomes Chromosome.empty

/-- Method `GenerationClass::initializeChromosomes`: `initializeChromosome` on every
chromosome, in order. -/
def initializeChromosomes {α : Type} (rand : Nat → Nat)
    (randFunction : ℚ → ℚ → Nat → Option α) (fuel : Nat)
    (minCSize maxCSize minSubSize maxSubSize : Nat) (minRand maxRand : ℚ) :
    List (Chromosome α) → Nat → Option (List (Chromosome α) × Nat)
  | [], k => some ([], k)
  | c :: rest, k =>
    match c.initializeChromosome rand randFunction fuel minCSize maxCSize minSubSize
        maxSubSize minRand maxRand k with
    | none => none
    | some (c1, k1) =>
      match initializeChromosomes rand randFunction fuel minCSize maxCSize minSubSize
          maxSubSize minRand maxRand rest k1 with
      | none => none
      | some (rest1, k2) => some (c1 :: rest1, k2)

/-! ## PopulationClass: initialisation and settings -/

/-- Method `PopulationClass::initialize` (the name alone is a reserved word here). The
two `assert`s come first; then the flag is
set, the random generator is seeded (`rand` is the stream of the results of `rand()` after
`srand( srandValue )`, `now` the value of `time( NULL )`), the two generations are
allocated, the current one is initialised randomly and the defaults are set. Returns the
population and the cursor of the random stream. -/
def initializePopulation {α : Type} (P : Population α) (rand : Nat → Nat)
    (randFunction : ℚ → ℚ → Nat → Option α) (now : Int) (fuel : Nat)
    (generationSize minCSize maxCSize minSubSize maxSubSize : Nat) (minRand maxRand : ℚ) :
    Checked (Population α × Nat) :=
  if generationSize % 2 ≠ 0 then Checked.assertFailed
  else if P.initialized then Checked.assertFailed
  else
    match initializeChromosomes rand randFunction fuel minCSize maxCSize minSubSize
        maxSubSize minRand maxRand (GenerationClass.new generationSize) 0 with
    | none => Checked.noResult
    | some (generation, k) =>
      Checked.returned
        ({ newGeneration := some generation,
           oldGeneration := some (GenerationClass.new generationSize),
           initialized := true,
           equalCrossPoints := (minCSize == maxCSize) && (minSubSize == maxSubSize),
           minRandValue := minRand, maxRandValue := maxRand,
           minSubGeneSize := minSubSize, maxSubGeneSize := maxSubSize,
           mutationRate := roundDouble (2 / 100), crossOverRate := roundDouble (7 / 10),
           minCrossValue := fun _ => 0, maxCrossValue := fun _ => 100,
           realRandom := P.realRandom,
           srandValue := if P.realRandom then now else 0,
           cloneParents := true }, k)

/-- Method `enableRealRandom`. -/
def enableRealRandom {α : Type} (P : Population α) (value : Bool) : Population α :=
  { P with realRandom := value }

/-- Method `setSrandValue`. -/
def setSrandValue {α : Type} (P : Population α) (value : Int) : Population α :=
  { enableRealRandom P false with srandValue := value }

/-- Method `enableCloneParents`. -/
def enableCloneParents {α : Type} (P : Population α) (value : Bool) : Population α :=
  { P with cloneParents := value }

/-- Method `setCrossOverRate`. -/
def setCrossOverRate {α : Type} (P : Population α) (rate : ℚ) : Population α :=
  { P with crossOverRate := rate }

/-- Method `setMutationRate`. -/
def setMutationRate {α : Type} (P : Population α) (rate : ℚ) : Population α :=
  { P with mutationRate := rate }

/-- Method `setCrossPointRange( min, max )`: both crosspoint ranges, strictly inside
`(0,100)`. -/
def setCrossPointRange {α : Type} (P : Population α) (min max : ℚ) : Checked (Population α) :=
  if 0 < min ∧ min < 100 ∧ 0 < max ∧ max < 100 ∧ min ≤ max then
    Checked.returned { P with minCrossValue := fun _ => min, maxCrossValue := fun _ => max }
  else Checked.assertFailed

/-- Method `setCrossPointRange( cpIndex, min, max )`: the range of one crosspoint. -/
def setCrossPointRangeAt {α : Type} (P : Population α) (cpIndex : Nat) (min max : ℚ) :
    Checked (Population α) :=
  if h : 0 ≤ min ∧ min ≤ 100 ∧ 0 < max ∧ max ≤ 100 ∧ min ≤ max ∧ cpIndex ≤ 1 then
    Checked.returned
      { P with
        minCrossValue := Function.update P.minCrossValue ⟨cpIndex, by omega⟩ min,
        maxCrossValue := Function.update P.maxCrossValue ⟨cpIndex, by omega⟩ max }
  else Checked.assertFailed

/-- Method `setEqualCrossPoints`: `assert( value && ( minSubGeneSize == maxSubGeneSize ) )`. -/
def setEqualCrossPoints {α : Type} (P : Population α) (value : Bool) : Checked (Population α) :=
  if value = true ∧ P.minSubGeneSize = P.maxSubGeneSize then
    Checked.returned { P with equalCrossPoints := value }
  else Checked.assertFailed

/-! ## GenSolver -/

/-- Class `GenSolver<T>`: the base-class object (a population) and the members `_solution`
and `_currentGeneration`. -/
structure Solver (α : Type) where
  /-- the base class `T`, a `PopulationClass` -/
  population : Population α
  /-- member `_solution` -/
  _solution : Bool
  /-- member `_currentGeneration` -/
  _currentGeneration : Nat

/-- Constructor `GenSolver()`, on the constructed base-class object. -/
def Solver.new {α : Type} (population : Population α) : Solver α :=
  { population := population, _solution := false, _currentGeneration := 0 }

/-- Method `getCurrentGeneration`. -/
def Solver.getCurrentGeneration {α : Type} (s : Solver α) : Nat :=
  s._currentGeneration

/-- Method `foundSolution`. -/
def Solver.foundSolution {α : Type} (s : Solver α) : Solver α :=
  { s with _solution := true }

/-- The calls made by `startSolving`, in the order in which they are made. -/
inductive Call where
  /-- a call of the evaluator `parseChromosomes` -/
  | parseChromosomes : Call
  /-- a call of `createNewGeneration` -/
  | createNewGeneration : Call
deriving DecidableEq

/-- The loop of `startSolving`:
`for ( i = 0; i < maxGenerations; i++ ) { parseChromosomes(); createNewGeneration();
_currentGeneration = i; if ( _solution ) break; }`, with `remaining = maxGenerations - i`.
The pure virtual evaluator `parseChromosomes` is a parameter: it gets the solver and the
cursor of the random stream and returns the population as it leaves it, whether it called
`foundSolution`, and the cursor. The calls are recorded in `log`. -/
def solvingLoop {α : Type}
    (parseChromosomes : Solver α → Nat → Option (Population α × Bool × Nat))
    (RAND_MAX : Nat) (rand : Nat → Nat) (randFunction : ℚ → ℚ → Nat → Option α) (fuel : Nat) :
    Nat → Nat → Solver α → Nat → List Call → Option (Solver α × Nat × List Call)
  | 0, _, s, k, log => some (s, k, log)
  | remaining + 1, i, s, k, log =>
    match parseChromosomes s k with
    | none => none
    | some (P1, found, k1) =>
      match createNewGeneration P1 RAND_MAX rand randFunction fuel k1 with
      | none => none
      | some (P2, k2) =>
        let s2 : Solver α :=
          { population := P2, _solution := s._solution || found, _currentGeneration := i }
        let log2 := log ++ [Call.parseChromosomes, Call.createNewGeneration]
        if s2._solution then some (s2, k2, log2)
        else solvingLoop parseChromosomes RAND_MAX rand randFunction fuel remaining (i + 1)
          s2 k2 log2

/-- Method `startSolving( maxGenerations )`: `assert( this->initialized )`, then the loop.
Returns the solver, the cursor of the random stream and the calls made. -/
def startSolving {α : Type}
    (parseChromosomes : Solver α → Nat → Option (Population α × Bool × Nat))
    (RAND_MAX : Nat) (rand : Nat → Nat) (randFunction : ℚ → ℚ → Nat → Option α) (fuel : Nat)
    (maxGenerations : Nat) (s : Solver α) (k : Nat) : Checked (Solver α × Nat × List Call) :=
  if s.population.initialized then
    match solvingLoop parseChromosomes RAND_MAX rand randFunction fuel maxGenerations 0 s k
        [] with
    | none => Checked.noResult
    | some r => Checked.returned r
  else Checked.assertFailed

/-! ## librand.cpp and libgensolver.cpp: the typed random functions -/

/-- Function `randFloat( x, y )` of `librand.cpp` (the overload with two `int` bounds):
`long tmp = rand(); y -= 1; return tmp % ( y - x + 1 ) + x + tmp / ( RAND_MAX + 1.0 );`, for
the value `r` returned by `rand()`. The `int` operations on the bounds are undefined on
overflow and the modulus must not be zero; the sum is exact. -/
def randFloatBetween (RAND_MAX : Nat) (r : Nat) (x y : Int) : Option ℚ :=
  match chkInt (y - 1) with
  | none => none
  | some y1 =>
    match chkInt (y1 - x) with
    | none => none
    | some d =>
      match chkInt (d + 1) with
      | none => none
      | some m =>
        if m = 0 then none
        else some (((Int.tmod (r : Int) m + x : Int) : ℚ) + (r : ℚ) / ((RAND_MAX : ℚ) + 1))

/-- Method `GenFloat::ChromosomeClass::randFunction( minRand, maxRand )`:
`randFloat( int( minRand ), int( maxRand ) )`, for the value `r` returned by `rand()`. -/
def GenFloat.randFunction (RAND_MAX : Nat) (minRand maxRand : ℚ) (r : Nat) : Option ℚ :=
  match doubleToInt minRand, doubleToInt maxRand with
  | some a, some b => randFloatBetween RAND_MAX r a b
  | _, _ => none

/-! ## ChromosomeClass: sub genes by gene and sub index -/

/-- Method `getSubGene( geneNumber, subNumber )`: `getSubGene( geneNumber + subNumber )` for
gene 0 and `getSubGene( geneNumber * 2 + subNumber )` otherwise, in `unsigned int`
arithmetic. -/
def Chromosome.getSubGeneAt {α : Type} (c : Chromosome α) (geneNumber subNumber : Nat) :
    Option (List α) :=
  if geneNumber = 0 then c.getSubGene ((geneNumber + subNumber) % UINT_MOD)
  else c.getSubGene ((geneNumber * 2 + subNumber) % UINT_MOD)

/-- Method `numberOfGenes`: `subGeneSizes.size() / 2`, returned as an `unsigned int`. -/
def Chromosome.numberOfGenes {α : Type} (c : Chromosome α) : Nat :=
  (c.subGeneSizes.length / 2) % UINT_MOD

/-! ## GenerationClass: assignment and loading -/

/-- The loop `for ( i = 0; i < source.numberOfChromosomes(); i++ ) (*this)[ i ] = new
ChromosomeTemplate( )` of `operator=`: a write at an index outside the vector is
undefined. -/
def assignInitLoop {α : Type} :
    Nat → Nat → List (Option (Chromosome α)) → Option (List (Option (Chromosome α)))
  | 0, _, this => some this
  | cnt + 1, i, this =>
    if i < this.length then assignInitLoop cnt (i + 1) (this.set i (some Chromosome.empty))
    else none

/-- The loop `for ( i = 0; i < source.numberOfChromosomes(); i++ ) *(*this)[ i ] =
*source[ i ]` of `operator=`: the chromosome that entry `i` points to gets the values, the
sub-gene sizes and the fitness of chromosome `i` of the source. -/
def assignCopyLoop {α : Type} (source : List (Chromosome α)) :
    Nat → Nat → List (Option (Chromosome α)) → Option (List (Option (Chromosome α)))
  | 0, _, this => some this
  | cnt + 1, i, this =>
    match this[i]?, source[i]? with
    | some (some _), some c => assignCopyLoop source cnt (i + 1) (this.set i (some c))
    | _, _ => none

/-- Assignment `destination = source` of `GenerationClass::operator=`. The generation is a
vector of pointers, `none` being the null pointer: every entry of the destination is
deleted and set to null, then the two loops over `source.numberOfChromosomes()` follow. The
vector itself is never resized. -/
def GenerationClass.assign {α : Type} (destination source : List (Chromosome α)) :
    Option (List (Option (Chromosome α))) :=
  match assignInitLoop source.length 0 (List.replicate destination.length none) with
  | none => none
  | some this => assignCopyLoop source source.length 0 this

/-- The reading loop `while ( !f.eof() ) { f >> tmpStr; list.push_back( tmpStr ); if (
tmpStr == stop ) break; }` of `readHeaderSection` and `readDataSection`. The stream is the
list of the strings that the successive reads `f >> tmpStr` yield until the end of the file
is reached (the last one is empty when the file ends in white space). Returns the list read
and the rest of the stream. -/
def readTokens (stop : String) : List String → List String × List String
  | [] => ([], [])
  | tmpStr :: rest =>
    if tmpStr = stop then ([tmpStr], rest)
    else ((readTokens stop rest).1.cons tmpStr, (readTokens stop rest).2)

/-- A value of type `double` as the comparisons of `readHeaderSection` see it: a finite
number, one of the two infinities, or a NaN. -/
inductive DoubleValue where
  /-- a finite number; both zeros are the number 0 -/
  | finite (q : ℚ) : DoubleValue
  /-- plus infinity -/
  | posInf : DoubleValue
  /-- minus infinity -/
  | negInf : DoubleValue
  /-- not a number -/
  | nan : DoubleValue

/-- The comparison `d == 0`: false for the infinities and for a NaN. -/
def DoubleValue.isZero : DoubleValue → Bool
  | DoubleValue.finite q => decide (q = 0)
  | _ => false

/-- The comparison `d > x` with a finite `double` `x`: true for plus infinity, false for
minus infinity and for a NaN. -/
def DoubleValue.greater (d : DoubleValue) (x : ℚ) : Bool :=
  match d with
  | DoubleValue.finite q => decide (x < q)
  | DoubleValue.posInf => true
  | DoubleValue.negInf => false
  | DoubleValue.nan => false

/-- Method `readHeaderSection( f, headerList )`, for a `headerList` that is empty at the
call. The library function `atof` is a parameter; `0.1` is the `double` nearest to one
tenth; the reads `headerList[ i ]` are unchecked. Returns the result, the list read and the
rest of the stream. -/
def readHeaderSection (atof : String → DoubleValue) (f : List String) :
    Option (Bool × List String × List String) :=
  let headerList := (readTokens "</header>" f).1
  let rest := (readTokens "</header>" f).2
  match headerList[0]? with
  | none => none
  | some first =>
    if first ≠ "<header>" then some (false, headerList, rest)
    else
      match headerList[sizeMinusOne headerList.length]? with
      | none => none
      | some last =>
        if last ≠ "</header>" then some (false, headerList, rest)
        else
          match headerList[1]? with
          | none => none
          | some second =>
            if second ≠ "GenSolver-File" then some (false, headerList, rest)
            else
              match headerList[2]? with
              | none => none
              | some third =>
                if (atof third).isZero then some (false, headerList, rest)
                else if (atof third).greater (roundDouble (1 / 10)) then
                  some (false, headerList, rest)
                else some (true, headerList, rest)

/-- Method `readDataSection( f, dataList )`: the tokens up to `</data>` are read, the first
must be `<data>` and the last `</data>`; `dataList` is not used. Returns the result and the
rest of the stream. -/
def readDataSection (f : List String) : Option (Bool × List String) :=
  let inputStrList := (readTokens "</data>" f).1
  let rest := (readTokens "</data>" f).2
  match inputStrList[0]? with
  | none => none
  | some first =>
    if first ≠ "<data>" then some (false, rest)
    else
      match inputStrList[sizeMinusOne inputStrList.length]? with
      | none => none
      | some last => if last ≠ "</data>" then some (false, rest) else some (true, rest)

/-- Method `loadGeneration( fileName )`: `none` for the file stands for a file that cannot
be opened. The header section is read first; the data section is read only when the header
is accepted. The call `this->readDataSection( f )` has one argument, while the class
declares `readDataSection` with two arguments only: what the call does is the parameter
`dataSection`, which gets the rest of the stream and returns the result of the call. -/
def loadGeneration (atof : String → DoubleValue) (dataSection : List String → Option Bool)
    (file : Option (List String)) : Option Bool :=
  match file with
  | none => some false
  | some f =>
    match readHeaderSection atof f with
    | none => none
    | some (false, _, _) => some false
    | some (true, _, rest) =>
      match dataSection rest with
      | none => none
      | some false => some false
      | some true => some true

/-! ## Properties named by the specification -/

/-- The shape invariant `sum(subGeneSizes) == len(values)`. -/
def Chromosome.shapeInvariant {α : Type} (c : Chromosome α) : Prop :=
  c.subGeneSizes.sum = (c.values.length : Int)

/-- Every sub-gene size is non-negative. -/
def Chromosome.sizesNonneg {α : Type} (c : Chromosome α) : Prop :=
  ∀ s ∈ c.subGeneSizes, (0 : Int) ≤ s

/-- A chromosome of the data model: non-negative sub-gene sizes that sum to the number of
values, which an `unsigned int` index can address. -/
def Chromosome.wellFormed {α : Type} (c : Chromosome α) : Prop :=
  c.sizesNonneg ∧ c.shapeInvariant ∧ c.values.length < UINT_MOD

/-- The sub-gene boundaries of two chromosomes coincide as far as both reach: equal sums of
the first `c` sub-gene sizes. This holds for identical `subGeneSizes` lists and for
chromosomes whose sub genes all have one fixed size. -/
def alignedBoundaries {α : Type} (p1 p2 : Chromosome α) : Prop :=
  ∀ c, c ≤ p1.subGeneSizes.length → c ≤ p2.subGeneSizes.length →
    (p1.subGeneSizes.take c).sum = (p2.subGeneSizes.take c).sum

/-- The conditions under which the crosspoint computation of `crossOver` is defined for two
parents: each has at least one sub gene and a sub-gene count that fits an `int`, and both
percentage ranges satisfy `0 <= min <= max <= 100`. -/
def crossReady {α : Type} (P : Population α) (p1 p2 : Chromosome α) : Prop :=
  1 ≤ p1.subGeneSizes.length ∧ (p1.subGeneSizes.length : Int) ≤ INT_MAX ∧
  1 ≤ p2.subGeneSizes.length ∧ (p2.subGeneSizes.length : Int) ≤ INT_MAX ∧
  (∀ j : Fin 2, 0 ≤ P.minCrossValue j ∧ P.minCrossValue j ≤ P.maxCrossValue j ∧
    P.maxCrossValue j ≤ 100)

/-- The random stream is a stream of results of `rand()`: every value is at most
`RAND_MAX`. -/
def validRand (RAND_MAX : Nat) (rand : Nat → Nat) : Prop :=
  ∀ k, rand k ≤ RAND_MAX

/-- Fitness accumulated by the walk of `grabChromosome` after `m` steps: the walk visits
the indices `1, 2, ..., n-1, 0, 1, ...`, so step `j` visits index `j % n`. -/
def walkAcc {α : Type} (generation : List (Chromosome α)) : Nat → ℚ
  | 0 => 0
  | m + 1 =>
    walkAcc generation m +
      ((generation[(m + 1) % generation.length]?).map (fun c => c.fitness)).getD 0

/-- The stop rule as the specification words it: index `i` is the first index of the walk
at which the accumulated fitness is `>= r`. -/
def stopsAtFirstGE {α : Type} (generation : List (Chromosome α)) (r : ℚ) (i : Nat) : Prop :=
  ∃ m, 1 ≤ m ∧ i = m % generation.length ∧ r ≤ walkAcc generation m ∧
    ∀ j, 1 ≤ j → j < m → walkAcc generation j < r

/-- The cursor of the random stream when `PopulationClass::mutate`, called at cursor `k`,
reaches position `i`: every position reads one value of `rand()` for its draw, and a
position whose draw is below the mutation rate reads a second one for `randFunction`. -/
def mutateCursor {α : Type} (P : Population α) (RAND_MAX : Nat) (rand : Nat → Nat) (k : Nat) :
    Nat → Nat
  | 0 => k
  | i + 1 =>
    if randFloat RAND_MAX (rand (mutateCursor P RAND_MAX rand k i)) < P.mutationRate then
      mutateCursor P RAND_MAX rand k i + 2
    else mutateCursor P RAND_MAX rand k i + 1

/-- The calls of `n` generations that are run to the end: the evaluator, then the
replacement, `n` times. -/
def callLog : Nat → List Call
  | 0 => []
  | n + 1 => [Call.parseChromosomes, Call.createNewGeneration] ++ callLog n

/-- A population on which `createNewGeneration` can be run again and again: `cloneParents`
and `equalCrossPoints` are set, the crosspoint ranges are valid, `randFunction` returns for
its value range, and both generations hold `n` well-formed chromosomes with the sub-gene
list `L`. -/
def runnable {α : Type} (L : List Int) (n : Nat) (randFunction : ℚ → ℚ → Nat → Option α)
    (P : Population α) : Prop :=
  P.equalCrossPoints = true ∧ P.cloneParents = true ∧
  (∀ j : Fin 2, 0 ≤ P.minCrossValue j ∧ P.minCrossValue j ≤ P.maxCrossValue j ∧
    P.maxCrossValue j ≤ 100) ∧
  (∀ d, ∃ v, randFunction P.minRandValue P.maxRandValue d = some v) ∧
  ∃ og ng, P.oldGeneration = some og ∧ P.newGeneration = some ng ∧ og.length = n ∧
    ng.length = n ∧ ∀ c ∈ og ++ ng, c.subGeneSizes = L ∧ c.wellFormed

/-- A call of one of the two overloads of `setCrossPointRange`. -/
inductive RangeCall where
  /-- the call `setCrossPointRange( min, max )` -/
  | both (min max : ℚ) : RangeCall
  /-- the call `setCrossPointRange( cpIndex, min, max )` -/
  | one (cpIndex : Nat) (min max : ℚ) : RangeCall

/-- A sequence of `setCrossPointRange` calls made one after the other on a population; the
sequence ends at the first call whose assertion fails. -/
def applyRangeCalls {α : Type} : Population α → List RangeCall → Checked (Population α)
  | P, [] => Checked.returned P
  | P, RangeCall.both min max :: rest =>
    match setCrossPointRange P min max with
    | Checked.returned P1 => applyRangeCalls P1 rest
    | Checked.assertFailed => Checked.assertFailed
    | Checked.noResult => Checked.noResult
  | P, RangeCall.one cpIndex min max :: rest =>
    match setCrossPointRangeAt P cpIndex min max with
    | Checked.returned P1 => applyRangeCalls P1 rest
    | Checked.assertFailed => Checked.assertFailed
    | Checked.noResult => Checked.noResult

/-- The crosspoint percentage ranges of a population are valid:
`0 <= minCrossValue[k] <= maxCrossValue[k] <= 100` for `k = 0, 1`. -/
def validRanges {α : Type} (P : Population α) : Prop :=
  ∀ j : Fin 2, 0 ≤ P.minCrossValue j ∧ P.minCrossValue j ≤ P.maxCrossValue j ∧
    P.maxCrossValue j ≤ 100

/-- The value of `tmpFitness` after `m` steps of the walk of `grabChromosome`, as the source
accumulates it: every addition is rounded to `long double`. -/
def walkAccRounded {α : Type} (longDouble : ℚ → ℚ) (generation : List (Chromosome α)) :
    Nat → ℚ
  | 0 => 0
  | m + 1 =>
    longDouble (walkAccRounded longDouble generation m +
      ((generation[(m + 1) % generation.length]?).map (fun c => c.fitness)).getD 0)

/-- Every sub gene holds at least one value: no sub-gene size is 0 or negative. -/
def Chromosome.sizesPositive {α : Type} (c : Chromosome α) : Prop :=
  ∀ s ∈ c.subGeneSizes, (1 : Int) ≤ s

/-! ## Concrete inputs -/

/-- A population configuration as `initialize` leaves it (rates 0.02 and 0.7, crosspoint
ranges `[0,100]`, `cloneParents` enabled), with the generation buffers left out. -/
def defaultPopulation (equalCrossPoints : Bool) : Population Int :=
  { newGeneration := none, oldGeneration := none, initialized := true,
    equalCrossPoints := equalCrossPoints, minRandValue := 0, maxRandValue := 9,
    minSubGeneSize := 2, maxSubGeneSize := 2, mutationRate := 1 / 50,
    crossOverRate := 7 / 10, minCrossValue := fun _ => 0, maxCrossValue := fun _ => 100,
    realRandom := false, srandValue := 0, cloneParents := true }

/-- A population as the constructor `PopulationClass()` leaves it: not initialised, no
generation buffers, crosspoint vectors of two zeros; the members that the constructor does
not set are given the values 0 and `false`. -/
def constructedPopulation : Population Int :=
  { newGeneration := none, oldGeneration := none, initialized := false,
    equalCrossPoints := false, minRandValue := 0, maxRandValue := 0,
    minSubGeneSize := 0, maxSubGeneSize := 0, mutationRate := 0,
    crossOverRate := 0, minCrossValue := fun _ => 0, maxCrossValue := fun _ => 0,
    realRandom := false, srandValue := 0, cloneParents := false }

/-- A chromosome of 59 sub genes of size 1. -/
def chromLong : Chromosome Int :=
  { values := List.replicate 59 0, subGeneSizes := List.replicate 59 1, fitness := 1 }

/-- The default configuration after `setCrossPointRange( 50, 50 )`: both crosspoint ranges
are `[50,50]`. -/
def halfPopulation : Population Int :=
  { defaultPopulation false with minCrossValue := fun _ => 50, maxCrossValue := fun _ => 50 }

/-- The default configuration after `enableCloneParents( false )`. -/
def distinctPopulation : Population Int :=
  { defaultPopulation false with cloneParents := false }

/-- A chromosome of two sub genes of size 2. -/
def chromA : Chromosome Int := { values := [1, 2, 3, 4], subGeneSizes := [2, 2], fitness := 1 }

/-- A second chromosome of two sub genes of size 2. -/
def chromB : Chromosome Int := { values := [5, 6, 7, 8], subGeneSizes := [2, 2], fitness := 1 }

/-- A chromosome whose sub genes have sizes 1 and 3. -/
def chromC : Chromosome Int := { values := [1, 2, 3, 4], subGeneSizes := [1, 3], fitness := 1 }

/-- A stream of `rand()` results: 0, 20000, 1, 1, 0, 0, ... -/
def randA : Nat → Nat := fun k => [0, 20000, 1, 1, 0].getD k 0

/-- A stream of `rand()` results: 20000, 0, 1, 0, 0, ... -/
def randB : Nat → Nat := fun k => [20000, 0, 1].getD k 0

/-- A stream of `rand()` results: 0, 20000, 1, 1, 30000, 0, ... -/
def randC : Nat → Nat := fun k => [0, 20000, 1, 1, 30000].getD k 0

/-- A population whose two buffers hold chromosomes that share the sub-gene list `[2,2]`,
with `equalCrossPoints` set. -/
def sharedPopulation : Population Int :=
  { defaultPopulation true with
    oldGeneration := some [chromA, chromB], newGeneration := some [chromB, chromA] }

/-- A chromosome of two genes, each of two sub genes of size 2. -/
def chromE : Chromosome Int :=
  { values := [1, 2, 3, 4, 5, 6, 7, 8], subGeneSizes := [2, 2, 2, 2], fitness := 1 }

/-- A function that agrees with `atof` on the tokens of the examples: `-1`, `0.5`, `0.1`
(the `double` nearest to one tenth), `nan` (a NaN) and tokens that do not start with a
number, on which `atof` returns 0. -/
def atofSample (s : String) : DoubleValue :=
  if s = "-1" then DoubleValue.finite (-1)
  else if s = "0.5" then DoubleValue.finite (1 / 2)
  else if s = "0.1" then DoubleValue.finite (roundDouble (1 / 10))
  else if s = "nan" then DoubleValue.nan
  else DoubleValue.finite 0

/-- The token stream of a generation file of format version 0.1 with an empty data
section. -/
def sampleFile : List String :=
  ["<header>", "GenSolver-File", "0.1", "</header>", "<data>", "</data>"]

/-- The token stream of a file whose version token is `-1`. -/
def negativeFile : List String :=
  ["<header>", "GenSolver-File", "-1", "</header>", "<data>", "</data>"]

/-- The token stream of a file whose version token is `nan`. -/
def nanFile : List String :=
  ["<header>", "GenSolver-File", "nan", "</header>", "<data>", "</data>"]

/-- The token stream of a file whose version token is `0.5`. -/
def newerFile : List String :=
  ["<header>", "GenSolver-File", "0.5", "</header>", "<data>", "</data>"]

/-- The token stream of a file without the token that ends the header; the file ends in
white space, so the last read yields the empty string. -/
def openFile : List String :=
  ["<header>", "GenSolver-File", "0.1", "<data>", "</data>", ""]

/-- A chromosome of the floating-point type: values `[1, 1]`, one sub gene. -/
def floatChrom : Chromosome ℚ := { values := [1, 1], subGeneSizes := [2], fitness := 0 }

/-- A population whose two generation buffers hold no chromosome, as
`initialize( 0, ... )` leaves them. -/
def emptyPopulation : Population Int :=
  { defaultPopulation true with oldGeneration := some [], newGeneration := some [] }

/-- A chromosome of two sub genes of size 2 with values `[9,9,9,9]` and fitness 7. -/
def chromD : Chromosome Int := { values := [9, 9, 9, 9], subGeneSizes := [2, 2], fitness := 7 }

/-- A population whose two buffers hold three chromosomes each, all with the sub-gene list
`[2,2]`. -/
def oddPopulation : Population Int :=
  { defaultPopulation true with
    oldGeneration := some [chromA, chromB, chromD],
    newGeneration := some [chromB, chromA, chromB] }

/-- An evaluator that gives every chromosome of the current generation the fitness 1, and
calls `foundSolution` when `found` is set. -/
def unitEvaluator {α : Type} (found : Bool) (s : Solver α) (k : Nat) :
    Option (Population α × Bool × Nat) :=
  some ({ s.population with
          newGeneration := s.population.newGeneration.map
            (fun g => g.map (fun c => { c with fitness := 1 })) }, found, k)

/-- An evaluator that works as `unitEvaluator` and calls `foundSolution` when
`getCurrentGeneration()` is not 0 at the time of its call. -/
def indexEvaluator {α : Type} (s : Solver α) (k : Nat) : Option (Population α × Bool × Nat) :=
  unitEvaluator (decide (s.getCurrentGeneration ≠ 0)) s k

/-- An evaluator that works as `unitEvaluator` and calls `foundSolution` when
`getCurrentGeneration()` is `v` at the time of its call. -/
def probeEvaluator {α : Type} (v : Nat) (s : Solver α) (k : Nat) :
    Option (Population α × Bool × Nat) :=
  unitEvaluator (decide (s.getCurrentGeneration = v)) s k

/-- A solver on `sharedPopulation` whose generation index is 5, as a run of six generations
leaves it. -/
def staleSolver : Solver Int :=
  { population := sharedPopulation, _solution := false, _currentGeneration := 5 }

/-- First chromosome of the end-to-end scenario: values `[1,1,1,1]`, fitness 10. -/
def scenarioOnes : Chromosome Int :=
  { values := [1, 1, 1, 1], subGeneSizes := [2, 2], fitness := 10 }

/-- Second chromosome of the end-to-end scenario: values `[0,0,0,0]`, fitness 0. -/
def scenarioZeros : Chromosome Int :=
  { values := [0, 0, 0, 0], subGeneSizes := [2, 2], fitness := 0 }

/-- The population of the end-to-end scenario: `crossOverRate = 1.0`,
`equalCrossPoints = true`, crosspoint range `[50,50]` for both indices. -/
def scenarioPopulation (cloneParents : Bool) : Population Int :=
  { newGeneration := none, oldGeneration := none, initialized := true,
    equalCrossPoints := true, minRandValue := 0, maxRandValue := 1,
    minSubGeneSize := 2, maxSubGeneSize := 2, mutationRate := 1 / 50,
    crossOverRate := 1, minCrossValue := fun _ => 50, maxCrossValue := fun _ => 50,
    realRandom := false, srandValue := 0, cloneParents := cloneParents }

/-- A chromosome of four sub genes of size 1. -/
def chromOnes : Chromosome Int :=
  { values := [1, 2, 3, 4], subGeneSizes := [1, 1, 1, 1], fitness := 1 }

/-- A chromosome of one sub gene of size 4. -/
def chromWhole : Chromosome Int :=
  { values := [5, 6, 7, 8], subGeneSizes := [4], fitness := 1 }

/-- A chromosome of one value whose last three sub genes are empty. -/
def chromSparse : Chromosome Int :=
  { values := [7], subGeneSizes := [1, 0, 0, 0], fitness := 1 }

/-- A chromosome of one value in one sub gene. -/
def chromSingle : Chromosome Int :=
  { values := [8], subGeneSizes := [1], fitness := 1 }

/-- A stream of `rand()` results: 20000, 0, 3, 0, 0, ... -/
def randV : Nat → Nat := fun k => [20000, 0, 3].getD k 0

/-- A content of the memory behind the `subGeneSizes` vectors: every read at index 1 outside
a vector yields 5, every other one 0. -/
def strayV : Nat → Nat → Int := fun _ i => if i = 1 then 5 else 0

/-! ## Auxiliary lemmas: loops, machine arithmetic, crosspoints -/

theorem pushRange_eq {β : Type} (src : List β) (cnt i : Nat) (acc : List β) :
    pushRange src cnt i acc =
      if cnt = 0 ∨ i + cnt ≤ src.length then some (acc ++ (src.drop i).take cnt) else none := by
  induction cnt generalizing i acc with
  | zero => simp [pushRange]
  | succ n ih =>
    unfold pushRange
    by_cases hi : i < src.length
    · rw [List.getElem?_eq_getElem hi]
      simp only [ih]
      have hd : (src.drop i).take (n + 1) = src[i] :: (src.drop (i + 1)).take n := by
        rw [List.drop_eq_getElem_cons hi, List.take_succ_cons]
      by_cases hc : n = 0 ∨ i + 1 + n ≤ src.length
      · have h2 : i + (n + 1) ≤ src.length := by omega
        rw [if_pos hc, if_pos (Or.inr h2), hd]
        simp
      · have h2 : ¬ (n + 1 = 0 ∨ i + (n + 1) ≤ src.length) := by omega
        rw [if_neg hc, if_neg h2]
    · have hn : src[i]? = none := List.getElem?_eq_none (by omega)
      have h2 : ¬ (n + 1 = 0 ∨ i + (n + 1) ≤ src.length) := by omega
      rw [hn, if_neg h2]

theorem pushRange_head {β : Type} (src : List β) (cnt : Nat) :
    pushRange src cnt 0 [] = if cnt ≤ src.length then some (src.take cnt) else none := by
  rw [pushRange_eq]
  by_cases h : cnt ≤ src.length
  · simp [h]
  · have h0 : ¬ (cnt = 0 ∨ 0 + cnt ≤ src.length) := by omega
    rw [if_neg h, if_neg h0]

theorem pushRange_tail {β : Type} (src : List β) (i : Nat) (acc : List β) :
    pushRange src (src.length - i) i acc = some (acc ++ src.drop i) := by
  rw [pushRange_eq]
  have h0 : src.length - i = 0 ∨ i + (src.length - i) ≤ src.length := by omega
  rw [if_pos h0]
  congr 2
  apply List.take_of_length_le
  simp

theorem recombine_eq {α : Type} (p1 p2 : Chromosome α) (cp1 r1 cp2 r2 : Nat) :
    recombine p1 p2 cp1 r1 cp2 r2 =
      if r1 ≤ p1.values.length ∧ r2 ≤ p2.values.length ∧
          cp1 ≤ p1.subGeneSizes.length ∧ cp2 ≤ p2.subGeneSizes.length then
        some ({ values := p1.values.take r1 ++ p2.values.drop r2,
                subGeneSizes := p1.subGeneSizes.take cp1 ++ p2.subGeneSizes.drop cp2,
                fitness := 0 },
              { values := p2.values.take r2 ++ p1.values.drop r1,
                subGeneSizes := p2.subGeneSizes.take cp2 ++ p1.subGeneSizes.drop cp1,
                fitness := 0 })
      else none := by
  unfold recombine
  simp only [pushRange_head, pushRange_tail]
  by_cases h1 : r1 ≤ p1.values.length <;> by_cases h2 : r2 ≤ p2.values.length <;>
    by_cases h3 : cp1 ≤ p1.subGeneSizes.length <;>
    by_cases h4 : cp2 ≤ p2.subGeneSizes.length <;> simp [h1, h2, h3, h4]

theorem chkInt_eq_some {z w : Int} : chkInt z = some w ↔ (INT_MIN ≤ z ∧ z ≤ INT_MAX) ∧ w = z := by
  unfold chkInt
  by_cases h : INT_MIN ≤ z ∧ z ≤ INT_MAX
  · rw [if_pos h]; simp [h, eq_comm]
  · rw [if_neg h]; simp [h]

theorem chkInt_of_range {z : Int} (h1 : INT_MIN ≤ z) (h2 : z ≤ INT_MAX) : chkInt z = some z := by
  unfold chkInt; rw [if_pos ⟨h1, h2⟩]

theorem randInt_eq_some {r : Nat} {x y c : Int} (h : randInt r x y = some c) (hxy : x ≤ y) :
    c = (r : Int) % (y - x + 1) + x ∧ x ≤ c ∧ c ≤ y := by
  unfold randInt at h
  cases hd : chkInt (y - x) with
  | none => simp [hd] at h
  | some d =>
    rw [hd] at h
    obtain ⟨_, rfl⟩ := chkInt_eq_some.mp hd
    cases hm : chkInt (y - x + 1) with
    | none => simp [hm] at h
    | some m =>
      simp only [hm] at h
      obtain ⟨_, rfl⟩ := chkInt_eq_some.mp hm
      have hpos : 0 < y - x + 1 := by omega
      rw [if_neg (by omega)] at h
      obtain ⟨_, rfl⟩ := chkInt_eq_some.mp h
      have he : Int.tmod (r : Int) (y - x + 1) = (r : Int) % (y - x + 1) :=
        Int.tmod_eq_emod (Int.ofNat_nonneg r) (by omega)
      rw [he]
      have h1 := Int.emod_nonneg (r : Int) (ne_of_gt hpos)
      have h2 := Int.emod_lt_of_pos (r : Int) hpos
      refine ⟨rfl, by omega, by omega⟩

theorem randInt_total (r : Nat) {x y : Int} (hx : 0 ≤ x) (hxy : x ≤ y) (hy : y < INT_MAX) :
    ∃ c, randInt r x y = some c := by
  have hI : INT_MAX = 2147483647 := rfl
  have hJ : INT_MIN = -2147483648 := rfl
  have hpos : 0 < y - x + 1 := by omega
  have he : Int.tmod (r : Int) (y - x + 1) = (r : Int) % (y - x + 1) :=
    Int.tmod_eq_emod (Int.ofNat_nonneg r) (by omega)
  have h1 := Int.emod_nonneg (r : Int) (ne_of_gt hpos)
  have h2 := Int.emod_lt_of_pos (r : Int) hpos
  unfold randInt
  rw [chkInt_of_range (by omega) (by omega)]
  simp only
  rw [chkInt_of_range (by omega) (by omega)]
  simp only
  rw [if_neg (by omega), he, chkInt_of_range (by omega) (by omega)]
  exact ⟨_, rfl⟩


theorem sumLoop_eq (sizes : List Int) (cnt i acc : Nat) :
    sumLoop sizes cnt i acc =
      if cnt = 0 ∨ i + cnt ≤ sizes.length then
        some (if cnt = 0 then acc else
          Int.toNat (((acc : Int) + ((sizes.drop i).take cnt).sum) % (UINT_MOD : Int)))
      else none := by
  induction cnt generalizing i acc with
  | zero => simp [sumLoop]
  | succ n ih =>
    unfold sumLoop
    by_cases hi : i < sizes.length
    · rw [List.getElem?_eq_getElem hi]
      simp only [ih]
      have hd : (sizes.drop i).take (n + 1) = sizes[i] :: (sizes.drop (i + 1)).take n := by
        rw [List.drop_eq_getElem_cons hi, List.take_succ_cons]
      have hM : (0 : Int) < (UINT_MOD : Int) := by decide
      by_cases hc : n = 0 ∨ i + 1 + n ≤ sizes.length
      · have h2 : i + (n + 1) ≤ sizes.length := by omega
        rw [if_pos hc, if_pos (Or.inr h2), hd]
        simp only [Nat.succ_ne_zero, if_false, List.sum_cons, Nat.add_eq_zero, one_ne_zero,
          and_false]
        by_cases h0 : n = 0
        · subst h0; simp
        · rw [if_neg h0]
          rw [Int.toNat_of_nonneg (Int.emod_nonneg _ (ne_of_gt hM)), Int.emod_add_emod,
            add_assoc]
      · have h2 : ¬ (n + 1 = 0 ∨ i + (n + 1) ≤ sizes.length) := by omega
        rw [if_neg hc, if_neg h2]
    · have hn : sizes[i]? = none := List.getElem?_eq_none (by omega)
      have h2 : ¬ (n + 1 = 0 ∨ i + (n + 1) ≤ sizes.length) := by omega
      rw [hn, if_neg h2]

theorem sumLoop_head (sizes : List Int) (cnt : Nat) :
    sumLoop sizes cnt 0 0 =
      if cnt ≤ sizes.length then some (Int.toNat ((sizes.take cnt).sum % (UINT_MOD : Int)))
      else none := by
  rw [sumLoop_eq]
  by_cases h : cnt ≤ sizes.length
  · rw [if_pos h, if_pos (by omega)]
    by_cases h0 : cnt = 0
    · subst h0; simp
    · rw [if_neg h0]; simp
  · rw [if_neg h, if_neg (by omega)]


/-! ## Rounding to `double` -/

theorem roundHalfEven_intCast (m : Int) : roundHalfEven (m : ℚ) = m := by
  unfold roundHalfEven
  simp

theorem roundHalfEven_floor_le (q : ℚ) : ⌊q⌋ ≤ roundHalfEven q := by
  unfold roundHalfEven
  split_ifs <;> omega

theorem roundHalfEven_le_floor (q : ℚ) : roundHalfEven q ≤ ⌊q⌋ + 1 := by
  unfold roundHalfEven
  split_ifs <;> omega

theorem roundHalfEven_mono {p q : ℚ} (h : p ≤ q) : roundHalfEven p ≤ roundHalfEven q := by
  have hf : ⌊p⌋ ≤ ⌊q⌋ := Int.floor_le_floor h
  rcases lt_or_eq_of_le hf with hlt | heq
  · have := roundHalfEven_le_floor p
    have := roundHalfEven_floor_le q
    omega
  · have hr : p - ⌊p⌋ ≤ q - ⌊q⌋ := by rw [heq]; linarith
    unfold roundHalfEven
    rw [heq]
    split_ifs <;> first | omega | linarith

theorem roundHalfEven_sub_le (q : ℚ) : (roundHalfEven q : ℚ) - q ≤ 1 / 2 := by
  have h1 := Int.floor_le q
  have h2 := Int.lt_floor_add_one q
  unfold roundHalfEven
  split_ifs with ha hb hc
  · linarith
  · push_cast; linarith
  · linarith
  · push_cast; linarith

theorem sub_roundHalfEven_le (q : ℚ) : q - (roundHalfEven q : ℚ) ≤ 1 / 2 := by
  have h1 := Int.floor_le q
  have h2 := Int.lt_floor_add_one q
  unfold roundHalfEven
  split_ifs with ha hb hc
  · linarith
  · push_cast; linarith
  · linarith
  · push_cast; linarith

theorem roundHalfEven_eq {q : ℚ} {m : Int} (h1 : (m : ℚ) - q < 1 / 2) (h2 : q - (m : ℚ) < 1 / 2) :
    roundHalfEven q = m := by
  have ha := sub_roundHalfEven_le q
  have hb := roundHalfEven_sub_le q
  have h3 : ((roundHalfEven q : Int) : ℚ) - m < 1 := by linarith
  have h4 : (m : ℚ) - ((roundHalfEven q : Int) : ℚ) < 1 := by linarith
  have h5 : roundHalfEven q - m < 1 := by exact_mod_cast h3
  have h6 : m - roundHalfEven q < 1 := by exact_mod_cast h4
  omega


theorem grid_pos (g : Int) : (0 : ℚ) < 2 ^ g := by positivity

theorem roundDouble_zero : roundDouble 0 = 0 := by
  unfold roundDouble
  rw [zero_div]
  have h := roundHalfEven_intCast 0
  simp only [Int.cast_zero] at h
  rw [h]
  simp

theorem roundDouble_nonneg {x : ℚ} (hx : 0 ≤ x) : 0 ≤ roundDouble x := by
  unfold roundDouble
  have hq : (0 : ℚ) ≤ x / 2 ^ doubleGrid x := div_nonneg hx (le_of_lt (grid_pos _))
  have h1 : (0 : Int) ≤ ⌊x / 2 ^ doubleGrid x⌋ := Int.floor_nonneg.mpr hq
  have h2 := roundHalfEven_floor_le (x / 2 ^ doubleGrid x)
  have h3 : (0 : ℚ) ≤ (roundHalfEven (x / 2 ^ doubleGrid x) : ℚ) := by exact_mod_cast (le_trans h1 h2)
  exact mul_nonneg h3 (le_of_lt (grid_pos _))

/-- A value on the grid of `x` that is at least `x` bounds the rounded `x`. -/
theorem roundDouble_le_of_grid {x y : ℚ} (m : Int) (hxy : x ≤ y)
    (hy : y = (m : ℚ) * 2 ^ doubleGrid x) : roundDouble x ≤ y := by
  unfold roundDouble
  have hg := grid_pos (doubleGrid x)
  have hq : x / 2 ^ doubleGrid x ≤ (m : ℚ) := by
    rw [div_le_iff₀ hg, ← hy]; exact hxy
  have h1 := roundHalfEven_mono hq
  rw [roundHalfEven_intCast] at h1
  have h2 : (roundHalfEven (x / 2 ^ doubleGrid x) : ℚ) ≤ (m : ℚ) := by exact_mod_cast h1
  rw [hy]
  exact mul_le_mul_of_nonneg_right h2 (le_of_lt hg)

theorem le_roundDouble_of_grid {x y : ℚ} (m : Int) (hxy : y ≤ x)
    (hy : y = (m : ℚ) * 2 ^ doubleGrid x) : y ≤ roundDouble x := by
  unfold roundDouble
  have hg := grid_pos (doubleGrid x)
  have hq : (m : ℚ) ≤ x / 2 ^ doubleGrid x := by
    rw [le_div_iff₀ hg, ← hy]; exact hxy
  have h1 := roundHalfEven_mono hq
  rw [roundHalfEven_intCast] at h1
  have h2 : (m : ℚ) ≤ (roundHalfEven (x / 2 ^ doubleGrid x) : ℚ) := by exact_mod_cast h1
  rw [hy]
  exact mul_le_mul_of_nonneg_right h2 (le_of_lt hg)

theorem roundDouble_sub_le (x : ℚ) : roundDouble x - x ≤ 2 ^ doubleGrid x / 2 := by
  unfold roundDouble
  have hg := grid_pos (doubleGrid x)
  have h := roundHalfEven_sub_le (x / 2 ^ doubleGrid x)
  have hx : x = x / 2 ^ doubleGrid x * 2 ^ doubleGrid x := by field_simp
  nlinarith [mul_le_mul_of_nonneg_right h (le_of_lt hg)]

theorem sub_roundDouble_le (x : ℚ) : x - roundDouble x ≤ 2 ^ doubleGrid x / 2 := by
  unfold roundDouble
  have hg := grid_pos (doubleGrid x)
  have h := sub_roundHalfEven_le (x / 2 ^ doubleGrid x)
  have hx : x = x / 2 ^ doubleGrid x * 2 ^ doubleGrid x := by field_simp
  nlinarith [mul_le_mul_of_nonneg_right h (le_of_lt hg)]

/-- A power of two with a non-negative exponent is an integer. -/
theorem zpow_two_intCast {k : Int} (hk : 0 ≤ k) : ((2 : ℚ) ^ k) = (((2 : Int) ^ k.toNat : Int) : ℚ) := by
  obtain ⟨n, rfl⟩ := Int.eq_ofNat_of_zero_le hk
  simp

theorem log_two_le {x : ℚ} (hx : 0 < x) : (2 : ℚ) ^ Int.log 2 x ≤ x := by
  have := @Int.zpow_log_le_self ℚ _ _ 2 x (by norm_num) hx
  simpa using this

theorem lt_log_two_succ (x : ℚ) : x < (2 : ℚ) ^ (Int.log 2 x + 1) := by
  have := @Int.lt_zpow_succ_log_self ℚ _ _ 2 (by norm_num) x
  simpa using this

theorem log_two_eq {x : ℚ} {e : Int} (h1 : (2 : ℚ) ^ e ≤ x) (h2 : x < (2 : ℚ) ^ (e + 1)) :
    Int.log 2 x = e := by
  have hx : 0 < x := lt_of_lt_of_le (grid_pos e) h1
  have ha : e ≤ Int.log 2 x := by
    rw [← Int.zpow_le_iff_le_log (by norm_num) hx]
    simpa using h1
  have hb : Int.log 2 x < e + 1 := by
    rw [← Int.lt_zpow_iff_log_lt (by norm_num) hx]
    simpa using h2
  omega


theorem doubleGrid_of_pos {x : ℚ} (hx : 0 < x) :
    doubleGrid x = max (Int.log 2 x) (-1022) - 52 := by
  unfold doubleGrid
  rw [abs_of_pos hx]

theorem zpow_two_split (a g : Int) (h : g ≤ a) :
    (2 : ℚ) ^ a = (((2 : Int) ^ (a - g).toNat : Int) : ℚ) * 2 ^ g := by
  rw [← zpow_two_intCast (by omega), ← zpow_add₀ (by norm_num)]
  congr 1
  omega

/-- A value on its own grid is a `double`. -/
theorem roundDouble_of_grid {x : ℚ} (m : Int) (h : x = (m : ℚ) * 2 ^ doubleGrid x) :
    roundDouble x = x :=
  le_antisymm (roundDouble_le_of_grid m le_rfl h) (le_roundDouble_of_grid m le_rfl h)

/-- Rounding to `double` is monotone on the non-negative values. -/
theorem roundDouble_mono {x y : ℚ} (hx : 0 ≤ x) (hxy : x ≤ y) :
    roundDouble x ≤ roundDouble y := by
  rcases eq_or_lt_of_le hx with h0 | hpos
  · rw [← h0, roundDouble_zero]
    exact roundDouble_nonneg (le_trans hx hxy)
  · have hypos : 0 < y := lt_of_lt_of_le hpos hxy
    have hlog : Int.log 2 x ≤ Int.log 2 y := Int.log_mono_right hpos hxy
    have hgx := doubleGrid_of_pos hpos
    have hgy := doubleGrid_of_pos hypos
    rcases eq_or_lt_of_le (show doubleGrid x ≤ doubleGrid y by rw [hgx, hgy]; omega) with he | hlt
    · unfold roundDouble
      rw [← he]
      have hg := grid_pos (doubleGrid x)
      have hq : x / 2 ^ doubleGrid x ≤ y / 2 ^ doubleGrid x :=
        div_le_div_of_nonneg_right hxy (le_of_lt hg)
      have h1 := roundHalfEven_mono hq
      have h2 : (roundHalfEven (x / 2 ^ doubleGrid x) : ℚ) ≤
          (roundHalfEven (y / 2 ^ doubleGrid x) : ℚ) := by exact_mod_cast h1
      exact mul_le_mul_of_nonneg_right h2 (le_of_lt hg)
    · have hey : doubleGrid y = Int.log 2 y - 52 := by rw [hgy]; omega
      have hex : Int.log 2 x + 1 ≤ Int.log 2 y := by omega
      have hxB : x ≤ (2 : ℚ) ^ Int.log 2 y :=
        le_trans (le_of_lt (lt_log_two_succ x)) (zpow_le_zpow_right₀ (by norm_num) hex)
      have hBy : (2 : ℚ) ^ Int.log 2 y ≤ y := log_two_le hypos
      have h1 := roundDouble_le_of_grid _ hxB
        (zpow_two_split (Int.log 2 y) (doubleGrid x) (by omega))
      have h2 := le_roundDouble_of_grid _ hBy
        (zpow_two_split (Int.log 2 y) (doubleGrid y) (by omega))
      exact le_trans h1 h2

/-- The relative error of rounding a normal positive value is at most `2^-53`. -/
theorem roundDouble_le_rel {x : ℚ} (hx : (2 : ℚ) ^ (-1022 : Int) ≤ x) :
    roundDouble x ≤ x * (1 + 2 ^ (-53 : Int)) := by
  have hpos : 0 < x := lt_of_lt_of_le (grid_pos _) hx
  have hlog : (-1022 : Int) ≤ Int.log 2 x := (Int.zpow_le_iff_le_log (by norm_num) hpos).mp
    (by simpa using hx)
  have hg : doubleGrid x = Int.log 2 x + (-52) := by rw [doubleGrid_of_pos hpos]; omega
  have h1 := roundDouble_sub_le x
  have h2 := log_two_le hpos
  rw [hg, zpow_add₀ (by norm_num)] at h1
  have h3 : (2 : ℚ) ^ Int.log 2 x * 2 ^ (-52 : Int) / 2 ≤ x * 2 ^ (-53 : Int) := by
    have e : (2 : ℚ) ^ (-52 : Int) / 2 = 2 ^ (-53 : Int) := by norm_num
    rw [mul_div_assoc, e]
    exact mul_le_mul_of_nonneg_right h2 (by positivity)
  have h4 := le_trans h1 h3
  generalize (2 : ℚ) ^ (-53 : Int) = c at h4 ⊢
  have e2 : x * (1 + c) = x + x * c := by ring
  rw [e2]
  linarith

theorem le_roundDouble_rel {x : ℚ} (hx : (2 : ℚ) ^ (-1022 : Int) ≤ x) :
    x * (1 - 2 ^ (-53 : Int)) ≤ roundDouble x := by
  have hpos : 0 < x := lt_of_lt_of_le (grid_pos _) hx
  have hlog : (-1022 : Int) ≤ Int.log 2 x := (Int.zpow_le_iff_le_log (by norm_num) hpos).mp
    (by simpa using hx)
  have hg : doubleGrid x = Int.log 2 x + (-52) := by rw [doubleGrid_of_pos hpos]; omega
  have h1 := sub_roundDouble_le x
  have h2 := log_two_le hpos
  rw [hg, zpow_add₀ (by norm_num)] at h1
  have h3 : (2 : ℚ) ^ Int.log 2 x * 2 ^ (-52 : Int) / 2 ≤ x * 2 ^ (-53 : Int) := by
    have e : (2 : ℚ) ^ (-52 : Int) / 2 = 2 ^ (-53 : Int) := by norm_num
    rw [mul_div_assoc, e]
    exact mul_le_mul_of_nonneg_right h2 (by positivity)
  have h4 := le_trans h1 h3
  generalize (2 : ℚ) ^ (-53 : Int) = c at h4 ⊢
  have e2 : x * (1 - c) = x - x * c := by ring
  rw [e2]
  linarith


/-- The value of `roundDouble` on a normal positive `x` in the binade of exponent `e`,
given the integer `m` nearest to `x / 2^(e-52)`. -/
theorem roundDouble_eq {x : ℚ} (e m : Int) (h1 : (2 : ℚ) ^ e ≤ x) (h2 : x < (2 : ℚ) ^ (e + 1))
    (he : -1022 ≤ e) (hm1 : (m : ℚ) - x / 2 ^ (e - 52) < 1 / 2)
    (hm2 : x / 2 ^ (e - 52) - (m : ℚ) < 1 / 2) :
    roundDouble x = (m : ℚ) * 2 ^ (e - 52) := by
  have hpos : 0 < x := lt_of_lt_of_le (grid_pos _) h1
  have hg : doubleGrid x = e - 52 := by
    rw [doubleGrid_of_pos hpos, log_two_eq h1 h2]
    omega
  unfold roundDouble
  rw [hg, roundHalfEven_eq hm1 hm2]

theorem doubleGrid_le {x : ℚ} {j : Int} (hx : 0 < x) (h : x < (2 : ℚ) ^ (j + 53))
    (hj : -1074 ≤ j) : doubleGrid x ≤ j := by
  have hlog : Int.log 2 x < j + 53 := (Int.lt_zpow_iff_log_lt (by norm_num) hx).mp
    (by simpa using h)
  rw [doubleGrid_of_pos hx]
  omega

/-- Dyadic values with a significand of at most 53 bits are `double` values. -/
theorem roundDouble_dyadic (k j : Int) (hk : 0 < k) (h : (k : ℚ) * 2 ^ j < (2 : ℚ) ^ (j + 53))
    (hj : -1074 ≤ j) : roundDouble ((k : ℚ) * 2 ^ j) = (k : ℚ) * 2 ^ j := by
  have hpos : (0 : ℚ) < (k : ℚ) * 2 ^ j := mul_pos (by exact_mod_cast hk) (grid_pos j)
  have hg := doubleGrid_le hpos h hj
  apply roundDouble_of_grid (k * (2 : Int) ^ (j - doubleGrid ((k : ℚ) * 2 ^ j)).toNat)
  rw [Int.cast_mul, mul_assoc, ← zpow_two_split j _ hg]

theorem roundDouble_natCast (N : Nat) (h : N < 2 ^ 53) : roundDouble (N : ℚ) = (N : ℚ) := by
  rcases Nat.eq_zero_or_pos N with h0 | hpos
  · rw [h0, Nat.cast_zero, roundDouble_zero]
  · have hq : ((N : Int) : ℚ) * 2 ^ (0 : Int) < (2 : ℚ) ^ ((0 : Int) + 53) := by
      have h1 : (N : ℚ) < 2 ^ 53 := by exact_mod_cast h
      have h2 : (2 : ℚ) ^ ((0 : Int) + 53) = 2 ^ 53 := by norm_num
      rw [h2, zpow_zero, mul_one]
      exact_mod_cast h1
    have := roundDouble_dyadic (N : Int) 0 (by exact_mod_cast hpos) hq (by norm_num)
    simpa using this

theorem roundDouble_half (N : Nat) (h : N < 2 ^ 52) :
    roundDouble ((N : ℚ) + 1 / 2) = (N : ℚ) + 1 / 2 := by
  have e : (N : ℚ) + 1 / 2 = ((2 * (N : Int) + 1 : Int) : ℚ) * 2 ^ (-1 : Int) := by
    push_cast
    rw [zpow_neg_one]
    ring
  have hq : ((2 * (N : Int) + 1 : Int) : ℚ) * 2 ^ (-1 : Int) < (2 : ℚ) ^ ((-1 : Int) + 53) := by
    rw [← e]
    have h1 : (N : ℚ) + 1 ≤ 2 ^ 52 := by exact_mod_cast h
    have h2 : (2 : ℚ) ^ ((-1 : Int) + 53) = 2 ^ 52 := by norm_num
    rw [h2]
    linarith
  rw [e]
  exact roundDouble_dyadic _ (-1) (by omega) hq (by norm_num)

/-! ## The crosspoint bounds -/

theorem crossScale_nonneg (n : Nat) : 0 ≤ roundDouble (roundDouble (sizeMinusOne n : ℚ) / 100) :=
  roundDouble_nonneg (div_nonneg (roundDouble_nonneg (Nat.cast_nonneg _)) (by norm_num))

theorem crossBound_nonneg {n : Nat} {v : ℚ} (hv : 0 ≤ v) : 0 ≤ crossBound n v :=
  roundDouble_nonneg (mul_nonneg (crossScale_nonneg n) hv)

theorem crossBound_mono {n : Nat} {v w : ℚ} (h0 : 0 ≤ v) (h : v ≤ w) :
    crossBound n v ≤ crossBound n w :=
  roundDouble_mono (mul_nonneg (crossScale_nonneg n) h0)
    (mul_le_mul_of_nonneg_left h (crossScale_nonneg n))

/-- The scale factor `1. * ( n - 1 ) / 100` as computed, against its exact value. -/
theorem crossScale_bounds {n : Nat} (hn : 1 ≤ n) (hn2 : n ≤ 2 ^ 52) :
    ((n - 1 : Nat) : ℚ) / 100 * (1 - 2 ^ (-53 : Int)) ≤
        roundDouble (roundDouble (sizeMinusOne n : ℚ) / 100) ∧
      roundDouble (roundDouble (sizeMinusOne n : ℚ) / 100) ≤
        ((n - 1 : Nat) : ℚ) / 100 * (1 + 2 ^ (-53 : Int)) := by
  have hs : sizeMinusOne n = n - 1 := by unfold sizeMinusOne; rw [if_neg (by omega)]
  have hN : n - 1 < 2 ^ 53 := by omega
  rw [hs, roundDouble_natCast (n - 1) hN]
  rcases Nat.eq_zero_or_pos (n - 1) with h0 | hpos
  · rw [h0]
    simp [roundDouble_zero]
  · have h1 : (1 : ℚ) ≤ ((n - 1 : Nat) : ℚ) := by exact_mod_cast hpos
    have hnorm : (2 : ℚ) ^ (-1022 : Int) ≤ ((n - 1 : Nat) : ℚ) / 100 := by
      have ha : (2 : ℚ) ^ (-1022 : Int) ≤ 2 ^ (-7 : Int) :=
        zpow_le_zpow_right₀ (by norm_num) (by norm_num)
      have hb : (2 : ℚ) ^ (-7 : Int) ≤ 1 / 100 := by norm_num
      have hc : (1 : ℚ) / 100 ≤ ((n - 1 : Nat) : ℚ) / 100 := by linarith
      linarith
    exact ⟨le_roundDouble_rel hnorm, roundDouble_le_rel hnorm⟩

/-- The computed bound stays below `n - 1/2`, so its truncation is at most `n - 1`. -/
theorem crossBound_le {n : Nat} (hn : 1 ≤ n) (hn2 : n ≤ 2 ^ 52) {v : ℚ} (h0 : 0 ≤ v)
    (hv : v ≤ 100) : crossBound n v ≤ ((n - 1 : Nat) : ℚ) + 1 / 2 := by
  have hS := (crossScale_bounds hn hn2).2
  have hS0 := crossScale_nonneg n
  have hN : ((n - 1 : Nat) : ℚ) + 1 ≤ 2 ^ 52 := by
    have : n - 1 + 1 ≤ 2 ^ 52 := by omega
    exact_mod_cast this
  have hN0 : (0 : ℚ) ≤ ((n - 1 : Nat) : ℚ) := Nat.cast_nonneg _
  have hu : (2 : ℚ) ^ (-53 : Int) = 1 / 2 ^ 53 := by norm_num
  rw [hu] at hS
  have hprod : roundDouble (roundDouble (sizeMinusOne n : ℚ) / 100) * v ≤
      ((n - 1 : Nat) : ℚ) + 1 / 2 := by
    calc roundDouble (roundDouble (sizeMinusOne n : ℚ) / 100) * v
        ≤ roundDouble (roundDouble (sizeMinusOne n : ℚ) / 100) * 100 :=
          mul_le_mul_of_nonneg_left hv hS0
      _ ≤ ((n - 1 : Nat) : ℚ) / 100 * (1 + 1 / 2 ^ 53) * 100 :=
          mul_le_mul_of_nonneg_right hS (by norm_num)
      _ ≤ ((n - 1 : Nat) : ℚ) + 1 / 2 := by
          have : ((n - 1 : Nat) : ℚ) / 100 * (1 + 1 / 2 ^ 53) * 100 =
              ((n - 1 : Nat) : ℚ) + ((n - 1 : Nat) : ℚ) / 2 ^ 53 := by ring
          rw [this]
          have : ((n - 1 : Nat) : ℚ) / 2 ^ 53 ≤ 1 / 2 := by
            rw [div_le_iff₀ (by positivity)]
            norm_num
            linarith
          linarith
  have h := roundDouble_mono (mul_nonneg hS0 h0) hprod
  rw [roundDouble_half (n - 1) (by omega)] at h
  exact h

theorem crossBound_floor_le {n : Nat} (hn : 1 ≤ n) (hn2 : n ≤ 2 ^ 52) {v : ℚ} (h0 : 0 ≤ v)
    (hv : v ≤ 100) : ⌊crossBound n v⌋ ≤ ((n - 1 : Nat) : Int) := by
  have h := crossBound_le hn hn2 h0 hv
  have h2 : ⌊crossBound n v⌋ < ((n - 1 : Nat) : Int) + 1 := by
    rw [Int.floor_lt]
    push_cast
    linarith
  omega


theorem roundDouble_abs_le {x : ℚ} {j : Int} (hx : 0 ≤ x) (h : x < (2 : ℚ) ^ (j + 53))
    (hj : -1074 ≤ j) :
    roundDouble x - x ≤ 2 ^ j / 2 ∧ x - roundDouble x ≤ 2 ^ j / 2 := by
  rcases eq_or_lt_of_le hx with h0 | hpos
  · rw [← h0, roundDouble_zero]
    have := grid_pos j
    constructor <;> linarith
  · have hg : (2 : ℚ) ^ doubleGrid x ≤ 2 ^ j :=
      zpow_le_zpow_right₀ (by norm_num) (doubleGrid_le hpos h hj)
    have h1 := roundDouble_sub_le x
    have h2 := sub_roundDouble_le x
    constructor <;> linarith

/-- The computed bound differs from the exact value `(n - 1) * v / 100` by at most
`2^-21`, for at most `2^31` sub genes. -/
theorem crossBound_close {n : Nat} (hn : 1 ≤ n) (hn2 : n ≤ 2 ^ 31) {v : ℚ} (h0 : 0 ≤ v)
    (hv : v ≤ 100) :
    crossBound n v - ((n : ℚ) - 1) * v / 100 ≤ 1 / 2 ^ 21 ∧
      ((n : ℚ) - 1) * v / 100 - crossBound n v ≤ 1 / 2 ^ 21 := by
  have hn3 : n ≤ 2 ^ 52 := le_trans hn2 (by norm_num)
  obtain ⟨hSl, hSu⟩ := crossScale_bounds hn hn3
  have hS0 := crossScale_nonneg n
  have hu : (2 : ℚ) ^ (-53 : Int) = 1 / 2 ^ 53 := by norm_num
  rw [hu] at hSl hSu
  have hcast : ((n - 1 : Nat) : ℚ) = (n : ℚ) - 1 := by
    push_cast [Nat.cast_sub hn]
    ring
  rw [hcast] at hSl hSu
  have hN : (n : ℚ) - 1 ≤ 2 ^ 31 - 1 := by
    have : (n : ℚ) ≤ 2 ^ 31 := by exact_mod_cast hn2
    linarith
  have hN0 : (0 : ℚ) ≤ (n : ℚ) - 1 := by
    have : (1 : ℚ) ≤ (n : ℚ) := by exact_mod_cast hn
    linarith
  unfold crossBound
  generalize roundDouble (roundDouble (sizeMinusOne n : ℚ) / 100) = S at hSl hSu hS0 ⊢
  have hP0 : 0 ≤ S * v := mul_nonneg hS0 h0
  have hPu : S * v ≤ ((n : ℚ) - 1) * v / 100 + ((n : ℚ) - 1) / 2 ^ 53 := by
    have h1 : S * v ≤ ((n : ℚ) - 1) / 100 * (1 + 1 / 2 ^ 53) * v :=
      mul_le_mul_of_nonneg_right hSu h0
    have h2 : ((n : ℚ) - 1) / 100 * (1 / 2 ^ 53) * v ≤
        ((n : ℚ) - 1) / 100 * (1 / 2 ^ 53) * 100 :=
      mul_le_mul_of_nonneg_left hv (by positivity)
    have h3 : ((n : ℚ) - 1) / 100 * (1 + 1 / 2 ^ 53) * v =
        ((n : ℚ) - 1) * v / 100 + ((n : ℚ) - 1) / 100 * (1 / 2 ^ 53) * v := by ring
    have h4 : ((n : ℚ) - 1) / 100 * (1 / 2 ^ 53) * 100 = ((n : ℚ) - 1) / 2 ^ 53 := by ring
    linarith
  have hPl : ((n : ℚ) - 1) * v / 100 - ((n : ℚ) - 1) / 2 ^ 53 ≤ S * v := by
    have h1 : ((n : ℚ) - 1) / 100 * (1 - 1 / 2 ^ 53) * v ≤ S * v :=
      mul_le_mul_of_nonneg_right hSl h0
    have h2 : ((n : ℚ) - 1) / 100 * (1 / 2 ^ 53) * v ≤
        ((n : ℚ) - 1) / 100 * (1 / 2 ^ 53) * 100 :=
      mul_le_mul_of_nonneg_left hv (by positivity)
    have h3 : ((n : ℚ) - 1) / 100 * (1 - 1 / 2 ^ 53) * v =
        ((n : ℚ) - 1) * v / 100 - ((n : ℚ) - 1) / 100 * (1 / 2 ^ 53) * v := by ring
    have h4 : ((n : ℚ) - 1) / 100 * (1 / 2 ^ 53) * 100 = ((n : ℚ) - 1) / 2 ^ 53 := by ring
    linarith
  have hE : ((n : ℚ) - 1) * v / 100 ≤ (n : ℚ) - 1 := by
    have : ((n : ℚ) - 1) * v ≤ ((n : ℚ) - 1) * 100 := mul_le_mul_of_nonneg_left hv hN0
    linarith
  have herr : ((n : ℚ) - 1) / 2 ^ 53 ≤ 1 / 2 ^ 22 := by
    rw [div_le_div_iff₀ (by positivity) (by positivity)]
    norm_num
    linarith
  have hPlt : S * v < (2 : ℚ) ^ ((-21 : Int) + 53) := by
    have h2 : (2 : ℚ) ^ ((-21 : Int) + 53) = 2 ^ 32 := by norm_num
    rw [h2]
    have : (1 : ℚ) / 2 ^ 22 < 1 := by norm_num
    have : (2 : ℚ) ^ 31 < 2 ^ 32 := by norm_num
    linarith
  obtain ⟨hr1, hr2⟩ := roundDouble_abs_le hP0 hPlt (by norm_num)
  have hg : (2 : ℚ) ^ (-21 : Int) / 2 = 1 / 2 ^ 22 := by norm_num
  rw [hg] at hr1 hr2
  have hsum : (1 : ℚ) / 2 ^ 22 + 1 / 2 ^ 22 = 1 / 2 ^ 21 := by norm_num
  generalize roundDouble (S * v) = C at hr1 hr2 ⊢
  constructor <;> linarith

/-- The truncated computed bound is within one of the floor of the exact value. -/
theorem crossBound_floor_close {n : Nat} (hn : 1 ≤ n) (hn2 : n ≤ 2 ^ 31) {v : ℚ} (h0 : 0 ≤ v)
    (hv : v ≤ 100) :
    ⌊((n : ℚ) - 1) * v / 100⌋ - 1 ≤ ⌊crossBound n v⌋ ∧
      ⌊crossBound n v⌋ ≤ ⌊((n : ℚ) - 1) * v / 100⌋ + 1 := by
  obtain ⟨h1, h2⟩ := crossBound_close hn hn2 h0 hv
  have hsmall : (1 : ℚ) / 2 ^ 21 ≤ 1 := by norm_num
  constructor
  · have : ⌊((n : ℚ) - 1) * v / 100 - 1⌋ ≤ ⌊crossBound n v⌋ :=
      Int.floor_le_floor (by linarith)
    rwa [Int.floor_sub_one] at this
  · have : ⌊crossBound n v⌋ ≤ ⌊((n : ℚ) - 1) * v / 100 + 1⌋ :=
      Int.floor_le_floor (by linarith)
    rwa [Int.floor_add_one] at this


theorem crossScale_59 :
    roundDouble (roundDouble (sizeMinusOne 59 : ℚ) / 100) = 5224175567749775 / 2 ^ 53 := by
  have hs : sizeMinusOne 59 = 58 := by decide
  have h1 : roundDouble ((58 : Nat) : ℚ) = ((58 : Nat) : ℚ) :=
    roundDouble_natCast 58 (by norm_num)
  rw [hs, h1]
  have h2 := @roundDouble_eq (((58 : Nat) : ℚ) / 100) (-1) 5224175567749775 (by norm_num)
    (by norm_num) (by norm_num) (by norm_num) (by norm_num)
  rw [h2]
  norm_num

theorem crossBound_59_50 : crossBound 59 50 = 8162774324609023 / 2 ^ 48 := by
  unfold crossBound
  rw [crossScale_59]
  have h2 := @roundDouble_eq ((5224175567749775 : ℚ) / 2 ^ 53 * 50) 4 8162774324609023
    (by norm_num) (by norm_num) (by norm_num) (by norm_num) (by norm_num)
  rw [h2]
  norm_num

theorem crossScale_two :
    roundDouble (roundDouble (sizeMinusOne 2 : ℚ) / 100) = 5764607523034235 / 2 ^ 59 := by
  have hs : sizeMinusOne 2 = 1 := by decide
  have h1 : roundDouble ((1 : Nat) : ℚ) = ((1 : Nat) : ℚ) :=
    roundDouble_natCast 1 (by norm_num)
  rw [hs, h1]
  have h2 := @roundDouble_eq (((1 : Nat) : ℚ) / 100) (-7) 5764607523034235 (by norm_num)
    (by norm_num) (by norm_num) (by norm_num) (by norm_num)
  rw [h2]
  norm_num

theorem crossBound_two_zero : crossBound 2 0 = 0 := by
  unfold crossBound
  rw [mul_zero, roundDouble_zero]

theorem crossBound_two_fifty : crossBound 2 50 = 1 / 2 := by
  unfold crossBound
  rw [crossScale_two]
  have h2 := @roundDouble_eq ((5764607523034235 : ℚ) / 2 ^ 59 * 50) (-1) 4503599627370496
    (by norm_num) (by norm_num) (by norm_num) (by norm_num) (by norm_num)
  rw [h2]
  norm_num

theorem crossBound_two_hundred : crossBound 2 100 = 1 := by
  unfold crossBound
  rw [crossScale_two]
  have h2 := @roundDouble_eq ((5764607523034235 : ℚ) / 2 ^ 59 * 100) 0 4503599627370496
    (by norm_num) (by norm_num) (by norm_num) (by norm_num) (by norm_num)
  rw [h2]
  norm_num

theorem doubleToInt_nonneg {x : ℚ} (hx : 0 ≤ x) : doubleToInt x = chkInt ⌊x⌋ := by
  unfold doubleToInt; rw [if_pos hx]

theorem crossPoint_bounds {n : Nat} {mn mx : ℚ} {r cp : Nat} (hn : 1 ≤ n)
    (hn2 : (n : Int) ≤ INT_MAX) (h0 : 0 ≤ mn)
    (h1 : mn ≤ mx) (h2 : mx ≤ 100) (h : crossPoint n mn mx r = some cp) :
    ⌊crossBound n mn⌋ ≤ (cp : Int) ∧ (cp : Int) ≤ ⌊crossBound n mx⌋ ∧ cp ≤ n - 1 := by
  unfold crossPoint at h
  rw [doubleToInt_nonneg (crossBound_nonneg h0),
    doubleToInt_nonneg (crossBound_nonneg (le_trans h0 h1))] at h
  cases ha : chkInt ⌊crossBound n mn⌋ with
  | none => simp [ha] at h
  | some lo =>
    cases hb : chkInt ⌊crossBound n mx⌋ with
    | none => simp [ha, hb] at h
    | some hi =>
      simp only [ha, hb] at h
      obtain ⟨_, rfl⟩ := chkInt_eq_some.mp ha
      obtain ⟨⟨_, hmax⟩, rfl⟩ := chkInt_eq_some.mp hb
      have hlohi : ⌊crossBound n mn⌋ ≤ ⌊crossBound n mx⌋ := Int.floor_le_floor (crossBound_mono h0 h1)
      have hlo0 : 0 ≤ ⌊crossBound n mn⌋ := Int.floor_nonneg.mpr (crossBound_nonneg h0)
      have hhi : ⌊crossBound n mx⌋ ≤ ((n - 1 : Nat) : Int) := by
        have hI2 : INT_MAX = 2147483647 := rfl
        exact crossBound_floor_le hn (by omega) (le_trans h0 h1) h2
      cases hc : randInt r ⌊crossBound n mn⌋ ⌊crossBound n mx⌋ with
      | none => simp [hc] at h
      | some c =>
        simp only [hc, Option.some.injEq] at h
        obtain ⟨_, hc1, hc2⟩ := randInt_eq_some hc hlohi
        have hI : INT_MAX = 2147483647 := rfl
        have hU : (UINT_MOD : Int) = 4294967296 := rfl
        have hmod : c % (UINT_MOD : Int) = c := Int.emod_eq_of_lt (by omega) (by omega)
        rw [hmod] at h
        have hcp : (cp : Int) = c := by rw [← h]; exact Int.toNat_of_nonneg (by omega)
        refine ⟨by omega, by omega, by omega⟩

theorem crossPoint_total {n : Nat} {mn mx : ℚ} (r : Nat) (hn : 1 ≤ n) (hn2 : (n : Int) ≤ INT_MAX)
    (h0 : 0 ≤ mn) (h1 : mn ≤ mx) (h2 : mx ≤ 100) : ∃ cp, crossPoint n mn mx r = some cp := by
  have hI : INT_MAX = 2147483647 := rfl
  have hJ : INT_MIN = -2147483648 := rfl
  have hlohi : ⌊crossBound n mn⌋ ≤ ⌊crossBound n mx⌋ := Int.floor_le_floor (crossBound_mono h0 h1)
  have hlo0 : 0 ≤ ⌊crossBound n mn⌋ := Int.floor_nonneg.mpr (crossBound_nonneg h0)
  have hhi : ⌊crossBound n mx⌋ ≤ ((n - 1 : Nat) : Int) := by
    exact crossBound_floor_le hn (by omega) (le_trans h0 h1) h2
  unfold crossPoint
  rw [doubleToInt_nonneg (crossBound_nonneg h0),
    doubleToInt_nonneg (crossBound_nonneg (le_trans h0 h1)),
    chkInt_of_range (by omega) (by omega), chkInt_of_range (by omega) (by omega)]
  obtain ⟨c, hc⟩ := randInt_total r hlo0 hlohi (by omega)
  simp [hc]


theorem sum_take_nonneg {l : List Int} (h : ∀ s ∈ l, (0 : Int) ≤ s) (c : Nat) :
    0 ≤ (l.take c).sum :=
  List.sum_nonneg (fun s hs => h s (List.mem_of_mem_take hs))

theorem sum_drop_nonneg {l : List Int} (h : ∀ s ∈ l, (0 : Int) ≤ s) (c : Nat) :
    0 ≤ (l.drop c).sum :=
  List.sum_nonneg (fun s hs => h s (List.mem_of_mem_drop hs))

theorem sum_take_add_drop (l : List Int) (c : Nat) : (l.take c).sum + (l.drop c).sum = l.sum := by
  rw [← List.sum_append, List.take_append_drop]

theorem sum_take_le {l : List Int} (h : ∀ s ∈ l, (0 : Int) ≤ s) (c : Nat) :
    (l.take c).sum ≤ l.sum := by
  have := sum_take_add_drop l c
  have := sum_drop_nonneg h c
  omega

theorem crossPoints_eq_some {α : Type} {P : Population α} {p1 p2 : Chromosome α}
    {d1 d2 cp1 r1 cp2 r2 : Nat} (h : crossPoints P p1 p2 d1 d2 = some (cp1, r1, cp2, r2)) :
    ∃ c2 s2,
      crossPoint p1.subGeneSizes.length (P.minCrossValue 0) (P.maxCrossValue 0) d1 = some cp1 ∧
      sumLoop p1.subGeneSizes cp1 0 0 = some r1 ∧
      crossPoint p2.subGeneSizes.length (P.minCrossValue 1) (P.maxCrossValue 1) d2 = some c2 ∧
      sumLoop p2.subGeneSizes c2 0 0 = some s2 ∧
      (P.equalCrossPoints = true → cp2 = cp1 ∧ r2 = r1) ∧
      (P.equalCrossPoints = false → cp2 = c2 ∧ r2 = s2) := by
  unfold crossPoints at h
  cases ha : crossPoint p1.subGeneSizes.length (P.minCrossValue 0) (P.maxCrossValue 0) d1 with
  | none => simp [ha] at h
  | some a =>
    cases hb : sumLoop p1.subGeneSizes a 0 0 with
    | none => simp [ha, hb] at h
    | some b =>
      cases hc : crossPoint p2.subGeneSizes.length (P.minCrossValue 1) (P.maxCrossValue 1) d2 with
      | none => simp [ha, hb, hc] at h
      | some c =>
        cases hd : sumLoop p2.subGeneSizes c 0 0 with
        | none => simp [ha, hb, hc, hd] at h
        | some d =>
          simp only [ha, hb, hc, hd] at h
          cases he : P.equalCrossPoints with
          | true =>
            simp [he] at h
            obtain ⟨rfl, rfl, rfl, rfl⟩ := h
            exact ⟨c, d, rfl, hb, rfl, hd, by simp, by simp⟩
          | false =>
            simp [he] at h
            obtain ⟨rfl, rfl, rfl, rfl⟩ := h
            exact ⟨c, d, rfl, hb, rfl, hd, by simp, by simp⟩

theorem sumLoop_some {sizes : List Int} {cnt r : Nat} (h : sumLoop sizes cnt 0 0 = some r) :
    cnt ≤ sizes.length ∧ r = Int.toNat ((sizes.take cnt).sum % (UINT_MOD : Int)) := by
  rw [sumLoop_head] at h
  by_cases hc : cnt ≤ sizes.length
  · rw [if_pos hc] at h
    exact ⟨hc, (Option.some.inj h).symm⟩
  · rw [if_neg hc] at h; cases h

theorem sumLoop_exact {sizes : List Int} {cnt r : Nat} (h : sumLoop sizes cnt 0 0 = some r)
    (hnn : ∀ s ∈ sizes, (0 : Int) ≤ s) (hlt : sizes.sum < (UINT_MOD : Int)) :
    cnt ≤ sizes.length ∧ (r : Int) = (sizes.take cnt).sum := by
  obtain ⟨hc, hr⟩ := sumLoop_some h
  refine ⟨hc, ?_⟩
  have h0 := sum_take_nonneg hnn cnt
  have h1 := sum_take_le hnn cnt
  rw [hr, Int.emod_eq_of_lt h0 (by omega), Int.toNat_of_nonneg h0]

theorem crossPoints_total {α : Type} {P : Population α} {p1 p2 : Chromosome α} (d1 d2 : Nat)
    (h : crossReady P p1 p2) :
    ∃ cp1 r1 cp2 r2, crossPoints P p1 p2 d1 d2 = some (cp1, r1, cp2, r2) ∧
      cp1 ≤ p1.subGeneSizes.length - 1 ∧
      (P.equalCrossPoints = false → cp2 ≤ p2.subGeneSizes.length - 1) ∧
      (P.equalCrossPoints = true → cp2 = cp1) := by
  obtain ⟨hn1, hm1, hn2, hm2, hr⟩ := h
  obtain ⟨ha0, ha1, ha2⟩ := hr 0
  obtain ⟨hb0, hb1, hb2⟩ := hr 1
  obtain ⟨c1, hc1⟩ := crossPoint_total d1 hn1 hm1 ha0 ha1 ha2
  obtain ⟨c2, hc2⟩ := crossPoint_total d2 hn2 hm2 hb0 hb1 hb2
  obtain ⟨_, _, hc1b⟩ := crossPoint_bounds hn1 hm1 ha0 ha1 ha2 hc1
  obtain ⟨_, _, hc2b⟩ := crossPoint_bounds hn2 hm2 hb0 hb1 hb2 hc2
  have hs1 : sumLoop p1.subGeneSizes c1 0 0 =
      some (Int.toNat ((p1.subGeneSizes.take c1).sum % (UINT_MOD : Int))) := by
    rw [sumLoop_head, if_pos (by omega)]
  have hs2 : sumLoop p2.subGeneSizes c2 0 0 =
      some (Int.toNat ((p2.subGeneSizes.take c2).sum % (UINT_MOD : Int))) := by
    rw [sumLoop_head, if_pos (by omega)]
  unfold crossPoints
  rw [hc1]; simp only
  rw [hs1]; simp only
  rw [hc2]; simp only
  rw [hs2]; simp only
  cases hq : P.equalCrossPoints with
  | true =>
    simp only [if_true]
    exact ⟨c1, _, c1, _, rfl, hc1b, by simp, by simp⟩
  | false =>
    simp only [Bool.false_eq_true, if_false]
    exact ⟨c1, _, c2, _, rfl, hc1b, fun _ => hc2b, by simp⟩

theorem crossPoints_wf {α : Type} {P : Population α} {p1 p2 : Chromosome α}
    {d1 d2 cp1 r1 cp2 r2 : Nat} (h : crossPoints P p1 p2 d1 d2 = some (cp1, r1, cp2, r2))
    (hw1 : p1.wellFormed) (hw2 : p2.wellFormed)
    (hal : P.equalCrossPoints = true → alignedBoundaries p1 p2) :
    cp1 ≤ p1.subGeneSizes.length ∧ (r1 : Int) = (p1.subGeneSizes.take cp1).sum ∧
      (cp2 ≤ p2.subGeneSizes.length → (r2 : Int) = (p2.subGeneSizes.take cp2).sum) := by
  obtain ⟨c2, s2, _, hs1, _, hs2, heq, hne⟩ := crossPoints_eq_some h
  obtain ⟨hnn1, hsh1, hlt1⟩ := hw1
  obtain ⟨hnn2, hsh2, hlt2⟩ := hw2
  have hb1 : p1.subGeneSizes.sum < (UINT_MOD : Int) := by
    rw [hsh1]; exact_mod_cast hlt1
  have hb2 : p2.subGeneSizes.sum < (UINT_MOD : Int) := by
    rw [hsh2]; exact_mod_cast hlt2
  obtain ⟨hc1, hr1⟩ := sumLoop_exact hs1 hnn1 hb1
  obtain ⟨hc2, hr2⟩ := sumLoop_exact hs2 hnn2 hb2
  refine ⟨hc1, hr1, ?_⟩
  intro hle
  cases hq : P.equalCrossPoints with
  | true =>
    obtain ⟨rfl, rfl⟩ := heq hq
    rw [hr1]
    exact hal hq cp2 hc1 hle
  | false =>
    obtain ⟨rfl, rfl⟩ := hne hq
    exact hr2

theorem crossOver_of_select {α : Type} {P : Population α} {RAND_MAX : Nat} {rand : Nat → Nat}
    {generation : List (Chromosome α)} {fuel k i1 i2 k1 : Nat} {p1 p2 : Chromosome α}
    (hsel : selectParents P RAND_MAX rand generation fuel k = some ((i1, p1), (i2, p2), k1)) :
    crossOver P RAND_MAX rand generation fuel k =
      match crossOverBody P RAND_MAX p1 p2 (rand k1) (rand (k1 + 1)) (rand (k1 + 2)) with
      | none => none
      | some (baby1, baby2) => some (baby1, baby2, k1 + 3) := by
  unfold crossOver
  rw [hsel]

theorem crossOverBody_of_points {α : Type} {P : Population α} (RAND_MAX : Nat)
    {p1 p2 : Chromosome α} {d1 d2 cp1 r1 cp2 r2 : Nat} (d3 : Nat)
    (hcp : crossPoints P p1 p2 d1 d2 = some (cp1, r1, cp2, r2)) :
    crossOverBody P RAND_MAX p1 p2 d1 d2 d3 =
      if randFloat RAND_MAX d3 < P.crossOverRate then recombine p1 p2 cp1 r1 cp2 r2
      else some (p1, p2) := by
  unfold crossOverBody
  rw [hcp]

/-- What an outcome of `crossOver` looks like: the crosspoints are defined, and the babies
are either the recombination (draw below the rate, all reads in range) or the parents. -/
theorem crossOver_outcome {α : Type} {P : Population α} {RAND_MAX : Nat} {rand : Nat → Nat}
    {generation : List (Chromosome α)} {fuel k i1 i2 k1 k2 : Nat} {p1 p2 b1 b2 : Chromosome α}
    (hsel : selectParents P RAND_MAX rand generation fuel k = some ((i1, p1), (i2, p2), k1))
    (h : crossOver P RAND_MAX rand generation fuel k = some (b1, b2, k2)) :
    ∃ cp1 r1 cp2 r2,
      crossPoints P p1 p2 (rand k1) (rand (k1 + 1)) = some (cp1, r1, cp2, r2) ∧ k2 = k1 + 3 ∧
      ((randFloat RAND_MAX (rand (k1 + 2)) < P.crossOverRate ∧
          r1 ≤ p1.values.length ∧ r2 ≤ p2.values.length ∧
          cp1 ≤ p1.subGeneSizes.length ∧ cp2 ≤ p2.subGeneSizes.length ∧
          b1 = { values := p1.values.take r1 ++ p2.values.drop r2,
                 subGeneSizes := p1.subGeneSizes.take cp1 ++ p2.subGeneSizes.drop cp2,
                 fitness := 0 } ∧
          b2 = { values := p2.values.take r2 ++ p1.values.drop r1,
                 subGeneSizes := p2.subGeneSizes.take cp2 ++ p1.subGeneSizes.drop cp1,
                 fitness := 0 }) ∨
        (P.crossOverRate ≤ randFloat RAND_MAX (rand (k1 + 2)) ∧ b1 = p1 ∧ b2 = p2)) := by
  rw [crossOver_of_select hsel] at h
  cases hcp : crossPoints P p1 p2 (rand k1) (rand (k1 + 1)) with
  | none =>
    unfold crossOverBody at h
    rw [hcp] at h
    simp at h
  | some q =>
    obtain ⟨cp1, r1, cp2, r2⟩ := q
    rw [crossOverBody_of_points RAND_MAX (rand (k1 + 2)) hcp] at h
    refine ⟨cp1, r1, cp2, r2, rfl, ?_⟩
    by_cases hu : randFloat RAND_MAX (rand (k1 + 2)) < P.crossOverRate
    · rw [if_pos hu, recombine_eq] at h
      by_cases hb : r1 ≤ p1.values.length ∧ r2 ≤ p2.values.length ∧
          cp1 ≤ p1.subGeneSizes.length ∧ cp2 ≤ p2.subGeneSizes.length
      · rw [if_pos hb] at h
        simp only [Option.some.injEq, Prod.mk.injEq] at h
        obtain ⟨h1, h2, h3⟩ := h
        exact ⟨h3.symm, Or.inl ⟨hu, hb.1, hb.2.1, hb.2.2.1, hb.2.2.2, h1.symm, h2.symm⟩⟩
      · rw [if_neg hb] at h
        simp at h
    · rw [if_neg hu] at h
      simp only [Option.some.injEq, Prod.mk.injEq] at h
      obtain ⟨h1, h2, h3⟩ := h
      exact ⟨h3.symm, Or.inr ⟨not_lt.mp hu, h1.symm, h2.symm⟩⟩

theorem wellFormed_take_le {α : Type} {p : Chromosome α} (hw : p.wellFormed) (c : Nat) :
    (p.subGeneSizes.take c).sum ≤ (p.values.length : Int) := by
  obtain ⟨hnn, hsh, _⟩ := hw
  rw [← hsh]
  exact sum_take_le hnn c

/-- The crosspoints of well-formed parents lie on sub-gene boundaries inside both value
vectors. -/
theorem crossPoints_inRange {α : Type} {P : Population α} {p1 p2 : Chromosome α}
    {d1 d2 cp1 r1 cp2 r2 : Nat} (h : crossPoints P p1 p2 d1 d2 = some (cp1, r1, cp2, r2))
    (hw1 : p1.wellFormed) (hw2 : p2.wellFormed)
    (hal : P.equalCrossPoints = true → alignedBoundaries p1 p2)
    (hc2 : cp2 ≤ p2.subGeneSizes.length) :
    r1 ≤ p1.values.length ∧ r2 ≤ p2.values.length := by
  obtain ⟨_, hr1, hr2⟩ := crossPoints_wf h hw1 hw2 hal
  have h1 := wellFormed_take_le hw1 cp1
  have h2 := wellFormed_take_le hw2 cp2
  have hr2 := hr2 hc2
  omega

theorem recombined_shape {α : Type} {p1 p2 : Chromosome α} {cp1 r1 cp2 r2 : Nat}
    (hs2 : p2.shapeInvariant)
    (hr1 : (r1 : Int) = (p1.subGeneSizes.take cp1).sum)
    (hr2 : (r2 : Int) = (p2.subGeneSizes.take cp2).sum)
    (hl1 : r1 ≤ p1.values.length) (hl2 : r2 ≤ p2.values.length) :
    (p1.subGeneSizes.take cp1 ++ p2.subGeneSizes.drop cp2).sum =
      ((p1.values.take r1 ++ p2.values.drop r2).length : Int) := by
  have h2 := sum_take_add_drop p2.subGeneSizes cp2
  unfold Chromosome.shapeInvariant at hs2
  rw [List.sum_append, List.length_append, List.length_take, List.length_drop,
    Nat.min_eq_left hl1]
  push_cast [Nat.cast_sub hl2]
  omega

/-- Under `crossReady`, with well-formed parents whose boundaries coincide and whose first
parent has no more sub genes than the second when `equalCrossPoints` is set, `crossOver`
returns two babies once the parents are selected. -/
theorem crossOver_total {α : Type} {P : Population α} {RAND_MAX : Nat} {rand : Nat → Nat}
    {generation : List (Chromosome α)} {fuel k i1 i2 k1 : Nat} {p1 p2 : Chromosome α}
    (hsel : selectParents P RAND_MAX rand generation fuel k = some ((i1, p1), (i2, p2), k1))
    (hready : crossReady P p1 p2) (hw1 : p1.wellFormed) (hw2 : p2.wellFormed)
    (hal : P.equalCrossPoints = true →
      alignedBoundaries p1 p2 ∧ p1.subGeneSizes.length ≤ p2.subGeneSizes.length) :
    ∃ b1 b2, crossOver P RAND_MAX rand generation fuel k = some (b1, b2, k1 + 3) := by
  obtain ⟨cp1, r1, cp2, r2, hcp, hc1, hc2, hc3⟩ :=
    crossPoints_total (rand k1) (rand (k1 + 1)) hready
  have hc2n : cp2 ≤ p2.subGeneSizes.length := by
    cases hq : P.equalCrossPoints with
    | true => have := hc3 hq; have := (hal hq).2; omega
    | false => have := hc2 hq; omega
  obtain ⟨hl1, hl2⟩ := crossPoints_inRange hcp hw1 hw2 (fun hq => (hal hq).1) hc2n
  rw [crossOver_of_select hsel, crossOverBody_of_points RAND_MAX (rand (k1 + 2)) hcp]
  by_cases hu : randFloat RAND_MAX (rand (k1 + 2)) < P.crossOverRate
  · rw [if_pos hu, recombine_eq, if_pos ⟨hl1, hl2, by omega, hc2n⟩]
    exact ⟨_, _, rfl⟩
  · rw [if_neg hu]
    exact ⟨_, _, rfl⟩

/-- Both babies of `crossOver` satisfy the shape invariant when the parents are well formed
and, with `equalCrossPoints`, have coinciding boundaries. -/
theorem crossOver_shape {α : Type} {P : Population α} {RAND_MAX : Nat} {rand : Nat → Nat}
    {generation : List (Chromosome α)} {fuel k i1 i2 k1 k2 : Nat} {p1 p2 b1 b2 : Chromosome α}
    (hsel : selectParents P RAND_MAX rand generation fuel k = some ((i1, p1), (i2, p2), k1))
    (hw1 : p1.wellFormed) (hw2 : p2.wellFormed)
    (hal : P.equalCrossPoints = true → alignedBoundaries p1 p2)
    (h : crossOver P RAND_MAX rand generation fuel k = some (b1, b2, k2)) :
    b1.shapeInvariant ∧ b2.shapeInvariant := by
  obtain ⟨cp1, r1, cp2, r2, hcp, _, hcase⟩ := crossOver_outcome hsel h
  rcases hcase with ⟨_, hl1, hl2, hc1, hc2, rfl, rfl⟩ | ⟨_, rfl, rfl⟩
  · obtain ⟨_, hr1, hr2⟩ := crossPoints_wf hcp hw1 hw2 hal
    exact ⟨recombined_shape hw2.2.1 hr1 (hr2 hc2) hl1 hl2,
      recombined_shape hw1.2.1 (hr2 hc2) hr1 hl2 hl1⟩
  · exact ⟨hw1.2.1, hw2.2.1⟩

/-! ## Evaluations on the concrete inputs -/

theorem select_randA :
    selectParents (defaultPopulation false) 32767 randA [chromA, chromB] 2 0 =
      some ((1, chromB), (0, chromA), 2) := by
  unfold selectParents
  simp [grabChromosome, grabLoop, totalFitness, randFloat, randA, chromA, chromB,
    defaultPopulation]
  norm_num

theorem select_randB :
    selectParents (defaultPopulation true) 32767 randB [chromC, chromB] 2 0 =
      some ((0, chromC), (1, chromB), 2) := by
  unfold selectParents
  simp [grabChromosome, grabLoop, totalFitness, randFloat, randB, chromC, chromB,
    defaultPopulation]
  norm_num

theorem crossPoints_randA :
    crossPoints (defaultPopulation false) chromB chromA (randA 2) (randA (2 + 1)) =
      some (1, 2, 1, 2) := by
  unfold crossPoints crossPoint
  simp [crossBound_two_zero, crossBound_two_hundred, doubleToInt, chkInt, randInt, INT_MIN,
    INT_MAX, UINT_MOD, Int.tmod_eq_emod, defaultPopulation, chromA, chromB, randA, sumLoop]

theorem crossPoints_randB :
    crossPoints (defaultPopulation true) chromC chromB (randB 2) (randB (2 + 1)) =
      some (1, 1, 1, 1) := by
  unfold crossPoints crossPoint
  simp [crossBound_two_zero, crossBound_two_hundred, doubleToInt, chkInt, randInt, INT_MIN,
    INT_MAX, UINT_MOD, Int.tmod_eq_emod, defaultPopulation, chromC, chromB, randB, sumLoop]

theorem crossOver_randB :
    crossOver (defaultPopulation true) 32767 randB [chromC, chromB] 2 0 =
      some ({ values := [1, 6, 7, 8], subGeneSizes := [1, 2], fitness := 0 },
            { values := [5, 2, 3, 4], subGeneSizes := [2, 3], fitness := 0 }, 5) := by
  rw [crossOver_of_select select_randB,
    crossOverBody_of_points 32767 (randB (2 + 2)) crossPoints_randB]
  have hu : randFloat 32767 (randB (2 + 2)) < (defaultPopulation true).crossOverRate := by
    simp [randFloat, randB, defaultPopulation]
  rw [if_pos hu, recombine_eq]
  simp [chromC, chromB]

theorem chromA_wellFormed : chromA.wellFormed := by
  simp [Chromosome.wellFormed, Chromosome.sizesNonneg, Chromosome.shapeInvariant, chromA,
    UINT_MOD]

theorem chromB_wellFormed : chromB.wellFormed := by
  simp [Chromosome.wellFormed, Chromosome.sizesNonneg, Chromosome.shapeInvariant, chromB,
    UINT_MOD]

theorem chromC_wellFormed : chromC.wellFormed := by
  simp [Chromosome.wellFormed, Chromosome.sizesNonneg, Chromosome.shapeInvariant, chromC,
    UINT_MOD]

theorem crossReady_default (e : Bool) (p1 p2 : Chromosome Int)
    (h1 : p1.subGeneSizes.length = 2) (h2 : p2.subGeneSizes.length = 2) :
    crossReady (defaultPopulation e) p1 p2 := by
  unfold crossReady
  rw [h1, h2]
  refine ⟨by norm_num, by decide, by norm_num, by decide, ?_⟩
  intro j
  simp [defaultPopulation]

/-! ## Auxiliary lemmas: the selection walk -/

theorem next_index (n m : Nat) (hn : 0 < n) :
    (if m % n + 1 ≥ n then 0 else m % n + 1) = (m + 1) % n := by
  have hlt := Nat.mod_lt m hn
  have hsucc : (m + 1) % n = (m % n + 1) % n := by
    rw [Nat.add_mod, Nat.add_mod (m % n) 1, Nat.mod_mod]
  by_cases h : m % n + 1 ≥ n
  · rw [if_pos h, hsucc]
    have : m % n + 1 = n := by omega
    rw [this, Nat.mod_self]
  · rw [if_neg h, hsucc]
    exact (Nat.mod_eq_of_lt (by omega)).symm

theorem walkAcc_succ {α : Type} (generation : List (Chromosome α)) (hn : 0 < generation.length)
    (m : Nat) :
    ∃ c, generation[(m + 1) % generation.length]? = some c ∧
      walkAcc generation (m + 1) = walkAcc generation m + c.fitness := by
  have hlt := Nat.mod_lt (m + 1) hn
  refine ⟨generation[(m + 1) % generation.length], List.getElem?_eq_getElem hlt, ?_⟩
  show walkAcc generation m + _ = _
  rw [List.getElem?_eq_getElem hlt]
  rfl

/-- The selection loop, started after `m0` steps of the walk, stops at the first step
`m >= m0` whose accumulated fitness exceeds `randomFitness`, if that step comes within the
fuel. -/
theorem grabLoop_spec {α : Type} (generation : List (Chromosome α))
    (hn : 0 < generation.length) (r : ℚ) (i : Nat) :
    ∀ fuel m0, grabLoop generation r fuel (m0 % generation.length) (walkAcc generation m0) =
        some i ↔
      ∃ m, m0 ≤ m ∧ m ≤ m0 + fuel ∧ i = m % generation.length ∧ r < walkAcc generation m ∧
        ∀ j, m0 ≤ j → j < m → walkAcc generation j ≤ r := by
  intro fuel
  induction fuel with
  | zero =>
    intro m0
    unfold grabLoop
    by_cases h : walkAcc generation m0 ≤ r
    · rw [if_pos h]
      constructor
      · intro hc; cases hc
      · rintro ⟨m, h1, h2, _, h4, _⟩
        have : m = m0 := by omega
        subst this
        exact absurd h (not_le.mpr h4)
    · rw [if_neg h]
      constructor
      · intro hc
        refine ⟨m0, le_refl _, by omega, (Option.some.inj hc).symm, not_le.mp h, ?_⟩
        intro j h1 h2; omega
      · rintro ⟨m, h1, h2, h3, _, _⟩
        have : m = m0 := by omega
        subst this
        rw [h3]
  | succ fuel ih =>
    intro m0
    unfold grabLoop
    by_cases h : walkAcc generation m0 ≤ r
    · rw [if_pos h]
      simp only
      rw [next_index generation.length m0 hn]
      obtain ⟨c, hc, hw⟩ := walkAcc_succ generation hn m0
      rw [hc]
      simp only
      rw [← hw, ih (m0 + 1)]
      constructor
      · rintro ⟨m, h1, h2, h3, h4, h5⟩
        refine ⟨m, by omega, by omega, h3, h4, ?_⟩
        intro j hj1 hj2
        by_cases hj : j = m0
        · subst hj; exact h
        · exact h5 j (by omega) hj2
      · rintro ⟨m, h1, h2, h3, h4, h5⟩
        have hne : m ≠ m0 := by
          rintro rfl
          exact absurd h (not_le.mpr h4)
        exact ⟨m, by omega, by omega, h3, h4, fun j hj1 hj2 => h5 j (by omega) hj2⟩
    · rw [if_neg h]
      constructor
      · intro hc
        refine ⟨m0, le_refl _, by omega, (Option.some.inj hc).symm, not_le.mp h, ?_⟩
        intro j h1 h2; omega
      · rintro ⟨m, h1, h2, h3, _, h5⟩
        by_cases hm : m = m0
        · subst hm; rw [h3]
        · exact absurd (h5 m0 (le_refl _) (by omega)) h

theorem grabChromosome_spec {α : Type} (RAND_MAX : Nat) (generation : List (Chromosome α))
    (hn : 0 < generation.length) (fuel d i : Nat) :
    grabChromosome RAND_MAX generation fuel d = some i ↔
      ∃ m, m ≤ fuel ∧ i = m % generation.length ∧
        randFloat RAND_MAX d * totalFitness generation < walkAcc generation m ∧
        ∀ j, j < m → walkAcc generation j ≤ randFloat RAND_MAX d * totalFitness generation := by
  unfold grabChromosome
  have h := grabLoop_spec generation hn (randFloat RAND_MAX d * totalFitness generation) i fuel 0
  rw [Nat.zero_mod] at h
  have hw : walkAcc generation 0 = 0 := rfl
  rw [hw] at h
  rw [h]
  constructor
  · rintro ⟨m, _, h2, h3, h4, h5⟩
    exact ⟨m, by omega, h3, h4, fun j hj => h5 j (Nat.zero_le _) hj⟩
  · rintro ⟨m, h2, h3, h4, h5⟩
    exact ⟨m, Nat.zero_le _, by omega, h3, h4, fun j _ hj => h5 j hj⟩

theorem foldl_fitness {α : Type} (l : List (Chromosome α)) (a : ℚ) :
    l.foldl (fun acc c => acc + c.fitness) a = a + (l.map (fun c => c.fitness)).sum := by
  induction l generalizing a with
  | nil => simp
  | cons c t ih => simp [ih, add_assoc]

theorem totalFitness_eq_sum {α : Type} (generation : List (Chromosome α)) :
    totalFitness generation = (generation.map (fun c => c.fitness)).sum := by
  unfold totalFitness
  rw [foldl_fitness, zero_add]

theorem totalFitness_nonneg {α : Type} {generation : List (Chromosome α)}
    (hnn : ∀ c ∈ generation, 0 ≤ c.fitness) : 0 ≤ totalFitness generation := by
  rw [totalFitness_eq_sum]
  apply List.sum_nonneg
  intro x hx
  obtain ⟨c, hc, rfl⟩ := List.mem_map.mp hx
  exact hnn c hc

theorem totalFitness_pos {α : Type} {generation : List (Chromosome α)}
    (hnn : ∀ c ∈ generation, 0 ≤ c.fitness) (hpos : ∃ c ∈ generation, 0 < c.fitness) :
    0 < totalFitness generation := by
  rw [totalFitness_eq_sum]
  induction generation with
  | nil => obtain ⟨c, hc, _⟩ := hpos; cases hc
  | cons a t ih =>
    simp only [List.map_cons, List.sum_cons]
    have ha : 0 ≤ a.fitness := hnn a (List.mem_cons_self _ _)
    have ht : 0 ≤ (t.map (fun c => c.fitness)).sum := by
      have := @totalFitness_nonneg _ t
        (fun c hc => hnn c (List.mem_cons_of_mem _ hc))
      rwa [totalFitness_eq_sum] at this
    obtain ⟨c, hc, hcp⟩ := hpos
    rcases List.mem_cons.mp hc with rfl | hct
    · linarith
    · have := ih (fun c hc => hnn c (List.mem_cons_of_mem _ hc)) ⟨c, hct, hcp⟩
      linarith

theorem walkAcc_mono {α : Type} {generation : List (Chromosome α)}
    (hnn : ∀ c ∈ generation, 0 ≤ c.fitness) (m : Nat) :
    walkAcc generation m ≤ walkAcc generation (m + 1) := by
  show walkAcc generation m ≤ walkAcc generation m + _
  have : (0 : ℚ) ≤
      ((generation[(m + 1) % generation.length]?).map (fun c => c.fitness)).getD 0 := by
    cases h : generation[(m + 1) % generation.length]? with
    | none => simp
    | some c =>
      simp only [Option.map_some', Option.getD_some]
      exact hnn c (List.getElem?_mem h)
  linarith

theorem walkAcc_head {α : Type} (c0 : Chromosome α) (rest : List (Chromosome α)) (m : Nat)
    (hm : m ≤ rest.length) :
    walkAcc (c0 :: rest) m = ((rest.map (fun c => c.fitness)).take m).sum := by
  induction m with
  | zero => simp [walkAcc]
  | succ m ih =>
    have hlt : m < rest.length := hm
    show walkAcc (c0 :: rest) m + _ = _
    rw [ih (by omega)]
    have hmod : (m + 1) % (c0 :: rest).length = m + 1 := by
      apply Nat.mod_eq_of_lt
      simp only [List.length_cons]
      omega
    rw [hmod]
    have hget : (c0 :: rest)[m + 1]? = some rest[m] := by
      rw [List.getElem?_cons_succ, List.getElem?_eq_getElem hlt]
    rw [hget]
    simp only [Option.map_some', Option.getD_some]
    rw [List.sum_take_succ _ _ (by simpa using hlt)]
    simp

/-- After one full pass the walk has accumulated the total fitness. -/
theorem walkAcc_full {α : Type} (generation : List (Chromosome α))
    (hn : 0 < generation.length) :
    walkAcc generation generation.length = totalFitness generation := by
  cases generation with
  | nil => simp at hn
  | cons c0 rest =>
    rw [totalFitness_eq_sum]
    show walkAcc (c0 :: rest) rest.length + _ = _
    rw [walkAcc_head c0 rest rest.length (le_refl _)]
    have hmod : (rest.length + 1) % (c0 :: rest).length = 0 := by
      simp only [List.length_cons, Nat.mod_self]
    rw [hmod]
    have htake : (rest.map (fun c => c.fitness)).take rest.length =
        rest.map (fun c => c.fitness) := List.take_of_length_le (by simp)
    rw [htake]
    simp only [List.getElem?_cons_zero, Option.map_some', Option.getD_some,
      List.map_cons, List.sum_cons]
    ring

theorem randFloat_nonneg (RAND_MAX d : Nat) : 0 ≤ randFloat RAND_MAX d := by
  unfold randFloat
  positivity

theorem randFloat_lt_one {RAND_MAX d : Nat} (hd : d ≤ RAND_MAX) : randFloat RAND_MAX d < 1 := by
  unfold randFloat
  have hpos : (0 : ℚ) < (RAND_MAX : ℚ) + 1 := by positivity
  rw [div_lt_one hpos]
  have : (d : ℚ) ≤ (RAND_MAX : ℚ) := by exact_mod_cast hd
  linarith

/-- With non-negative fitnesses, at least one of them positive, and a draw below 1, the
selection stops within one pass: enough fuel for `n` iterations gives an index below `n`. -/
theorem grabChromosome_some {α : Type} {RAND_MAX : Nat} {generation : List (Chromosome α)}
    (hnn : ∀ c ∈ generation, 0 ≤ c.fitness) (hpos : ∃ c ∈ generation, 0 < c.fitness)
    {d : Nat} (hd : d ≤ RAND_MAX) :
    ∃ i, i < generation.length ∧
      ∀ fuel, generation.length ≤ fuel → grabChromosome RAND_MAX generation fuel d = some i := by
  have hn : 0 < generation.length := by
    obtain ⟨c, hc, _⟩ := hpos
    exact List.length_pos_of_mem hc
  have htot := totalFitness_pos hnn hpos
  have hr : randFloat RAND_MAX d * totalFitness generation < walkAcc generation generation.length := by
    rw [walkAcc_full generation hn]
    have := randFloat_lt_one hd
    nlinarith
  classical
  have hex : ∃ m, randFloat RAND_MAX d * totalFitness generation < walkAcc generation m :=
    ⟨_, hr⟩
  refine ⟨Nat.find hex % generation.length, Nat.mod_lt _ hn, fun fuel hf => ?_⟩
  rw [grabChromosome_spec RAND_MAX generation hn]
  refine ⟨Nat.find hex, ?_, rfl, Nat.find_spec hex, fun j hj => ?_⟩
  · have := Nat.find_min' hex hr
    omega
  · exact not_lt.mp (Nat.find_min hex hj)

/-! ## Auxiliary lemmas: the end-to-end scenario -/

theorem scenario_walk :
    walkAcc [scenarioOnes, scenarioZeros] 0 = 0 ∧ walkAcc [scenarioOnes, scenarioZeros] 1 = 0 ∧
      walkAcc [scenarioOnes, scenarioZeros] 2 = 10 := by
  refine ⟨rfl, ?_, ?_⟩ <;> simp [walkAcc, scenarioOnes, scenarioZeros]

theorem scenario_total : totalFitness [scenarioOnes, scenarioZeros] = 10 := by
  simp [totalFitness, scenarioOnes, scenarioZeros]

/-- In the scenario every draw selects chromosome 0: chromosome 1 has fitness 0. -/
theorem scenario_grab {RAND_MAX d : Nat} (hd : d ≤ RAND_MAX) (fuel : Nat) :
    (2 ≤ fuel → grabChromosome RAND_MAX [scenarioOnes, scenarioZeros] fuel d = some 0) ∧
    (∀ i, grabChromosome RAND_MAX [scenarioOnes, scenarioZeros] fuel d = some i → i = 0) := by
  obtain ⟨hw0, hw1, hw2⟩ := scenario_walk
  have h0 := randFloat_nonneg RAND_MAX d
  have h1 := randFloat_lt_one hd
  have hlen : ([scenarioOnes, scenarioZeros] : List (Chromosome Int)).length = 2 := rfl
  constructor
  · intro hf
    rw [grabChromosome_spec RAND_MAX _ (by simp), scenario_total]
    refine ⟨2, hf, by simp, by rw [hw2]; linarith, ?_⟩
    intro j hj
    have : j = 0 ∨ j = 1 := by omega
    rcases this with rfl | rfl
    · rw [hw0]; linarith
    · rw [hw1]; linarith
  · intro i hi
    rw [grabChromosome_spec RAND_MAX _ (by simp), scenario_total] at hi
    obtain ⟨m, _, hm, hlt, hall⟩ := hi
    have hm2 : m = 2 := by
      by_contra hne
      have : m = 0 ∨ m = 1 ∨ 2 < m := by omega
      rcases this with rfl | rfl | h
      · rw [hw0] at hlt; linarith
      · rw [hw1] at hlt; linarith
      · have := hall 2 h
        rw [hw2] at this; linarith
    rw [hm, hm2, hlen]

/-- In the scenario the rejection loop of `selectParents` never leaves index 0. -/
theorem scenario_selectLoop {RAND_MAX : Nat} {rand : Nat → Nat} (hr : validRand RAND_MAX rand)
    (gfuel : Nat) :
    ∀ fuel k, selectLoop RAND_MAX rand [scenarioOnes, scenarioZeros] gfuel 0 fuel k 0 = none := by
  intro fuel
  induction fuel with
  | zero => intro k; simp [selectLoop]
  | succ fuel ih =>
    intro k
    unfold selectLoop
    rw [if_pos rfl]
    cases hg : grabChromosome RAND_MAX [scenarioOnes, scenarioZeros] gfuel (rand k) with
    | none => rfl
    | some j =>
      have := (scenario_grab (hr k) gfuel).2 j hg
      subst this
      exact ih (k + 1)

theorem scenario_crossPoint (d : Nat) : crossPoint 2 50 50 d = some 0 := by
  have hb : crossBound 2 50 = 1 / 2 := crossBound_two_fifty
  have hfl : ⌊(1 / 2 : ℚ)⌋ = 0 := by
    rw [Int.floor_eq_iff]; norm_num
  have hd : doubleToInt (crossBound 2 50) = some 0 := by
    rw [hb, doubleToInt_nonneg (by norm_num), hfl]
    rfl
  have hri : randInt d 0 0 = some 0 := by
    unfold randInt
    have h1 : chkInt (0 - 0) = some 0 := rfl
    have h2 : chkInt (0 + 1) = some 1 := rfl
    rw [h1]; simp only
    rw [h2]; simp only
    rw [if_neg (by decide), Int.tmod_one]
    rfl
  unfold crossPoint
  rw [hd]
  simp only
  rw [hri]
  rfl

theorem scenario_crossPoints (P : Population Int) (heq : P.equalCrossPoints = true)
    (hmin : ∀ j, P.minCrossValue j = 50) (hmax : ∀ j, P.maxCrossValue j = 50)
    (p1 p2 : Chromosome Int) (h1 : p1.subGeneSizes.length = 2)
    (h2 : p2.subGeneSizes.length = 2) (d1 d2 : Nat) :
    crossPoints P p1 p2 d1 d2 = some (0, 0, 0, 0) := by
  unfold crossPoints
  rw [h1, h2, hmin, hmax, hmin, hmax, scenario_crossPoint, scenario_crossPoint]
  simp only [sumLoop, heq, if_true]

theorem scenario_select_clone (P : Population Int) (hcl : P.cloneParents = true)
    {RAND_MAX : Nat} {rand : Nat → Nat} (hr : validRand RAND_MAX rand) {fuel : Nat}
    (hf : 2 ≤ fuel) (k : Nat) :
    selectParents P RAND_MAX rand [scenarioOnes, scenarioZeros] fuel k =
      some ((0, scenarioOnes), (0, scenarioOnes), k + 2) := by
  unfold selectParents
  rw [(scenario_grab (hr k) fuel).1 hf]
  simp only [List.getElem?_cons_zero, hcl, if_true]
  rw [(scenario_grab (hr (k + 1)) fuel).1 hf]
  simp

theorem scenario_select_distinct (P : Population Int) (hcl : P.cloneParents = false)
    {RAND_MAX : Nat} {rand : Nat → Nat} (hr : validRand RAND_MAX rand) (fuel k : Nat) :
    selectParents P RAND_MAX rand [scenarioOnes, scenarioZeros] fuel k = none := by
  unfold selectParents
  cases hg : grabChromosome RAND_MAX [scenarioOnes, scenarioZeros] fuel (rand k) with
  | none => rfl
  | some j =>
    have := (scenario_grab (hr k) fuel).2 j hg
    subst this
    simp only [List.getElem?_cons_zero, hcl, Bool.false_eq_true, if_false]
    rw [scenario_selectLoop hr fuel fuel (k + 1)]

/-- In the scenario with `cloneParents` enabled both parents are chromosome 0, the
crosspoint is 0, and both babies are copies of its values and sub-gene sizes. -/
theorem scenario_clone (P : Population Int) (hrate : P.crossOverRate = 1)
    (heq : P.equalCrossPoints = true) (hmin : ∀ j, P.minCrossValue j = 50)
    (hmax : ∀ j, P.maxCrossValue j = 50) (hcl : P.cloneParents = true)
    {RAND_MAX : Nat} {rand : Nat → Nat} (hr : validRand RAND_MAX rand) {fuel : Nat}
    (hf : 2 ≤ fuel) (k : Nat) :
    crossOver P RAND_MAX rand [scenarioOnes, scenarioZeros] fuel k =
      some ({ values := [1, 1, 1, 1], subGeneSizes := [2, 2], fitness := 0 },
            { values := [1, 1, 1, 1], subGeneSizes := [2, 2], fitness := 0 }, k + 5) := by
  rw [crossOver_of_select (scenario_select_clone P hcl hr hf k),
    crossOverBody_of_points RAND_MAX _
      (scenario_crossPoints P heq hmin hmax scenarioOnes scenarioOnes rfl rfl _ _)]
  have hu : randFloat RAND_MAX (rand (k + 2 + 2)) < P.crossOverRate := by
    rw [hrate]; exact randFloat_lt_one (hr _)
  rw [if_pos hu, recombine_eq]
  simp [scenarioOnes]

theorem scenario_distinct (P : Population Int) (hcl : P.cloneParents = false)
    {RAND_MAX : Nat} {rand : Nat → Nat} (hr : validRand RAND_MAX rand) (fuel k : Nat) :
    crossOver P RAND_MAX rand [scenarioOnes, scenarioZeros] fuel k = none := by
  unfold crossOver
  rw [scenario_select_distinct P hcl hr fuel k]

theorem validRand_zero : validRand 32767 (fun _ => 0) := fun _ => Nat.zero_le _

theorem select_randC :
    selectParents (defaultPopulation false) 32767 randC [chromA, chromB] 2 0 =
      some ((1, chromB), (0, chromA), 2) := by
  unfold selectParents
  simp [grabChromosome, grabLoop, totalFitness, randFloat, randC, chromA, chromB,
    defaultPopulation]
  norm_num

theorem walk_AB :
    walkAcc [chromA, chromB] 0 = 0 ∧ walkAcc [chromA, chromB] 1 = 1 ∧
      walkAcc [chromA, chromB] 2 = 2 := by
  refine ⟨rfl, ?_, ?_⟩ <;> simp [walkAcc, chromA, chromB]
  norm_num

theorem draw_half : randFloat 32767 16384 * totalFitness [chromA, chromB] = 1 := by
  simp [randFloat, totalFitness, chromA, chromB]
  norm_num

/-! ## Auxiliary lemmas: mutation and generation replacement -/

theorem selectParents_mem {α : Type} {P : Population α} {RAND_MAX : Nat} {rand : Nat → Nat}
    {generation : List (Chromosome α)} {fuel k i1 i2 k1 : Nat} {p1 p2 : Chromosome α}
    (h : selectParents P RAND_MAX rand generation fuel k = some ((i1, p1), (i2, p2), k1)) :
    generation[i1]? = some p1 ∧ generation[i2]? = some p2 := by
  unfold selectParents at h
  cases hg : grabChromosome RAND_MAX generation fuel (rand k) with
  | none => simp [hg] at h
  | some j1 =>
    simp only [hg] at h
    cases hp : generation[j1]? with
    | none => simp [hp] at h
    | some q1 =>
      simp only [hp] at h
      generalize hsec : (if P.cloneParents = true then
          match grabChromosome RAND_MAX generation fuel (rand (k + 1)) with
          | none => none
          | some j => some (j, k + 2)
        else selectLoop RAND_MAX rand generation fuel j1 fuel (k + 1) j1) = sec at h
      cases sec with
      | none => simp at h
      | some s =>
        obtain ⟨j2, kk⟩ := s
        simp only at h
        cases hp2 : generation[j2]? with
        | none => simp [hp2] at h
        | some q2 =>
          simp only [hp2, Option.some.injEq, Prod.mk.injEq] at h
          obtain ⟨⟨rfl, rfl⟩, ⟨rfl, rfl⟩, _⟩ := h
          exact ⟨hp, hp2⟩

theorem mutateLoop_preserves {α : Type} (P : Population α) (RAND_MAX : Nat) (rand : Nat → Nat)
    (randFunction : ℚ → ℚ → Nat → Option α) :
    ∀ cnt i k (c c1 : Chromosome α) k1,
      mutateLoop P RAND_MAX rand randFunction cnt i k c = some (c1, k1) →
      c1.subGeneSizes = c.subGeneSizes ∧ c1.values.length = c.values.length ∧
        c1.fitness = c.fitness := by
  intro cnt
  induction cnt with
  | zero =>
    intro i k c c1 k1 h
    simp only [mutateLoop, Option.some.injEq, Prod.mk.injEq] at h
    obtain ⟨rfl, _⟩ := h
    exact ⟨rfl, rfl, rfl⟩
  | succ cnt ih =>
    intro i k c c1 k1 h
    unfold mutateLoop at h
    by_cases hu : randFloat RAND_MAX (rand k) < P.mutationRate
    · rw [if_pos hu] at h
      cases hv : randFunction P.minRandValue P.maxRandValue (rand (k + 1)) with
      | none => simp [hv] at h
      | some v =>
        simp only [hv] at h
        unfold Chromosome.mutate at h
        by_cases hi : i < c.values.length
        · rw [if_pos hi] at h
          simp only at h
          obtain ⟨h1, h2, h3⟩ := ih _ _ _ _ _ h
          simp only [List.length_set] at h2
          exact ⟨h1, h2, h3⟩
        · rw [if_neg hi] at h
          simp at h
    · rw [if_neg hu] at h
      exact ih _ _ _ _ _ h

theorem mutate_preserves {α : Type} {P : Population α} {RAND_MAX : Nat} {rand : Nat → Nat}
    {randFunction : ℚ → ℚ → Nat → Option α} {c c1 : Chromosome α} {k k1 : Nat}
    (h : mutate P RAND_MAX rand randFunction c k = some (c1, k1)) :
    c1.subGeneSizes = c.subGeneSizes ∧ c1.values.length = c.values.length ∧
      c1.fitness = c.fitness :=
  mutateLoop_preserves P RAND_MAX rand randFunction _ _ _ _ _ _ h

/-- A property that every baby of `crossOver` has and `mutate` keeps holds for every
chromosome of the generation that the loop of `createNewGeneration` returns, when it held
for the chromosomes the loop started from; the number of chromosomes is unchanged. -/
theorem generationLoop_forall {α : Type} (P : Population α) (RAND_MAX : Nat)
    (rand : Nat → Nat) (randFunction : ℚ → ℚ → Nat → Option α) (oldGen : List (Chromosome α))
    (bound fuel : Nat) (Q : Chromosome α → Prop)
    (hcross : ∀ k b1 b2 k1, crossOver P RAND_MAX rand oldGen fuel k = some (b1, b2, k1) →
      Q b1 ∧ Q b2)
    (hmut : ∀ c k c1 k1, Q c → mutate P RAND_MAX rand randFunction c k = some (c1, k1) → Q c1) :
    ∀ steps i k (newGen g : List (Chromosome α)) k1, (∀ c ∈ newGen, Q c) →
      generationLoop P RAND_MAX rand randFunction oldGen bound fuel steps i k newGen =
        some (g, k1) →
      g.length = newGen.length ∧ ∀ c ∈ g, Q c := by
  intro steps
  induction steps with
  | zero =>
    intro i k newGen g k1 hnew h
    unfold generationLoop at h
    by_cases hb : i < bound
    · rw [if_pos hb] at h; simp at h
    · rw [if_neg hb] at h
      simp only [Option.some.injEq, Prod.mk.injEq] at h
      obtain ⟨rfl, _⟩ := h
      exact ⟨rfl, hnew⟩
  | succ steps ih =>
    intro i k newGen g k1 hnew h
    unfold generationLoop at h
    by_cases hb : i < bound
    · rw [if_pos hb] at h
      by_cases hi : i + 1 < newGen.length
      · rw [if_pos hi] at h
        cases hc : crossOver P RAND_MAX rand oldGen fuel k with
        | none => simp [hc] at h
        | some r =>
          obtain ⟨b1, b2, kc⟩ := r
          simp only [hc] at h
          obtain ⟨hq1, hq2⟩ := hcross k b1 b2 kc hc
          cases hm1 : mutate P RAND_MAX rand randFunction b1 kc with
          | none => simp [hm1] at h
          | some r1 =>
            obtain ⟨m1, k2⟩ := r1
            simp only [hm1] at h
            cases hm2 : mutate P RAND_MAX rand randFunction b2 k2 with
            | none => simp [hm2] at h
            | some r2 =>
              obtain ⟨m2, k3⟩ := r2
              simp only [hm2] at h
              have hset : ∀ c ∈ (newGen.set i m1).set (i + 1) m2, Q c := by
                intro c hcm
                rcases List.mem_or_eq_of_mem_set hcm with h1 | rfl
                · rcases List.mem_or_eq_of_mem_set h1 with h2 | rfl
                  · exact hnew c h2
                  · exact hmut _ _ _ _ hq1 hm1
                · exact hmut _ _ _ _ hq2 hm2
              obtain ⟨hl, hall⟩ := ih _ _ _ _ _ hset h
              simp only [List.length_set] at hl
              exact ⟨hl, hall⟩
      · rw [if_neg hi] at h; simp at h
    · rw [if_neg hb] at h
      simp only [Option.some.injEq, Prod.mk.injEq] at h
      obtain ⟨rfl, _⟩ := h
      exact ⟨rfl, hnew⟩

theorem createNewGeneration_eq_some {α : Type} {P P1 : Population α} {RAND_MAX : Nat}
    {rand : Nat → Nat} {randFunction : ℚ → ℚ → Nat → Option α} {fuel k k1 : Nat}
    (h : createNewGeneration P RAND_MAX rand randFunction fuel k = some (P1, k1)) :
    ∃ og ng g, P.oldGeneration = some og ∧ P.newGeneration = some ng ∧
      generationLoop P RAND_MAX rand randFunction ng (sizeMinusOne og.length) fuel og.length 0
        k og = some (g, k1) ∧
      P1 = { P with oldGeneration := some ng, newGeneration := some g } := by
  unfold createNewGeneration at h
  cases ho : P.oldGeneration with
  | none => simp [ho] at h
  | some og =>
    cases hn : P.newGeneration with
    | none => simp [ho, hn] at h
    | some ng =>
      simp only [ho, hn] at h
      cases hl : generationLoop P RAND_MAX rand randFunction ng (sizeMinusOne og.length) fuel
          og.length 0 k og with
      | none => simp [hl] at h
      | some r =>
        obtain ⟨g, kk⟩ := r
        simp only [hl, Option.some.injEq, Prod.mk.injEq] at h
        obtain ⟨rfl, rfl⟩ := h
        exact ⟨og, ng, g, rfl, rfl, hl, rfl⟩

/-- With `equalCrossPoints` and parents that share the sub-gene list `L` and satisfy the
shape invariant, every outcome of `crossOver` gives babies with the list `L` and with as
many values as the parents. -/
theorem crossOver_equal_sizes {α : Type} {P : Population α} {RAND_MAX : Nat}
    {rand : Nat → Nat} {generation : List (Chromosome α)} {fuel k i1 i2 k1 k2 : Nat}
    {p1 p2 b1 b2 : Chromosome α} {L : List Int} (heq : P.equalCrossPoints = true)
    (hsel : selectParents P RAND_MAX rand generation fuel k = some ((i1, p1), (i2, p2), k1))
    (hL1 : p1.subGeneSizes = L) (hL2 : p2.subGeneSizes = L)
    (hs1 : p1.shapeInvariant) (hs2 : p2.shapeInvariant)
    (h : crossOver P RAND_MAX rand generation fuel k = some (b1, b2, k2)) :
    b1.subGeneSizes = L ∧ b2.subGeneSizes = L ∧
      b1.values.length = p1.values.length ∧ b2.values.length = p2.values.length ∧
      p1.values.length = p2.values.length := by
  have hlen : p1.values.length = p2.values.length := by
    unfold Chromosome.shapeInvariant at hs1 hs2
    rw [hL1] at hs1
    rw [hL2] at hs2
    have : (p1.values.length : Int) = (p2.values.length : Int) := by rw [← hs1, ← hs2]
    exact_mod_cast this
  obtain ⟨cp1, r1, cp2, r2, hcp, _, hcase⟩ := crossOver_outcome hsel h
  rcases hcase with ⟨_, hl1, hl2, _, _, rfl, rfl⟩ | ⟨_, rfl, rfl⟩
  · obtain ⟨_, _, _, _, _, _, hq, _⟩ := crossPoints_eq_some hcp
    obtain ⟨rfl, rfl⟩ := hq heq
    simp only [hL1, hL2, List.take_append_drop, List.length_append, List.length_take,
      List.length_drop, true_and]
    omega
  · exact ⟨hL1, hL2, rfl, rfl, hlen⟩

theorem mutateLoop_total {α : Type} (P : Population α) (RAND_MAX : Nat) (rand : Nat → Nat)
    (randFunction : ℚ → ℚ → Nat → Option α)
    (hrf : ∀ d, ∃ v, randFunction P.minRandValue P.maxRandValue d = some v) :
    ∀ cnt i k (c : Chromosome α), i + cnt ≤ c.values.length →
      ∃ c1 k1, mutateLoop P RAND_MAX rand randFunction cnt i k c = some (c1, k1) := by
  intro cnt
  induction cnt with
  | zero => intro i k c _; exact ⟨c, k, rfl⟩
  | succ cnt ih =>
    intro i k c hi
    unfold mutateLoop
    by_cases hu : randFloat RAND_MAX (rand k) < P.mutationRate
    · rw [if_pos hu]
      obtain ⟨v, hv⟩ := hrf (rand (k + 1))
      rw [hv]
      simp only
      unfold Chromosome.mutate
      rw [if_pos (by omega)]
      simp only
      apply ih
      simp only [List.length_set]
      omega
    · rw [if_neg hu]
      exact ih _ _ _ (by omega)

theorem mutate_total {α : Type} (P : Population α) (RAND_MAX : Nat) (rand : Nat → Nat)
    (randFunction : ℚ → ℚ → Nat → Option α)
    (hrf : ∀ d, ∃ v, randFunction P.minRandValue P.maxRandValue d = some v) (c : Chromosome α) (k : Nat) :
    ∃ c1 k1, mutate P RAND_MAX rand randFunction c k = some (c1, k1) :=
  mutateLoop_total P RAND_MAX rand randFunction hrf _ _ _ _ (by omega)

/-- With `cloneParents` enabled, non-negative fitnesses with one positive, and `rand()`
results within `RAND_MAX`, `selectParents` returns two chromosomes of the generation after
two draws. -/
theorem selectParents_clone_total {α : Type} {P : Population α} {RAND_MAX : Nat}
    {rand : Nat → Nat} {generation : List (Chromosome α)} {fuel : Nat}
    (hcl : P.cloneParents = true) (hr : validRand RAND_MAX rand)
    (hnn : ∀ c ∈ generation, 0 ≤ c.fitness) (hpos : ∃ c ∈ generation, 0 < c.fitness)
    (hf : generation.length ≤ fuel) (k : Nat) :
    ∃ i1 i2 p1 p2, selectParents P RAND_MAX rand generation fuel k =
        some ((i1, p1), (i2, p2), k + 2) ∧ p1 ∈ generation ∧ p2 ∈ generation := by
  obtain ⟨i1, hi1, hg1⟩ := @grabChromosome_some _ RAND_MAX _ hnn hpos _ (hr k)
  obtain ⟨i2, hi2, hg2⟩ := @grabChromosome_some _ RAND_MAX _ hnn hpos _ (hr (k + 1))
  refine ⟨i1, i2, generation[i1], generation[i2], ?_, List.getElem_mem _, List.getElem_mem _⟩
  unfold selectParents
  rw [hg1 fuel hf]
  simp only
  rw [List.getElem?_eq_getElem hi1]
  simp only [hcl, if_true]
  rw [hg2 fuel hf]
  simp only
  rw [List.getElem?_eq_getElem hi2]

theorem generationLoop_total {α : Type} (P : Population α) (RAND_MAX : Nat)
    (rand : Nat → Nat) (randFunction : ℚ → ℚ → Nat → Option α) (oldGen : List (Chromosome α))
    (fuel : Nat)
    (hcross : ∀ k, ∃ b1 b2 k1, crossOver P RAND_MAX rand oldGen fuel k = some (b1, b2, k1))
    (hrf : ∀ d, ∃ v, randFunction P.minRandValue P.maxRandValue d = some v) :
    ∀ steps i k (newGen : List (Chromosome α)), 1 ≤ newGen.length →
      newGen.length - 1 ≤ i + 2 * steps →
      ∃ g k1, generationLoop P RAND_MAX rand randFunction oldGen (newGen.length - 1) fuel
        steps i k newGen = some (g, k1) := by
  intro steps
  induction steps with
  | zero =>
    intro i k newGen _ hb
    unfold generationLoop
    rw [if_neg (by omega)]
    exact ⟨_, _, rfl⟩
  | succ steps ih =>
    intro i k newGen hl hb
    unfold generationLoop
    by_cases hi : i < newGen.length - 1
    · rw [if_pos hi, if_pos (by omega)]
      obtain ⟨b1, b2, kc, hc⟩ := hcross k
      rw [hc]
      simp only
      obtain ⟨m1, k2, hm1⟩ := mutate_total P RAND_MAX rand randFunction hrf b1 kc
      rw [hm1]
      simp only
      obtain ⟨m2, k3, hm2⟩ := mutate_total P RAND_MAX rand randFunction hrf b2 k2
      rw [hm2]
      simp only
      have hlen : ((newGen.set i m1).set (i + 1) m2).length = newGen.length := by
        simp only [List.length_set]
      have := ih (i + 2) k3 ((newGen.set i m1).set (i + 1) m2) (by omega) (by omega)
      rw [hlen] at this
      exact this
    · rw [if_neg hi]
      exact ⟨_, _, rfl⟩

/-- When every `crossOver` call on the previous generation returns and `randFunction` is
total, `createNewGeneration` returns on a non-empty current buffer. -/
theorem createNewGeneration_total {α : Type} (P : Population α) (RAND_MAX : Nat)
    (rand : Nat → Nat) (randFunction : ℚ → ℚ → Nat → Option α) (fuel k : Nat)
    (og ng : List (Chromosome α)) (ho : P.oldGeneration = some og)
    (hn : P.newGeneration = some ng) (hlen : 1 ≤ og.length)
    (hcross : ∀ k, ∃ b1 b2 k1, crossOver P RAND_MAX rand ng fuel k = some (b1, b2, k1))
    (hrf : ∀ d, ∃ v, randFunction P.minRandValue P.maxRandValue d = some v) :
    ∃ P1 k1, createNewGeneration P RAND_MAX rand randFunction fuel k = some (P1, k1) := by
  unfold createNewGeneration
  rw [ho, hn]
  simp only
  have hb : sizeMinusOne og.length = og.length - 1 := by
    unfold sizeMinusOne
    rw [if_neg (by omega)]
  rw [hb]
  obtain ⟨g, k1, hg⟩ := generationLoop_total P RAND_MAX rand randFunction ng fuel hcross hrf
    og.length 0 k og hlen (by omega)
  rw [hg]
  exact ⟨_, _, rfl⟩

theorem aligned_of_same_sizes {α : Type} {p1 p2 : Chromosome α}
    (h : p1.subGeneSizes = p2.subGeneSizes) : alignedBoundaries p1 p2 := by
  intro c _ _
  rw [h]

/-- In a generation whose chromosomes share the non-empty sub-gene list `L` and are well
formed, with `cloneParents` enabled, valid crosspoint ranges and usable fitnesses, every
`crossOver` call returns. -/
theorem crossOver_shared_total {α : Type} {P : Population α} {RAND_MAX : Nat}
    {rand : Nat → Nat} {generation : List (Chromosome α)} {fuel : Nat} {L : List Int}
    (hcl : P.cloneParents = true) (hr : validRand RAND_MAX rand)
    (hnn : ∀ c ∈ generation, 0 ≤ c.fitness) (hpos : ∃ c ∈ generation, 0 < c.fitness)
    (hf : generation.length ≤ fuel)
    (hL : ∀ c ∈ generation, c.subGeneSizes = L ∧ c.wellFormed)
    (hL1 : 1 ≤ L.length) (hL2 : (L.length : Int) ≤ INT_MAX)
    (hrange : ∀ j : Fin 2, 0 ≤ P.minCrossValue j ∧ P.minCrossValue j ≤ P.maxCrossValue j ∧
      P.maxCrossValue j ≤ 100) (k : Nat) :
    ∃ b1 b2 k1, crossOver P RAND_MAX rand generation fuel k = some (b1, b2, k1) := by
  obtain ⟨i1, i2, p1, p2, hsel, hp1, hp2⟩ := selectParents_clone_total hcl hr hnn hpos hf k
  obtain ⟨hs1, hw1⟩ := hL p1 hp1
  obtain ⟨hs2, hw2⟩ := hL p2 hp2
  have hready : crossReady P p1 p2 := by
    unfold crossReady
    rw [hs1, hs2]
    exact ⟨hL1, hL2, hL1, hL2, hrange⟩
  obtain ⟨b1, b2, h⟩ := crossOver_total hsel hready hw1 hw2
    (fun _ => ⟨aligned_of_same_sizes (hs1.trans hs2.symm), by rw [hs1, hs2]⟩)
  exact ⟨b1, b2, _, h⟩

theorem crossOver_select {α : Type} {P : Population α} {RAND_MAX : Nat} {rand : Nat → Nat}
    {generation : List (Chromosome α)} {fuel k k2 : Nat} {b1 b2 : Chromosome α}
    (h : crossOver P RAND_MAX rand generation fuel k = some (b1, b2, k2)) :
    ∃ i1 i2 k1 p1 p2,
      selectParents P RAND_MAX rand generation fuel k = some ((i1, p1), (i2, p2), k1) := by
  cases hs : selectParents P RAND_MAX rand generation fuel k with
  | none =>
    unfold crossOver at h
    rw [hs] at h
    simp at h
  | some r =>
    obtain ⟨⟨i1, p1⟩, ⟨i2, p2⟩, k1⟩ := r
    exact ⟨i1, i2, k1, p1, p2, rfl⟩

theorem shape_length {α : Type} {c1 c2 : Chromosome α} (h1 : c1.shapeInvariant)
    (h2 : c2.shapeInvariant) (h : c1.subGeneSizes = c2.subGeneSizes) :
    c1.values.length = c2.values.length := by
  unfold Chromosome.shapeInvariant at h1 h2
  rw [h] at h1
  have : (c1.values.length : Int) = (c2.values.length : Int) := by rw [← h1, ← h2]
  exact_mod_cast this

/-- With `equalCrossPoints`, when every chromosome of both buffers has the sub-gene list `L`
and satisfies the shape invariant, so does every chromosome of the generation that
`createNewGeneration` builds. -/
theorem createNewGeneration_shared {α : Type} {P P1 : Population α} {RAND_MAX : Nat}
    {rand : Nat → Nat} {randFunction : ℚ → ℚ → Nat → Option α} {fuel k k1 : Nat}
    {og ng : List (Chromosome α)} {L : List Int} (heq : P.equalCrossPoints = true)
    (ho : P.oldGeneration = some og) (hn : P.newGeneration = some ng)
    (hall : ∀ c ∈ og ++ ng, c.subGeneSizes = L ∧ c.shapeInvariant)
    (h : createNewGeneration P RAND_MAX rand randFunction fuel k = some (P1, k1)) :
    ∃ g, P1.newGeneration = some g ∧ P1.oldGeneration = some ng ∧ g.length = og.length ∧
      ∀ c ∈ g, c.subGeneSizes = L ∧ c.shapeInvariant := by
  obtain ⟨og1, ng1, g, ho1, hn1, hloop, rfl⟩ := createNewGeneration_eq_some h
  rw [ho] at ho1
  rw [hn] at hn1
  obtain rfl := Option.some.inj ho1
  obtain rfl := Option.some.inj hn1
  refine ⟨g, rfl, rfl, ?_⟩
  apply generationLoop_forall P RAND_MAX rand randFunction ng (sizeMinusOne og.length) fuel
    (fun c => c.subGeneSizes = L ∧ c.shapeInvariant) ?_ ?_ og.length 0 k og g k1 ?_ hloop
  · intro kk b1 b2 k2 hc
    obtain ⟨i1, i2, kc, p1, p2, hsel⟩ := crossOver_select hc
    obtain ⟨hm1, hm2⟩ := selectParents_mem hsel
    obtain ⟨hL1, hs1⟩ := hall p1 (List.mem_append_right _ (List.getElem?_mem hm1))
    obtain ⟨hL2, hs2⟩ := hall p2 (List.mem_append_right _ (List.getElem?_mem hm2))
    obtain ⟨hb1, hb2, hl1, hl2, _⟩ := crossOver_equal_sizes heq hsel hL1 hL2 hs1 hs2 hc
    refine ⟨⟨hb1, ?_⟩, ⟨hb2, ?_⟩⟩
    · unfold Chromosome.shapeInvariant at hs1 ⊢
      rw [hb1, hl1, ← hs1, hL1]
    · unfold Chromosome.shapeInvariant at hs2 ⊢
      rw [hb2, hl2, ← hs2, hL2]
  · intro c kk c1 k2 hq hm
    obtain ⟨h1, h2, _⟩ := mutate_preserves hm
    refine ⟨h1.trans hq.1, ?_⟩
    have := hq.2
    unfold Chromosome.shapeInvariant at this ⊢
    rw [h1, h2, this]
  · intro c hc
    exact hall c (List.mem_append_left _ hc)

theorem sharedPopulation_all :
    ∀ c ∈ [chromB, chromA], c.subGeneSizes = [2, 2] ∧ c.wellFormed := by
  intro c hc
  simp only [List.mem_cons, List.mem_singleton, List.not_mem_nil, or_false] at hc
  rcases hc with rfl | rfl
  · exact ⟨rfl, chromB_wellFormed⟩
  · exact ⟨rfl, chromA_wellFormed⟩

theorem genInt_randFunction_total (d : Nat) :
    ∃ v, GenInt.randFunction sharedPopulation.minRandValue sharedPopulation.maxRandValue d =
      some v := by
  have h0 : doubleToInt sharedPopulation.minRandValue = some 0 := by
    simp [sharedPopulation, defaultPopulation, doubleToInt, chkInt, INT_MIN, INT_MAX]
  have h9 : doubleToInt sharedPopulation.maxRandValue = some 9 := by
    simp [sharedPopulation, defaultPopulation, doubleToInt, chkInt, INT_MIN, INT_MAX]
  unfold GenInt.randFunction
  rw [h0, h9]
  exact randInt_total d (le_refl 0) (by norm_num) (by decide)

/-! ## Sub genes -/

theorem sum_drop_take_nonneg {l : List Int} (h : ∀ s ∈ l, (0 : Int) ≤ s) (i c : Nat) :
    0 ≤ ((l.drop i).take c).sum :=
  List.sum_nonneg fun s hs => h s (List.mem_of_mem_drop (List.mem_of_mem_take hs))

theorem startLoop_eq (sizes : List Int) (hnn : ∀ s ∈ sizes, (0 : Int) ≤ s) :
    ∀ (cnt i : Nat) (acc : Int), i + cnt ≤ sizes.length → 0 ≤ acc →
      acc + ((sizes.drop i).take cnt).sum ≤ INT_MAX →
      startLoop sizes cnt i acc = some (acc + ((sizes.drop i).take cnt).sum) := by
  intro cnt
  induction cnt with
  | zero => intro i acc _ _ _; simp [startLoop]
  | succ n ih =>
    intro i acc hi h0 hmax
    have hlt : i < sizes.length := by omega
    have hd : (sizes.drop i).take (n + 1) = sizes[i] :: (sizes.drop (i + 1)).take n := by
      rw [List.drop_eq_getElem_cons hlt, List.take_succ_cons]
    rw [hd, List.sum_cons] at hmax ⊢
    have hs : 0 ≤ sizes[i] := hnn _ (List.getElem_mem hlt)
    have hrest := sum_drop_take_nonneg hnn (i + 1) n
    unfold startLoop
    rw [List.getElem?_eq_getElem hlt]
    simp only
    rw [chkInt_of_range (by unfold INT_MIN; omega) (by omega)]
    simp only
    rw [ih (i + 1) (acc + sizes[i]) (by omega) (by omega) (by omega)]
    congr 1
    omega

/-- Method `getSubGene` on a chromosome with non-negative sub-gene sizes whose sub gene `k`
ends inside the value vector: the result is the slice of `sz` values that starts at the sum
of the first `k` sizes. -/
theorem getSubGene_eq {α : Type} (c : Chromosome α) (k : Nat) (sz : Int)
    (hnn : c.sizesNonneg) (hsz : c.subGeneSizes[k]? = some sz)
    (hb : (c.subGeneSizes.take k).sum + sz ≤ (c.values.length : Int))
    (hmax : (c.values.length : Int) ≤ INT_MAX) :
    c.getSubGene k =
      some ((c.values.drop (Int.toNat (c.subGeneSizes.take k).sum)).take (Int.toNat sz)) := by
  have hk : k < c.subGeneSizes.length := by
    by_contra hcon
    rw [List.getElem?_eq_none (by omega)] at hsz
    cases hsz
  have hs0 : 0 ≤ sz := hnn sz (List.getElem?_mem hsz)
  have ht0 : 0 ≤ (c.subGeneSizes.take k).sum := sum_take_nonneg hnn k
  have hstart := startLoop_eq c.subGeneSizes hnn k 0 0 (by omega) (le_refl _)
    (by rw [List.drop_zero]; omega)
  rw [List.drop_zero, zero_add] at hstart
  unfold Chromosome.getSubGene
  rw [hstart]
  simp only
  rw [hsz]
  simp only
  rw [chkInt_of_range (by unfold INT_MIN; omega) (by omega)]
  simp only
  have hI : INT_MAX < (UINT_MOD : Int) := by unfold INT_MAX UINT_MOD; norm_num
  rw [Int.emod_eq_of_lt ht0 (by omega), Int.emod_eq_of_lt (by omega) (by omega)]
  have hlast : Int.toNat ((c.subGeneSizes.take k).sum + sz) =
      Int.toNat (c.subGeneSizes.take k).sum + Int.toNat sz := Int.toNat_add ht0 hs0
  rw [hlast, Nat.add_sub_cancel_left, pushRange_eq]
  have hle : Int.toNat (c.subGeneSizes.take k).sum + Int.toNat sz ≤ c.values.length := by
    omega
  rw [if_pos (Or.inr hle), List.nil_append]

theorem take_succ_sum (l : List Int) (k : Nat) (sz : Int) (h : l[k]? = some sz) :
    (l.take (k + 1)).sum = (l.take k).sum + sz := by
  rw [List.take_succ, h]
  simp

/-- Sub gene `k` of a recombined chromosome, for `k` before the crosspoint: the slice is
the slice `k` of the parent that gives the head. -/
theorem slice_left {α : Type} (v1 w : List α) (s1 t : List Int) (cp1 r1 k : Nat) (sz : Int)
    (hnn : ∀ s ∈ s1, (0 : Int) ≤ s) (hr1 : (r1 : Int) = (s1.take cp1).sum)
    (hl1 : r1 ≤ v1.length) (hk : k < cp1) (hsz : s1[k]? = some sz) :
    (s1.take cp1 ++ t)[k]? = some sz ∧
    ((s1.take cp1 ++ t).take k).sum = (s1.take k).sum ∧
    ((v1.take r1 ++ w).drop (Int.toNat (s1.take k).sum)).take (Int.toNat sz) =
      (v1.drop (Int.toNat (s1.take k).sum)).take (Int.toNat sz) := by
  have hkl : k < s1.length := by
    by_contra hcon
    rw [List.getElem?_eq_none (by omega)] at hsz
    cases hsz
  have hlen : (s1.take cp1).length = min cp1 s1.length := List.length_take _ _
  have hklen : k < (s1.take cp1).length := by rw [hlen]; omega
  have hs0 : 0 ≤ sz := hnn sz (List.getElem?_mem hsz)
  have ht0 : 0 ≤ (s1.take k).sum := sum_take_nonneg hnn k
  have hnn2 : ∀ s ∈ s1.take cp1, (0 : Int) ≤ s := fun s hs => hnn s (List.mem_of_mem_take hs)
  have hpre : ((s1.take cp1).take (k + 1)).sum ≤ (s1.take cp1).sum := sum_take_le hnn2 (k + 1)
  rw [List.take_take, Nat.min_eq_left (by omega), take_succ_sum s1 k sz hsz] at hpre
  have hab : Int.toNat (s1.take k).sum + Int.toNat sz ≤ r1 := by omega
  refine ⟨?_, ?_, ?_⟩
  · rw [List.getElem?_append_left hklen, List.getElem?_take_of_lt hk, hsz]
  · rw [List.take_append_of_le_length (by omega), List.take_take, Nat.min_eq_left (by omega)]
  · have hlv : (v1.take r1).length = r1 := by rw [List.length_take]; omega
    rw [List.drop_append_of_le_length (by omega),
      List.take_append_of_le_length (by rw [List.length_drop]; omega),
      List.drop_take, List.take_take, Nat.min_eq_left (by omega)]

/-- Sub gene `k` of a recombined chromosome, for `k` from the crosspoint on: the slice is
the slice `k - cp1 + cp2` of the parent that gives the tail. -/
theorem slice_right {α : Type} (v1 v2 : List α) (s1 s2 : List Int) (cp1 r1 cp2 r2 k : Nat)
    (sz : Int) (hnn2 : ∀ s ∈ s2, (0 : Int) ≤ s)
    (hr1 : (r1 : Int) = (s1.take cp1).sum) (hr2 : (r2 : Int) = (s2.take cp2).sum)
    (hc1 : cp1 ≤ s1.length) (hl1 : r1 ≤ v1.length)
    (hk : cp1 ≤ k) (hsz : (s1.take cp1 ++ s2.drop cp2)[k]? = some sz) :
    s2[k - cp1 + cp2]? = some sz ∧
    ((v1.take r1 ++ v2.drop r2).drop
        (Int.toNat ((s1.take cp1 ++ s2.drop cp2).take k).sum)).take (Int.toNat sz) =
      (v2.drop (Int.toNat (s2.take (k - cp1 + cp2)).sum)).take (Int.toNat sz) := by
  have hlen : (s1.take cp1).length = cp1 := by rw [List.length_take]; omega
  have hlv : (v1.take r1).length = r1 := by rw [List.length_take]; omega
  have hget : s2[k - cp1 + cp2]? = some sz := by
    rw [List.getElem?_append_right (by omega), hlen, List.getElem?_drop] at hsz
    rw [← hsz]
    congr 1
    omega
  have ht0 : 0 ≤ ((s2.drop cp2).take (k - cp1)).sum := sum_drop_take_nonneg hnn2 cp2 (k - cp1)
  have hsum1 : ((s1.take cp1 ++ s2.drop cp2).take k).sum =
      (r1 : Int) + ((s2.drop cp2).take (k - cp1)).sum := by
    rw [List.take_append_eq_append_take, hlen, List.take_take, Nat.min_eq_right hk,
      List.sum_append, hr1]
  have hsplit : s2.take (k - cp1 + cp2) = s2.take cp2 ++ (s2.drop cp2).take (k - cp1) := by
    rw [Nat.add_comm, List.take_add]
  have hsum2 : (s2.take (k - cp1 + cp2)).sum =
      (r2 : Int) + ((s2.drop cp2).take (k - cp1)).sum := by
    rw [hsplit, List.sum_append, hr2]
  refine ⟨hget, ?_⟩
  rw [hsum1, hsum2]
  have e1 : Int.toNat ((r1 : Int) + ((s2.drop cp2).take (k - cp1)).sum) =
      r1 + Int.toNat ((s2.drop cp2).take (k - cp1)).sum := by omega
  have e2 : Int.toNat ((r2 : Int) + ((s2.drop cp2).take (k - cp1)).sum) =
      r2 + Int.toNat ((s2.drop cp2).take (k - cp1)).sum := by omega
  rw [e1, e2, List.drop_append_eq_append_drop, hlv]
  have hz : (v1.take r1).drop (r1 + Int.toNat ((s2.drop cp2).take (k - cp1)).sum) = [] :=
    List.drop_eq_nil_of_le (by omega)
  rw [hz, List.nil_append, Nat.add_sub_cancel_left, List.drop_drop]

/-- Every sub gene of a well-formed chromosome with at most `INT_MAX` values is returned by
`getSubGene` as the slice between its boundaries. -/
theorem wellFormed_getSubGene {α : Type} {p : Chromosome α} (hw : p.wellFormed)
    (hmax : (p.values.length : Int) ≤ INT_MAX) (k : Nat) (sz : Int)
    (hsz : p.subGeneSizes[k]? = some sz) :
    p.getSubGene k =
      some ((p.values.drop (Int.toNat (p.subGeneSizes.take k).sum)).take (Int.toNat sz)) := by
  apply getSubGene_eq p k sz hw.1 hsz _ hmax
  rw [← take_succ_sum p.subGeneSizes k sz hsz]
  exact wellFormed_take_le hw (k + 1)

theorem getElem?_lt_length {β : Type} {l : List β} {k : Nat} {x : β} (h : l[k]? = some x) :
    k < l.length := by
  by_contra hcon
  rw [List.getElem?_eq_none (by omega)] at h
  cases h

/-- Every sub gene of the chromosome recombined from the head of `pA` and the tail of `pB`
at crosspoints on the boundaries of both is, as a whole, a sub gene of `pA` or of `pB`. -/
theorem recombined_subGenes {α : Type} {pA pB : Chromosome α} {cpA rA cpB rB : Nat} (f : ℚ)
    (hwA : pA.wellFormed) (hwB : pB.wellFormed)
    (hmax : (pA.values.length : Int) + (pB.values.length : Int) ≤ INT_MAX)
    (hrA : (rA : Int) = (pA.subGeneSizes.take cpA).sum)
    (hrB : (rB : Int) = (pB.subGeneSizes.take cpB).sum)
    (hcA : cpA ≤ pA.subGeneSizes.length)
    (k : Nat) (hk : k < (pA.subGeneSizes.take cpA ++ pB.subGeneSizes.drop cpB).length) :
    ∃ g, Chromosome.getSubGene
        ({ values := pA.values.take rA ++ pB.values.drop rB,
           subGeneSizes := pA.subGeneSizes.take cpA ++ pB.subGeneSizes.drop cpB,
           fitness := f } : Chromosome α) k = some g ∧
      ((∃ j, j < pA.subGeneSizes.length ∧ pA.getSubGene j = some g) ∨
       (∃ j, j < pB.subGeneSizes.length ∧ pB.getSubGene j = some g)) := by
  have hlA : rA ≤ pA.values.length := by
    have := wellFormed_take_le hwA cpA
    omega
  have hlB : rB ≤ pB.values.length := by
    have := wellFormed_take_le hwB cpB
    omega
  have hshape := recombined_shape hwB.2.1 hrA hrB hlA hlB
  have hnnC : ∀ s ∈ pA.subGeneSizes.take cpA ++ pB.subGeneSizes.drop cpB, (0 : Int) ≤ s := by
    intro s hs
    rcases List.mem_append.mp hs with h1 | h2
    · exact hwA.1 s (List.mem_of_mem_take h1)
    · exact hwB.1 s (List.mem_of_mem_drop h2)
  have hlenC : ((pA.values.take rA ++ pB.values.drop rB).length : Int) ≤ INT_MAX := by
    rw [List.length_append, List.length_take, List.length_drop, Nat.min_eq_left hlA]
    push_cast [Nat.cast_sub hlB]
    omega
  obtain ⟨sz, hsz⟩ : ∃ sz, (pA.subGeneSizes.take cpA ++ pB.subGeneSizes.drop cpB)[k]? =
      some sz := ⟨_, List.getElem?_eq_getElem hk⟩
  have hbC : ((pA.subGeneSizes.take cpA ++ pB.subGeneSizes.drop cpB).take k).sum + sz ≤
      ((pA.values.take rA ++ pB.values.drop rB).length : Int) := by
    rw [← take_succ_sum _ k sz hsz, ← hshape]
    exact sum_take_le hnnC (k + 1)
  have hget := getSubGene_eq
    ({ values := pA.values.take rA ++ pB.values.drop rB,
       subGeneSizes := pA.subGeneSizes.take cpA ++ pB.subGeneSizes.drop cpB,
       fitness := f } : Chromosome α) k sz hnnC hsz hbC hlenC
  refine ⟨_, hget, ?_⟩
  have hmA : (pA.values.length : Int) ≤ INT_MAX := by omega
  have hmB : (pB.values.length : Int) ≤ INT_MAX := by omega
  by_cases hkc : k < cpA
  · left
    have hszA : pA.subGeneSizes[k]? = some sz := by
      rw [List.getElem?_append_left (by rw [List.length_take]; omega),
        List.getElem?_take_of_lt hkc] at hsz
      exact hsz
    obtain ⟨_, hsum, hslice⟩ := slice_left pA.values (pB.values.drop rB) pA.subGeneSizes
      (pB.subGeneSizes.drop cpB) cpA rA k sz hwA.1 hrA hlA hkc hszA
    refine ⟨k, getElem?_lt_length hszA, ?_⟩
    rw [wellFormed_getSubGene hwA hmA k sz hszA]
    simp only
    rw [hsum, hslice]
  · right
    obtain ⟨hszB, hslice⟩ := slice_right pA.values pB.values pA.subGeneSizes pB.subGeneSizes
      cpA rA cpB rB k sz hwB.1 hrA hrB hcA hlA (by omega) hsz
    refine ⟨k - cpA + cpB, getElem?_lt_length hszB, ?_⟩
    rw [wellFormed_getSubGene hwB hmB (k - cpA + cpB) sz hszB]
    simp only
    rw [hslice]

/-- Sub-gene integrity of an outcome of `crossOver`, for well-formed parents with aligned
boundaries under `equalCrossPoints`. -/
theorem crossOver_subGenes {α : Type} {P : Population α} {RAND_MAX : Nat} {rand : Nat → Nat}
    {generation : List (Chromosome α)} {fuel k i1 i2 k1 k2 : Nat} {p1 p2 b1 b2 : Chromosome α}
    (hsel : selectParents P RAND_MAX rand generation fuel k = some ((i1, p1), (i2, p2), k1))
    (hw1 : p1.wellFormed) (hw2 : p2.wellFormed)
    (hmax : (p1.values.length : Int) + (p2.values.length : Int) ≤ INT_MAX)
    (hal : P.equalCrossPoints = true → alignedBoundaries p1 p2)
    (h : crossOver P RAND_MAX rand generation fuel k = some (b1, b2, k2)) :
    ∀ b, (b = b1 ∨ b = b2) → ∀ j, j < b.subGeneSizes.length →
      ∃ g, b.getSubGene j = some g ∧
        ((∃ m, m < p1.subGeneSizes.length ∧ p1.getSubGene m = some g) ∨
         (∃ m, m < p2.subGeneSizes.length ∧ p2.getSubGene m = some g)) := by
  have hm1 : (p1.values.length : Int) ≤ INT_MAX := by omega
  have hm2 : (p2.values.length : Int) ≤ INT_MAX := by omega
  have hpar : ∀ (p : Chromosome α), p.wellFormed → (p.values.length : Int) ≤ INT_MAX →
      ∀ j, j < p.subGeneSizes.length → ∃ g, p.getSubGene j = some g ∧
        ∃ m, m < p.subGeneSizes.length ∧ p.getSubGene m = some g := by
    intro p hw hm j hj
    exact ⟨_, wellFormed_getSubGene hw hm j _ (List.getElem?_eq_getElem hj), j, hj,
      wellFormed_getSubGene hw hm j _ (List.getElem?_eq_getElem hj)⟩
  obtain ⟨cp1, r1, cp2, r2, hcp, _, hcase⟩ := crossOver_outcome hsel h
  rcases hcase with ⟨_, hl1, hl2, hc1, hc2, rfl, rfl⟩ | ⟨_, rfl, rfl⟩
  · obtain ⟨_, hr1, hr2⟩ := crossPoints_wf hcp hw1 hw2 hal
    intro b hb j hj
    rcases hb with rfl | rfl
    · exact recombined_subGenes 0 hw1 hw2 hmax hr1 (hr2 hc2) hc1 j hj
    · obtain ⟨g, hg, hor⟩ := recombined_subGenes 0 hw2 hw1 (by omega) (hr2 hc2) hr1 hc2 j hj
      exact ⟨g, hg, hor.symm⟩
  · intro b hb j hj
    rcases hb with rfl | rfl
    · obtain ⟨g, hg, hm⟩ := hpar _ hw1 hm1 j hj
      exact ⟨g, hg, Or.inl hm⟩
    · obtain ⟨g, hg, hm⟩ := hpar _ hw2 hm2 j hj
      exact ⟨g, hg, Or.inr hm⟩

theorem getSubGene_none {α : Type} (c : Chromosome α) (j : Nat)
    (h : c.subGeneSizes.length ≤ j) : c.getSubGene j = none := by
  unfold Chromosome.getSubGene
  cases startLoop c.subGeneSizes j 0 0 with
  | none => rfl
  | some s => simp [List.getElem?_eq_none h]

theorem mixed_subGene :
    Chromosome.getSubGene
      ({ values := [1, 6, 7, 8], subGeneSizes := [1, 2], fitness := 0 } : Chromosome Int) 1 =
      some [6, 7] := by
  simp [Chromosome.getSubGene, startLoop, chkInt, pushRange, INT_MIN, INT_MAX, UINT_MOD]

theorem chromC_subGenes (j : Nat) : chromC.getSubGene j ≠ some [6, 7] := by
  rcases Nat.lt_or_ge j 2 with h | h
  · interval_cases j <;>
      simp [Chromosome.getSubGene, startLoop, chkInt, pushRange, INT_MIN, INT_MAX, UINT_MOD,
        chromC]
  · rw [getSubGene_none chromC j (by simpa [chromC] using h)]
    simp

theorem chromB_subGenes (j : Nat) : chromB.getSubGene j ≠ some [6, 7] := by
  rcases Nat.lt_or_ge j 2 with h | h
  · interval_cases j <;>
      simp [Chromosome.getSubGene, startLoop, chkInt, pushRange, INT_MIN, INT_MAX, UINT_MOD,
        chromB]
  · rw [getSubGene_none chromB j (by simpa [chromB] using h)]
    simp

/-! ## The crosspoint of a chromosome of 59 sub genes at 50 percent -/

theorem crossPoint_of {n : Nat} {mn mx : ℚ} {r : Nat} {lo hi c : Int}
    (hlo : doubleToInt (crossBound n mn) = some lo)
    (hhi : doubleToInt (crossBound n mx) = some hi) (hr : randInt r lo hi = some c) :
    crossPoint n mn mx r = some (Int.toNat (c % (UINT_MOD : Int))) := by
  unfold crossPoint
  rw [hlo, hhi]
  simp only
  rw [hr]

theorem randInt_same (d : Nat) (c : Int) (h0 : 0 ≤ c) (h1 : c ≤ INT_MAX) :
    randInt d c c = some c := by
  have hI : INT_MAX = 2147483647 := rfl
  have hJ : INT_MIN = -2147483648 := rfl
  unfold randInt
  rw [sub_self, chkInt_of_range (by omega) (by omega)]
  simp only
  rw [chkInt_of_range (by omega) (by omega)]
  simp only
  rw [if_neg (by decide), zero_add, Int.tmod_one, zero_add, chkInt_of_range (by omega) h1]

theorem floor_59_50 : ⌊(8162774324609023 / 2 ^ 48 : ℚ)⌋ = 28 := by
  rw [Int.floor_eq_iff]; norm_num

theorem doubleToInt_59_50 : doubleToInt (crossBound 59 50) = some 28 := by
  rw [crossBound_59_50, doubleToInt_nonneg (by norm_num), floor_59_50]
  exact chkInt_of_range (by unfold INT_MIN; norm_num) (by unfold INT_MAX; norm_num)

/-- With 59 sub genes and the range `[50,50]` the crosspoint is 28 for every draw. -/
theorem crossPoint_59 (d : Nat) : crossPoint 59 50 50 d = some 28 := by
  have hmod : Int.toNat ((28 : Int) % (UINT_MOD : Int)) = 28 := by simp [UINT_MOD]
  rw [crossPoint_of doubleToInt_59_50 doubleToInt_59_50
    (randInt_same d 28 (by norm_num) (by unfold INT_MAX; norm_num)), hmod]

theorem crossPoints_of {α : Type} {P : Population α} {p1 p2 : Chromosome α}
    {d1 d2 c1 r1 c2 r2 : Nat}
    (h1 : crossPoint p1.subGeneSizes.length (P.minCrossValue 0) (P.maxCrossValue 0) d1 =
      some c1)
    (hs1 : sumLoop p1.subGeneSizes c1 0 0 = some r1)
    (h2 : crossPoint p2.subGeneSizes.length (P.minCrossValue 1) (P.maxCrossValue 1) d2 =
      some c2)
    (hs2 : sumLoop p2.subGeneSizes c2 0 0 = some r2) :
    crossPoints P p1 p2 d1 d2 =
      if P.equalCrossPoints then some (c1, r1, c1, r1) else some (c1, r1, c2, r2) := by
  unfold crossPoints
  rw [h1]
  simp only
  rw [hs1]
  simp only
  rw [h2]
  simp only
  rw [hs2]

theorem sumLoop_chromLong : sumLoop chromLong.subGeneSizes 28 0 0 = some 28 := by
  have hlen : chromLong.subGeneSizes.length = 59 := by simp [chromLong]
  rw [sumLoop_head, if_pos (by rw [hlen]; norm_num)]
  simp [chromLong, UINT_MOD]

theorem crossPoints_half (d1 d2 : Nat) :
    crossPoints halfPopulation chromLong chromLong d1 d2 = some (28, 28, 28, 28) := by
  have hlen : chromLong.subGeneSizes.length = 59 := by simp [chromLong]
  have h1 : crossPoint chromLong.subGeneSizes.length (halfPopulation.minCrossValue 0)
      (halfPopulation.maxCrossValue 0) d1 = some 28 := by
    rw [hlen]; exact crossPoint_59 d1
  have h2 : crossPoint chromLong.subGeneSizes.length (halfPopulation.minCrossValue 1)
      (halfPopulation.maxCrossValue 1) d2 = some 28 := by
    rw [hlen]; exact crossPoint_59 d2
  rw [crossPoints_of h1 sumLoop_chromLong h2 sumLoop_chromLong]
  rfl

/-- The range of one crosspoint: between the truncated computed bounds, which are within
one of the floors of the exact percentages, and at most `n - 1`. -/
theorem crossPoint_range_of {n : Nat} {mn mx : ℚ} {r cp : Nat} (hn : 1 ≤ n)
    (hn2 : (n : Int) ≤ INT_MAX) (h0 : 0 ≤ mn) (h1 : mn ≤ mx) (h2 : mx ≤ 100)
    (h : crossPoint n mn mx r = some cp) :
    ⌊crossBound n mn⌋ ≤ (cp : Int) ∧ (cp : Int) ≤ ⌊crossBound n mx⌋ ∧
      ⌊((n : ℚ) - 1) * mn / 100⌋ - 1 ≤ (cp : Int) ∧
      (cp : Int) ≤ ⌊((n : ℚ) - 1) * mx / 100⌋ + 1 ∧ cp ≤ n - 1 := by
  obtain ⟨ha, hb, hc⟩ := crossPoint_bounds hn hn2 h0 h1 h2 h
  have hI : INT_MAX = 2147483647 := rfl
  have hn3 : n ≤ 2 ^ 31 := by omega
  have hlo := (crossBound_floor_close hn hn3 h0 (le_trans h1 h2)).1
  have hhi := (crossBound_floor_close hn hn3 (le_trans h0 h1) h2).2
  exact ⟨ha, hb, by omega, by omega, hc⟩

theorem crossReady_half : crossReady halfPopulation chromLong chromLong := by
  have hlen : chromLong.subGeneSizes.length = 59 := by simp [chromLong]
  unfold crossReady
  rw [hlen]
  refine ⟨by norm_num, by decide, by norm_num, by decide, ?_⟩
  intro j
  simp only [halfPopulation]
  norm_num

/-! ## Selection among two chromosomes of fitness ratio 3 : 1 -/

theorem grabLoop_stop {α : Type} (generation : List (Chromosome α)) (r : ℚ) (fuel i : Nat)
    (t : ℚ) (h : r < t) : grabLoop generation r fuel i t = some i := by
  cases fuel with
  | zero => unfold grabLoop; rw [if_neg (not_le.mpr h)]
  | succ n => unfold grabLoop; rw [if_neg (not_le.mpr h)]

theorem grabLoop_step {α : Type} (generation : List (Chromosome α)) (r : ℚ) (fuel i j : Nat)
    (t : ℚ) (c : Chromosome α) (h : t ≤ r)
    (hj : j = if i + 1 ≥ generation.length then 0 else i + 1) (hc : generation[j]? = some c) :
    grabLoop generation r (fuel + 1) i t = grabLoop generation r fuel j (t + c.fitness) := by
  conv_lhs => unfold grabLoop
  rw [if_pos h]
  simp only
  rw [← hj, hc]

/-- The selection among two chromosomes of fitness `3f` and `f`: index 1 for a draw below
`1/4`, index 0 otherwise. -/
theorem grabChromosome_ratio {α : Type} (RAND_MAX : Nat) (c0 c1 : Chromosome α) (f : ℚ)
    (hf : 0 < f) (h0 : c0.fitness = 3 * f) (h1 : c1.fitness = f) (d : Nat)
    (hd : d ≤ RAND_MAX) (fuel : Nat) (hfuel : 2 ≤ fuel) :
    grabChromosome RAND_MAX [c0, c1] fuel d =
      some (if randFloat RAND_MAX d < 1 / 4 then 1 else 0) := by
  have hu0 := randFloat_nonneg RAND_MAX d
  have hu1 := randFloat_lt_one hd
  have htot : totalFitness [c0, c1] = 4 * f := by
    unfold totalFitness
    simp only [List.foldl_cons, List.foldl_nil, h0, h1]
    ring
  obtain ⟨n, rfl⟩ : ∃ n, fuel = n + 2 := ⟨fuel - 2, by omega⟩
  unfold grabChromosome
  rw [htot]
  generalize randFloat RAND_MAX d = u at hu0 hu1 ⊢
  have hr0 : (0 : ℚ) ≤ u * (4 * f) := by positivity
  rw [grabLoop_step [c0, c1] _ (n + 1) 0 1 0 c1 hr0 (by simp) (by simp), h1, zero_add]
  by_cases hq : u < 1 / 4
  · rw [if_pos hq]
    exact grabLoop_stop _ _ _ _ _ (by nlinarith)
  · rw [if_neg hq]
    have hle : f ≤ u * (4 * f) := by
      have : 1 / 4 ≤ u := not_lt.mp hq
      nlinarith
    rw [grabLoop_step [c0, c1] _ n 1 0 f c0 hle (by simp) (by simp), h0]
    exact grabLoop_stop _ _ _ _ _ (by nlinarith)

theorem randFloat_lt_quarter {RAND_MAX q : Nat} (h : RAND_MAX + 1 = 4 * q) (d : Nat) :
    randFloat RAND_MAX d < 1 / 4 ↔ d < q := by
  have hq : 0 < q := by omega
  have hq' : (0 : ℚ) < (q : ℚ) := by exact_mod_cast hq
  have hR : (RAND_MAX : ℚ) + 1 = 4 * (q : ℚ) := by exact_mod_cast h
  unfold randFloat
  rw [hR, div_lt_div_iff₀ (by positivity) (by norm_num)]
  constructor
  · intro hlt
    have : (d : ℚ) < (q : ℚ) := by linarith
    exact_mod_cast this
  · intro hlt
    have : (d : ℚ) < (q : ℚ) := by exact_mod_cast hlt
    linarith

/-- Of the `4q` equally spaced draws, `q` are below `1/4` and `3q` are not. -/
theorem quarter_count {RAND_MAX q : Nat} (h : RAND_MAX + 1 = 4 * q) :
    ((Finset.range (RAND_MAX + 1)).filter (fun d => randFloat RAND_MAX d < 1 / 4)).card = q ∧
    ((Finset.range (RAND_MAX + 1)).filter (fun d => ¬ randFloat RAND_MAX d < 1 / 4)).card =
      3 * q := by
  have h1 : (Finset.range (RAND_MAX + 1)).filter (fun d => randFloat RAND_MAX d < 1 / 4) =
      Finset.range q := by
    ext d
    simp only [Finset.mem_filter, Finset.mem_range, randFloat_lt_quarter h]
    omega
  have h2 := @Finset.filter_card_add_filter_neg_card_eq_card _ (Finset.range (RAND_MAX + 1))
    (fun d => randFloat RAND_MAX d < 1 / 4) _ _
  rw [h1, Finset.card_range, Finset.card_range] at h2
  rw [h1, Finset.card_range]
  exact ⟨rfl, by omega⟩

/-! ## Auxiliary lemmas: the choice of the parents -/

theorem selectLoop_ne {α : Type} (RAND_MAX : Nat) (rand : Nat → Nat)
    (generation : List (Chromosome α)) (gfuel iTmp1 : Nat) :
    ∀ fuel k iTmp2 j k1,
      selectLoop RAND_MAX rand generation gfuel iTmp1 fuel k iTmp2 = some (j, k1) →
      j ≠ iTmp1 := by
  intro fuel
  induction fuel with
  | zero =>
    intro k iTmp2 j k1 h
    unfold selectLoop at h
    by_cases he : iTmp2 = iTmp1
    · rw [if_pos he] at h; cases h
    · rw [if_neg he] at h
      simp only [Option.some.injEq, Prod.mk.injEq] at h
      rw [← h.1]; exact he
  | succ fuel ih =>
    intro k iTmp2 j k1 h
    unfold selectLoop at h
    by_cases he : iTmp2 = iTmp1
    · rw [if_pos he] at h
      cases hg : grabChromosome RAND_MAX generation gfuel (rand k) with
      | none => simp [hg] at h
      | some j2 =>
        simp only [hg] at h
        exact ih (k + 1) j2 j k1 h
    · rw [if_neg he] at h
      simp only [Option.some.injEq, Prod.mk.injEq] at h
      rw [← h.1]; exact he

/-- The outcome of `selectParents`, read off its definition. -/
theorem selectParents_eq_some {α : Type} {P : Population α} {RAND_MAX : Nat}
    {rand : Nat → Nat} {generation : List (Chromosome α)} {fuel k i1 i2 k1 : Nat}
    {p1 p2 : Chromosome α} :
    selectParents P RAND_MAX rand generation fuel k = some ((i1, p1), (i2, p2), k1) ↔
      grabChromosome RAND_MAX generation fuel (rand k) = some i1 ∧
      generation[i1]? = some p1 ∧
      (if P.cloneParents = true then
          match grabChromosome RAND_MAX generation fuel (rand (k + 1)) with
          | none => none
          | some j => some (j, k + 2)
        else selectLoop RAND_MAX rand generation fuel i1 fuel (k + 1) i1) = some (i2, k1) ∧
      generation[i2]? = some p2 := by
  unfold selectParents
  cases hg : grabChromosome RAND_MAX generation fuel (rand k) with
  | none => simp
  | some j1 =>
    simp only
    cases hp : generation[j1]? with
    | none =>
      constructor
      · intro h; cases h
      · rintro ⟨h1, h2, _, _⟩
        simp only [Option.some.injEq] at h1
        rw [← h1, hp] at h2
        cases h2
    | some q1 =>
      simp only
      generalize hsec : (if P.cloneParents = true then
          match grabChromosome RAND_MAX generation fuel (rand (k + 1)) with
          | none => none
          | some j => some (j, k + 2)
        else selectLoop RAND_MAX rand generation fuel j1 fuel (k + 1) j1) = sec
      cases sec with
      | none =>
        constructor
        · intro h; cases h
        · rintro ⟨h1, _, h3, _⟩
          simp only [Option.some.injEq] at h1
          rw [← h1, hsec] at h3
          cases h3
      | some s =>
        obtain ⟨j2, kk⟩ := s
        simp only
        cases hp2 : generation[j2]? with
        | none =>
          constructor
          · intro h; cases h
          · rintro ⟨h1, _, h3, h4⟩
            simp only [Option.some.injEq] at h1
            rw [← h1, hsec] at h3
            simp only [Option.some.injEq, Prod.mk.injEq] at h3
            rw [← h3.1, hp2] at h4
            cases h4
        | some q2 =>
          simp only [Option.some.injEq, Prod.mk.injEq]
          constructor
          · rintro ⟨⟨rfl, rfl⟩, ⟨rfl, rfl⟩, rfl⟩
            exact ⟨rfl, hp, hsec, hp2⟩
          · rintro ⟨rfl, h2, h3, h4⟩
            rw [hp] at h2
            rw [hsec] at h3
            simp only [Option.some.injEq, Prod.mk.injEq] at h2 h3
            obtain ⟨rfl, rfl⟩ := h3
            rw [hp2] at h4
            simp only [Option.some.injEq] at h4
            exact ⟨⟨rfl, h2⟩, ⟨rfl, h4⟩, rfl⟩

theorem selectParents_distinct_of {α : Type} {P : Population α} {RAND_MAX : Nat}
    {rand : Nat → Nat} {generation : List (Chromosome α)} {fuel k i1 i2 k1 : Nat}
    {p1 p2 : Chromosome α} (hcl : P.cloneParents = false)
    (h : selectParents P RAND_MAX rand generation fuel k = some ((i1, p1), (i2, p2), k1)) :
    i2 ≠ i1 := by
  obtain ⟨_, _, h3, _⟩ := selectParents_eq_some.mp h
  rw [hcl] at h3
  simp only [Bool.false_eq_true, if_false] at h3
  exact selectLoop_ne RAND_MAX rand generation fuel i1 fuel (k + 1) i1 i2 k1 h3

/-- Without `cloneParents`, a first resampled index that differs ends the loop. -/
theorem selectParents_resample {α : Type} {P : Population α} {RAND_MAX : Nat}
    {rand : Nat → Nat} {generation : List (Chromosome α)} {fuel k i1 i2 : Nat}
    {p1 p2 : Chromosome α} (hcl : P.cloneParents = false) (hfuel : 1 ≤ fuel)
    (h1 : grabChromosome RAND_MAX generation fuel (rand k) = some i1)
    (hp1 : generation[i1]? = some p1)
    (h2 : grabChromosome RAND_MAX generation fuel (rand (k + 1)) = some i2)
    (hp2 : generation[i2]? = some p2) (hne : i2 ≠ i1) :
    selectParents P RAND_MAX rand generation fuel k = some ((i1, p1), (i2, p2), k + 2) := by
  rw [selectParents_eq_some]
  refine ⟨h1, hp1, ?_, hp2⟩
  rw [hcl]
  simp only [Bool.false_eq_true, if_false]
  obtain ⟨n, rfl⟩ : ∃ n, fuel = n + 1 := ⟨fuel - 1, by omega⟩
  conv_lhs => unfold selectLoop
  rw [if_pos rfl, h2]
  simp only
  cases n with
  | zero => unfold selectLoop; rw [if_neg hne]
  | succ m => unfold selectLoop; rw [if_neg hne]

theorem selectParents_clone_iff {α : Type} {P : Population α} {RAND_MAX : Nat}
    {rand : Nat → Nat} {generation : List (Chromosome α)} {fuel k i1 i2 k1 : Nat}
    {p1 p2 : Chromosome α} (hcl : P.cloneParents = true) :
    selectParents P RAND_MAX rand generation fuel k = some ((i1, p1), (i2, p2), k1) ↔
      grabChromosome RAND_MAX generation fuel (rand k) = some i1 ∧
      generation[i1]? = some p1 ∧
      grabChromosome RAND_MAX generation fuel (rand (k + 1)) = some i2 ∧
      generation[i2]? = some p2 ∧ k1 = k + 2 := by
  rw [selectParents_eq_some, hcl]
  simp only [if_true]
  cases hg : grabChromosome RAND_MAX generation fuel (rand (k + 1)) with
  | none => simp
  | some j =>
    simp only [Option.some.injEq, Prod.mk.injEq]
    constructor
    · rintro ⟨h1, h2, ⟨rfl, rfl⟩, h4⟩
      exact ⟨h1, h2, rfl, h4, rfl⟩
    · rintro ⟨h1, h2, rfl, h4, rfl⟩
      exact ⟨h1, h2, ⟨rfl, rfl⟩, h4⟩

theorem select_distinct_randA :
    selectParents distinctPopulation 32767 randA [chromA, chromB] 2 0 =
      some ((1, chromB), (0, chromA), 2) := by
  have h1 : grabChromosome 32767 [chromA, chromB] 2 (randA 0) = some 1 := by
    simp [grabChromosome, grabLoop, totalFitness, randFloat, randA, chromA, chromB]
  have h2 : grabChromosome 32767 [chromA, chromB] 2 (randA (0 + 1)) = some 0 := by
    simp [grabChromosome, grabLoop, totalFitness, randFloat, randA, chromA, chromB]
    norm_num
  exact selectParents_resample rfl (le_of_lt (by norm_num)) h1 rfl h2 rfl (by norm_num)

/-! ## Auxiliary lemmas: the frame of mutation -/

theorem mutateCursor_shift {α : Type} (P : Population α) (RAND_MAX : Nat) (rand : Nat → Nat)
    (k : Nat) : ∀ n, mutateCursor P RAND_MAX rand k (n + 1) =
      mutateCursor P RAND_MAX rand
        (if randFloat RAND_MAX (rand k) < P.mutationRate then k + 2 else k + 1) n := by
  intro n
  induction n with
  | zero => simp [mutateCursor]
  | succ n ih =>
    conv_lhs => unfold mutateCursor
    rw [ih]
    conv_rhs => unfold mutateCursor

theorem mutate_set_getElem? {α : Type} {c c1 : Chromosome α} {i : Nat} {v : α}
    (h : c.mutate i v = some c1) :
    c1.values.length = c.values.length ∧ ∀ j, j ≠ i → c1.values[j]? = c.values[j]? := by
  unfold Chromosome.mutate at h
  by_cases hi : i < c.values.length
  · rw [if_pos hi] at h
    simp only [Option.some.injEq] at h
    subst h
    refine ⟨by simp, fun j hj => ?_⟩
    simp only
    rw [List.getElem?_set_ne (Ne.symm hj)]
  · rw [if_neg hi] at h; cases h

/-- The loop of `mutate` leaves every position outside its range unchanged, and every
position of its range whose draw is not below the mutation rate; it ends at the cursor
given by `mutateCursor`. -/
theorem mutateLoop_frame {α : Type} (P : Population α) (RAND_MAX : Nat) (rand : Nat → Nat)
    (randFunction : ℚ → ℚ → Nat → Option α) :
    ∀ cnt i k (c c1 : Chromosome α) k1,
      mutateLoop P RAND_MAX rand randFunction cnt i k c = some (c1, k1) →
      k1 = mutateCursor P RAND_MAX rand k cnt ∧
      ∀ j, (j < i ∨ i + cnt ≤ j ∨ (i ≤ j ∧
          P.mutationRate ≤ randFloat RAND_MAX (rand (mutateCursor P RAND_MAX rand k (j - i))))) →
        c1.values[j]? = c.values[j]? := by
  intro cnt
  induction cnt with
  | zero =>
    intro i k c c1 k1 h
    unfold mutateLoop at h
    simp only [Option.some.injEq, Prod.mk.injEq] at h
    obtain ⟨rfl, rfl⟩ := h
    exact ⟨rfl, fun _ _ => rfl⟩
  | succ n ih =>
    intro i k c c1 k1 h
    unfold mutateLoop at h
    by_cases hu : randFloat RAND_MAX (rand k) < P.mutationRate
    · rw [if_pos hu] at h
      cases hv : randFunction P.minRandValue P.maxRandValue (rand (k + 1)) with
      | none => simp [hv] at h
      | some v =>
        simp only [hv] at h
        cases hm : c.mutate i v with
        | none => simp [hm] at h
        | some c2 =>
          simp only [hm] at h
          obtain ⟨hk, hfr⟩ := ih (i + 1) (k + 2) c2 c1 k1 h
          obtain ⟨_, hset⟩ := mutate_set_getElem? hm
          have hshift := mutateCursor_shift P RAND_MAX rand k
          simp only [if_pos hu] at hshift
          refine ⟨by rw [hk, hshift], fun j hj => ?_⟩
          have hne : j ≠ i := by
            rintro rfl
            rcases hj with h1 | h1 | ⟨_, h1⟩
            · omega
            · omega
            · rw [Nat.sub_self] at h1
              exact absurd hu (not_lt.mpr h1)
          rw [← hset j hne]
          apply hfr
          rcases hj with h1 | h1 | ⟨h1, h2⟩
          · left; omega
          · right; left; omega
          · right; right
            have hji : j - i = (j - (i + 1)) + 1 := by omega
            rw [hji, hshift] at h2
            exact ⟨by omega, h2⟩
    · rw [if_neg hu] at h
      obtain ⟨hk, hfr⟩ := ih (i + 1) (k + 1) c c1 k1 h
      have hshift := mutateCursor_shift P RAND_MAX rand k
      simp only [if_neg hu] at hshift
      refine ⟨by rw [hk, hshift], fun j hj => ?_⟩
      by_cases hji : j = i
      · subst hji
        exact hfr j (Or.inl (by omega))
      · apply hfr
        rcases hj with h1 | h1 | ⟨h1, h2⟩
        · left; omega
        · right; left; omega
        · right; right
          have hji2 : j - i = (j - (i + 1)) + 1 := by omega
          rw [hji2, hshift] at h2
          exact ⟨by omega, h2⟩

theorem mutateLoop_rate_zero {α : Type} (P : Population α) (RAND_MAX : Nat) (rand : Nat → Nat)
    (randFunction : ℚ → ℚ → Nat → Option α) (h0 : P.mutationRate ≤ 0) :
    ∀ cnt i k (c : Chromosome α),
      mutateLoop P RAND_MAX rand randFunction cnt i k c = some (c, k + cnt) := by
  intro cnt
  induction cnt with
  | zero => intro i k c; unfold mutateLoop; rfl
  | succ n ih =>
    intro i k c
    have hu : ¬ randFloat RAND_MAX (rand k) < P.mutationRate :=
      not_lt.mpr (le_trans h0 (randFloat_nonneg RAND_MAX (rand k)))
    unfold mutateLoop
    rw [if_neg hu, ih (i + 1) (k + 1) c]
    congr 2
    omega

/-! ## Auxiliary lemmas: initialisation -/

theorem initializeChromosomes_length {α : Type} (rand : Nat → Nat)
    (randFunction : ℚ → ℚ → Nat → Option α) (fuel : Nat)
    (minCSize maxCSize minSubSize maxSubSize : Nat) (minRand maxRand : ℚ) :
    ∀ (l g : List (Chromosome α)) (k k1 : Nat),
      initializeChromosomes rand randFunction fuel minCSize maxCSize minSubSize maxSubSize
        minRand maxRand l k = some (g, k1) → g.length = l.length := by
  intro l
  induction l with
  | nil =>
    intro g k k1 h
    unfold initializeChromosomes at h
    simp only [Option.some.injEq, Prod.mk.injEq] at h
    rw [← h.1]
  | cons c rest ih =>
    intro g k k1 h
    unfold initializeChromosomes at h
    cases h1 : c.initializeChromosome rand randFunction fuel minCSize maxCSize minSubSize
        maxSubSize minRand maxRand k with
    | none => simp [h1] at h
    | some r1 =>
      obtain ⟨c1, k2⟩ := r1
      simp only [h1] at h
      cases h2 : initializeChromosomes rand randFunction fuel minCSize maxCSize minSubSize
          maxSubSize minRand maxRand rest k2 with
      | none => simp [h2] at h
      | some r2 =>
        obtain ⟨rest1, k3⟩ := r2
        simp only [h2, Option.some.injEq, Prod.mk.injEq] at h
        rw [← h.1, List.length_cons, List.length_cons, ih rest1 k2 k3 h2]

theorem generationClass_new_length {α : Type} (n : Nat) :
    (GenerationClass.new n : List (Chromosome α)).length = n := by
  unfold GenerationClass.new
  simp

/-- The two `assert`s of `initialize`: the call fails one of them exactly when the
generation size is odd or the population is initialised already. -/
theorem initializePopulation_assertFailed {α : Type} (P : Population α) (rand : Nat → Nat)
    (randFunction : ℚ → ℚ → Nat → Option α) (now : Int) (fuel : Nat)
    (generationSize minCSize maxCSize minSubSize maxSubSize : Nat) (minRand maxRand : ℚ) :
    initializePopulation P rand randFunction now fuel generationSize minCSize maxCSize
        minSubSize maxSubSize minRand maxRand = Checked.assertFailed ↔
      generationSize % 2 ≠ 0 ∨ P.initialized = true := by
  unfold initializePopulation
  by_cases h1 : generationSize % 2 ≠ 0
  · rw [if_pos h1]; simp [h1]
  · rw [if_neg h1]
    by_cases h2 : P.initialized = true
    · rw [if_pos h2]; simp [h2]
    · rw [if_neg h2]
      cases initializeChromosomes rand randFunction fuel minCSize maxCSize minSubSize
        maxSubSize minRand maxRand (GenerationClass.new generationSize) 0 with
      | none => simp [h1, h2]
      | some r => simp [h1, h2]

/-- What a call of `initialize` that returns leaves: the flag is set, both generations
hold `generationSize` chromosomes, and the defaults are in place. -/
theorem initializePopulation_returned {α : Type} {P P1 : Population α} {rand : Nat → Nat}
    {randFunction : ℚ → ℚ → Nat → Option α} {now : Int} {fuel : Nat}
    {generationSize minCSize maxCSize minSubSize maxSubSize : Nat} {minRand maxRand : ℚ}
    {k1 : Nat}
    (h : initializePopulation P rand randFunction now fuel generationSize minCSize maxCSize
      minSubSize maxSubSize minRand maxRand = Checked.returned (P1, k1)) :
    generationSize % 2 = 0 ∧ P.initialized = false ∧ P1.initialized = true ∧
    P1.cloneParents = true ∧
    ∃ g, initializeChromosomes rand randFunction fuel minCSize maxCSize minSubSize
        maxSubSize minRand maxRand (GenerationClass.new generationSize) 0 = some (g, k1) ∧
      P1.newGeneration = some g ∧ g.length = generationSize ∧
      P1.oldGeneration = some (GenerationClass.new generationSize) := by
  unfold initializePopulation at h
  by_cases h1 : generationSize % 2 ≠ 0
  · rw [if_pos h1] at h; cases h
  · rw [if_neg h1] at h
    by_cases h2 : P.initialized = true
    · rw [if_pos h2] at h; cases h
    · rw [if_neg h2] at h
      cases hg : initializeChromosomes rand randFunction fuel minCSize maxCSize minSubSize
        maxSubSize minRand maxRand (GenerationClass.new generationSize) 0 with
      | none => rw [hg] at h; cases h
      | some r =>
        obtain ⟨g, k2⟩ := r
        rw [hg] at h
        simp only [Checked.returned.injEq, Prod.mk.injEq] at h
        obtain ⟨rfl, rfl⟩ := h
        have hlen := initializeChromosomes_length _ _ _ _ _ _ _ _ _ _ _ _ _ hg
        rw [generationClass_new_length] at hlen
        exact ⟨by omega, by simpa using h2, rfl, rfl, g, rfl, rfl, hlen, rfl⟩

/-- Once the two `assert`s hold, `initialize` returns whenever the random initialisation of
the chromosomes does. -/
theorem initializePopulation_of_chromosomes {α : Type} (P : Population α) {rand : Nat → Nat}
    {randFunction : ℚ → ℚ → Nat → Option α} (now : Int) {fuel : Nat}
    {generationSize minCSize maxCSize minSubSize maxSubSize : Nat} {minRand maxRand : ℚ}
    {g : List (Chromosome α)} {k1 : Nat}
    (heven : generationSize % 2 = 0) (hinit : P.initialized = false)
    (hg : initializeChromosomes rand randFunction fuel minCSize maxCSize minSubSize
        maxSubSize minRand maxRand (GenerationClass.new generationSize) 0 = some (g, k1)) :
    ∃ P1, initializePopulation P rand randFunction now fuel generationSize minCSize maxCSize
      minSubSize maxSubSize minRand maxRand = Checked.returned (P1, k1) := by
  unfold initializePopulation
  rw [if_neg (by omega), if_neg (by simp [hinit]), hg]
  exact ⟨_, rfl⟩

theorem uintToInt_small {n : Nat} (h : n < 2147483648) : uintToInt n = (n : Int) := by
  unfold uintToInt UINT_MOD
  rw [Nat.mod_eq_of_lt (by omega), if_pos h]

theorem intToUint_natCast {n : Nat} (h : n < UINT_MOD) : intToUint (n : Int) = n := by
  unfold intToUint
  rw [Int.emod_eq_of_lt (by omega) (by exact_mod_cast h)]
  simp

theorem subGeneSizeLoop_total (rand : Nat → Nat) (chromosomeSize minSubSize maxSubSize : Nat)
    (hS1 : 1 ≤ minSubSize) (hS : minSubSize ≤ maxSubSize) (hSmax : maxSubSize < 2147483647)
    (hC : chromosomeSize < 2147483648) :
    ∀ fuel tmpSize k sizes, chromosomeSize ≤ tmpSize + fuel →
      tmpSize < chromosomeSize + maxSubSize →
      ∃ sizes1 t k1, subGeneSizeLoop rand chromosomeSize minSubSize maxSubSize fuel tmpSize k
        sizes = some (sizes1, t, k1) := by
  have hI : INT_MAX = 2147483647 := rfl
  have hU : UINT_MOD = 4294967296 := rfl
  intro fuel
  induction fuel with
  | zero =>
    intro tmpSize k sizes h1 _
    unfold subGeneSizeLoop
    rw [if_neg (by omega)]
    exact ⟨_, _, _, rfl⟩
  | succ n ih =>
    intro tmpSize k sizes h1 h2
    unfold subGeneSizeLoop
    by_cases hlt : tmpSize < chromosomeSize
    · rw [if_pos hlt, uintToInt_small (by omega), uintToInt_small (by omega)]
      obtain ⟨s, hs⟩ := @randInt_total (rand k) (minSubSize : Int) (maxSubSize : Int)
        (by omega) (by omega) (by omega)
      obtain ⟨_, hlo, hhi⟩ := randInt_eq_some hs (by omega)
      rw [hs]
      simp only
      obtain ⟨m, rfl⟩ : ∃ m : Nat, s = (m : Int) := ⟨s.toNat, by omega⟩
      have hcast : ((tmpSize : Int) + (m : Int)) = ((tmpSize + m : Nat) : Int) := by
        push_cast; rfl
      rw [hcast, intToUint_natCast (by omega)]
      exact ih (tmpSize + m) (k + 1) _ (by omega) (by omega)
    · rw [if_neg hlt]
      exact ⟨_, _, _, rfl⟩

theorem fillLoop_total {α : Type} (rand : Nat → Nat) (randFunction : ℚ → ℚ → Nat → Option α)
    (minRand maxRand : ℚ) (hrf : ∀ d, ∃ v, randFunction minRand maxRand d = some v) :
    ∀ cnt k values, ∃ values1 k1,
      fillLoop rand randFunction minRand maxRand cnt k values = some (values1, k1) := by
  intro cnt
  induction cnt with
  | zero => intro k values; exact ⟨_, _, rfl⟩
  | succ n ih =>
    intro k values
    obtain ⟨v, hv⟩ := hrf (rand k)
    unfold fillLoop
    rw [hv]
    exact ih (k + 1) _

/-- The random initialisation of one chromosome returns when the size ranges are ordered,
sub genes have at least one value, and `randFunction` returns. -/
theorem initializeChromosome_total {α : Type} (c : Chromosome α) (rand : Nat → Nat)
    (randFunction : ℚ → ℚ → Nat → Option α) (fuel : Nat)
    (minCSize maxCSize minSubSize maxSubSize : Nat) (minRand maxRand : ℚ)
    (hC : minCSize ≤ maxCSize) (hCmax : maxCSize < 2147483647)
    (hS1 : 1 ≤ minSubSize) (hS : minSubSize ≤ maxSubSize) (hSmax : maxSubSize < 2147483647)
    (hrf : ∀ d, ∃ v, randFunction minRand maxRand d = some v) (hfuel : maxCSize ≤ fuel)
    (k : Nat) :
    ∃ c1 k1, c.initializeChromosome rand randFunction fuel minCSize maxCSize minSubSize
      maxSubSize minRand maxRand k = some (c1, k1) := by
  have hI : INT_MAX = 2147483647 := rfl
  have hU : UINT_MOD = 4294967296 := rfl
  unfold Chromosome.initializeChromosome
  rw [uintToInt_small (by omega), uintToInt_small (by omega)]
  obtain ⟨s, hs⟩ := @randInt_total (rand k) (minCSize : Int) (maxCSize : Int)
    (by omega) (by omega) (by omega)
  obtain ⟨_, hlo, hhi⟩ := randInt_eq_some hs (by omega)
  rw [hs]
  simp only
  obtain ⟨m, rfl⟩ : ∃ m : Nat, s = (m : Int) := ⟨s.toNat, by omega⟩
  rw [intToUint_natCast (by omega)]
  obtain ⟨sizes1, t, k1, hl⟩ := subGeneSizeLoop_total rand m minSubSize maxSubSize hS1 hS
    hSmax (by omega) fuel 0 (k + 1) c.subGeneSizes (by omega) (by omega)
  rw [hl]
  simp only
  obtain ⟨values1, k2, hfl⟩ := fillLoop_total rand randFunction minRand maxRand hrf t k1
    c.values
  rw [hfl]
  exact ⟨_, _, rfl⟩

theorem initializeChromosomes_total {α : Type} (rand : Nat → Nat)
    (randFunction : ℚ → ℚ → Nat → Option α) (fuel : Nat)
    (minCSize maxCSize minSubSize maxSubSize : Nat) (minRand maxRand : ℚ)
    (hC : minCSize ≤ maxCSize) (hCmax : maxCSize < 2147483647)
    (hS1 : 1 ≤ minSubSize) (hS : minSubSize ≤ maxSubSize) (hSmax : maxSubSize < 2147483647)
    (hrf : ∀ d, ∃ v, randFunction minRand maxRand d = some v) (hfuel : maxCSize ≤ fuel) :
    ∀ (l : List (Chromosome α)) (k : Nat), ∃ g k1,
      initializeChromosomes rand randFunction fuel minCSize maxCSize minSubSize maxSubSize
        minRand maxRand l k = some (g, k1) := by
  intro l
  induction l with
  | nil => intro k; exact ⟨_, _, rfl⟩
  | cons c rest ih =>
    intro k
    obtain ⟨c1, k1, h1⟩ := initializeChromosome_total c rand randFunction fuel minCSize maxCSize
      minSubSize maxSubSize minRand maxRand hC hCmax hS1 hS hSmax hrf hfuel k
    obtain ⟨rest1, k2, h2⟩ := ih k1
    unfold initializeChromosomes
    rw [h1]
    simp only
    rw [h2]
    exact ⟨_, _, rfl⟩

/-! ## Auxiliary lemmas: the frame of generation replacement -/

/-- The loop of `createNewGeneration` writes the chromosomes `i, i+1, i+2, ...` below its
bound only: those before `i` and those from the bound on at an even distance from `i` are
left as they are. -/
theorem generationLoop_untouched {α : Type} (P : Population α) (RAND_MAX : Nat)
    (rand : Nat → Nat) (randFunction : ℚ → ℚ → Nat → Option α) (oldGen : List (Chromosome α))
    (bound fuel : Nat) :
    ∀ steps i k (newGen g : List (Chromosome α)) k1,
      generationLoop P RAND_MAX rand randFunction oldGen bound fuel steps i k newGen =
        some (g, k1) →
      g.length = newGen.length ∧
      ∀ j, (j < i ∨ (bound ≤ j ∧ (j + i) % 2 = 0)) → g[j]? = newGen[j]? := by
  intro steps
  induction steps with
  | zero =>
    intro i k newGen g k1 h
    unfold generationLoop at h
    by_cases hb : i < bound
    · rw [if_pos hb] at h; cases h
    · rw [if_neg hb] at h
      simp only [Option.some.injEq, Prod.mk.injEq] at h
      rw [← h.1]
      exact ⟨rfl, fun _ _ => rfl⟩
  | succ n ih =>
    intro i k newGen g k1 h
    unfold generationLoop at h
    by_cases hb : i < bound
    · rw [if_pos hb] at h
      by_cases hi : i + 1 < newGen.length
      · rw [if_pos hi] at h
        cases hc : crossOver P RAND_MAX rand oldGen fuel k with
        | none => simp [hc] at h
        | some r =>
          obtain ⟨b1, b2, kc⟩ := r
          simp only [hc] at h
          cases hm1 : mutate P RAND_MAX rand randFunction b1 kc with
          | none => simp [hm1] at h
          | some r1 =>
            obtain ⟨m1, k2⟩ := r1
            simp only [hm1] at h
            cases hm2 : mutate P RAND_MAX rand randFunction b2 k2 with
            | none => simp [hm2] at h
            | some r2 =>
              obtain ⟨m2, k3⟩ := r2
              simp only [hm2] at h
              obtain ⟨hlen, hfr⟩ := ih (i + 2) k3 _ g k1 h
              refine ⟨by rw [hlen]; simp, fun j hj => ?_⟩
              have hne1 : i ≠ j := by omega
              have hne2 : i + 1 ≠ j := by omega
              rw [hfr j (by omega), List.getElem?_set_ne hne2, List.getElem?_set_ne hne1]
      · rw [if_neg hi] at h; cases h
    · rw [if_neg hb] at h
      simp only [Option.some.injEq, Prod.mk.injEq] at h
      rw [← h.1]
      exact ⟨rfl, fun _ _ => rfl⟩

/-- What `createNewGeneration` leaves when it returns: the previous generation is the old
current one, the new current generation has as many chromosomes as the buffer it is written
to, a last chromosome at an even index (odd size) is the one the buffer held, and no other
member is written. -/
theorem createNewGeneration_outcome {α : Type} {P P1 : Population α} {RAND_MAX : Nat}
    {rand : Nat → Nat} {randFunction : ℚ → ℚ → Nat → Option α} {fuel k k1 : Nat}
    (h : createNewGeneration P RAND_MAX rand randFunction fuel k = some (P1, k1)) :
    ∃ og ng g, P.oldGeneration = some og ∧ P.newGeneration = some ng ∧
      P1 = { P with oldGeneration := some ng, newGeneration := some g } ∧
      g.length = og.length ∧
      (og.length % 2 = 1 → g[og.length - 1]? = og[og.length - 1]?) := by
  obtain ⟨og, ng, g, ho, hn, hloop, hP1⟩ := createNewGeneration_eq_some h
  obtain ⟨hlen, hfr⟩ := generationLoop_untouched P RAND_MAX rand randFunction ng
    (sizeMinusOne og.length) fuel og.length 0 k og g k1 hloop
  refine ⟨og, ng, g, ho, hn, hP1, hlen, fun hodd => ?_⟩
  apply hfr
  right
  unfold sizeMinusOne
  rw [if_neg (by omega)]
  exact ⟨le_refl _, by omega⟩

/-- The call `createNewGeneration` returns for a population with `cloneParents` whose
current generation has usable fitnesses and well-formed chromosomes that share a non-empty
sub-gene list. -/
theorem createNewGeneration_returns {α : Type} {P : Population α} {RAND_MAX : Nat}
    {rand : Nat → Nat} {randFunction : ℚ → ℚ → Nat → Option α} {fuel : Nat}
    {og ng : List (Chromosome α)} {L : List Int}
    (ho : P.oldGeneration = some og) (hn : P.newGeneration = some ng) (hlen : 1 ≤ og.length)
    (hcl : P.cloneParents = true) (hr : validRand RAND_MAX rand)
    (hnn : ∀ c ∈ ng, 0 ≤ c.fitness) (hpos : ∃ c ∈ ng, 0 < c.fitness) (hf : ng.length ≤ fuel)
    (hL : ∀ c ∈ ng, c.subGeneSizes = L ∧ c.wellFormed)
    (hL1 : 1 ≤ L.length) (hL2 : (L.length : Int) ≤ INT_MAX)
    (hrange : ∀ j : Fin 2, 0 ≤ P.minCrossValue j ∧ P.minCrossValue j ≤ P.maxCrossValue j ∧
      P.maxCrossValue j ≤ 100)
    (hrf : ∀ d, ∃ v, randFunction P.minRandValue P.maxRandValue d = some v) (k : Nat) :
    ∃ P1 k1, createNewGeneration P RAND_MAX rand randFunction fuel k = some (P1, k1) :=
  createNewGeneration_total P RAND_MAX rand randFunction fuel k og ng ho hn hlen
    (fun kk => crossOver_shared_total hcl hr hnn hpos hf hL hL1 hL2 hrange kk) hrf

theorem chromD_wellFormed : chromD.wellFormed := by
  refine ⟨?_, ?_, ?_⟩
  · intro s hs
    simp [chromD] at hs
    omega
  · simp [Chromosome.shapeInvariant, chromD]
  · simp [chromD, UINT_MOD]

theorem sharedPopulation_returns (k : Nat) :
    ∃ P1 k1, createNewGeneration sharedPopulation 32767 (fun _ => 0) GenInt.randFunction 2 k =
      some (P1, k1) :=
  @createNewGeneration_returns _ sharedPopulation 32767 (fun _ => 0) GenInt.randFunction 2
    [chromA, chromB] [chromB, chromA] [2, 2] rfl rfl (by simp) rfl validRand_zero
    (by simp [chromA, chromB]) ⟨chromB, by simp, by simp [chromB]⟩ (by simp)
    sharedPopulation_all (by simp) (by decide)
    (by intro j; simp [sharedPopulation, defaultPopulation]) genInt_randFunction_total k

theorem oddPopulation_returns (k : Nat) :
    ∃ P1 k1, createNewGeneration oddPopulation 32767 (fun _ => 0) GenInt.randFunction 3 k =
      some (P1, k1) := by
  have hall : ∀ c ∈ [chromB, chromA, chromB], c.subGeneSizes = [2, 2] ∧ c.wellFormed := by
    intro c hc
    simp only [List.mem_cons, List.mem_singleton, List.not_mem_nil, or_false] at hc
    rcases hc with rfl | rfl | rfl
    · exact ⟨rfl, chromB_wellFormed⟩
    · exact ⟨rfl, chromA_wellFormed⟩
    · exact ⟨rfl, chromB_wellFormed⟩
  exact @createNewGeneration_returns _ oddPopulation 32767 (fun _ => 0) GenInt.randFunction 3
    [chromA, chromB, chromD] [chromB, chromA, chromB] [2, 2] rfl rfl (by simp) rfl
    validRand_zero (by simp [chromA, chromB]) ⟨chromB, by simp, by simp [chromB]⟩ (by simp)
    hall (by simp) (by decide)
    (by intro j; simp [oddPopulation, defaultPopulation]) genInt_randFunction_total k

/-! ## Auxiliary lemmas: the solving loop -/

theorem callLog_succ (n : Nat) :
    callLog (n + 1) = Call.parseChromosomes :: Call.createNewGeneration :: callLog n := rfl

theorem callLog_append (n : Nat) :
    callLog (n + 1) = callLog n ++ [Call.parseChromosomes, Call.createNewGeneration] := by
  induction n with
  | zero => rfl
  | succ n ih =>
    rw [callLog_succ (n + 1)]
    conv_lhs => rw [ih]
    rw [callLog_succ n]
    simp

theorem callLog_count (n : Nat) :
    (callLog n).length = 2 * n ∧ (callLog n).count Call.parseChromosomes = n ∧
      (callLog n).count Call.createNewGeneration = n := by
  induction n with
  | zero => simp [callLog]
  | succ n ih =>
    obtain ⟨h1, h2, h3⟩ := ih
    rw [callLog_succ]
    refine ⟨?_, ?_, ?_⟩
    · simp only [List.length_cons, h1]; omega
    · rw [List.count_cons_self, List.count_cons_of_ne (by decide), h2]
    · rw [List.count_cons_of_ne (by decide), List.count_cons_self, h3]

/-- A run of `n` generations in which the evaluator returns without calling
`foundSolution` and `createNewGeneration` returns, along states that satisfy `Inv`. -/
theorem solvingLoop_run {α : Type}
    (parseChromosomes : Solver α → Nat → Option (Population α × Bool × Nat))
    (RAND_MAX : Nat) (rand : Nat → Nat) (randFunction : ℚ → ℚ → Nat → Option α) (fuel : Nat)
    (Inv : Nat → Solver α → Nat → Prop) :
    ∀ n i s k log, Inv i s k → s._solution = false →
      (∀ j s k, i ≤ j → j < i + n → Inv j s k → s._solution = false →
        ∃ P1 k1 P2 k2, parseChromosomes s k = some (P1, false, k1) ∧
          createNewGeneration P1 RAND_MAX rand randFunction fuel k1 = some (P2, k2) ∧
          Inv (j + 1) { population := P2, _solution := false, _currentGeneration := j } k2) →
      ∃ s1 k1, solvingLoop parseChromosomes RAND_MAX rand randFunction fuel n i s k log =
          some (s1, k1, log ++ callLog n) ∧
        s1._solution = false ∧ Inv (i + n) s1 k1 ∧
        (1 ≤ n → s1._currentGeneration = i + n - 1) ∧ (n = 0 → s1 = s ∧ k1 = k) := by
  intro n
  induction n with
  | zero =>
    intro i s k log hI hs _
    refine ⟨s, k, ?_, hs, hI, fun h => absurd h (by omega), fun _ => ⟨rfl, rfl⟩⟩
    unfold solvingLoop callLog
    simp
  | succ n ih =>
    intro i s k log hI hs hstep
    obtain ⟨P1, k1, P2, k2, hp, hc, hI2⟩ := hstep i s k (le_refl i) (by omega) hI hs
    obtain ⟨s1, k3, hrun, hs1, hI3, hidx, hzero⟩ := ih (i + 1)
      { population := P2, _solution := false, _currentGeneration := i } k2
      (log ++ [Call.parseChromosomes, Call.createNewGeneration]) hI2 rfl
      (fun j s k h1 h2 => hstep j s k (by omega) (by omega))
    refine ⟨s1, k3, ?_, hs1, ?_, fun _ => ?_, fun h => absurd h (by omega)⟩
    · conv_lhs => unfold solvingLoop
      rw [hp]
      simp only
      rw [hc]
      simp only [hs, Bool.or_false, Bool.false_eq_true, if_false]
      rw [hrun, callLog_succ n]
      simp
    · have e : i + (n + 1) = i + 1 + n := by omega
      rw [e]; exact hI3
    · rcases Nat.eq_zero_or_pos n with h0 | hpos
      · rw [(hzero h0).1, h0]
        simp
      · rw [hidx hpos]; omega

/-- A run in which the evaluator calls `foundSolution` for the first time in generation
`g`: the loop ends after the replacement of that generation. -/
theorem solvingLoop_found {α : Type}
    (parseChromosomes : Solver α → Nat → Option (Population α × Bool × Nat))
    (RAND_MAX : Nat) (rand : Nat → Nat) (randFunction : ℚ → ℚ → Nat → Option α) (fuel : Nat)
    (Inv : Nat → Solver α → Nat → Prop) :
    ∀ g n i s k log, g < n → Inv i s k → (s._solution = true → g = 0) →
      (∀ j s k, i ≤ j → j < i + g → Inv j s k → s._solution = false →
        ∃ P1 k1 P2 k2, parseChromosomes s k = some (P1, false, k1) ∧
          createNewGeneration P1 RAND_MAX rand randFunction fuel k1 = some (P2, k2) ∧
          Inv (j + 1) { population := P2, _solution := false, _currentGeneration := j } k2) →
      (∀ s k, Inv (i + g) s k →
        ∃ P1 k1 P2 k2, parseChromosomes s k = some (P1, true, k1) ∧
          createNewGeneration P1 RAND_MAX rand randFunction fuel k1 = some (P2, k2)) →
      ∃ P2 k2, solvingLoop parseChromosomes RAND_MAX rand randFunction fuel n i s k log =
        some ({ population := P2, _solution := true, _currentGeneration := i + g }, k2,
          log ++ callLog (g + 1)) := by
  intro g
  induction g with
  | zero =>
    intro n i s k log hn hI _ _ hfound
    obtain ⟨m, rfl⟩ : ∃ m, n = m + 1 := ⟨n - 1, by omega⟩
    obtain ⟨P1, k1, P2, k2, hp, hc⟩ := hfound s k hI
    refine ⟨P2, k2, ?_⟩
    conv_lhs => unfold solvingLoop
    rw [hp]
    simp only
    rw [hc]
    simp [callLog]
  | succ g ih =>
    intro n i s k log hn hI hsol hstep hfound
    obtain ⟨m, rfl⟩ : ∃ m, n = m + 1 := ⟨n - 1, by omega⟩
    have hs : s._solution = false := by
      cases h : s._solution with
      | false => rfl
      | true => exact absurd (hsol h) (by omega)
    obtain ⟨P1, k1, P2, k2, hp, hc, hI2⟩ := hstep i s k (le_refl i) (by omega) hI hs
    have e : i + 1 + g = i + (g + 1) := by omega
    obtain ⟨P3, k3, hrun⟩ := ih m (i + 1)
      { population := P2, _solution := false, _currentGeneration := i } k2
      (log ++ [Call.parseChromosomes, Call.createNewGeneration]) (by omega) hI2
      (fun h => by cases h)
      (fun j s k h1 h2 => hstep j s k (by omega) (by omega))
      (by rw [e]; exact hfound)
    refine ⟨P3, k3, ?_⟩
    conv_lhs => unfold solvingLoop
    rw [hp]
    simp only
    rw [hc]
    simp only [hs, Bool.or_false, Bool.false_eq_true, if_false]
    rw [hrun, e, callLog_succ (g + 1)]
    simp

theorem solvingLoop_initialized {α : Type}
    (parseChromosomes : Solver α → Nat → Option (Population α × Bool × Nat))
    (RAND_MAX : Nat) (rand : Nat → Nat) (randFunction : ℚ → ℚ → Nat → Option α) (fuel : Nat)
    (hparse : ∀ s k P1 f k1, parseChromosomes s k = some (P1, f, k1) →
      P1.initialized = s.population.initialized) :
    ∀ n i s k log s1 k1 log1,
      solvingLoop parseChromosomes RAND_MAX rand randFunction fuel n i s k log =
        some (s1, k1, log1) →
      s1.population.initialized = s.population.initialized := by
  intro n
  induction n with
  | zero =>
    intro i s k log s1 k1 log1 h
    unfold solvingLoop at h
    simp only [Option.some.injEq, Prod.mk.injEq] at h
    rw [← h.1]
  | succ n ih =>
    intro i s k log s1 k1 log1 h
    unfold solvingLoop at h
    cases hp : parseChromosomes s k with
    | none => simp [hp] at h
    | some r =>
      obtain ⟨P1, f, k2⟩ := r
      simp only [hp] at h
      cases hc : createNewGeneration P1 RAND_MAX rand randFunction fuel k2 with
      | none => simp [hc] at h
      | some r2 =>
        obtain ⟨P2, k3⟩ := r2
        simp only [hc] at h
        obtain ⟨og, ng, g, _, _, hP2, _, _⟩ := createNewGeneration_outcome hc
        have hi2 : P2.initialized = s.population.initialized := by
          rw [hP2]; exact hparse s k P1 f k2 hp
        by_cases hsol : (s._solution || f) = true
        · rw [if_pos hsol] at h
          simp only [Option.some.injEq, Prod.mk.injEq] at h
          rw [← h.1]; exact hi2
        · rw [if_neg hsol] at h
          have := ih _ _ _ _ _ _ _ h
          rw [this]; exact hi2

/-- One generation on a `runnable` population with the evaluator `unitEvaluator`: the
evaluator returns, `createNewGeneration` returns, and the population is `runnable` again. -/
theorem runnable_step {α : Type} {L : List Int} {n : Nat}
    {randFunction : ℚ → ℚ → Nat → Option α} {RAND_MAX : Nat} {rand : Nat → Nat} {fuel : Nat}
    (hn1 : 1 ≤ n) (hnf : n ≤ fuel) (hL1 : 1 ≤ L.length) (hL2 : (L.length : Int) ≤ INT_MAX)
    (hr : validRand RAND_MAX rand) (found : Bool) (s : Solver α) (k : Nat)
    (h : runnable L n randFunction s.population) :
    ∃ P1 P2 k2, unitEvaluator found s k = some (P1, found, k) ∧
      createNewGeneration P1 RAND_MAX rand randFunction fuel k = some (P2, k2) ∧
      runnable L n randFunction P2 := by
  obtain ⟨heq, hcl, hrange, hrf, og, ng, ho, hn, hog, hng, hall⟩ := h
  have hunit : unitEvaluator found s k =
      some ({ s.population with
              newGeneration := some (ng.map (fun c => { c with fitness := 1 })) },
        found, k) := by
    unfold unitEvaluator
    rw [hn]
    rfl
  have hall2 : ∀ c ∈ og ++ ng.map (fun c => ({ c with fitness := 1 } : Chromosome α)),
      c.subGeneSizes = L ∧ c.wellFormed := by
    intro c hc
    rcases List.mem_append.mp hc with h1 | h2
    · exact hall c (List.mem_append_left _ h1)
    · obtain ⟨c0, hc0, rfl⟩ := List.mem_map.mp h2
      exact hall c0 (List.mem_append_right _ hc0)
  have hnn : ∀ c ∈ ng.map (fun c => ({ c with fitness := 1 } : Chromosome α)),
      0 ≤ c.fitness := by
    intro c hc
    obtain ⟨c0, _, rfl⟩ := List.mem_map.mp hc
    simp
  obtain ⟨c0, hc0⟩ : ∃ c0, c0 ∈ ng := List.exists_mem_of_length_pos (by omega)
  have hpos : ∃ c ∈ ng.map (fun c => ({ c with fitness := 1 } : Chromosome α)),
      0 < c.fitness :=
    ⟨_, List.mem_map.mpr ⟨c0, hc0, rfl⟩, by simp⟩
  obtain ⟨P2, k2, hrun⟩ := @createNewGeneration_returns α
    { s.population with newGeneration := some (ng.map (fun c => { c with fitness := 1 })) }
    RAND_MAX rand randFunction fuel og (ng.map (fun c => { c with fitness := 1 })) L ho rfl
    (by omega) hcl hr hnn hpos (by rw [List.length_map]; omega)
    (fun c hc => hall2 c (List.mem_append_right _ hc)) hL1 hL2 hrange hrf k
  obtain ⟨g, hg1, hg2, hg3, hg4⟩ := @createNewGeneration_shared α
    { s.population with newGeneration := some (ng.map (fun c => { c with fitness := 1 })) }
    P2 RAND_MAX rand randFunction fuel k k2 og (ng.map (fun c => { c with fitness := 1 })) L
    heq ho rfl (fun c hc => ⟨(hall2 c hc).1, (hall2 c hc).2.2.1⟩) hrun
  obtain ⟨og1, ng1, g1, _, _, hP2, _, _⟩ := createNewGeneration_outcome hrun
  obtain ⟨hLc, hwc⟩ := hall c0 (List.mem_append_right _ hc0)
  refine ⟨_, P2, k2, hunit, hrun, ?_⟩
  refine ⟨by rw [hP2]; exact heq, by rw [hP2]; exact hcl, by rw [hP2]; exact hrange,
    by rw [hP2]; exact hrf, _, g, hg2, hg1, by rw [List.length_map]; exact hng,
    by rw [hg3]; exact hog, ?_⟩
  intro c hc
  rcases List.mem_append.mp hc with h1 | h2
  · exact hall2 c (List.mem_append_right _ h1)
  · obtain ⟨hcL, hcs⟩ := hg4 c h2
    refine ⟨hcL, ?_, hcs, ?_⟩
    · unfold Chromosome.sizesNonneg
      rw [hcL, ← hLc]
      exact hwc.1
    · have e := shape_length hcs hwc.2.1 (hcL.trans hLc.symm)
      rw [e]
      exact hwc.2.2

theorem sharedPopulation_runnable : runnable [2, 2] 2 GenInt.randFunction sharedPopulation := by
  refine ⟨rfl, rfl, ?_, genInt_randFunction_total, [chromA, chromB], [chromB, chromA], rfl,
    rfl, rfl, rfl, ?_⟩
  · intro j; simp [sharedPopulation, defaultPopulation]
  · intro c hc
    simp only [List.cons_append, List.nil_append, List.mem_cons, List.mem_singleton,
      List.not_mem_nil, or_false] at hc
    rcases hc with rfl | rfl | rfl | rfl
    · exact ⟨rfl, chromA_wellFormed⟩
    · exact ⟨rfl, chromB_wellFormed⟩
    · exact ⟨rfl, chromB_wellFormed⟩
    · exact ⟨rfl, chromA_wellFormed⟩

theorem callLog_alternates : ∀ n j, j < 2 * n →
    (callLog n)[j]? =
      some (if j % 2 = 0 then Call.parseChromosomes else Call.createNewGeneration) := by
  intro n
  induction n with
  | zero => intro j h; omega
  | succ n ih =>
    intro j h
    rw [callLog_succ]
    match j with
    | 0 => simp
    | 1 => simp
    | j + 2 =>
      rw [List.getElem?_cons_succ, List.getElem?_cons_succ, ih j (by omega)]
      have e : (j + 2) % 2 = j % 2 := by omega
      rw [e]

theorem callLog_getLast (n : Nat) :
    (callLog (n + 1)).getLast? = some Call.createNewGeneration := by
  rw [callLog_append]
  simp

theorem startSolving_of_loop {α : Type}
    (parseChromosomes : Solver α → Nat → Option (Population α × Bool × Nat))
    (RAND_MAX : Nat) (rand : Nat → Nat) (randFunction : ℚ → ℚ → Nat → Option α) (fuel : Nat)
    (m : Nat) (s : Solver α) (k : Nat) (hinit : s.population.initialized = true)
    (r : Solver α × Nat × List Call)
    (h : solvingLoop parseChromosomes RAND_MAX rand randFunction fuel m 0 s k [] = some r) :
    startSolving parseChromosomes RAND_MAX rand randFunction fuel m s k =
      Checked.returned r := by
  unfold startSolving
  rw [if_pos hinit, h]

/-- Every setter returns a population with the value of `initialized` it was given. -/
theorem setters_keep_initialized {α : Type} (Q : Population α) :
    (∀ v, (enableRealRandom Q v).initialized = Q.initialized) ∧
    (∀ v, (setSrandValue Q v).initialized = Q.initialized) ∧
    (∀ v, (enableCloneParents Q v).initialized = Q.initialized) ∧
    (∀ v, (setCrossOverRate Q v).initialized = Q.initialized) ∧
    (∀ v, (setMutationRate Q v).initialized = Q.initialized) ∧
    (∀ a b Q1, setCrossPointRange Q a b = Checked.returned Q1 →
      Q1.initialized = Q.initialized) ∧
    (∀ i a b Q1, setCrossPointRangeAt Q i a b = Checked.returned Q1 →
      Q1.initialized = Q.initialized) ∧
    (∀ v Q1, setEqualCrossPoints Q v = Checked.returned Q1 →
      Q1.initialized = Q.initialized) := by
  refine ⟨fun _ => rfl, fun _ => rfl, fun _ => rfl, fun _ => rfl, fun _ => rfl, ?_, ?_, ?_⟩
  · intro a b Q1 h
    unfold setCrossPointRange at h
    split at h
    · simp only [Checked.returned.injEq] at h
      rw [← h]
    · cases h
  · intro i a b Q1 h
    unfold setCrossPointRangeAt at h
    split at h
    · simp only [Checked.returned.injEq] at h
      rw [← h]
    · cases h
  · intro v Q1 h
    unfold setEqualCrossPoints at h
    split at h
    · simp only [Checked.returned.injEq] at h
      rw [← h]
    · cases h

theorem createNewGeneration_initialized {α : Type} {P P1 : Population α} {RAND_MAX : Nat}
    {rand : Nat → Nat} {randFunction : ℚ → ℚ → Nat → Option α} {fuel k k1 : Nat}
    (h : createNewGeneration P RAND_MAX rand randFunction fuel k = some (P1, k1)) :
    P1.initialized = P.initialized := by
  obtain ⟨og, ng, g, _, _, hP1, _, _⟩ := createNewGeneration_outcome h
  rw [hP1]

theorem startSolving_initialized {α : Type}
    (parseChromosomes : Solver α → Nat → Option (Population α × Bool × Nat))
    (RAND_MAX : Nat) (rand : Nat → Nat) (randFunction : ℚ → ℚ → Nat → Option α) (fuel : Nat)
    (hparse : ∀ s k P1 f k1, parseChromosomes s k = some (P1, f, k1) →
      P1.initialized = s.population.initialized)
    (m : Nat) (s s1 : Solver α) (k k1 : Nat) (log : List Call)
    (h : startSolving parseChromosomes RAND_MAX rand randFunction fuel m s k =
      Checked.returned (s1, k1, log)) :
    s.population.initialized = true ∧ s1.population.initialized = true := by
  unfold startSolving at h
  by_cases hi : s.population.initialized = true
  · rw [if_pos hi] at h
    cases hl : solvingLoop parseChromosomes RAND_MAX rand randFunction fuel m 0 s k [] with
    | none => rw [hl] at h; cases h
    | some r =>
      rw [hl] at h
      simp only [Checked.returned.injEq] at h
      subst h
      have := solvingLoop_initialized parseChromosomes RAND_MAX rand randFunction fuel hparse
        m 0 s k [] s1 k1 log hl
      exact ⟨hi, by rw [this]; exact hi⟩
  · rw [if_neg hi] at h; cases h

theorem unitEvaluator_initialized {α : Type} {found f : Bool} {s : Solver α} {k k1 : Nat}
    {P1 : Population α} (h : unitEvaluator found s k = some (P1, f, k1)) :
    P1.initialized = s.population.initialized := by
  unfold unitEvaluator at h
  simp only [Option.some.injEq, Prod.mk.injEq] at h
  rw [← h.1]

/-- A step of a run on a runnable, initialised population with the evaluator
`unitEvaluator`. -/
theorem runnable_initialized_step {α : Type} {L : List Int} {n : Nat}
    {randFunction : ℚ → ℚ → Nat → Option α} {RAND_MAX : Nat} {rand : Nat → Nat} {fuel : Nat}
    (hn1 : 1 ≤ n) (hnf : n ≤ fuel) (hL1 : 1 ≤ L.length) (hL2 : (L.length : Int) ≤ INT_MAX)
    (hr : validRand RAND_MAX rand) (found : Bool) (s : Solver α) (k : Nat)
    (h : runnable L n randFunction s.population ∧ s.population.initialized = true) :
    ∃ P1 P2 k2, unitEvaluator found s k = some (P1, found, k) ∧
      createNewGeneration P1 RAND_MAX rand randFunction fuel k = some (P2, k2) ∧
      runnable L n randFunction P2 ∧ P2.initialized = true := by
  obtain ⟨P1, P2, k2, h1, h2, h3⟩ := runnable_step hn1 hnf hL1 hL2 hr found s k h.1
  refine ⟨P1, P2, k2, h1, h2, h3, ?_⟩
  rw [createNewGeneration_initialized h2, unitEvaluator_initialized h1]
  exact h.2

/-! ## Auxiliary lemmas: the material of the babies -/

/-- Two lists cut and recombined crosswise hold the elements of the two lists. -/
theorem perm_recombined {β : Type} (l1 l2 : List β) (r1 r2 : Nat) :
    ((l1.take r1 ++ l2.drop r2) ++ (l2.take r2 ++ l1.drop r1)).Perm (l1 ++ l2) := by
  have h1 : ((l1.take r1 ++ l2.drop r2) ++ (l2.take r2 ++ l1.drop r1)).Perm
      ((l1.take r1 ++ l1.drop r1) ++ (l2.take r2 ++ l2.drop r2)) := by
    rw [List.append_assoc, List.append_assoc]
    apply List.Perm.append_left
    calc (l2.drop r2 ++ (l2.take r2 ++ l1.drop r1)).Perm
          ((l2.take r2 ++ l1.drop r1) ++ l2.drop r2) := List.perm_append_comm
      _ = l2.take r2 ++ (l1.drop r1 ++ l2.drop r2) := List.append_assoc _ _ _
      _ |>.Perm (l2.take r2 ++ (l2.drop r2 ++ l1.drop r1)) :=
          List.Perm.append_left _ List.perm_append_comm
      _ = (l2.take r2 ++ l2.drop r2) ++ l1.drop r1 := (List.append_assoc _ _ _).symm
      _ |>.Perm (l1.drop r1 ++ (l2.take r2 ++ l2.drop r2)) := List.perm_append_comm
  rw [List.take_append_drop, List.take_append_drop] at h1
  exact h1

/-- A call of `crossOver` that returns has chosen two parents of the generation. -/
theorem crossOver_parents {α : Type} {P : Population α} {RAND_MAX : Nat} {rand : Nat → Nat}
    {generation : List (Chromosome α)} {fuel k k2 : Nat} {b1 b2 : Chromosome α}
    (h : crossOver P RAND_MAX rand generation fuel k = some (b1, b2, k2)) :
    ∃ i1 p1 i2 p2 k1,
      selectParents P RAND_MAX rand generation fuel k = some ((i1, p1), (i2, p2), k1) := by
  unfold crossOver at h
  cases hs : selectParents P RAND_MAX rand generation fuel k with
  | none => rw [hs] at h; cases h
  | some r =>
    obtain ⟨⟨i1, p1⟩, ⟨i2, p2⟩, k1⟩ := r
    exact ⟨i1, p1, i2, p2, k1, rfl⟩

/-! ## Auxiliary lemmas: generation assignment -/

theorem assignInitLoop_ok {α : Type} :
    ∀ (cnt : Nat) (pre mid post : List (Option (Chromosome α))), mid.length = cnt →
      assignInitLoop cnt pre.length (pre ++ (mid ++ post)) =
        some (pre ++ (List.replicate cnt (some Chromosome.empty) ++ post)) := by
  intro cnt
  induction cnt with
  | zero =>
    intro pre mid post hm
    rw [List.length_eq_zero.mp hm]
    rfl
  | succ n ih =>
    intro pre mid post hm
    obtain ⟨m, mid1, rfl⟩ : ∃ m mid1, mid = m :: mid1 := by
      cases mid with
      | nil => simp at hm
      | cons m mid1 => exact ⟨m, mid1, rfl⟩
    unfold assignInitLoop
    rw [if_pos (by simp)]
    have hset : (pre ++ (m :: mid1 ++ post)).set pre.length (some Chromosome.empty) =
        (pre ++ [some Chromosome.empty]) ++ (mid1 ++ post) := by
      rw [List.set_append_right _ _ (le_refl _)]
      simp
    have hlen : pre.length + 1 = (pre ++ [some (Chromosome.empty : Chromosome α)]).length := by
      simp
    rw [hset, hlen, ih _ mid1 post (by simpa using hm)]
    simp [List.replicate_succ]

theorem assignInitLoop_fail {α : Type} :
    ∀ (cnt i : Nat) (this : List (Option (Chromosome α))), this.length < i + cnt →
      i ≤ this.length → assignInitLoop cnt i this = none := by
  intro cnt
  induction cnt with
  | zero => intro i this h1 h2; omega
  | succ n ih =>
    intro i this h1 h2
    unfold assignInitLoop
    by_cases hi : i < this.length
    · rw [if_pos hi]
      exact ih (i + 1) _ (by rw [List.length_set]; omega) (by rw [List.length_set]; omega)
    · rw [if_neg hi]

theorem assignCopyLoop_ok {α : Type} :
    ∀ (n : Nat) (done rest : List (Chromosome α)) (pre post : List (Option (Chromosome α))),
      pre.length = done.length → rest.length = n →
      assignCopyLoop (done ++ rest) n pre.length
          (pre ++ (List.replicate n (some Chromosome.empty) ++ post)) =
        some (pre ++ (rest.map some ++ post)) := by
  intro n
  induction n with
  | zero =>
    intro done rest pre post _ hr
    rw [List.length_eq_zero.mp hr]
    rfl
  | succ n ih =>
    intro done rest pre post hp hr
    obtain ⟨c, rest1, rfl⟩ : ∃ c rest1, rest = c :: rest1 := by
      cases rest with
      | nil => simp at hr
      | cons c rest1 => exact ⟨c, rest1, rfl⟩
    unfold assignCopyLoop
    have h1 : (pre ++ (List.replicate (n + 1) (some Chromosome.empty) ++ post))[pre.length]? =
        some (some (Chromosome.empty : Chromosome α)) := by
      rw [List.getElem?_append_right (le_refl _)]
      simp [List.replicate_succ]
    have h2 : (done ++ c :: rest1)[pre.length]? = some c := by
      rw [hp, List.getElem?_append_right (le_refl _)]
      simp
    rw [h1, h2]
    simp only
    have hset : (pre ++ (List.replicate (n + 1) (some Chromosome.empty) ++ post)).set pre.length
        (some c) = (pre ++ [some c]) ++ (List.replicate n (some Chromosome.empty) ++ post) := by
      rw [List.set_append_right _ _ (le_refl _)]
      simp [List.replicate_succ]
    have hlen : pre.length + 1 = (pre ++ [some c]).length := by simp
    have hsrc : done ++ c :: rest1 = (done ++ [c]) ++ rest1 := by simp
    rw [hset, hlen, hsrc, ih (done ++ [c]) rest1 (pre ++ [some c]) post (by simp [hp])
      (by simpa using hr)]
    simp

/-- The assignment `destination = source`: when the source is not longer than the
destination, the first `source.size()` entries point to copies of the chromosomes of the
source and the other entries of the destination are null; when the source is longer, a
write outside the vector is made. -/
theorem assign_eq {α : Type} (destination source : List (Chromosome α)) :
    GenerationClass.assign destination source =
      if source.length ≤ destination.length then
        some (source.map some ++ List.replicate (destination.length - source.length) none)
      else none := by
  unfold GenerationClass.assign
  by_cases h : source.length ≤ destination.length
  · rw [if_pos h]
    have hsplit : (List.replicate destination.length none : List (Option (Chromosome α))) =
        [] ++ (List.replicate source.length none ++
          List.replicate (destination.length - source.length) none) := by
      rw [List.nil_append, ← List.replicate_add]
      congr 1
      omega
    have h1 := assignInitLoop_ok source.length ([] : List (Option (Chromosome α)))
      (List.replicate source.length none)
      (List.replicate (destination.length - source.length) none) (by simp)
    rw [hsplit]
    rw [List.length_nil] at h1
    rw [h1]
    simp only
    have h2 := assignCopyLoop_ok source.length [] source ([] : List (Option (Chromosome α)))
      (List.replicate (destination.length - source.length) none) rfl rfl
    rw [List.length_nil, List.nil_append] at h2
    rw [h2, List.nil_append]
  · rw [if_neg h]
    rw [assignInitLoop_fail source.length 0 _ (by rw [List.length_replicate]; omega)
      (Nat.zero_le _)]

/-! ## Auxiliary lemmas: the header of a generation file -/

/-- The `double` nearest to one tenth. -/
theorem tenth_double : roundDouble (1 / 10) = 3602879701896397 / 36028797018963968 := by
  rw [roundDouble_eq (-4) 7205759403792794 (by norm_num) (by norm_num) (by norm_num)
    (by norm_num) (by norm_num)]
  norm_num

theorem readTokens_ne_nil (stop : String) {f : List String} (hf : f ≠ []) :
    (readTokens stop f).1 ≠ [] := by
  cases f with
  | nil => exact absurd rfl hf
  | cons t rest =>
    unfold readTokens
    split <;> simp

/-- The list read ends with the stop token or holds the whole stream. -/
theorem readTokens_getLast (stop : String) :
    ∀ f : List String, (readTokens stop f).1.getLast? = some stop ∨
      ((readTokens stop f).1 = f ∧ stop ∉ f) := by
  intro f
  induction f with
  | nil => right; exact ⟨rfl, by simp⟩
  | cons t rest ih =>
    unfold readTokens
    by_cases h : t = stop
    · rw [if_pos h]
      left
      simp [h]
    · rw [if_neg h]
      rcases ih with h1 | ⟨h1, h2⟩
      · left
        simp only [List.cons]
        cases hr : (readTokens stop rest).1 with
        | nil => rw [hr] at h1; simp at h1
        | cons a l =>
          rw [hr] at h1
          rw [List.getLast?_cons_cons]
          exact h1
      · right
        refine ⟨by rw [h1], ?_⟩
        simp only [List.mem_cons, not_or]
        exact ⟨fun hc => h hc.symm, h2⟩

theorem getElem?_sizeMinusOne {β : Type} (l : List β) (hl : l ≠ []) :
    l[sizeMinusOne l.length]? = l.getLast? := by
  unfold sizeMinusOne
  rw [if_neg (by simpa using hl), List.getLast?_eq_getElem?]

/-- What `readHeaderSection` returns on the list it has read. -/
theorem readHeaderSection_spec (atof : String → DoubleValue) (f : List String)
    (hf : f ≠ []) :
    ∃ b, readHeaderSection atof f =
        some (b, (readTokens "</header>" f).1, (readTokens "</header>" f).2) ∧
      (b = true ↔ ∃ third tail,
        (readTokens "</header>" f).1 = "<header>" :: "GenSolver-File" :: third :: tail ∧
        (third :: tail).getLast? = some "</header>" ∧
        (atof third).isZero = false ∧
        (atof third).greater (roundDouble (1 / 10)) = false) := by
  have hne := readTokens_ne_nil "</header>" hf
  unfold readHeaderSection
  simp only []
  rw [getElem?_sizeMinusOne _ hne]
  generalize (readTokens "</header>" f).1 = hl at hne ⊢
  generalize (readTokens "</header>" f).2 = rest
  generalize roundDouble (1 / 10) = tenth
  have hd1 : ("<header>" : String) ≠ "</header>" := by decide
  have hd2 : ("GenSolver-File" : String) ≠ "</header>" := by decide
  rcases hl with _ | ⟨a, _ | ⟨b, _ | ⟨c, tl⟩⟩⟩
  · exact absurd rfl hne
  · by_cases ha : a = "<header>"
    · subst ha
      exact ⟨false, by simp, by simp⟩
    · exact ⟨false, by simp [ha], by simp⟩
  · by_cases ha : a = "<header>"
    · subst ha
      by_cases hb : b = "</header>"
      · subst hb
        exact ⟨false, by simp, by simp⟩
      · exact ⟨false, by simp [hb], by simp⟩
    · exact ⟨false, by simp [ha], by simp⟩
  · by_cases ha : a = "<header>"
    · subst ha
      by_cases hlast : (c :: tl).getLast? = some "</header>"
      · by_cases hb : b = "GenSolver-File"
        · subst hb
          cases h0 : (atof c).isZero with
          | true =>
            exact ⟨false, by simp [List.getLast?_cons_cons, hlast, h0], by simp [h0]⟩
          | false =>
            cases h1 : (atof c).greater tenth with
            | true =>
              exact ⟨false, by simp [List.getLast?_cons_cons, hlast, h0, h1],
                by simp [h1]⟩
            | false =>
              exact ⟨true, by simp [List.getLast?_cons_cons, hlast, h0, h1],
                ⟨fun _ => ⟨c, tl, rfl, hlast, h0, h1⟩, fun _ => rfl⟩⟩
        · exact ⟨false, by simp [List.getLast?_cons_cons, hlast, hb], by simp [hb]⟩
      · refine ⟨false, ?_, by simp [hlast]⟩
        simp only [List.getLast?_cons_cons]
        cases hg : (c :: tl).getLast? with
        | none => simp at hg
        | some last =>
          rw [hg] at hlast
          have hl2 : last ≠ "</header>" := fun hc => hlast (by rw [hc])
          simp [hl2]
    · exact ⟨false, by simp [ha], by simp [ha]⟩

/-- The values that pass the two comparisons of `readHeaderSection`: the finite numbers
other than 0 that are not above the bound, minus infinity and NaN. -/
theorem doubleValue_accepted (d : DoubleValue) (x : ℚ) :
    (d.isZero = false ∧ d.greater x = false) ↔
      ((∃ q, d = DoubleValue.finite q ∧ q ≠ 0 ∧ q ≤ x) ∨ d = DoubleValue.negInf ∨
        d = DoubleValue.nan) := by
  cases d with
  | finite q =>
    simp only [DoubleValue.isZero, DoubleValue.greater, decide_eq_false_iff_not, not_lt,
      DoubleValue.finite.injEq, exists_eq_left', false_or, or_false]
    simp
  | posInf => simp [DoubleValue.isZero, DoubleValue.greater]
  | negInf => simp [DoubleValue.isZero, DoubleValue.greater]
  | nan => simp [DoubleValue.isZero, DoubleValue.greater]

theorem loadGeneration_of_header {atof : String → DoubleValue}
    {dataSection : List String → Option Bool} {f hl rest : List String}
    (h : readHeaderSection atof f = some (false, hl, rest)) :
    loadGeneration atof dataSection (some f) = some false := by
  unfold loadGeneration
  simp only
  rw [h]

theorem loadGeneration_of_sections {atof : String → DoubleValue}
    (dataSection : List String → Option Bool) {f hl rest : List String}
    (h : readHeaderSection atof f = some (true, hl, rest)) :
    loadGeneration atof dataSection (some f) = dataSection rest := by
  unfold loadGeneration
  simp only
  rw [h]
  simp only
  cases hd : dataSection rest with
  | none => rfl
  | some b => cases b <;> rfl

theorem atofSample_values :
    atofSample "-1" = DoubleValue.finite (-1) ∧
    atofSample "0.5" = DoubleValue.finite (1 / 2) ∧
    atofSample "0.1" = DoubleValue.finite (roundDouble (1 / 10)) ∧
    atofSample "nan" = DoubleValue.nan := by
  refine ⟨?_, ?_, ?_, ?_⟩ <;> simp [atofSample]

theorem readTokens_samples :
    readTokens "</header>" sampleFile =
      (["<header>", "GenSolver-File", "0.1", "</header>"], ["<data>", "</data>"]) ∧
    readTokens "</header>" negativeFile =
      (["<header>", "GenSolver-File", "-1", "</header>"], ["<data>", "</data>"]) ∧
    readTokens "</header>" newerFile =
      (["<header>", "GenSolver-File", "0.5", "</header>"], ["<data>", "</data>"]) ∧
    readTokens "</header>" openFile = (openFile, []) ∧
    readTokens "</header>" nanFile =
      (["<header>", "GenSolver-File", "nan", "</header>"], ["<data>", "</data>"]) := by
  refine ⟨?_, ?_, ?_, ?_, ?_⟩ <;> decide

theorem readTokens_subset (stop : String) :
    ∀ (f : List String) (x : String), x ∈ (readTokens stop f).1 → x ∈ f := by
  intro f
  induction f with
  | nil => intro x hx; simp [readTokens] at hx
  | cons t rest ih =>
    intro x hx
    unfold readTokens at hx
    by_cases h : t = stop
    · rw [if_pos h] at hx
      simp only [List.mem_singleton] at hx
      rw [hx]
      exact List.mem_cons_self _ _
    · rw [if_neg h] at hx
      simp only [List.cons, List.mem_cons] at hx
      rcases hx with rfl | hx
      · exact List.mem_cons_self _ _
      · exact List.mem_cons_of_mem _ (ih x hx)

/-! ## Auxiliary lemmas: mutation of one position -/

/-- Method `ChromosomeClass::mutate` at a position inside the chromosome: position `i` gets
the drawn value, the other positions, the sub-gene sizes and the fitness stay. -/
theorem mutate_position {α : Type} (c : Chromosome α) (i : Nat) (v : α)
    (hi : i < c.values.length) :
    ∃ c1, c.mutate i v = some c1 ∧ c1.values[i]? = some v ∧
      (∀ j, j ≠ i → c1.values[j]? = c.values[j]?) ∧
      c1.values.length = c.values.length ∧ c1.subGeneSizes = c.subGeneSizes ∧
      c1.fitness = c.fitness := by
  have h : c.mutate i v = some { c with values := c.values.set i v } := by
    unfold Chromosome.mutate
    rw [if_pos hi]
  obtain ⟨h1, h2⟩ := mutate_set_getElem? h
  refine ⟨_, h, ?_, h2, h1, rfl, rfl⟩
  simp only
  rw [List.getElem?_set_self hi]

theorem doubleToInt_intCast (z : Int) : doubleToInt (z : ℚ) = chkInt z := by
  unfold doubleToInt
  simp

/-- Function `randInt( x, y )` on an ordered pair of bounds whose distance fits an `int`:
the result lies between the bounds. -/
theorem randInt_between (r : Nat) {x y : Int} (hx : INT_MIN ≤ x) (hxy : x ≤ y)
    (hy : y ≤ INT_MAX) (hd : y - x < INT_MAX) :
    ∃ c, randInt r x y = some c ∧ x ≤ c ∧ c ≤ y := by
  have hI : INT_MAX = 2147483647 := rfl
  have hJ : INT_MIN = -2147483648 := rfl
  have hpos : 0 < y - x + 1 := by omega
  have he : Int.tmod (r : Int) (y - x + 1) = (r : Int) % (y - x + 1) :=
    Int.tmod_eq_emod (Int.ofNat_nonneg r) (by omega)
  have h1 := Int.emod_nonneg (r : Int) (ne_of_gt hpos)
  have h2 := Int.emod_lt_of_pos (r : Int) hpos
  unfold randInt
  rw [chkInt_of_range (by omega) (by omega)]
  simp only
  rw [chkInt_of_range (by omega) (by omega)]
  simp only
  rw [if_neg (by omega), he, chkInt_of_range (by omega) (by omega)]
  exact ⟨_, rfl, by omega, by omega⟩

/-- Function `randFloat( x, y )` on bounds `x < y` whose distance fits an `int`: the result
lies between the bounds. -/
theorem randFloatBetween_between {RAND_MAX r : Nat} {x y : Int} (hr : r ≤ RAND_MAX)
    (hx : INT_MIN ≤ x) (hxy : x < y) (hy : y ≤ INT_MAX) (hd : y - x ≤ INT_MAX) :
    ∃ v, randFloatBetween RAND_MAX r x y = some v ∧ (x : ℚ) ≤ v ∧ v ≤ (y : ℚ) := by
  have hI : INT_MAX = 2147483647 := rfl
  have hJ : INT_MIN = -2147483648 := rfl
  have hpos : 0 < y - 1 - x + 1 := by omega
  have he : Int.tmod (r : Int) (y - 1 - x + 1) = (r : Int) % (y - 1 - x + 1) :=
    Int.tmod_eq_emod (Int.ofNat_nonneg r) (by omega)
  have h1 := Int.emod_nonneg (r : Int) (ne_of_gt hpos)
  have h2 := Int.emod_lt_of_pos (r : Int) hpos
  have hden : (0 : ℚ) < (RAND_MAX : ℚ) + 1 := by positivity
  have hf0 : (0 : ℚ) ≤ (r : ℚ) / ((RAND_MAX : ℚ) + 1) := by positivity
  have hf1 : (r : ℚ) / ((RAND_MAX : ℚ) + 1) ≤ 1 := by
    rw [div_le_one hden]
    have : (r : ℚ) ≤ (RAND_MAX : ℚ) := by exact_mod_cast hr
    linarith
  unfold randFloatBetween
  rw [chkInt_of_range (by omega) (by omega)]
  simp only
  rw [chkInt_of_range (by omega) (by omega)]
  simp only
  rw [chkInt_of_range (by omega) (by omega)]
  simp only
  rw [if_neg (by omega), he]
  refine ⟨_, rfl, ?_, ?_⟩
  · have : (x : ℚ) ≤ (((r : Int) % (y - 1 - x + 1) + x : Int) : ℚ) := by
      exact_mod_cast (by omega : x ≤ (r : Int) % (y - 1 - x + 1) + x)
    linarith
  · have : (((r : Int) % (y - 1 - x + 1) + x : Int) : ℚ) ≤ ((y - 1 : Int) : ℚ) := by
      exact_mod_cast (by omega : (r : Int) % (y - 1 - x + 1) + x ≤ y - 1)
    push_cast at this ⊢
    linarith

theorem genFloat_half : GenFloat.randFunction 32767 (1 / 2) (3 / 2) 0 = some 0 := by
  have h1 : doubleToInt (1 / 2) = some 0 := by
    rw [doubleToInt_nonneg (by norm_num)]
    have : ⌊(1 / 2 : ℚ)⌋ = 0 := by rw [Int.floor_eq_iff]; norm_num
    rw [this]; rfl
  have h2 : doubleToInt (3 / 2) = some 1 := by
    rw [doubleToInt_nonneg (by norm_num)]
    have : ⌊(3 / 2 : ℚ)⌋ = 1 := by rw [Int.floor_eq_iff]; norm_num
    rw [this]; rfl
  unfold GenFloat.randFunction
  rw [h1, h2]
  simp [randFloatBetween, chkInt, INT_MIN, INT_MAX]

/-! ## Auxiliary lemmas: the shape left by the random initialisation -/

/-- A result of `randInt( x, y )` is an `int` not below `x`, and not above `y` when
`x <= y`. -/
theorem randInt_range {r : Nat} {x y c : Int} (h : randInt r x y = some c) :
    x ≤ c ∧ c ≤ INT_MAX ∧ (x ≤ y → c ≤ y) := by
  refine ⟨?_, ?_, fun hxy => (randInt_eq_some h hxy).2.2⟩
  · unfold randInt at h
    cases hd : chkInt (y - x) with
    | none => simp [hd] at h
    | some d =>
      rw [hd] at h
      cases hm : chkInt (d + 1) with
      | none => simp [hm] at h
      | some m =>
        simp only [hm] at h
        split at h
        · cases h
        · obtain ⟨_, rfl⟩ := chkInt_eq_some.mp h
          have := Int.tmod_nonneg m (Int.ofNat_nonneg r)
          omega
  · unfold randInt at h
    cases hd : chkInt (y - x) with
    | none => simp [hd] at h
    | some d =>
      rw [hd] at h
      cases hm : chkInt (d + 1) with
      | none => simp [hm] at h
      | some m =>
        simp only [hm] at h
        split at h
        · cases h
        · obtain ⟨⟨_, h2⟩, rfl⟩ := chkInt_eq_some.mp h
          exact h2

/-- The sub-gene sizes drawn by the loop of `initializeChromosome`, for bounds below `2^31`
and a target size of at most `2^31`: the sizes are appended, `tmpSize` grows by their sum
without wrapping and reaches the target, and the sum of the sizes before the last drawn one
is below the target. -/
theorem subGeneSizeLoop_spec (rand : Nat → Nat) (chromosomeSize minSubSize maxSubSize : Nat)
    (hx : minSubSize < 2147483648) (hy : maxSubSize < 2147483648)
    (hC : chromosomeSize ≤ 2147483648) :
    ∀ (fuel tmpSize k : Nat) (sizes sizes1 : List Int) (t k1 : Nat),
      subGeneSizeLoop rand chromosomeSize minSubSize maxSubSize fuel tmpSize k sizes =
        some (sizes1, t, k1) →
      ∃ drawn : List Int, sizes1 = sizes ++ drawn ∧ (t : Int) = (tmpSize : Int) + drawn.sum ∧
        chromosomeSize ≤ t ∧
        (∀ s ∈ drawn, (minSubSize : Int) ≤ s) ∧
        (minSubSize ≤ maxSubSize → ∀ s ∈ drawn, s ≤ (maxSubSize : Int)) ∧
        (∀ init last, drawn = init ++ [last] →
          (tmpSize : Int) + init.sum < (chromosomeSize : Int)) ∧
        (drawn = [] → chromosomeSize ≤ tmpSize) := by
  have hI : INT_MAX = 2147483647 := rfl
  have hU : UINT_MOD = 4294967296 := rfl
  intro fuel
  induction fuel with
  | zero =>
    intro tmpSize k sizes sizes1 t k1 h
    unfold subGeneSizeLoop at h
    split at h
    · cases h
    · simp only [Option.some.injEq, Prod.mk.injEq] at h
      obtain ⟨rfl, rfl, _⟩ := h
      exact ⟨[], by simp, by simp, by omega, by simp, by simp, by simp, fun _ => by omega⟩
  | succ n ih =>
    intro tmpSize k sizes sizes1 t k1 h
    unfold subGeneSizeLoop at h
    by_cases hlt : tmpSize < chromosomeSize
    · rw [if_pos hlt, uintToInt_small hx, uintToInt_small hy] at h
      cases hs : randInt (rand k) (minSubSize : Int) (maxSubSize : Int) with
      | none => rw [hs] at h; cases h
      | some s =>
        rw [hs] at h
        simp only at h
        obtain ⟨hlo, hmax, hhi⟩ := randInt_range hs
        obtain ⟨m, rfl⟩ : ∃ m : Nat, s = (m : Int) := ⟨s.toNat, by omega⟩
        have hcast : ((tmpSize : Int) + (m : Int)) = ((tmpSize + m : Nat) : Int) := by
          push_cast; rfl
        rw [hcast, intToUint_natCast (by omega)] at h
        obtain ⟨drawn, h1, h2, h3, h4, h5, h6, _⟩ := ih _ _ _ _ _ _ h
        refine ⟨(m : Int) :: drawn, ?_, ?_, h3, ?_, ?_, ?_, ?_⟩
        · rw [h1]; simp
        · rw [h2, List.sum_cons]; push_cast; omega
        · intro s hs'
          rcases List.mem_cons.mp hs' with rfl | hs'
          · exact hlo
          · exact h4 s hs'
        · intro hle s hs'
          rcases List.mem_cons.mp hs' with rfl | hs'
          · exact hhi (by exact_mod_cast hle)
          · exact h5 hle s hs'
        · intro init last he
          cases init with
          | nil =>
            simp only [List.sum_nil, add_zero]
            exact_mod_cast hlt
          | cons a init1 =>
            simp only [List.cons_append, List.cons.injEq] at he
            obtain ⟨rfl, he⟩ := he
            have := h6 init1 last he
            rw [List.sum_cons]
            push_cast at this
            omega
        · intro hc; cases hc
    · rw [if_neg hlt] at h
      simp only [Option.some.injEq, Prod.mk.injEq] at h
      obtain ⟨rfl, rfl, _⟩ := h
      exact ⟨[], by simp, by simp, by omega, by simp, by simp, by simp, fun _ => by omega⟩

theorem fillLoop_length {α : Type} (rand : Nat → Nat) (randFunction : ℚ → ℚ → Nat → Option α)
    (minRand maxRand : ℚ) :
    ∀ (cnt k : Nat) (values values1 : List α) (k1 : Nat),
      fillLoop rand randFunction minRand maxRand cnt k values = some (values1, k1) →
      values1.length = values.length + cnt := by
  intro cnt
  induction cnt with
  | zero =>
    intro k values values1 k1 h
    unfold fillLoop at h
    simp only [Option.some.injEq, Prod.mk.injEq] at h
    rw [← h.1]
    rfl
  | succ n ih =>
    intro k values values1 k1 h
    unfold fillLoop at h
    cases hv : randFunction minRand maxRand (rand k) with
    | none => rw [hv] at h; cases h
    | some v =>
      rw [hv] at h
      simp only at h
      rw [ih _ _ _ _ h, List.length_append]
      simp
      omega

/-- What a call of `initializeChromosome` that returns leaves, for size arguments below
`2^31`: a target length `L` was drawn, sub-gene sizes `drawn` were appended, and as many
values as they sum to were appended. -/
theorem initializeChromosome_spec {α : Type} {c c1 : Chromosome α} {rand : Nat → Nat}
    {randFunction : ℚ → ℚ → Nat → Option α} {fuel : Nat}
    {minCSize maxCSize minSubSize maxSubSize : Nat} {minRand maxRand : ℚ} {k k1 : Nat}
    (hC1 : minCSize < 2147483648) (hC2 : maxCSize < 2147483648)
    (hS1 : minSubSize < 2147483648) (hS2 : maxSubSize < 2147483648)
    (h : c.initializeChromosome rand randFunction fuel minCSize maxCSize minSubSize maxSubSize
      minRand maxRand k = some (c1, k1)) :
    ∃ (L : Nat) (drawn : List Int),
      randInt (rand k) (minCSize : Int) (maxCSize : Int) = some (L : Int) ∧
      minCSize ≤ L ∧ (minCSize ≤ maxCSize → L ≤ maxCSize) ∧
      c1.subGeneSizes = c.subGeneSizes ++ drawn ∧ c1.fitness = c.fitness ∧
      (c1.values.length : Int) = (c.values.length : Int) + drawn.sum ∧
      (L : Int) ≤ drawn.sum ∧
      (∀ s ∈ drawn, (minSubSize : Int) ≤ s) ∧
      (minSubSize ≤ maxSubSize → ∀ s ∈ drawn, s ≤ (maxSubSize : Int)) ∧
      (∀ init last, drawn = init ++ [last] → init.sum < (L : Int)) ∧
      (drawn = [] → L = 0) := by
  have hI : INT_MAX = 2147483647 := rfl
  have hU : UINT_MOD = 4294967296 := rfl
  unfold Chromosome.initializeChromosome at h
  rw [uintToInt_small hC1, uintToInt_small hC2] at h
  cases hs : randInt (rand k) (minCSize : Int) (maxCSize : Int) with
  | none => rw [hs] at h; cases h
  | some size =>
    rw [hs] at h
    simp only at h
    obtain ⟨hlo, hmax, hhi⟩ := randInt_range hs
    obtain ⟨L, rfl⟩ : ∃ L : Nat, size = (L : Int) := ⟨size.toNat, by omega⟩
    rw [intToUint_natCast (by omega)] at h
    cases hl : subGeneSizeLoop rand L minSubSize maxSubSize fuel 0 (k + 1) c.subGeneSizes with
    | none => rw [hl] at h; cases h
    | some r =>
      obtain ⟨sizes, t, k2⟩ := r
      rw [hl] at h
      simp only at h
      cases hf : fillLoop rand randFunction minRand maxRand t k2 c.values with
      | none => rw [hf] at h; cases h
      | some r2 =>
        obtain ⟨values, k3⟩ := r2
        rw [hf] at h
        simp only [Option.some.injEq, Prod.mk.injEq] at h
        obtain ⟨rfl, _⟩ := h
        obtain ⟨drawn, h1, h2, h3, h4, h5, h6, h7⟩ := subGeneSizeLoop_spec rand L minSubSize
          maxSubSize hS1 hS2 (by omega) fuel 0 (k + 1) c.subGeneSizes sizes t k2 hl
        have hlen := fillLoop_length rand randFunction minRand maxRand t k2 c.values values
          k3 hf
        refine ⟨L, drawn, rfl, by omega, fun hle => by
          have := hhi (by exact_mod_cast hle)
          omega, h1, rfl, ?_, ?_, h4, h5, ?_, fun hd => by
          have := h7 hd
          omega⟩
        · simp only
          rw [hlen]
          push_cast
          omega
        · push_cast at h2
          omega
        · intro init last he
          have := h6 init last he
          push_cast at this
          omega

/-- The random initialisation keeps the shape invariant, for size arguments below
`2^31`. -/
theorem initializeChromosome_shape {α : Type} {c c1 : Chromosome α} {rand : Nat → Nat}
    {randFunction : ℚ → ℚ → Nat → Option α} {fuel : Nat}
    {minCSize maxCSize minSubSize maxSubSize : Nat} {minRand maxRand : ℚ} {k k1 : Nat}
    (hC1 : minCSize < 2147483648) (hC2 : maxCSize < 2147483648)
    (hS1 : minSubSize < 2147483648) (hS2 : maxSubSize < 2147483648)
    (hc : c.shapeInvariant)
    (h : c.initializeChromosome rand randFunction fuel minCSize maxCSize minSubSize maxSubSize
      minRand maxRand k = some (c1, k1)) :
    c1.shapeInvariant := by
  obtain ⟨L, drawn, _, _, _, h1, _, h2, _⟩ := initializeChromosome_spec hC1 hC2 hS1 hS2 h
  unfold Chromosome.shapeInvariant at hc ⊢
  rw [h1, List.sum_append, h2, hc]

theorem initializeChromosomes_shape {α : Type} {rand : Nat → Nat}
    {randFunction : ℚ → ℚ → Nat → Option α} {fuel : Nat}
    {minCSize maxCSize minSubSize maxSubSize : Nat} {minRand maxRand : ℚ}
    (hC1 : minCSize < 2147483648) (hC2 : maxCSize < 2147483648)
    (hS1 : minSubSize < 2147483648) (hS2 : maxSubSize < 2147483648) :
    ∀ (l g : List (Chromosome α)) (k k1 : Nat), (∀ c ∈ l, c.shapeInvariant) →
      initializeChromosomes rand randFunction fuel minCSize maxCSize minSubSize maxSubSize
        minRand maxRand l k = some (g, k1) →
      g.length = l.length ∧ ∀ c ∈ g, c.shapeInvariant := by
  intro l
  induction l with
  | nil =>
    intro g k k1 _ h
    unfold initializeChromosomes at h
    simp only [Option.some.injEq, Prod.mk.injEq] at h
    rw [← h.1]
    exact ⟨rfl, by simp⟩
  | cons c rest ih =>
    intro g k k1 hl h
    unfold initializeChromosomes at h
    cases h1 : c.initializeChromosome rand randFunction fuel minCSize maxCSize minSubSize
        maxSubSize minRand maxRand k with
    | none => simp [h1] at h
    | some r1 =>
      obtain ⟨c1, k2⟩ := r1
      simp only [h1] at h
      cases h2 : initializeChromosomes rand randFunction fuel minCSize maxCSize minSubSize
          maxSubSize minRand maxRand rest k2 with
      | none => simp [h2] at h
      | some r2 =>
        obtain ⟨rest1, k3⟩ := r2
        simp only [h2, Option.some.injEq, Prod.mk.injEq] at h
        obtain ⟨rfl, _⟩ := h
        obtain ⟨hlen, hall⟩ := ih rest1 k2 k3 (fun x hx => hl x (List.mem_cons_of_mem _ hx)) h2
        refine ⟨by simp [hlen], fun x hx => ?_⟩
        rcases List.mem_cons.mp hx with rfl | hx
        · exact initializeChromosome_shape hC1 hC2 hS1 hS2 (hl c (List.mem_cons_self _ _)) h1
        · exact hall x hx

theorem generationClass_new_shape {α : Type} (n : Nat) :
    ∀ c ∈ (GenerationClass.new n : List (Chromosome α)), c.shapeInvariant := by
  intro c hc
  unfold GenerationClass.new at hc
  rw [List.eq_of_mem_replicate hc]
  simp [Chromosome.shapeInvariant, Chromosome.empty]

/-- Existence and length of the values drawn by the second loop of
`initializeChromosome`. -/
theorem fillLoop_returns {α : Type} (rand : Nat → Nat) (randFunction : ℚ → ℚ → Nat → Option α)
    (minRand maxRand : ℚ) (hrf : ∀ d, ∃ v, randFunction minRand maxRand d = some v)
    (cnt k : Nat) (values : List α) :
    ∃ values1 k1, fillLoop rand randFunction minRand maxRand cnt k values =
        some (values1, k1) ∧ values1.length = values.length + cnt := by
  obtain ⟨values1, k1, h⟩ := fillLoop_total rand randFunction minRand maxRand hrf cnt k values
  exact ⟨values1, k1, h, fillLoop_length rand randFunction minRand maxRand cnt k values
    values1 k1 h⟩

/-- A call of `initializeChromosome` on an empty chromosome whose first drawn sub-gene size
`s` already brings `tmpSize` to the target length: the chromosome gets the one sub gene `s`
and `t` values, `t` being `s` converted to `unsigned int`. -/
theorem initializeChromosome_one_draw {α : Type} (rand : Nat → Nat)
    (randFunction : ℚ → ℚ → Nat → Option α) (fuel : Nat)
    (minCSize maxCSize minSubSize maxSubSize : Nat) (minRand maxRand : ℚ) (k : Nat)
    (size s : Int) (t : Nat)
    (hrf : ∀ d, ∃ v, randFunction minRand maxRand d = some v)
    (hsize : randInt (rand k) (uintToInt minCSize) (uintToInt maxCSize) = some size)
    (hpos : 0 < intToUint size)
    (hs : randInt (rand (k + 1)) (uintToInt minSubSize) (uintToInt maxSubSize) = some s)
    (ht : intToUint (((0 : Nat) : Int) + s) = t) (hge : intToUint size ≤ t) :
    ∃ (c1 : Chromosome α) (k1 : Nat),
      (Chromosome.empty : Chromosome α).initializeChromosome rand randFunction (fuel + 1)
        minCSize maxCSize minSubSize maxSubSize minRand maxRand k = some (c1, k1) ∧
      c1.subGeneSizes = [s] ∧ c1.values.length = t := by
  obtain ⟨values1, k1, hf, hlen⟩ := fillLoop_returns rand randFunction minRand maxRand hrf t
    (k + 1 + 1) ([] : List α)
  have hloop : subGeneSizeLoop rand (intToUint size) minSubSize maxSubSize (fuel + 1) 0 (k + 1)
      (Chromosome.empty : Chromosome α).subGeneSizes = some ([s], t, k + 1 + 1) := by
    conv_lhs => unfold subGeneSizeLoop
    rw [if_pos hpos, hs]
    simp only
    rw [ht]
    cases fuel with
    | zero =>
      unfold subGeneSizeLoop
      rw [if_neg (by omega)]
      rfl
    | succ n =>
      unfold subGeneSizeLoop
      rw [if_neg (by omega)]
      rfl
  refine ⟨{ values := values1, subGeneSizes := [s], fitness := 0 }, k1, ?_, rfl, by
    simpa using hlen⟩
  unfold Chromosome.initializeChromosome
  rw [hsize]
  simp only
  rw [hloop]
  simp only
  have h3 : (Chromosome.empty : Chromosome α).values = [] := rfl
  rw [h3, hf]
  rfl

/-- A chromosome initialised with one sub gene whose size bounds are both `2^32 - 1`: the
size is stored as the `int` -1, and `2^32 - 1` values are drawn. -/
theorem initializeChromosome_wrapped :
    ∃ (c1 : Chromosome Int) (k1 : Nat),
      (Chromosome.empty : Chromosome Int).initializeChromosome (fun _ => 0)
        GenInt.randFunction 1 1 1 4294967295 4294967295 0 9 0 = some (c1, k1) ∧
      c1.subGeneSizes = [-1] ∧ c1.values.length = 4294967295 :=
  initializeChromosome_one_draw (fun _ => 0) GenInt.randFunction 0 1 1 4294967295 4294967295
    0 9 0 1 (-1) 4294967295 genInt_randFunction_total
    (by simp [randInt, uintToInt, chkInt, UINT_MOD, INT_MIN, INT_MAX])
    (by simp [intToUint, UINT_MOD])
    (by simp [randInt, uintToInt, chkInt, UINT_MOD, INT_MIN, INT_MAX])
    (by simp [intToUint, UINT_MOD]) (by simp [intToUint, UINT_MOD])

/-- A chromosome initialised with one sub gene whose size bounds are both `2^31`: the size
is stored as the `int` `-2^31`. -/
theorem initializeChromosome_negative :
    ∃ (c1 : Chromosome Int) (k1 : Nat),
      (Chromosome.empty : Chromosome Int).initializeChromosome (fun _ => 0)
        GenInt.randFunction 1 1 1 2147483648 2147483648 0 9 0 = some (c1, k1) ∧
      c1.subGeneSizes = [-2147483648] ∧ c1.values.length = 2147483648 :=
  initializeChromosome_one_draw (fun _ => 0) GenInt.randFunction 0 1 1 2147483648 2147483648
    0 9 0 1 (-2147483648) 2147483648 genInt_randFunction_total
    (by simp [randInt, uintToInt, chkInt, UINT_MOD, INT_MIN, INT_MAX])
    (by simp [intToUint, UINT_MOD])
    (by simp [randInt, uintToInt, chkInt, UINT_MOD, INT_MIN, INT_MAX])
    (by simp [intToUint, UINT_MOD]) (by simp [intToUint, UINT_MOD])

/-! ## Auxiliary lemmas: the reads of `crossOver` -/

/-- The flat index computed for a crosspoint of a chromosome with non-negative sub-gene
sizes is not beyond the sum of all sizes. -/
theorem sumLoop_le_sum {sizes : List Int} {cnt r : Nat} (h : sumLoop sizes cnt 0 0 = some r)
    (hnn : ∀ s ∈ sizes, (0 : Int) ≤ s) : (r : Int) ≤ sizes.sum := by
  obtain ⟨_, rfl⟩ := sumLoop_some h
  have h0 := sum_take_nonneg hnn cnt
  have h1 := sum_take_le hnn cnt
  have hM : (0 : Int) < (UINT_MOD : Int) := by decide
  have h2 : (sizes.take cnt).sum % (UINT_MOD : Int) ≤ (sizes.take cnt).sum := by
    obtain ⟨n, hn⟩ := Int.eq_ofNat_of_zero_le h0
    rw [hn]
    exact_mod_cast Nat.mod_le n UINT_MOD
  rw [Int.toNat_of_nonneg (Int.emod_nonneg _ (ne_of_gt hM))]
  omega

/-- Under the preconditions of `crossOver` with independent crosspoints, every indexed read
of the crosspoint computation and of the copy loops is inside the vector it reads. -/
theorem crossOverBody_defined {α : Type} {P : Population α} (RAND_MAX : Nat)
    {p1 p2 : Chromosome α} (d1 d2 d3 : Nat) (heq : P.equalCrossPoints = false)
    (hready : crossReady P p1 p2) (hs1 : p1.shapeInvariant) (hs2 : p2.shapeInvariant)
    (hn1 : p1.sizesNonneg) (hn2 : p2.sizesNonneg) :
    ∃ cp1 r1 cp2 r2 b1 b2, crossPoints P p1 p2 d1 d2 = some (cp1, r1, cp2, r2) ∧
      cp1 < p1.subGeneSizes.length ∧ cp2 < p2.subGeneSizes.length ∧
      r1 ≤ p1.values.length ∧ r2 ≤ p2.values.length ∧
      crossOverBody P RAND_MAX p1 p2 d1 d2 d3 = some (b1, b2) := by
  obtain ⟨cp1, r1, cp2, r2, hcp, hc1, hc2, _⟩ := @crossPoints_total α P p1 p2 d1 d2 hready
  have hc2' := hc2 heq
  obtain ⟨hl1, _, hl2, _, _⟩ := hready
  obtain ⟨c2, s2, _, hsum1, _, hsum2, _, hne⟩ := crossPoints_eq_some hcp
  obtain ⟨rfl, rfl⟩ := hne heq
  have hr1 := sumLoop_le_sum hsum1 hn1
  have hr2 := sumLoop_le_sum hsum2 hn2
  unfold Chromosome.shapeInvariant at hs1 hs2
  have hv1 : r1 ≤ p1.values.length := by omega
  have hv2 : r2 ≤ p2.values.length := by omega
  have hrec : ∃ b1 b2, recombine p1 p2 cp1 r1 cp2 r2 = some (b1, b2) := by
    rw [recombine_eq, if_pos ⟨hv1, hv2, by omega, by omega⟩]
    exact ⟨_, _, rfl⟩
  obtain ⟨b1, b2, hb⟩ := hrec
  rw [crossOverBody_of_points RAND_MAX d3 hcp]
  by_cases hu : randFloat RAND_MAX d3 < P.crossOverRate
  · exact ⟨cp1, r1, cp2, r2, b1, b2, hcp, by omega, by omega, hv1, hv2, by rw [if_pos hu, hb]⟩
  · exact ⟨cp1, r1, cp2, r2, p1, p2, hcp, by omega, by omega, hv1, hv2, by rw [if_neg hu]⟩

/-- The babies of `crossOver` have at least one sub gene when the parents have and the
crosspoint ranges are valid, with or without `equalCrossPoints`. -/
theorem crossOver_nonempty {α : Type} {P : Population α} {RAND_MAX : Nat} {rand : Nat → Nat}
    {generation : List (Chromosome α)} {fuel k i1 i2 k1 k2 : Nat} {p1 p2 b1 b2 : Chromosome α}
    (hsel : selectParents P RAND_MAX rand generation fuel k = some ((i1, p1), (i2, p2), k1))
    (hready : crossReady P p1 p2)
    (h : crossOver P RAND_MAX rand generation fuel k = some (b1, b2, k2)) :
    1 ≤ b1.subGeneSizes.length ∧ 1 ≤ b2.subGeneSizes.length := by
  obtain ⟨cp1, r1, cp2, r2, hcp, _, hout⟩ := crossOver_outcome hsel h
  obtain ⟨c1, s1, c2, s2, hcp', hc1, hc2, hc3⟩ := @crossPoints_total α P p1 p2 (rand k1)
    (rand (k1 + 1)) hready
  rw [hcp] at hcp'
  simp only [Option.some.injEq, Prod.mk.injEq] at hcp'
  obtain ⟨rfl, rfl, rfl, rfl⟩ := hcp'
  obtain ⟨hl1, _, hl2, _, _⟩ := hready
  rcases hout with ⟨_, _, _, hb1, hb2, rfl, rfl⟩ | ⟨_, rfl, rfl⟩
  · simp only [List.length_append, List.length_take, List.length_drop]
    cases he : P.equalCrossPoints with
    | false =>
      have := hc2 he
      omega
    | true =>
      have := hc3 he
      omega
  · exact ⟨hl1, hl2⟩

/-- Having at least one sub gene is kept by `createNewGeneration`: when every chromosome of
both buffers has at least one sub gene, the chromosomes of the current generation have at
most `INT_MAX` of them and the crosspoint ranges are valid, every chromosome of both buffers
after the call has at least one sub gene, and the ranges are unchanged. -/
theorem createNewGeneration_nonempty {α : Type} {P P1 : Population α} {RAND_MAX : Nat}
    {rand : Nat → Nat} {randFunction : ℚ → ℚ → Nat → Option α} {fuel k k1 : Nat}
    {og ng : List (Chromosome α)} (hrange : validRanges P)
    (ho : P.oldGeneration = some og) (hn : P.newGeneration = some ng)
    (hall : ∀ c ∈ og ++ ng, 1 ≤ c.subGeneSizes.length)
    (hmax : ∀ c ∈ ng, (c.subGeneSizes.length : Int) ≤ INT_MAX)
    (h : createNewGeneration P RAND_MAX rand randFunction fuel k = some (P1, k1)) :
    ∃ g, P1.newGeneration = some g ∧ P1.oldGeneration = some ng ∧ g.length = og.length ∧
      (∀ c ∈ ng ++ g, 1 ≤ c.subGeneSizes.length) ∧ validRanges P1 := by
  obtain ⟨og1, ng1, g, ho1, hn1, hloop, rfl⟩ := createNewGeneration_eq_some h
  rw [ho] at ho1
  rw [hn] at hn1
  obtain rfl := Option.some.inj ho1
  obtain rfl := Option.some.inj hn1
  have key := generationLoop_forall P RAND_MAX rand randFunction ng (sizeMinusOne og.length)
    fuel (fun c => 1 ≤ c.subGeneSizes.length) ?_ ?_ og.length 0 k og g k1 ?_ hloop
  · refine ⟨g, rfl, rfl, key.1, ?_, hrange⟩
    intro c hc
    rcases List.mem_append.mp hc with hc | hc
    · exact hall c (List.mem_append_right _ hc)
    · exact key.2 c hc
  · intro kk b1 b2 k2 hc
    obtain ⟨i1, i2, kc, p1, p2, hsel⟩ := crossOver_select hc
    obtain ⟨hm1, hm2⟩ := selectParents_mem hsel
    have hp1 := List.getElem?_mem hm1
    have hp2 := List.getElem?_mem hm2
    exact crossOver_nonempty hsel
      ⟨hall p1 (List.mem_append_right _ hp1), hmax p1 hp1,
        hall p2 (List.mem_append_right _ hp2), hmax p2 hp2, hrange⟩ hc
  · intro c kk c1 k2 hq hm
    obtain ⟨h1, _, _⟩ := mutate_preserves hm
    show 1 ≤ c1.subGeneSizes.length
    rw [h1]
    exact hq
  · intro c hc
    exact hall c (List.mem_append_left _ hc)

theorem sizeMinusOne_pos {n : Nat} (h : 1 ≤ n) : sizeMinusOne n = n - 1 := by
  unfold sizeMinusOne
  rw [if_neg (by omega)]

theorem validRanges_default (e : Bool) : validRanges (defaultPopulation e) := by
  intro j
  simp [defaultPopulation]

/-! ## Auxiliary lemmas: chromosomes of fitness zero in the selection -/

theorem exists_pos_of_totalFitness_pos {α : Type} {generation : List (Chromosome α)}
    (hpos : 0 < totalFitness generation) : ∃ c ∈ generation, 0 < c.fitness := by
  by_contra hcon
  push_neg at hcon
  have : ∀ l : List (Chromosome α), (∀ c ∈ l, c.fitness ≤ 0) →
      (l.map (fun c => c.fitness)).sum ≤ 0 := by
    intro l
    induction l with
    | nil => intro _; simp
    | cons a t ih =>
      intro hl
      simp only [List.map_cons, List.sum_cons]
      have h1 := hl a (List.mem_cons_self _ _)
      have h2 := ih (fun c hc => hl c (List.mem_cons_of_mem _ hc))
      linarith
  have h3 := this generation hcon
  rw [totalFitness_eq_sum] at hpos
  linarith

/-- The index returned by `grabChromosome` is the index of a chromosome of positive
fitness. -/
theorem grabChromosome_positive {α : Type} {RAND_MAX : Nat} {generation : List (Chromosome α)}
    (hnn : ∀ c ∈ generation, 0 ≤ c.fitness) {fuel d i : Nat}
    (h : grabChromosome RAND_MAX generation fuel d = some i) :
    ∃ c, generation[i]? = some c ∧ 0 < c.fitness := by
  have hn : 0 < generation.length := by
    cases generation with
    | nil =>
      unfold grabChromosome at h
      cases fuel with
      | zero => simp [grabLoop, totalFitness] at h
      | succ n => simp [grabLoop, totalFitness] at h
    | cons c rest => simp
  obtain ⟨m, _, rfl, hlt, hle⟩ := (grabChromosome_spec RAND_MAX generation hn fuel d i).mp h
  have hr : 0 ≤ randFloat RAND_MAX d * totalFitness generation :=
    mul_nonneg (randFloat_nonneg RAND_MAX d) (totalFitness_nonneg hnn)
  cases m with
  | zero =>
    have h0 : walkAcc generation 0 = 0 := rfl
    rw [h0] at hlt
    linarith
  | succ n =>
    obtain ⟨c, hc, hw⟩ := walkAcc_succ generation hn n
    have := hle n (Nat.lt_succ_self n)
    exact ⟨c, hc, by linarith⟩

/-- When every draw of `grabChromosome` gives the index `i0`, the rejection loop of
`selectParents` never ends. -/
theorem selectLoop_stuck {α : Type} {RAND_MAX : Nat} {rand : Nat → Nat}
    {generation : List (Chromosome α)} {i0 : Nat} (gfuel : Nat)
    (hall : ∀ k i, grabChromosome RAND_MAX generation gfuel (rand k) = some i → i = i0) :
    ∀ fuel k, selectLoop RAND_MAX rand generation gfuel i0 fuel k i0 = none := by
  intro fuel
  induction fuel with
  | zero => intro k; simp [selectLoop]
  | succ fuel ih =>
    intro k
    unfold selectLoop
    rw [if_pos rfl]
    cases hg : grabChromosome RAND_MAX generation gfuel (rand k) with
    | none => rfl
    | some j =>
      have := hall k j hg
      subst this
      exact ih (k + 1)

theorem selectParents_stuck {α : Type} {P : Population α} {RAND_MAX : Nat} {rand : Nat → Nat}
    {generation : List (Chromosome α)} {i0 : Nat} (hcl : P.cloneParents = false) (fuel : Nat)
    (hall : ∀ k i, grabChromosome RAND_MAX generation fuel (rand k) = some i → i = i0)
    (k : Nat) : selectParents P RAND_MAX rand generation fuel k = none := by
  unfold selectParents
  cases hg : grabChromosome RAND_MAX generation fuel (rand k) with
  | none => rfl
  | some j =>
    have := hall k j hg
    subst this
    simp only
    cases hp : generation[j]? with
    | none => rfl
    | some p =>
      simp only [hcl, Bool.false_eq_true, if_false]
      rw [selectLoop_stuck fuel hall fuel (k + 1)]

/-! ## Auxiliary lemmas: the sub genes of a chromosome, one after the other -/

/-- The first `k` sub genes of a well-formed chromosome, concatenated, are the values before
the start of sub gene `k`. -/
theorem subGenes_upto {α : Type} {c : Chromosome α} (hw : c.wellFormed)
    (hmax : (c.values.length : Int) ≤ INT_MAX) :
    ∀ k, k ≤ c.subGeneSizes.length →
      ((List.range k).map (fun j => (c.getSubGene j).getD [])).flatten =
        c.values.take (Int.toNat (c.subGeneSizes.take k).sum) := by
  intro k
  induction k with
  | zero => intro _; simp
  | succ k ih =>
    intro hk
    have hlt : k < c.subGeneSizes.length := hk
    have hsz : c.subGeneSizes[k]? = some c.subGeneSizes[k] := List.getElem?_eq_getElem hlt
    have hs0 : 0 ≤ c.subGeneSizes[k] := hw.1 _ (List.getElem_mem hlt)
    have ht0 : 0 ≤ (c.subGeneSizes.take k).sum := sum_take_nonneg hw.1 k
    rw [List.range_succ, List.map_append, List.flatten_append, ih (by omega),
      take_succ_sum c.subGeneSizes k _ hsz, Int.toNat_add ht0 hs0, List.take_add]
    congr 1
    simp only [List.map_cons, List.map_nil, List.flatten_cons, List.flatten_nil,
      List.append_nil]
    rw [wellFormed_getSubGene hw hmax k _ hsz]
    rfl

theorem getSubGeneAt_eq {α : Type} (c : Chromosome α) (g s : Nat) :
    c.getSubGeneAt g s = c.getSubGene ((2 * g + s) % UINT_MOD) := by
  unfold Chromosome.getSubGeneAt
  by_cases h : g = 0
  · rw [if_pos h, h]
  · rw [if_neg h, Nat.mul_comm]

/-- The pairs `(g, 0)`, `(g, 1)` for `g = 0, ..., N - 1`, in this order, address the flat
sub-gene indices `0, ..., 2 N - 1` in order. -/
theorem getSubGeneAt_enumerates {α : Type} (c : Chromosome α) :
    ∀ N, 2 * N ≤ UINT_MOD →
      ((List.range N).map (fun g => [c.getSubGeneAt g 0, c.getSubGeneAt g 1])).flatten =
        (List.range (2 * N)).map c.getSubGene := by
  intro N
  induction N with
  | zero => intro _; rfl
  | succ N ih =>
    intro h
    have e : 2 * (N + 1) = (2 * N + 1) + 1 := by omega
    rw [List.range_succ, List.map_append, List.flatten_append, ih (by omega), e,
      List.range_succ, List.range_succ, List.map_append, List.map_append, List.append_assoc]
    congr 1
    simp only [List.map_cons, List.map_nil, List.flatten_cons, List.flatten_nil,
      List.append_nil, List.singleton_append]
    rw [getSubGeneAt_eq, getSubGeneAt_eq, Nat.add_zero, Nat.mod_eq_of_lt (by omega),
      Nat.mod_eq_of_lt (by omega)]

/-! ## Auxiliary lemmas: the crosspoint ranges under the range setters -/

theorem setCrossPointRange_valid {α : Type} {P P1 : Population α} {min max : ℚ}
    (h : setCrossPointRange P min max = Checked.returned P1) : validRanges P1 := by
  unfold setCrossPointRange at h
  split at h
  · rename_i hc
    simp only [Checked.returned.injEq] at h
    rw [← h]
    intro j
    exact ⟨le_of_lt hc.1, hc.2.2.2.2, le_of_lt hc.2.2.2.1⟩
  · cases h

theorem setCrossPointRangeAt_valid {α : Type} {P P1 : Population α} {cpIndex : Nat}
    {min max : ℚ} (hP : validRanges P)
    (h : setCrossPointRangeAt P cpIndex min max = Checked.returned P1) : validRanges P1 := by
  unfold setCrossPointRangeAt at h
  split at h
  · rename_i hc
    simp only [Checked.returned.injEq] at h
    rw [← h]
    intro j
    by_cases hj : j = ⟨cpIndex, by omega⟩
    · subst hj
      show 0 ≤ Function.update P.minCrossValue _ min _ ∧
        Function.update P.minCrossValue _ min _ ≤ Function.update P.maxCrossValue _ max _ ∧
        Function.update P.maxCrossValue _ max _ ≤ 100
      rw [Function.update_same, Function.update_same]
      exact ⟨hc.1, hc.2.2.2.2.1, hc.2.2.2.1⟩
    · show 0 ≤ Function.update P.minCrossValue _ min j ∧
        Function.update P.minCrossValue _ min j ≤ Function.update P.maxCrossValue _ max j ∧
        Function.update P.maxCrossValue _ max j ≤ 100
      rw [Function.update_noteq hj, Function.update_noteq hj]
      exact hP j
  · cases h

theorem applyRangeCalls_valid {α : Type} (calls : List RangeCall) :
    ∀ (P P1 : Population α), validRanges P → applyRangeCalls P calls = Checked.returned P1 →
      validRanges P1 := by
  induction calls with
  | nil =>
    intro P P1 hP h
    simp only [applyRangeCalls, Checked.returned.injEq] at h
    rw [← h]
    exact hP
  | cons call rest ih =>
    intro P P1 hP h
    cases call with
    | both min max =>
      simp only [applyRangeCalls] at h
      cases hs : setCrossPointRange P min max with
      | returned P2 =>
        rw [hs] at h
        exact ih P2 P1 (setCrossPointRange_valid hs) h
      | assertFailed => rw [hs] at h; cases h
      | noResult => rw [hs] at h; cases h
    | one cpIndex min max =>
      simp only [applyRangeCalls] at h
      cases hs : setCrossPointRangeAt P cpIndex min max with
      | returned P2 =>
        rw [hs] at h
        exact ih P2 P1 (setCrossPointRangeAt_valid hP hs) h
      | assertFailed => rw [hs] at h; cases h
      | noResult => rw [hs] at h; cases h

theorem initializePopulation_ranges {α : Type} {P P1 : Population α} {rand : Nat → Nat}
    {randFunction : ℚ → ℚ → Nat → Option α} {now : Int} {fuel : Nat}
    {generationSize minCSize maxCSize minSubSize maxSubSize : Nat} {minRand maxRand : ℚ}
    {k1 : Nat}
    (h : initializePopulation P rand randFunction now fuel generationSize minCSize maxCSize
      minSubSize maxSubSize minRand maxRand = Checked.returned (P1, k1)) :
    (∀ j, P1.minCrossValue j = 0) ∧ (∀ j, P1.maxCrossValue j = 100) := by
  unfold initializePopulation at h
  split at h
  · cases h
  · split at h
    · cases h
    · split at h
      · cases h
      · simp only [Checked.returned.injEq, Prod.mk.injEq] at h
        rw [← h.1]
        exact ⟨fun _ => rfl, fun _ => rfl⟩

/-! ## Auxiliary lemmas: the solution flag in the solving loop -/

/-- With the solution flag set, the loop of `startSolving` runs one generation and stops. -/
theorem solvingLoop_flag_set {α : Type}
    (parseChromosomes : Solver α → Nat → Option (Population α × Bool × Nat))
    (RAND_MAX : Nat) (rand : Nat → Nat) (randFunction : ℚ → ℚ → Nat → Option α) (fuel : Nat)
    (n i : Nat) (s : Solver α) (k : Nat) (log : List Call) {P1 P2 : Population α} {f : Bool}
    {k1 k2 : Nat} (hs : s._solution = true)
    (hp : parseChromosomes s k = some (P1, f, k1))
    (hc : createNewGeneration P1 RAND_MAX rand randFunction fuel k1 = some (P2, k2)) :
    solvingLoop parseChromosomes RAND_MAX rand randFunction fuel (n + 1) i s k log =
      some ({ population := P2, _solution := true, _currentGeneration := i }, k2,
        log ++ [Call.parseChromosomes, Call.createNewGeneration]) := by
  conv_lhs => unfold solvingLoop
  rw [hp]
  simp only
  rw [hc]
  simp only [hs, Bool.true_or, if_true]

/-- The loop of `startSolving` never clears the solution flag. -/
theorem solvingLoop_sticky {α : Type}
    (parseChromosomes : Solver α → Nat → Option (Population α × Bool × Nat))
    (RAND_MAX : Nat) (rand : Nat → Nat) (randFunction : ℚ → ℚ → Nat → Option α) (fuel : Nat) :
    ∀ n i s k log s1 k1 log1,
      solvingLoop parseChromosomes RAND_MAX rand randFunction fuel n i s k log =
        some (s1, k1, log1) →
      s._solution = true → s1._solution = true := by
  intro n
  cases n with
  | zero =>
    intro i s k log s1 k1 log1 h hs
    unfold solvingLoop at h
    simp only [Option.some.injEq, Prod.mk.injEq] at h
    rw [← h.1]
    exact hs
  | succ n =>
    intro i s k log s1 k1 log1 h hs
    cases hp : parseChromosomes s k with
    | none =>
      unfold solvingLoop at h
      simp [hp] at h
    | some r =>
      obtain ⟨P1, f, k2⟩ := r
      cases hc : createNewGeneration P1 RAND_MAX rand randFunction fuel k2 with
      | none =>
        unfold solvingLoop at h
        simp [hp, hc] at h
      | some r2 =>
        obtain ⟨P2, k3⟩ := r2
        rw [solvingLoop_flag_set parseChromosomes RAND_MAX rand randFunction fuel n i s k log
          hs hp hc] at h
        simp only [Option.some.injEq, Prod.mk.injEq] at h
        rw [← h.1]

/-! ## Auxiliary lemmas: the first evaluator call of a run -/

/-- The first generation of a run in which the evaluator calls `foundSolution`: the loop
stops after the replacement. -/
theorem solvingLoop_first_found {α : Type}
    (parseChromosomes : Solver α → Nat → Option (Population α × Bool × Nat))
    (RAND_MAX : Nat) (rand : Nat → Nat) (randFunction : ℚ → ℚ → Nat → Option α) (fuel : Nat)
    (n i : Nat) (s : Solver α) (k : Nat) (log : List Call) {P1 P2 : Population α}
    {k1 k2 : Nat} (hp : parseChromosomes s k = some (P1, true, k1))
    (hc : createNewGeneration P1 RAND_MAX rand randFunction fuel k1 = some (P2, k2)) :
    solvingLoop parseChromosomes RAND_MAX rand randFunction fuel (n + 1) i s k log =
      some ({ population := P2, _solution := true, _currentGeneration := i }, k2,
        log ++ [Call.parseChromosomes, Call.createNewGeneration]) := by
  conv_lhs => unfold solvingLoop
  rw [hp]
  simp only
  rw [hc]
  simp only [Bool.or_true, if_true]

/-- A run of one generation in which the evaluator does not call `foundSolution`. -/
theorem solvingLoop_one {α : Type}
    (parseChromosomes : Solver α → Nat → Option (Population α × Bool × Nat))
    (RAND_MAX : Nat) (rand : Nat → Nat) (randFunction : ℚ → ℚ → Nat → Option α) (fuel : Nat)
    (i : Nat) (s : Solver α) (k : Nat) (log : List Call) {P1 P2 : Population α}
    {k1 k2 : Nat} (hs : s._solution = false)
    (hp : parseChromosomes s k = some (P1, false, k1))
    (hc : createNewGeneration P1 RAND_MAX rand randFunction fuel k1 = some (P2, k2)) :
    solvingLoop parseChromosomes RAND_MAX rand randFunction fuel 1 i s k log =
      some ({ population := P2, _solution := false, _currentGeneration := i }, k2,
        log ++ [Call.parseChromosomes, Call.createNewGeneration]) := by
  conv_lhs => unfold solvingLoop
  rw [hp]
  simp only
  rw [hc]
  simp only [hs, Bool.or_false]
  unfold solvingLoop
  simp

/-- The evaluator `probeEvaluator v` reads `getCurrentGeneration()` of the solver it is
called on. -/
theorem probeEvaluator_eq {α : Type} (v : Nat) (s : Solver α) (k : Nat) :
    probeEvaluator v s k = unitEvaluator (decide (s._currentGeneration = v)) s k := rfl

/-! ## Auxiliary lemmas: the selection walk with the roundings of the source -/

theorem walkAccRounded_succ {α : Type} (longDouble : ℚ → ℚ)
    (generation : List (Chromosome α)) (hn : 0 < generation.length) (m : Nat) :
    ∃ c, generation[(m + 1) % generation.length]? = some c ∧
      walkAccRounded longDouble generation (m + 1) =
        longDouble (walkAccRounded longDouble generation m + c.fitness) := by
  have hlt := Nat.mod_lt (m + 1) hn
  refine ⟨generation[(m + 1) % generation.length], List.getElem?_eq_getElem hlt, ?_⟩
  show longDouble (walkAccRounded longDouble generation m + _) = _
  rw [List.getElem?_eq_getElem hlt]
  rfl

/-- The selection loop with rounded accumulator, started after `m0` steps of the walk,
stops at the first step `m >= m0` whose accumulated fitness exceeds `randomFitness`, if that
step comes within the fuel. -/
theorem grabLoopRounded_spec {α : Type} (longDouble : ℚ → ℚ)
    (generation : List (Chromosome α)) (hn : 0 < generation.length) (r : ℚ) (i : Nat) :
    ∀ fuel m0, grabLoopRounded longDouble generation r fuel (m0 % generation.length)
        (walkAccRounded longDouble generation m0) = some i ↔
      ∃ m, m0 ≤ m ∧ m ≤ m0 + fuel ∧ i = m % generation.length ∧
        r < walkAccRounded longDouble generation m ∧
        ∀ j, m0 ≤ j → j < m → walkAccRounded longDouble generation j ≤ r := by
  intro fuel
  induction fuel with
  | zero =>
    intro m0
    unfold grabLoopRounded
    by_cases h : walkAccRounded longDouble generation m0 ≤ r
    · rw [if_pos h]
      constructor
      · intro hc; cases hc
      · rintro ⟨m, h1, h2, _, h4, _⟩
        have : m = m0 := by omega
        subst this
        exact absurd h (not_le.mpr h4)
    · rw [if_neg h]
      constructor
      · intro hc
        refine ⟨m0, le_refl _, by omega, (Option.some.inj hc).symm, not_le.mp h, ?_⟩
        intro j h1 h2; omega
      · rintro ⟨m, h1, h2, h3, _, _⟩
        have : m = m0 := by omega
        subst this
        rw [h3]
  | succ fuel ih =>
    intro m0
    unfold grabLoopRounded
    by_cases h : walkAccRounded longDouble generation m0 ≤ r
    · rw [if_pos h]
      simp only
      rw [next_index generation.length m0 hn]
      obtain ⟨c, hc, hw⟩ := walkAccRounded_succ longDouble generation hn m0
      rw [hc]
      simp only
      rw [← hw, ih (m0 + 1)]
      constructor
      · rintro ⟨m, h1, h2, h3, h4, h5⟩
        refine ⟨m, by omega, by omega, h3, h4, ?_⟩
        intro j hj1 hj2
        by_cases hj : j = m0
        · subst hj; exact h
        · exact h5 j (by omega) hj2
      · rintro ⟨m, h1, h2, h3, h4, h5⟩
        have hne : m ≠ m0 := by
          rintro rfl
          exact absurd h (not_le.mpr h4)
        exact ⟨m, by omega, by omega, h3, h4, fun j hj1 hj2 => h5 j (by omega) hj2⟩
    · rw [if_neg h]
      constructor
      · intro hc
        refine ⟨m0, le_refl _, by omega, (Option.some.inj hc).symm, not_le.mp h, ?_⟩
        intro j h1 h2; omega
      · rintro ⟨m, h1, h2, h3, h4, h5⟩
        by_cases hm : m = m0
        · subst hm; rw [h3]
        · exact absurd (h5 m0 (le_refl _) (by omega)) h

theorem totalFitnessRounded_nonneg {α : Type} {longDouble : ℚ → ℚ}
    (hlong : ∀ x, 0 ≤ x → 0 ≤ longDouble x) {generation : List (Chromosome α)}
    (hnn : ∀ c ∈ generation, 0 ≤ c.fitness) :
    0 ≤ totalFitnessRounded longDouble generation := by
  unfold totalFitnessRounded
  have : ∀ (l : List (Chromosome α)) (a : ℚ), (∀ c ∈ l, 0 ≤ c.fitness) → 0 ≤ a →
      0 ≤ l.foldl (fun acc c => longDouble (acc + c.fitness)) a := by
    intro l
    induction l with
    | nil => intro a _ ha; exact ha
    | cons c t ih =>
      intro a hl ha
      rw [List.foldl_cons]
      exact ih _ (fun x hx => hl x (List.mem_cons_of_mem _ hx))
        (hlong _ (add_nonneg ha (hl c (List.mem_cons_self _ _))))
  exact this generation 0 hnn (le_refl 0)

theorem randomFitness_nonneg {α : Type} {longDouble : ℚ → ℚ}
    (hlong : ∀ x, 0 ≤ x → 0 ≤ longDouble x) (RAND_MAX : Nat)
    {generation : List (Chromosome α)} (hnn : ∀ c ∈ generation, 0 ≤ c.fitness) (r : Nat) :
    0 ≤ randomFitness longDouble RAND_MAX generation r := by
  unfold randomFitness
  exact roundDouble_nonneg (hlong _ (mul_nonneg (roundDouble_nonneg (randFloat_nonneg _ _))
    (totalFitnessRounded_nonneg hlong hnn)))

/-- The draw `16384 / 32768` on two chromosomes of fitness 1, computed in `double`:
`randomFitness` is 1, and the accumulated fitness is 1 after one step and 2 after two. -/
theorem rounded_walk_AB :
    randomFitness roundDouble 32767 [chromA, chromB] 16384 = 1 ∧
    walkAccRounded roundDouble [chromA, chromB] 1 = 1 ∧
    walkAccRounded roundDouble [chromA, chromB] 2 = 2 := by
  have h1 : roundDouble 1 = 1 := by
    have := roundDouble_natCast 1 (by norm_num)
    simpa using this
  have h2 : roundDouble 2 = 2 := by
    have := roundDouble_natCast 2 (by norm_num)
    simpa using this
  have hh : roundDouble (1 / 2) = 1 / 2 := by
    have := roundDouble_half 0 (by norm_num)
    simpa using this
  have hu : randFloat 32767 16384 = 1 / 2 := by
    unfold randFloat
    norm_num
  have ht : totalFitnessRounded roundDouble [chromA, chromB] = 2 := by
    simp only [totalFitnessRounded, List.foldl_cons, List.foldl_nil, chromA, chromB, zero_add]
    rw [h1]
    norm_num
    exact h2
  have hw1 : walkAccRounded roundDouble [chromA, chromB] 1 = 1 := by
    simp [walkAccRounded, chromA, chromB, h1]
  refine ⟨?_, hw1, ?_⟩
  · unfold randomFitness
    rw [hu, hh, ht]
    norm_num
    rw [h1, h1]
  · show roundDouble (walkAccRounded roundDouble [chromA, chromB] 1 + _) = 2
    rw [hw1]
    simp [chromA, chromB]
    norm_num
    exact h2

/-! ## Auxiliary lemmas: `crossOver` with the unchecked reads of the source -/

theorem uncheckedRead_inside (stray : Nat → Int) (sizes : List Int) {i : Nat}
    (h : i < sizes.length) : uncheckedRead stray sizes i = sizes[i] := by
  unfold uncheckedRead
  rw [List.getElem?_eq_getElem h]
  rfl

theorem uncheckedRead_outside (stray : Nat → Int) (sizes : List Int) {i : Nat}
    (h : sizes.length ≤ i) : uncheckedRead stray sizes i = stray i := by
  unfold uncheckedRead
  rw [List.getElem?_eq_none h]
  rfl

/-- The copy loop with unchecked reads appends the values read at the successive indices. -/
theorem pushSizes_eq (stray : Nat → Int) (sizes : List Int) (cnt i : Nat) (acc : List Int) :
    pushSizes stray sizes cnt i acc =
      acc ++ (List.range cnt).map (fun j => uncheckedRead stray sizes (i + j)) := by
  induction cnt generalizing i acc with
  | zero => simp [pushSizes]
  | succ n ih =>
    unfold pushSizes
    rw [ih, List.range_succ_eq_map, List.map_cons, List.map_map, List.append_assoc]
    congr 1
    simp only [List.singleton_append, Nat.add_zero, List.cons.injEq, true_and]
    apply List.map_congr_left
    intro j _
    simp only [Function.comp]
    congr 1
    omega

/-- Inside the vector the copy loop with unchecked reads is the checked copy loop. -/
theorem pushSizes_inside (stray : Nat → Int) (sizes : List Int) (cnt i : Nat)
    (acc : List Int) (h : cnt = 0 ∨ i + cnt ≤ sizes.length) :
    pushRange sizes cnt i acc = some (pushSizes stray sizes cnt i acc) := by
  induction cnt generalizing i acc with
  | zero => simp [pushRange, pushSizes]
  | succ n ih =>
    have hi : i < sizes.length := by omega
    unfold pushRange pushSizes
    rw [List.getElem?_eq_getElem hi, uncheckedRead_inside stray sizes hi]
    exact ih (i + 1) _ (by omega)

theorem pushSizes_slice (stray : Nat → Int) (sizes : List Int) (cnt i : Nat)
    (acc : List Int) (h : cnt = 0 ∨ i + cnt ≤ sizes.length) :
    pushSizes stray sizes cnt i acc = acc ++ (sizes.drop i).take cnt := by
  have h1 := pushSizes_inside stray sizes cnt i acc h
  rw [pushRange_eq, if_pos h] at h1
  exact (Option.some.inj h1).symm

/-- Inside the vector the sum loop with unchecked reads is the checked sum loop. -/
theorem sumSizes_inside (stray : Nat → Int) (sizes : List Int) (cnt i acc : Nat)
    (h : cnt = 0 ∨ i + cnt ≤ sizes.length) :
    sumLoop sizes cnt i acc = some (sumSizes stray sizes cnt i acc) := by
  induction cnt generalizing i acc with
  | zero => simp [sumLoop, sumSizes]
  | succ n ih =>
    have hi : i < sizes.length := by omega
    unfold sumLoop sumSizes
    rw [List.getElem?_eq_getElem hi, uncheckedRead_inside stray sizes hi]
    exact ih (i + 1) _ (by omega)

/-- The babies of the crossing branch with unchecked reads: the value loops fail when a flat
index lies beyond the values; the sub-gene sizes are whatever the copy loops read. -/
theorem recombineUnchecked_eq {α : Type} (stray1 stray2 : Nat → Int) (p1 p2 : Chromosome α)
    (cp1 r1 cp2 r2 : Nat) :
    recombineUnchecked stray1 stray2 p1 p2 cp1 r1 cp2 r2 =
      if r1 ≤ p1.values.length ∧ r2 ≤ p2.values.length then
        some ({ values := p1.values.take r1 ++ p2.values.drop r2,
                subGeneSizes := pushSizes stray2 p2.subGeneSizes
                  (p2.subGeneSizes.length - cp2) cp2
                  (pushSizes stray1 p1.subGeneSizes cp1 0 []),
                fitness := 0 },
              { values := p2.values.take r2 ++ p1.values.drop r1,
                subGeneSizes := pushSizes stray1 p1.subGeneSizes
                  (p1.subGeneSizes.length - cp1) cp1
                  (pushSizes stray2 p2.subGeneSizes cp2 0 []),
                fitness := 0 })
      else none := by
  unfold recombineUnchecked
  rw [pushRange_head, pushRange_head]
  by_cases h1 : r1 ≤ p1.values.length <;> by_cases h2 : r2 ≤ p2.values.length <;>
    simp [h1, h2, pushRange_tail]

/-- With both crosspoints inside the sub-gene lists the unchecked reads are the checked
ones. -/
theorem recombineUnchecked_inside {α : Type} (stray1 stray2 : Nat → Int)
    (p1 p2 : Chromosome α) (cp1 r1 cp2 r2 : Nat) (h1 : cp1 ≤ p1.subGeneSizes.length)
    (h2 : cp2 ≤ p2.subGeneSizes.length) :
    recombineUnchecked stray1 stray2 p1 p2 cp1 r1 cp2 r2 = recombine p1 p2 cp1 r1 cp2 r2 := by
  rw [recombineUnchecked_eq, recombine_eq]
  rw [pushSizes_slice stray1 p1.subGeneSizes cp1 0 [] (Or.inr (by omega)),
    pushSizes_slice stray2 p2.subGeneSizes cp2 0 [] (Or.inr (by omega)),
    pushSizes_slice stray2 p2.subGeneSizes _ cp2 _ (Or.inr (by omega)),
    pushSizes_slice stray1 p1.subGeneSizes _ cp1 _ (Or.inr (by omega))]
  have e1 : (p1.subGeneSizes.drop cp1).take (p1.subGeneSizes.length - cp1) =
      p1.subGeneSizes.drop cp1 := List.take_of_length_le (by simp)
  have e2 : (p2.subGeneSizes.drop cp2).take (p2.subGeneSizes.length - cp2) =
      p2.subGeneSizes.drop cp2 := List.take_of_length_le (by simp)
  rw [e1, e2]
  by_cases hr : r1 ≤ p1.values.length ∧ r2 ≤ p2.values.length
  · rw [if_pos hr, if_pos ⟨hr.1, hr.2, h1, h2⟩]
    simp
  · rw [if_neg hr, if_neg (fun hc => hr ⟨hc.1, hc.2.1⟩)]

theorem crossPointsUnchecked_of_checked {α : Type} (stray1 stray2 : Nat → Int)
    {P : Population α} {p1 p2 : Chromosome α} {d1 d2 cp1 r1 cp2 r2 : Nat}
    (h : crossPoints P p1 p2 d1 d2 = some (cp1, r1, cp2, r2)) :
    crossPointsUnchecked stray1 stray2 P p1 p2 d1 d2 = some (cp1, r1, cp2, r2) := by
  obtain ⟨c2, s2, hc1, hs1, hc2, hs2, heq, hne⟩ := crossPoints_eq_some h
  have hr1 : sumSizes stray1 p1.subGeneSizes cp1 0 0 = r1 := by
    have := sumSizes_inside stray1 p1.subGeneSizes cp1 0 0
      (Or.inr (by have := (sumLoop_some hs1).1; omega))
    rw [hs1] at this
    exact (Option.some.inj this).symm
  have hr2 : sumSizes stray2 p2.subGeneSizes c2 0 0 = s2 := by
    have := sumSizes_inside stray2 p2.subGeneSizes c2 0 0
      (Or.inr (by have := (sumLoop_some hs2).1; omega))
    rw [hs2] at this
    exact (Option.some.inj this).symm
  unfold crossPointsUnchecked
  rw [hc1]
  simp only
  rw [hc2]
  simp only
  rw [hr1, hr2]
  cases hq : P.equalCrossPoints with
  | true =>
    obtain ⟨e1, e2⟩ := heq hq
    simp only [if_true]
    rw [e1, e2]
  | false =>
    obtain ⟨e1, e2⟩ := hne hq
    simp only [Bool.false_eq_true, if_false]
    rw [e1, e2]

/-- Under `crossReady` the sum loops stay inside the vectors: the unchecked crosspoint
computation is the checked one. -/
theorem crossPointsUnchecked_ready {α : Type} (stray1 stray2 : Nat → Int)
    {P : Population α} {p1 p2 : Chromosome α} (d1 d2 : Nat) (h : crossReady P p1 p2) :
    crossPointsUnchecked stray1 stray2 P p1 p2 d1 d2 = crossPoints P p1 p2 d1 d2 := by
  obtain ⟨cp1, r1, cp2, r2, hcp, _⟩ := crossPoints_total d1 d2 h
  rw [hcp]
  exact crossPointsUnchecked_of_checked stray1 stray2 hcp

theorem crossOverUnchecked_of_select {α : Type} (stray : Nat → Nat → Int)
    {P : Population α} {RAND_MAX : Nat} {rand : Nat → Nat}
    {generation : List (Chromosome α)} {fuel k i1 i2 k1 : Nat} {p1 p2 : Chromosome α}
    (hsel : selectParents P RAND_MAX rand generation fuel k = some ((i1, p1), (i2, p2), k1)) :
    crossOverUnchecked stray P RAND_MAX rand generation fuel k =
      match crossOverBodyUnchecked (stray i1) (stray i2) P RAND_MAX p1 p2 (rand k1)
          (rand (k1 + 1)) (rand (k1 + 2)) with
      | none => none
      | some (baby1, baby2) => some (baby1, baby2, k1 + 3) := by
  unfold crossOverUnchecked
  rw [hsel]

theorem crossOverBodyUnchecked_of_points {α : Type} {stray1 stray2 : Nat → Int}
    {P : Population α} (RAND_MAX : Nat) {p1 p2 : Chromosome α} {d1 d2 cp1 r1 cp2 r2 : Nat}
    (d3 : Nat)
    (hcp : crossPointsUnchecked stray1 stray2 P p1 p2 d1 d2 = some (cp1, r1, cp2, r2)) :
    crossOverBodyUnchecked stray1 stray2 P RAND_MAX p1 p2 d1 d2 d3 =
      if randFloat RAND_MAX d3 < P.crossOverRate then
        recombineUnchecked stray1 stray2 p1 p2 cp1 r1 cp2 r2
      else some (p1, p2) := by
  unfold crossOverBodyUnchecked
  rw [hcp]

theorem crossOverUnchecked_parents {α : Type} {stray : Nat → Nat → Int} {P : Population α}
    {RAND_MAX : Nat} {rand : Nat → Nat} {generation : List (Chromosome α)} {fuel k k2 : Nat}
    {b1 b2 : Chromosome α}
    (h : crossOverUnchecked stray P RAND_MAX rand generation fuel k = some (b1, b2, k2)) :
    ∃ i1 p1 i2 p2 k1,
      selectParents P RAND_MAX rand generation fuel k = some ((i1, p1), (i2, p2), k1) := by
  unfold crossOverUnchecked at h
  cases hs : selectParents P RAND_MAX rand generation fuel k with
  | none => rw [hs] at h; cases h
  | some r =>
    obtain ⟨⟨i1, p1⟩, ⟨i2, p2⟩, k1⟩ := r
    exact ⟨i1, p1, i2, p2, k1, rfl⟩

/-- What a returning call of `crossOver` with unchecked reads has done. -/
theorem crossOverUnchecked_outcome {α : Type} {stray : Nat → Nat → Int} {P : Population α}
    {RAND_MAX : Nat} {rand : Nat → Nat} {generation : List (Chromosome α)}
    {fuel k i1 i2 k1 k2 : Nat} {p1 p2 b1 b2 : Chromosome α}
    (hsel : selectParents P RAND_MAX rand generation fuel k = some ((i1, p1), (i2, p2), k1))
    (h : crossOverUnchecked stray P RAND_MAX rand generation fuel k = some (b1, b2, k2)) :
    ∃ cp1 r1 cp2 r2,
      crossPointsUnchecked (stray i1) (stray i2) P p1 p2 (rand k1) (rand (k1 + 1)) =
        some (cp1, r1, cp2, r2) ∧ k2 = k1 + 3 ∧
      ((randFloat RAND_MAX (rand (k1 + 2)) < P.crossOverRate ∧
          r1 ≤ p1.values.length ∧ r2 ≤ p2.values.length ∧
          b1 = { values := p1.values.take r1 ++ p2.values.drop r2,
                 subGeneSizes := pushSizes (stray i2) p2.subGeneSizes
                   (p2.subGeneSizes.length - cp2) cp2
                   (pushSizes (stray i1) p1.subGeneSizes cp1 0 []),
                 fitness := 0 } ∧
          b2 = { values := p2.values.take r2 ++ p1.values.drop r1,
                 subGeneSizes := pushSizes (stray i1) p1.subGeneSizes
                   (p1.subGeneSizes.length - cp1) cp1
                   (pushSizes (stray i2) p2.subGeneSizes cp2 0 []),
                 fitness := 0 }) ∨
        (P.crossOverRate ≤ randFloat RAND_MAX (rand (k1 + 2)) ∧ b1 = p1 ∧ b2 = p2)) := by
  rw [crossOverUnchecked_of_select stray hsel] at h
  cases hcp : crossPointsUnchecked (stray i1) (stray i2) P p1 p2 (rand k1) (rand (k1 + 1)) with
  | none =>
    unfold crossOverBodyUnchecked at h
    rw [hcp] at h
    cases h
  | some r =>
    obtain ⟨cp1, r1, cp2, r2⟩ := r
    rw [crossOverBodyUnchecked_of_points RAND_MAX (rand (k1 + 2)) hcp] at h
    refine ⟨cp1, r1, cp2, r2, rfl, ?_⟩
    by_cases hu : randFloat RAND_MAX (rand (k1 + 2)) < P.crossOverRate
    · rw [if_pos hu, recombineUnchecked_eq] at h
      by_cases hr : r1 ≤ p1.values.length ∧ r2 ≤ p2.values.length
      · rw [if_pos hr] at h
        simp only [Option.some.injEq, Prod.mk.injEq] at h
        exact ⟨h.2.2.symm, Or.inl ⟨hu, hr.1, hr.2, h.1.symm, h.2.1.symm⟩⟩
      · rw [if_neg hr] at h
        cases h
    · rw [if_neg hu] at h
      simp only [Option.some.injEq, Prod.mk.injEq] at h
      exact ⟨h.2.2.symm, Or.inr ⟨not_lt.mp hu, h.1.symm, h.2.1.symm⟩⟩

/-- Whatever `crossOver` returns, `crossOver` with unchecked reads returns, for every
content of the memory behind the vectors. -/
theorem crossOverUnchecked_of_checked {α : Type} (stray : Nat → Nat → Int)
    {P : Population α} {RAND_MAX : Nat} {rand : Nat → Nat}
    {generation : List (Chromosome α)} {fuel k k2 : Nat} {b1 b2 : Chromosome α}
    (h : crossOver P RAND_MAX rand generation fuel k = some (b1, b2, k2)) :
    crossOverUnchecked stray P RAND_MAX rand generation fuel k = some (b1, b2, k2) := by
  obtain ⟨i1, p1, i2, p2, k1, hsel⟩ := crossOver_parents h
  obtain ⟨cp1, r1, cp2, r2, hcp, hk, hout⟩ := crossOver_outcome hsel h
  rw [crossOverUnchecked_of_select stray hsel,
    crossOverBodyUnchecked_of_points RAND_MAX (rand (k1 + 2))
      (crossPointsUnchecked_of_checked (stray i1) (stray i2) hcp)]
  rcases hout with ⟨hu, h1, h2, h3, h4, e1, e2⟩ | ⟨hu, e1, e2⟩
  · rw [if_pos hu, recombineUnchecked_inside _ _ _ _ _ _ _ _ h3 h4, recombine_eq,
      if_pos ⟨h1, h2, h3, h4⟩, e1, e2, hk]
  · rw [if_neg (not_lt.mpr hu), e1, e2, hk]

theorem sum_take_mono {l : List Int} (h : ∀ s ∈ l, (0 : Int) ≤ s) {a b : Nat} (hab : a ≤ b) :
    (l.take a).sum ≤ (l.take b).sum := by
  have h1 : ∀ s ∈ l.take b, (0 : Int) ≤ s := fun s hs => h s (List.mem_of_mem_take hs)
  have h2 := sum_take_le h1 a
  rw [List.take_take, Nat.min_eq_left hab] at h2
  exact h2

/-- With `equalCrossPoints`, coinciding boundaries and no empty sub gene in parent 1, a
crosspoint beyond the sub genes of parent 2 has its flat index beyond the values of
parent 2, so that the asserted read of these values fails. -/
theorem aligned_crosspoint_inside {α : Type} {p1 p2 : Chromosome α} {cp1 : Nat}
    (hw1 : p1.wellFormed) (hw2 : p2.wellFormed) (hal : alignedBoundaries p1 p2)
    (hpos : p1.sizesPositive) (hc1 : cp1 ≤ p1.subGeneSizes.length)
    (hr : (p1.subGeneSizes.take cp1).sum ≤ (p2.values.length : Int)) :
    cp1 ≤ p2.subGeneSizes.length := by
  by_contra hcon
  have hn : p2.subGeneSizes.length < cp1 := by omega
  have hlt : p2.subGeneSizes.length < p1.subGeneSizes.length := by omega
  have h1 := hal p2.subGeneSizes.length (by omega) (le_refl _)
  rw [List.take_length] at h1
  have hs2 : p2.subGeneSizes.sum = (p2.values.length : Int) := hw2.2.1
  have h2 := take_succ_sum p1.subGeneSizes p2.subGeneSizes.length _
    (List.getElem?_eq_getElem hlt)
  have h3 : (1 : Int) ≤ p1.subGeneSizes[p2.subGeneSizes.length] :=
    hpos _ (List.getElem_mem hlt)
  have h4 := @sum_take_mono p1.subGeneSizes hw1.1 (p2.subGeneSizes.length + 1) cp1 (by omega)
  omega

/-- For parents in the regular domain of `crossOver` (crosspoint ranges within `[0,100]`,
at least one sub gene, well formed; with `equalCrossPoints` coinciding boundaries and
either no empty sub gene in parent 1 or no more sub genes in parent 1 than in parent 2) no
read of `subGeneSizes` leaves its vector in a call that returns: what `crossOver` with
unchecked reads returns is what `crossOver` returns. -/
theorem crossOverUnchecked_checked {α : Type} {stray : Nat → Nat → Int} {P : Population α}
    {RAND_MAX : Nat} {rand : Nat → Nat} {generation : List (Chromosome α)}
    {fuel k i1 i2 k1 k2 : Nat} {p1 p2 b1 b2 : Chromosome α}
    (hsel : selectParents P RAND_MAX rand generation fuel k = some ((i1, p1), (i2, p2), k1))
    (hready : crossReady P p1 p2) (hw1 : p1.wellFormed) (hw2 : p2.wellFormed)
    (hal : P.equalCrossPoints = true → alignedBoundaries p1 p2 ∧
      (p1.sizesPositive ∨ p1.subGeneSizes.length ≤ p2.subGeneSizes.length))
    (h : crossOverUnchecked stray P RAND_MAX rand generation fuel k = some (b1, b2, k2)) :
    crossOver P RAND_MAX rand generation fuel k = some (b1, b2, k2) := by
  obtain ⟨cp1, r1, cp2, r2, hcpu, hk, hout⟩ := crossOverUnchecked_outcome hsel h
  rw [crossPointsUnchecked_ready _ _ _ _ hready] at hcpu
  obtain ⟨c1, s1, c2, s2, hcp, hb1, hb2, heq⟩ := crossPoints_total (rand k1) (rand (k1 + 1))
    hready
  rw [hcpu] at hcp
  simp only [Option.some.injEq, Prod.mk.injEq] at hcp
  obtain ⟨rfl, rfl, rfl, rfl⟩ := hcp
  rw [crossOver_of_select hsel, crossOverBody_of_points RAND_MAX (rand (k1 + 2)) hcpu]
  rcases hout with ⟨hu, h1, h2, e1, e2⟩ | ⟨hu, e1, e2⟩
  · have hc1 : cp1 ≤ p1.subGeneSizes.length := by omega
    have hc2 : cp2 ≤ p2.subGeneSizes.length := by
      cases hq : P.equalCrossPoints with
      | false => have := hb2 hq; omega
      | true =>
        obtain ⟨ha, hp | hle⟩ := hal hq
        · obtain ⟨_, _, _, hs1, _, _, hq1, _⟩ := crossPoints_eq_some hcpu
          obtain ⟨e3, e4⟩ := hq1 hq
          have hx := (sumLoop_exact hs1 hw1.1 (by
            have := hw1.2.1
            have h3 := hw1.2.2
            unfold Chromosome.shapeInvariant at this
            rw [this]
            exact_mod_cast h3)).2
          rw [e3]
          apply aligned_crosspoint_inside hw1 hw2 ha hp hc1
          rw [← hx, ← e4]
          exact_mod_cast h2
        · have := heq hq
          omega
    rw [if_pos hu, recombine_eq, if_pos ⟨h1, h2, hc1, hc2⟩, e1, e2, hk]
    rw [pushSizes_slice (stray i1) p1.subGeneSizes cp1 0 [] (Or.inr (by omega)),
      pushSizes_slice (stray i2) p2.subGeneSizes cp2 0 [] (Or.inr (by omega)),
      pushSizes_slice (stray i2) p2.subGeneSizes _ cp2 _ (Or.inr (by omega)),
      pushSizes_slice (stray i1) p1.subGeneSizes _ cp1 _ (Or.inr (by omega))]
    have e5 : (p1.subGeneSizes.drop cp1).take (p1.subGeneSizes.length - cp1) =
        p1.subGeneSizes.drop cp1 := List.take_of_length_le (by simp)
    have e6 : (p2.subGeneSizes.drop cp2).take (p2.subGeneSizes.length - cp2) =
        p2.subGeneSizes.drop cp2 := List.take_of_length_le (by simp)
    rw [e5, e6]
    simp
  · rw [if_neg (not_lt.mpr hu), e1, e2, hk]

/-! ## The examples with a crosspoint beyond the sub genes of parent 2 -/

theorem crossBound_four_zero : crossBound 4 0 = 0 := by
  unfold crossBound
  rw [mul_zero, roundDouble_zero]

theorem crossBound_four_hundred : crossBound 4 100 = 3 := by
  unfold crossBound
  have hs : sizeMinusOne 4 = 3 := by decide
  have h1 : roundDouble ((3 : Nat) : ℚ) = ((3 : Nat) : ℚ) :=
    roundDouble_natCast 3 (by norm_num)
  rw [hs, h1]
  have h2 := @roundDouble_eq (((3 : Nat) : ℚ) / 100) (-6) 8646911284551352 (by norm_num)
    (by norm_num) (by norm_num) (by norm_num) (by norm_num)
  rw [h2]
  have h3 := @roundDouble_eq (((8646911284551352 : Int) : ℚ) * 2 ^ ((-6 : Int) - 52) * 100) 1
    6755399441055744 (by norm_num) (by norm_num) (by norm_num) (by norm_num) (by norm_num)
  rw [h3]
  norm_num

theorem crossBound_one (v : ℚ) : crossBound 1 v = 0 := by
  unfold crossBound
  have hs : sizeMinusOne 1 = 0 := by decide
  rw [hs, Nat.cast_zero, roundDouble_zero, zero_div, roundDouble_zero, zero_mul,
    roundDouble_zero]

theorem select_randV (p1 p2 : Chromosome Int) (h1 : p1.fitness = 1) (h2 : p2.fitness = 1) :
    selectParents (defaultPopulation true) 32767 randV [p1, p2] 2 0 =
      some ((0, p1), (1, p2), 2) := by
  unfold selectParents
  simp [grabChromosome, grabLoop, totalFitness, randFloat, randV, h1, h2, defaultPopulation]
  norm_num

theorem crossPoints_randV (stray1 stray2 : Nat → Int) (p1 p2 : Chromosome Int) (a : Int)
    (h1 : p1.subGeneSizes.length = 4) (h2 : p2.subGeneSizes.length = 1)
    (hs : sumSizes stray1 p1.subGeneSizes 3 0 0 = Int.toNat a) :
    crossPointsUnchecked stray1 stray2 (defaultPopulation true) p1 p2 (randV 2)
      (randV (2 + 1)) = some (3, Int.toNat a, 3, Int.toNat a) := by
  unfold crossPointsUnchecked crossPoint
  rw [h1, h2]
  simp [crossBound_four_zero, crossBound_four_hundred, crossBound_one, doubleToInt, chkInt,
    randInt, INT_MIN, INT_MAX, UINT_MOD, Int.tmod_eq_emod, defaultPopulation, randV, hs]

/-- The call on the parents with the sub-gene lists `[1,1,1,1]` and `[4]`: the crosspoint 3
of parent 1 is used for parent 2, and the third copy loop reads `subGeneSizes[ 1 ]` and
`subGeneSizes[ 2 ]` of parent 2 behind its only entry. -/
theorem crossOverUnchecked_randV (stray : Nat → Nat → Int) :
    crossOverUnchecked stray (defaultPopulation true) 32767 randV [chromOnes, chromWhole] 2 0 =
      some ({ values := [1, 2, 3, 8], subGeneSizes := [1, 1, 1], fitness := 0 },
            { values := [5, 6, 7, 4], subGeneSizes := [4, stray 1 1, stray 1 2, 1],
              fitness := 0 }, 5) := by
  have hsel := select_randV chromOnes chromWhole rfl rfl
  have hcp := crossPoints_randV (stray 0) (stray 1) chromOnes chromWhole 3 rfl rfl
    (by simp [sumSizes, uncheckedRead, chromOnes, UINT_MOD])
  have hu : randFloat 32767 (randV (2 + 2)) < (defaultPopulation true).crossOverRate := by
    simp [randFloat, randV, defaultPopulation]
  rw [crossOverUnchecked_of_select stray hsel,
    crossOverBodyUnchecked_of_points 32767 (randV (2 + 2)) hcp, if_pos hu,
    recombineUnchecked_eq]
  simp [chromOnes, chromWhole, pushSizes, uncheckedRead]

/-- The call on the parents with the sub-gene lists `[1,0,0,0]` and `[1]`, whose boundaries
coincide: the crosspoint 3 of parent 1 has the flat index 1, which is within the values of
parent 2, and the third copy loop reads behind the only entry of parent 2. -/
theorem crossOverUnchecked_sparse (stray : Nat → Nat → Int) :
    crossOverUnchecked stray (defaultPopulation true) 32767 randV [chromSparse, chromSingle]
        2 0 =
      some ({ values := [7], subGeneSizes := [1, 0, 0], fitness := 0 },
            { values := [8], subGeneSizes := [1, stray 1 1, stray 1 2, 0],
              fitness := 0 }, 5) := by
  have hsel := select_randV chromSparse chromSingle rfl rfl
  have hcp := crossPoints_randV (stray 0) (stray 1) chromSparse chromSingle 1 rfl rfl
    (by simp [sumSizes, uncheckedRead, chromSparse, UINT_MOD])
  have hu : randFloat 32767 (randV (2 + 2)) < (defaultPopulation true).crossOverRate := by
    simp [randFloat, randV, defaultPopulation]
  rw [crossOverUnchecked_of_select stray hsel,
    crossOverBodyUnchecked_of_points 32767 (randV (2 + 2)) hcp, if_pos hu,
    recombineUnchecked_eq]
  simp [chromSparse, chromSingle, pushSizes, uncheckedRead]

theorem chromSparse_wellFormed : chromSparse.wellFormed := by
  refine ⟨?_, ?_, ?_⟩
  · intro s hs
    simp [chromSparse] at hs
    omega
  · simp [Chromosome.shapeInvariant, chromSparse]
  · simp [chromSparse, UINT_MOD]

theorem chromSingle_wellFormed : chromSingle.wellFormed := by
  simp [Chromosome.wellFormed, Chromosome.sizesNonneg, Chromosome.shapeInvariant, chromSingle,
    UINT_MOD]

theorem chromSparse_aligned : alignedBoundaries chromSparse chromSingle := by
  intro c h1 h2
  have h3 : c ≤ 1 := h2
  interval_cases c <;> simp [chromSparse, chromSingle]

/-! ## The claims -/

/-- Claim C1, as stated, fails: with `equalCrossPoints` set and the parents with the
sub-gene lists `[1,1,1,1]` and `[4]`, the call uses the crosspoint 3 for both parents, in the
crossing branch, and the third copy loop of `crossOver` reads `subGeneSizes[ 1 ]` and
`subGeneSizes[ 2 ]` of parent 2 with the unchecked `operator[]`, behind the only entry of the
vector. With 5 and 0 in the memory there the second baby gets the sub-gene sizes
`[4,5,0,1]`, and four sizes whatever the memory holds, while the slices of the claim,
`p2.subGeneSizes[0,3) ++ p1.subGeneSizes[3,end)`, are `[4,1]`. -/
theorem crossOver_crossing_counterexample :
    selectParents (defaultPopulation true) 32767 randV [chromOnes, chromWhole] 2 0 =
      some ((0, chromOnes), (1, chromWhole), 2) ∧
    crossPointsUnchecked (strayV 0) (strayV 1) (defaultPopulation true) chromOnes chromWhole
      (randV 2) (randV (2 + 1)) = some (3, 3, 3, 3) ∧
    randFloat 32767 (randV (2 + 2)) < (defaultPopulation true).crossOverRate ∧
    crossOverUnchecked strayV (defaultPopulation true) 32767 randV [chromOnes, chromWhole] 2
        0 =
      some ({ values := [1, 2, 3, 8], subGeneSizes := [1, 1, 1], fitness := 0 },
            { values := [5, 6, 7, 4], subGeneSizes := [4, 5, 0, 1], fitness := 0 }, 5) ∧
    chromWhole.subGeneSizes.take 3 ++ chromOnes.subGeneSizes.drop 3 = [4, 1] ∧
    (∀ stray : Nat → Nat → Int, ∃ b1 b2,
      crossOverUnchecked stray (defaultPopulation true) 32767 randV [chromOnes, chromWhole] 2
        0 = some (b1, b2, 5) ∧ b2.subGeneSizes.length = 4) := by
  refine ⟨select_randV chromOnes chromWhole rfl rfl, ?_, ?_, ?_, by decide, fun stray => ?_⟩
  · exact crossPoints_randV (strayV 0) (strayV 1) chromOnes chromWhole 3 rfl rfl
      (by simp [sumSizes, uncheckedRead, chromOnes, UINT_MOD])
  · simp [randFloat, randV, defaultPopulation]
  · rw [crossOverUnchecked_randV strayV]
    simp [strayV]
  · exact ⟨_, _, crossOverUnchecked_randV stray, rfl⟩

/-- Claim C1, amended. `crossOver` is taken with the reads of `subGeneSizes` as the source
makes them (unchecked). In the crossing branch (draw `u < crossOverRate`), for the parents
`p1`, `p2` chosen by `selectParents` and the crosspoints `cp1`, `cp2` with flat indices
`r1`, `r2` used by the call, when both crosspoints lie within the sub-gene lists
(`cp1 <= len(p1.subGeneSizes)`, `cp2 <= len(p2.subGeneSizes)`) the call returns exactly
`baby1 = p1.values[0,r1) ++ p2.values[r2,end)` with sub-gene sizes
`p1.subGeneSizes[0,cp1) ++ p2.subGeneSizes[cp2,end)` and the symmetric `baby2`, whatever the
memory behind the vectors holds, provided the flat indices lie within the values; otherwise
an asserted read of a value fails and no baby is written. -/
theorem crossOver_crossing {α : Type} (stray : Nat → Nat → Int) (P : Population α)
    (RAND_MAX : Nat) (rand : Nat → Nat)
    (generation : List (Chromosome α)) (fuel k : Nat)
    (i1 i2 k1 cp1 r1 cp2 r2 : Nat) (p1 p2 : Chromosome α)
    (hsel : selectParents P RAND_MAX rand generation fuel k = some ((i1, p1), (i2, p2), k1))
    (hcp : crossPointsUnchecked (stray i1) (stray i2) P p1 p2 (rand k1) (rand (k1 + 1)) =
      some (cp1, r1, cp2, r2))
    (hu : randFloat RAND_MAX (rand (k1 + 2)) < P.crossOverRate)
    (hc1 : cp1 ≤ p1.subGeneSizes.length) (hc2 : cp2 ≤ p2.subGeneSizes.length) :
    crossOverUnchecked stray P RAND_MAX rand generation fuel k =
      if r1 ≤ p1.values.length ∧ r2 ≤ p2.values.length then
        some ({ values := p1.values.take r1 ++ p2.values.drop r2,
                subGeneSizes := p1.subGeneSizes.take cp1 ++ p2.subGeneSizes.drop cp2,
                fitness := 0 },
              { values := p2.values.take r2 ++ p1.values.drop r1,
                subGeneSizes := p2.subGeneSizes.take cp2 ++ p1.subGeneSizes.drop cp1,
                fitness := 0 }, k1 + 3)
      else none := by
  rw [crossOverUnchecked_of_select stray hsel,
    crossOverBodyUnchecked_of_points RAND_MAX (rand (k1 + 2)) hcp, if_pos hu,
    recombineUnchecked_inside _ _ _ _ _ _ _ _ hc1 hc2, recombine_eq]
  by_cases hb : r1 ≤ p1.values.length ∧ r2 ≤ p2.values.length
  · rw [if_pos hb, if_pos ⟨hb.1, hb.2, hc1, hc2⟩]
  · rw [if_neg hb, if_neg (fun hc => hb ⟨hc.1, hc.2.1⟩)]

/-- Witness of C1 (amended): parents `chromB`, `chromA`, crosspoints 1 and 1 at flat indices
2 and 2. -/
theorem crossOver_crossing_witness :
    crossOverUnchecked strayV (defaultPopulation false) 32767 randA [chromA, chromB] 2 0 =
      some ({ values := [5, 6, 3, 4], subGeneSizes := [2, 2], fitness := 0 },
            { values := [1, 2, 7, 8], subGeneSizes := [2, 2], fitness := 0 }, 5) := by
  have hu : randFloat 32767 (randA (2 + 2)) < (defaultPopulation false).crossOverRate := by
    simp [randFloat, randA, defaultPopulation]
  rw [crossOver_crossing strayV (defaultPopulation false) 32767 randA [chromA, chromB] 2 0 1
    0 2 1 2 1 2 chromB chromA select_randA
    (crossPointsUnchecked_of_checked _ _ crossPoints_randA) hu (by decide) (by decide)]
  simp [chromA, chromB]

/-- Claim C2, as stated, fails, in two ways. With `equalCrossPoints` set and the
well-shaped parents `chromC` (sizes `[1,3]`) and `chromB` (sizes `[2,2]`), `crossOver`
writes babies whose sub-gene sizes sum to 3 and 5 while both hold 4 values. And for the well
formed parents with the sub-gene lists `[1,0,0,0]` and `[1]`, whose boundaries coincide, the
crosspoint 3 of parent 1 lies behind the only sub gene of parent 2: the copy loop reads
`subGeneSizes[ 1 ]` and `subGeneSizes[ 2 ]` of parent 2 outside the vector, and with 5 and 0
in the memory there the second baby gets the sizes `[1,5,0,0]` for its one value. -/
theorem crossOver_shape_counterexample :
    crossOverUnchecked strayV (defaultPopulation true) 32767 randB [chromC, chromB] 2 0 =
      some ({ values := [1, 6, 7, 8], subGeneSizes := [1, 2], fitness := 0 },
            { values := [5, 2, 3, 4], subGeneSizes := [2, 3], fitness := 0 }, 5) ∧
    chromC.shapeInvariant ∧ chromB.shapeInvariant ∧
    ¬ (Chromosome.shapeInvariant
        ({ values := [1, 6, 7, 8], subGeneSizes := [1, 2], fitness := 0 } : Chromosome Int)) ∧
    ¬ (Chromosome.shapeInvariant
        ({ values := [5, 2, 3, 4], subGeneSizes := [2, 3], fitness := 0 } : Chromosome Int)) ∧
    crossOverUnchecked strayV (defaultPopulation true) 32767 randV [chromSparse, chromSingle]
        2 0 =
      some ({ values := [7], subGeneSizes := [1, 0, 0], fitness := 0 },
            { values := [8], subGeneSizes := [1, 5, 0, 0], fitness := 0 }, 5) ∧
    chromSparse.wellFormed ∧ chromSingle.wellFormed ∧
    alignedBoundaries chromSparse chromSingle ∧
    ¬ (Chromosome.shapeInvariant
        ({ values := [8], subGeneSizes := [1, 5, 0, 0], fitness := 0 } : Chromosome Int)) := by
  refine ⟨crossOverUnchecked_of_checked strayV crossOver_randB, chromC_wellFormed.2.1,
    chromB_wellFormed.2.1, by simp [Chromosome.shapeInvariant],
    by simp [Chromosome.shapeInvariant], ?_, chromSparse_wellFormed, chromSingle_wellFormed,
    chromSparse_aligned, by simp [Chromosome.shapeInvariant]⟩
  rw [crossOverUnchecked_sparse strayV]
  simp [strayV]

/-- Claim C2, amended. `crossOver` is taken with the reads of `subGeneSizes` as the source
makes them (unchecked). For parents chosen by `selectParents` that are well formed
(non-negative sub-gene sizes that sum to the number of values, fewer than `2^32` values)
and have at least one and at most `INT_MAX` sub genes, with crosspoint ranges
`0 <= min <= max <= 100`, and, when `equalCrossPoints` is set, with coinciding sub-gene
boundaries and either no empty sub gene in parent 1 or no more sub genes in parent 1 than in
parent 2: both chromosomes written by `crossOver` satisfy
`sum(subGeneSizes) == len(values)`, for every `crossOverRate`, every sequence of draws and
every content of the memory behind the vectors; and the call does write them (when
`equalCrossPoints` is set, if the first parent has no more sub genes than the second). -/
theorem crossOver_children_shape {α : Type} (stray : Nat → Nat → Int) (P : Population α)
    (RAND_MAX : Nat)
    (rand : Nat → Nat) (generation : List (Chromosome α)) (fuel k i1 i2 k1 : Nat)
    (p1 p2 : Chromosome α)
    (hsel : selectParents P RAND_MAX rand generation fuel k = some ((i1, p1), (i2, p2), k1))
    (hready : crossReady P p1 p2) (hw1 : p1.wellFormed) (hw2 : p2.wellFormed)
    (hal : P.equalCrossPoints = true → alignedBoundaries p1 p2 ∧
      (p1.sizesPositive ∨ p1.subGeneSizes.length ≤ p2.subGeneSizes.length)) :
    (∀ b1 b2 k2, crossOverUnchecked stray P RAND_MAX rand generation fuel k =
        some (b1, b2, k2) → b1.shapeInvariant ∧ b2.shapeInvariant) ∧
    ((P.equalCrossPoints = true → p1.subGeneSizes.length ≤ p2.subGeneSizes.length) →
      ∃ b1 b2, crossOverUnchecked stray P RAND_MAX rand generation fuel k =
        some (b1, b2, k1 + 3)) := by
  refine ⟨fun _ _ _ h => crossOver_shape hsel hw1 hw2 (fun hq => (hal hq).1)
    (crossOverUnchecked_checked hsel hready hw1 hw2 hal h), fun hlen => ?_⟩
  obtain ⟨b1, b2, h⟩ := crossOver_total hsel hready hw1 hw2
    (fun hq => ⟨(hal hq).1, hlen hq⟩)
  exact ⟨b1, b2, crossOverUnchecked_of_checked stray h⟩

/-- Witness of C2 (amended): the parents `chromB` and `chromA` selected from
`[chromA, chromB]` without `equalCrossPoints`. -/
theorem crossOver_children_shape_witness :
    (∀ b1 b2 k2,
      crossOverUnchecked strayV (defaultPopulation false) 32767 randA [chromA, chromB] 2 0 =
        some (b1, b2, k2) → b1.shapeInvariant ∧ b2.shapeInvariant) ∧
    (((defaultPopulation false).equalCrossPoints = true →
        chromB.subGeneSizes.length ≤ chromA.subGeneSizes.length) →
      ∃ b1 b2,
        crossOverUnchecked strayV (defaultPopulation false) 32767 randA [chromA, chromB] 2 0 =
          some (b1, b2, 2 + 3)) :=
  crossOver_children_shape strayV (defaultPopulation false) 32767 randA [chromA, chromB] 2 0
    1 0 2 chromB chromA select_randA (crossReady_default false chromB chromA rfl rfl)
    chromB_wellFormed chromA_wellFormed (by simp [defaultPopulation])

/-- Claim C3, as stated, fails, in two ways. With `equalCrossPoints` set and the
well-shaped parents `chromC` (sub genes `[1]`, `[2,3,4]`) and `chromB` (sub genes `[5,6]`,
`[7,8]`), the first chromosome written by `crossOver` has the sub gene `[6,7]` at index 1,
which is a sub gene of neither parent: it joins values of two sub genes of `chromB`. And
for the well formed parents with the sub-gene lists `[1,0,0,0]` and `[1]`, whose boundaries
coincide, the second baby gets the sizes `[1,5,0,0]` (5 and 0 read outside the vector of
parent 2) for its one value, so that its sub gene 1 cannot be read. -/
theorem crossOver_subGene_counterexample :
    crossOverUnchecked strayV (defaultPopulation true) 32767 randB [chromC, chromB] 2 0 =
      some ({ values := [1, 6, 7, 8], subGeneSizes := [1, 2], fitness := 0 },
            { values := [5, 2, 3, 4], subGeneSizes := [2, 3], fitness := 0 }, 5) ∧
    chromC.shapeInvariant ∧ chromB.shapeInvariant ∧
    Chromosome.getSubGene
      ({ values := [1, 6, 7, 8], subGeneSizes := [1, 2], fitness := 0 } : Chromosome Int) 1 =
      some [6, 7] ∧
    (∀ j, chromC.getSubGene j ≠ some [6, 7] ∧ chromB.getSubGene j ≠ some [6, 7]) ∧
    crossOverUnchecked strayV (defaultPopulation true) 32767 randV [chromSparse, chromSingle]
        2 0 =
      some ({ values := [7], subGeneSizes := [1, 0, 0], fitness := 0 },
            { values := [8], subGeneSizes := [1, 5, 0, 0], fitness := 0 }, 5) ∧
    chromSparse.wellFormed ∧ chromSingle.wellFormed ∧
    alignedBoundaries chromSparse chromSingle ∧
    Chromosome.getSubGene
      ({ values := [8], subGeneSizes := [1, 5, 0, 0], fitness := 0 } : Chromosome Int) 1 =
      none := by
  refine ⟨crossOverUnchecked_of_checked strayV crossOver_randB, chromC_wellFormed.2.1,
    chromB_wellFormed.2.1, mixed_subGene, fun j => ⟨chromC_subGenes j, chromB_subGenes j⟩,
    ?_, chromSparse_wellFormed, chromSingle_wellFormed, chromSparse_aligned, ?_⟩
  · rw [crossOverUnchecked_sparse strayV]
    simp [strayV]
  · simp [Chromosome.getSubGene, startLoop, chkInt, pushRange, INT_MIN, INT_MAX, UINT_MOD]

/-- Claim C3, amended. `crossOver` is taken with the reads of `subGeneSizes` as the source
makes them (unchecked). For parents chosen by `selectParents` that are well formed
(non-negative sub-gene sizes that sum to the number of values), have at least one and at
most `INT_MAX` sub genes and hold at most `INT_MAX` values together, with crosspoint ranges
`0 <= min <= max <= 100`, and, when `equalCrossPoints` is set, with coinciding sub-gene
boundaries and either no empty sub gene in parent 1 or no more sub genes in parent 1 than in
parent 2: for every outcome of `crossOver` and every content of the memory behind the
vectors, every sub gene `j` of each child is returned by `getSubGene` and equals, as a whole
slice, a sub gene `getSubGene m` of parent 1 or of parent 2; and the call does write the
children (when `equalCrossPoints` is set, if the first parent has no more sub genes than the
second). -/
theorem crossOver_subGene_integrity {α : Type} (stray : Nat → Nat → Int) (P : Population α)
    (RAND_MAX : Nat)
    (rand : Nat → Nat) (generation : List (Chromosome α)) (fuel k i1 i2 k1 : Nat)
    (p1 p2 : Chromosome α)
    (hsel : selectParents P RAND_MAX rand generation fuel k = some ((i1, p1), (i2, p2), k1))
    (hready : crossReady P p1 p2) (hw1 : p1.wellFormed) (hw2 : p2.wellFormed)
    (hmax : (p1.values.length : Int) + (p2.values.length : Int) ≤ INT_MAX)
    (hal : P.equalCrossPoints = true → alignedBoundaries p1 p2 ∧
      (p1.sizesPositive ∨ p1.subGeneSizes.length ≤ p2.subGeneSizes.length)) :
    (∀ b1 b2 k2, crossOverUnchecked stray P RAND_MAX rand generation fuel k =
        some (b1, b2, k2) →
      ∀ b, (b = b1 ∨ b = b2) → ∀ j, j < b.subGeneSizes.length →
        ∃ g, b.getSubGene j = some g ∧
          ((∃ m, m < p1.subGeneSizes.length ∧ p1.getSubGene m = some g) ∨
           (∃ m, m < p2.subGeneSizes.length ∧ p2.getSubGene m = some g))) ∧
    ((P.equalCrossPoints = true → p1.subGeneSizes.length ≤ p2.subGeneSizes.length) →
      ∃ b1 b2, crossOverUnchecked stray P RAND_MAX rand generation fuel k =
        some (b1, b2, k1 + 3)) := by
  refine ⟨fun _ _ _ h => crossOver_subGenes hsel hw1 hw2 hmax (fun hq => (hal hq).1)
    (crossOverUnchecked_checked hsel hready hw1 hw2 hal h), fun hlen => ?_⟩
  obtain ⟨b1, b2, h⟩ := crossOver_total hsel hready hw1 hw2
    (fun hq => ⟨(hal hq).1, hlen hq⟩)
  exact ⟨b1, b2, crossOverUnchecked_of_checked stray h⟩

/-- Witness of C3 (amended): the parents `chromB` and `chromA` selected from
`[chromA, chromB]` without `equalCrossPoints`; the children `[5,6,3,4]` and `[1,2,7,8]`
have the sub genes `[5,6]`, `[3,4]` and `[1,2]`, `[7,8]`. -/
theorem crossOver_subGene_integrity_witness :
    (∃ g, Chromosome.getSubGene
        ({ values := [5, 6, 3, 4], subGeneSizes := [2, 2], fitness := 0 } : Chromosome Int)
        0 = some g ∧
      ((∃ m, m < chromB.subGeneSizes.length ∧ chromB.getSubGene m = some g) ∨
       (∃ m, m < chromA.subGeneSizes.length ∧ chromA.getSubGene m = some g))) ∧
    (∃ g, Chromosome.getSubGene
        ({ values := [5, 6, 3, 4], subGeneSizes := [2, 2], fitness := 0 } : Chromosome Int)
        1 = some g ∧
      ((∃ m, m < chromB.subGeneSizes.length ∧ chromB.getSubGene m = some g) ∨
       (∃ m, m < chromA.subGeneSizes.length ∧ chromA.getSubGene m = some g))) := by
  have hu : randFloat 32767 (randA (2 + 2)) < (defaultPopulation false).crossOverRate := by
    simp [randFloat, randA, defaultPopulation]
  have hrun : crossOver (defaultPopulation false) 32767 randA [chromA, chromB] 2 0 =
      some ({ values := [5, 6, 3, 4], subGeneSizes := [2, 2], fitness := 0 },
            { values := [1, 2, 7, 8], subGeneSizes := [2, 2], fitness := 0 }, 5) := by
    rw [crossOver_of_select select_randA,
      crossOverBody_of_points 32767 (randA (2 + 2)) crossPoints_randA, if_pos hu, recombine_eq]
    simp [chromA, chromB]
  have hall := (crossOver_subGene_integrity strayV (defaultPopulation false) 32767 randA
    [chromA, chromB] 2 0 1 0 2 chromB chromA select_randA
    (crossReady_default false chromB chromA rfl rfl) chromB_wellFormed chromA_wellFormed
    (by simp [chromA, chromB, INT_MAX]) (by simp [defaultPopulation])).1 _ _ _
    (crossOverUnchecked_of_checked strayV hrun) _ (Or.inl rfl)
  exact ⟨hall 0 (by simp), hall 1 (by simp)⟩

/-- Claim C4, as stated, fails: with `equalCrossPoints` set, parent 1 `chromC` (sizes
`[1,3]`) and parent 2 `chromB` (sizes `[2,2]`), the call uses `crossPoint2 = 1` and
`realCrossPoint2 = 1`, while the first sub-gene size of parent 2 sums to 2. -/
theorem crossPoints_boundary_counterexample :
    crossPoints (defaultPopulation true) chromC chromB (randB 2) (randB (2 + 1)) =
      some (1, 1, 1, 1) ∧
    ((1 : Nat) : Int) ≠ (chromB.subGeneSizes.take 1).sum :=
  ⟨crossPoints_randB, by simp [chromB]⟩

/-- Claim C4, amended. For parents whose sub-gene sizes are non-negative and sum to less
than `2^32`, every crosspoint outcome has `realCrossPoint1` equal to the sum of
`parent1.subGeneSizes[0..crossPoint1)`; `realCrossPoint2` equals the sum of
`parent2.subGeneSizes[0..crossPoint2)` when `equalCrossPoints` is false; when it is true,
`crossPoint2 = crossPoint1` and `realCrossPoint2 = realCrossPoint1`, which is the sum of
parent 2 only when the boundaries of the parents coincide. Under `crossReady` the
crosspoints are defined. -/
theorem crossPoints_boundary {α : Type} (P : Population α) (p1 p2 : Chromosome α)
    (d1 d2 : Nat)
    (hn1 : p1.sizesNonneg) (hb1 : p1.subGeneSizes.sum < (UINT_MOD : Int))
    (hn2 : p2.sizesNonneg) (hb2 : p2.subGeneSizes.sum < (UINT_MOD : Int)) :
    (∀ cp1 r1 cp2 r2, crossPoints P p1 p2 d1 d2 = some (cp1, r1, cp2, r2) →
      (r1 : Int) = (p1.subGeneSizes.take cp1).sum ∧
      (P.equalCrossPoints = false → (r2 : Int) = (p2.subGeneSizes.take cp2).sum) ∧
      (P.equalCrossPoints = true → cp2 = cp1 ∧ r2 = r1 ∧
        (alignedBoundaries p1 p2 → cp2 ≤ p2.subGeneSizes.length →
          (r2 : Int) = (p2.subGeneSizes.take cp2).sum))) ∧
    (crossReady P p1 p2 → ∃ cp1 r1 cp2 r2,
      crossPoints P p1 p2 d1 d2 = some (cp1, r1, cp2, r2)) := by
  refine ⟨?_, fun hready => ?_⟩
  · intro cp1 r1 cp2 r2 h
    obtain ⟨c2, s2, _, hs1, _, hs2, heq, hne⟩ := crossPoints_eq_some h
    obtain ⟨hc1, hr1⟩ := sumLoop_exact hs1 hn1 hb1
    obtain ⟨_, hr2⟩ := sumLoop_exact hs2 hn2 hb2
    refine ⟨hr1, fun hq => ?_, fun hq => ?_⟩
    · obtain ⟨rfl, rfl⟩ := hne hq
      exact hr2
    · obtain ⟨rfl, rfl⟩ := heq hq
      exact ⟨rfl, rfl, fun hal hle => by rw [hr1]; exact hal cp2 hc1 hle⟩
  · obtain ⟨cp1, r1, cp2, r2, h, _⟩ := crossPoints_total d1 d2 hready
    exact ⟨cp1, r1, cp2, r2, h⟩

/-- Witness of C4 (amended): parents `chromB`, `chromA` and draws 1, 1. -/
theorem crossPoints_boundary_witness :
    (∀ cp1 r1 cp2 r2, crossPoints (defaultPopulation false) chromB chromA 1 1 =
        some (cp1, r1, cp2, r2) →
      (r1 : Int) = (chromB.subGeneSizes.take cp1).sum ∧
      ((defaultPopulation false).equalCrossPoints = false →
        (r2 : Int) = (chromA.subGeneSizes.take cp2).sum) ∧
      ((defaultPopulation false).equalCrossPoints = true → cp2 = cp1 ∧ r2 = r1 ∧
        (alignedBoundaries chromB chromA → cp2 ≤ chromA.subGeneSizes.length →
          (r2 : Int) = (chromA.subGeneSizes.take cp2).sum))) ∧
    (crossReady (defaultPopulation false) chromB chromA → ∃ cp1 r1 cp2 r2,
      crossPoints (defaultPopulation false) chromB chromA 1 1 = some (cp1, r1, cp2, r2)) :=
  crossPoints_boundary (defaultPopulation false) chromB chromA 1 1
    chromB_wellFormed.1 (by simp [chromB, UINT_MOD])
    chromA_wellFormed.1 (by simp [chromA, UINT_MOD])

/-- Claim C5. In the non-crossing branch of `crossOver` (draw `u >= crossOverRate`) the
call returns `baby1 = parent1` and `baby2 = parent2`, values, sub-gene sizes and fitness
included; with `crossOverRate = 0` this holds for every draw, and with `crossOverRate = 1`
every draw of `randFloat()` is below the rate, so the branch is never taken. The parents
are those chosen by `selectParents`, for which the crosspoint computation is defined
(`crossReady`). -/
theorem crossOver_no_crossing {α : Type} (P : Population α) (RAND_MAX : Nat)
    (rand : Nat → Nat) (generation : List (Chromosome α)) (fuel k i1 i2 k1 : Nat)
    (p1 p2 : Chromosome α)
    (hsel : selectParents P RAND_MAX rand generation fuel k = some ((i1, p1), (i2, p2), k1))
    (hready : crossReady P p1 p2) :
    (P.crossOverRate ≤ randFloat RAND_MAX (rand (k1 + 2)) →
      crossOver P RAND_MAX rand generation fuel k = some (p1, p2, k1 + 3)) ∧
    (P.crossOverRate = 0 →
      crossOver P RAND_MAX rand generation fuel k = some (p1, p2, k1 + 3)) ∧
    (P.crossOverRate = 1 → rand (k1 + 2) ≤ RAND_MAX →
      randFloat RAND_MAX (rand (k1 + 2)) < P.crossOverRate) := by
  obtain ⟨cp1, r1, cp2, r2, hcp, _⟩ := crossPoints_total (rand k1) (rand (k1 + 1)) hready
  have hno : P.crossOverRate ≤ randFloat RAND_MAX (rand (k1 + 2)) →
      crossOver P RAND_MAX rand generation fuel k = some (p1, p2, k1 + 3) := by
    intro hu
    rw [crossOver_of_select hsel, crossOverBody_of_points RAND_MAX (rand (k1 + 2)) hcp,
      if_neg (not_lt.mpr hu)]
  have hpos : (0 : ℚ) < (RAND_MAX : ℚ) + 1 := by positivity
  refine ⟨hno, fun h0 => hno ?_, fun h1 hr => ?_⟩
  · rw [h0]
    unfold randFloat
    positivity
  · rw [h1]
    unfold randFloat
    rw [div_lt_one hpos]
    have : (rand (k1 + 2) : ℚ) ≤ (RAND_MAX : ℚ) := by exact_mod_cast hr
    linarith

/-- Witness of C5: the parents `chromB`, `chromA` selected from `[chromA, chromB]` and the
draw `30000 / 32768 >= 0.7`. -/
theorem crossOver_no_crossing_witness :
    crossOver (defaultPopulation false) 32767 randC [chromA, chromB] 2 0 =
      some (chromB, chromA, 2 + 3) :=
  (crossOver_no_crossing (defaultPopulation false) 32767 randC [chromA, chromB] 2 0 1 0 2
    chromB chromA select_randC (crossReady_default false chromB chromA rfl rfl)).1
    (by simp [randFloat, randC, defaultPopulation]; norm_num)

/-- Claim C6, as stated, fails: for a parent of 59 sub genes and the crosspoint range
`[50,50]` the call draws `crossPoint1 = 28` whatever `rand()` returns, while
`floor((59 - 1) * 50 / 100) = 29`. The bound `1. * 58 / 100 * 50` is computed in `double`
as the value next below 29, and `int( )` truncates it to 28. -/
theorem crossPoint_range_counterexample :
    (∀ d1 d2, crossPoints halfPopulation chromLong chromLong d1 d2 =
      some (28, 28, 28, 28)) ∧
    chromLong.subGeneSizes.length = 59 ∧
    halfPopulation.minCrossValue 0 = 50 ∧ halfPopulation.maxCrossValue 0 = 50 ∧
    crossBound 59 50 = 8162774324609023 / 2 ^ 48 ∧
    ⌊(((59 : Nat) : ℚ) - 1) * 50 / 100⌋ = 29 := by
  refine ⟨crossPoints_half, by simp [chromLong], rfl, rfl, crossBound_59_50, ?_⟩
  rw [Int.floor_eq_iff]
  norm_num

/-- Claim C6, amended. For parents with at least one and at most `INT_MAX` sub genes and
ranges `0 <= min <= max <= 100` (`crossReady`), the crosspoints of `crossOver` are defined
for every value of `rand()`, and `crossPoint1` lies between `int( lo )` and `int( hi )`,
where `lo` and `hi` are the `double` values computed by `1. * ( n - 1 ) / 100 * min` and
`1. * ( n - 1 ) / 100 * max`; these truncations are within one of
`floor((n-1)*min/100)` and `floor((n-1)*max/100)`, and `crossPoint1 <= n - 1`. The same
holds for `crossPoint2` against parent 2 and the range of index 1 when `equalCrossPoints`
is false. -/
theorem crossPoint_range {α : Type} (P : Population α) (p1 p2 : Chromosome α) (d1 d2 : Nat)
    (hready : crossReady P p1 p2) :
    (∃ cp1 r1 cp2 r2, crossPoints P p1 p2 d1 d2 = some (cp1, r1, cp2, r2)) ∧
    ∀ cp1 r1 cp2 r2, crossPoints P p1 p2 d1 d2 = some (cp1, r1, cp2, r2) →
      (⌊crossBound p1.subGeneSizes.length (P.minCrossValue 0)⌋ ≤ (cp1 : Int) ∧
        (cp1 : Int) ≤ ⌊crossBound p1.subGeneSizes.length (P.maxCrossValue 0)⌋ ∧
        ⌊((p1.subGeneSizes.length : ℚ) - 1) * P.minCrossValue 0 / 100⌋ - 1 ≤ (cp1 : Int) ∧
        (cp1 : Int) ≤ ⌊((p1.subGeneSizes.length : ℚ) - 1) * P.maxCrossValue 0 / 100⌋ + 1 ∧
        cp1 ≤ p1.subGeneSizes.length - 1) ∧
      (P.equalCrossPoints = false →
        ⌊crossBound p2.subGeneSizes.length (P.minCrossValue 1)⌋ ≤ (cp2 : Int) ∧
        (cp2 : Int) ≤ ⌊crossBound p2.subGeneSizes.length (P.maxCrossValue 1)⌋ ∧
        ⌊((p2.subGeneSizes.length : ℚ) - 1) * P.minCrossValue 1 / 100⌋ - 1 ≤ (cp2 : Int) ∧
        (cp2 : Int) ≤ ⌊((p2.subGeneSizes.length : ℚ) - 1) * P.maxCrossValue 1 / 100⌋ + 1 ∧
        cp2 ≤ p2.subGeneSizes.length - 1) := by
  refine ⟨?_, ?_⟩
  · obtain ⟨cp1, r1, cp2, r2, h, _⟩ := crossPoints_total d1 d2 hready
    exact ⟨cp1, r1, cp2, r2, h⟩
  · intro cp1 r1 cp2 r2 h
    obtain ⟨hn1, hm1, hn2, hm2, hr⟩ := hready
    obtain ⟨ha0, ha1, ha2⟩ := hr 0
    obtain ⟨hb0, hb1, hb2⟩ := hr 1
    obtain ⟨c2, s2, hc1, _, hc2, _, _, hne⟩ := crossPoints_eq_some h
    refine ⟨crossPoint_range_of hn1 hm1 ha0 ha1 ha2 hc1, fun hq => ?_⟩
    obtain ⟨rfl, _⟩ := hne hq
    exact crossPoint_range_of hn2 hm2 hb0 hb1 hb2 hc2

/-- Witness of C6 (amended): the parent of 59 sub genes with the range `[50,50]`, where the
crosspoint 28 is one below `floor(58 * 50 / 100) = 29`. -/
theorem crossPoint_range_witness :
    crossReady halfPopulation chromLong chromLong ∧
    crossPoints halfPopulation chromLong chromLong 0 0 = some (28, 28, 28, 28) ∧
    ⌊((chromLong.subGeneSizes.length : ℚ) - 1) * halfPopulation.minCrossValue 0 / 100⌋ - 1 ≤
      ((28 : Nat) : Int) ∧
    (28 : Nat) ≤ chromLong.subGeneSizes.length - 1 := by
  have h := (crossPoint_range halfPopulation chromLong chromLong 0 0 crossReady_half).2
    28 28 28 28 (crossPoints_half 0 0)
  exact ⟨crossReady_half, crossPoints_half 0 0, h.1.2.2.1, h.1.2.2.2.2⟩

/-- Claim C7, as stated, fails: in the scenario (with `cloneParents` enabled and every
`rand()` result 0) the crosspoint is 0, both parents are chromosome 0, and both babies have
the values `[1,1,1,1]`, not `[1,1,0,0]` and `[0,0,1,1]`. -/
theorem scenario_counterexample :
    crossOver (scenarioPopulation true) 32767 (fun _ => 0) [scenarioOnes, scenarioZeros] 2 0 =
      some ({ values := [1, 1, 1, 1], subGeneSizes := [2, 2], fitness := 0 },
            { values := [1, 1, 1, 1], subGeneSizes := [2, 2], fitness := 0 }, 5) ∧
    crossPoints (scenarioPopulation true) scenarioOnes scenarioZeros 0 0 = some (0, 0, 0, 0) ∧
    ([1, 1, 1, 1] : List Int) ≠ [1, 1, 0, 0] ∧ ([1, 1, 1, 1] : List Int) ≠ [0, 0, 1, 1] :=
  ⟨scenario_clone (scenarioPopulation true) rfl rfl (fun _ => rfl) (fun _ => rfl) rfl
      validRand_zero (le_refl 2) 0,
   scenario_crossPoints (scenarioPopulation true) rfl (fun _ => rfl) (fun _ => rfl)
      scenarioOnes scenarioZeros rfl rfl 0 0,
   by decide, by decide⟩

/-- Claim C7, amended. For the 2-chromosome generation `[1,1,1,1]` (fitness 10) and
`[0,0,0,0]` (fitness 0), both with sub-gene sizes `[2,2]`, with `crossOverRate = 1.0`,
`equalCrossPoints = true` and crosspoint range `[50,50]` for both indices, `crossOver`
computes the crosspoint `floor(1 * 50 / 100) = 0` at flat index 0, and selection always
returns chromosome 0, the only one with positive fitness. With `cloneParents` enabled both
parents are chromosome 0 and both babies get the values `[1,1,1,1]` and the sub-gene sizes
`[2,2]` (fitness 0), for every sequence of random draws; with `cloneParents` disabled
`selectParents` never finds a second parent and `crossOver` does not return. -/
theorem scenario_crossOver (P : Population Int) (hrate : P.crossOverRate = 1)
    (heq : P.equalCrossPoints = true) (hmin : ∀ j, P.minCrossValue j = 50)
    (hmax : ∀ j, P.maxCrossValue j = 50) (RAND_MAX : Nat) (rand : Nat → Nat)
    (hr : validRand RAND_MAX rand) (fuel k : Nat) :
    (∀ d1 d2, crossPoints P scenarioOnes scenarioZeros d1 d2 = some (0, 0, 0, 0)) ∧
    (∀ i, grabChromosome RAND_MAX [scenarioOnes, scenarioZeros] fuel (rand k) = some i →
      i = 0) ∧
    (P.cloneParents = true → 2 ≤ fuel →
      crossOver P RAND_MAX rand [scenarioOnes, scenarioZeros] fuel k =
        some ({ values := [1, 1, 1, 1], subGeneSizes := [2, 2], fitness := 0 },
              { values := [1, 1, 1, 1], subGeneSizes := [2, 2], fitness := 0 }, k + 5)) ∧
    (P.cloneParents = false →
      crossOver P RAND_MAX rand [scenarioOnes, scenarioZeros] fuel k = none) :=
  ⟨fun d1 d2 => scenario_crossPoints P heq hmin hmax scenarioOnes scenarioZeros rfl rfl d1 d2,
   (scenario_grab (hr k) fuel).2,
   fun hcl hf => scenario_clone P hrate heq hmin hmax hcl hr hf k,
   fun hcl => scenario_distinct P hcl hr fuel k⟩

/-- Witness of C7 (amended): the scenario population with `cloneParents` enabled and every
`rand()` result 0. -/
theorem scenario_crossOver_witness :
    crossOver (scenarioPopulation true) 32767 (fun _ => 0) [scenarioOnes, scenarioZeros] 2 0 =
      some ({ values := [1, 1, 1, 1], subGeneSizes := [2, 2], fitness := 0 },
            { values := [1, 1, 1, 1], subGeneSizes := [2, 2], fitness := 0 }, 0 + 5) :=
  (scenario_crossOver (scenarioPopulation true) rfl rfl (fun _ => rfl) (fun _ => rfl) 32767
    (fun _ => 0) validRand_zero 2 0).2.2.1 rfl (le_refl 2)

/-- Claim C9, as stated, fails: for two chromosomes of fitness 1 and the draw `u = 1/2`
(`r = 1`), the first index of the walk whose accumulated fitness is `>= r` is index 1, but
`grabChromosome` returns index 0; no operation of this computation is rounded, and
`grabChromosome` with every operation rounded to `double` returns index 0 as well. -/
theorem grabChromosome_stop_rule_counterexample :
    grabChromosome 32767 [chromA, chromB] 2 16384 = some 0 ∧
    stopsAtFirstGE [chromA, chromB] (randFloat 32767 16384 * totalFitness [chromA, chromB]) 1 ∧
    ¬ stopsAtFirstGE [chromA, chromB]
        (randFloat 32767 16384 * totalFitness [chromA, chromB]) 0 ∧
    grabChromosomeRounded roundDouble 32767 [chromA, chromB] 2 16384 = some 0 ∧
    randomFitness roundDouble 32767 [chromA, chromB] 16384 =
      randFloat 32767 16384 * totalFitness [chromA, chromB] := by
  obtain ⟨hw0, hw1, hw2⟩ := walk_AB
  obtain ⟨hr, hv1, hv2⟩ := rounded_walk_AB
  rw [draw_half]
  refine ⟨?_, ?_, ?_, ?_, hr⟩
  · rw [grabChromosome_spec 32767 _ (by simp), draw_half]
    refine ⟨2, le_refl 2, by simp, by rw [hw2]; norm_num, ?_⟩
    intro j hj
    have : j = 0 ∨ j = 1 := by omega
    rcases this with rfl | rfl
    · rw [hw0]; norm_num
    · rw [hw1]
  · refine ⟨1, le_refl 1, by simp, by rw [hw1], ?_⟩
    intro j h1 h2
    omega
  · rintro ⟨m, hm1, hm2, _, hall⟩
    have hlen : ([chromA, chromB] : List (Chromosome Int)).length = 2 := rfl
    rw [hlen] at hm2
    have hm : 1 < m := by omega
    have := hall 1 (le_refl 1) hm
    rw [hw1] at this
    exact absurd this (lt_irrefl _)
  · have h := grabLoopRounded_spec roundDouble [chromA, chromB] (by simp)
      (randomFitness roundDouble 32767 [chromA, chromB] 16384) 0 2 0
    rw [Nat.zero_mod] at h
    unfold grabChromosomeRounded
    have hz : walkAccRounded roundDouble [chromA, chromB] 0 = 0 := rfl
    rw [hz] at h
    rw [h, hr]
    refine ⟨2, by omega, by omega, by simp, by rw [hv2]; norm_num, ?_⟩
    intro j _ hj
    have : j = 0 ∨ j = 1 := by omega
    rcases this with rfl | rfl
    · rw [hz]; norm_num
    · rw [hv1]

/-- Claim C9, amended. `grabChromosome` is taken with the roundings of the source: the draw
`u` is a `double`, `totalFitness` and the accumulated fitness `tmpFitness` are sums in
`long double` (rounding `longDouble`, any rounding that keeps non-negative numbers
non-negative), and `r`, the value of `randomFitness`, is the product `u * totalFitness`
stored in a `double`. For every non-empty generation with non-negative fitnesses and every
draw, `grabChromosome` returns the first index, in the walk order `1, 2, ..., n-1, 0` (then
wrapping again), at which the accumulated fitness (including that index) is strictly
greater than `r`: it returns `i` exactly when `i = m % n` for the first step `m >= 1` of
the walk with accumulated fitness `> r`, reached within the loop bound. -/
theorem grabChromosome_stop_rule {α : Type} (longDouble : ℚ → ℚ)
    (hlong : ∀ x, 0 ≤ x → 0 ≤ longDouble x) (RAND_MAX : Nat)
    (generation : List (Chromosome α))
    (hne : generation ≠ []) (hnn : ∀ c ∈ generation, 0 ≤ c.fitness) (fuel d i : Nat) :
    grabChromosomeRounded longDouble RAND_MAX generation fuel d = some i ↔
      ∃ m, 1 ≤ m ∧ m ≤ fuel ∧ i = m % generation.length ∧
        randomFitness longDouble RAND_MAX generation d <
          walkAccRounded longDouble generation m ∧
        ∀ j, 1 ≤ j → j < m →
          walkAccRounded longDouble generation j ≤
            randomFitness longDouble RAND_MAX generation d := by
  have hn : 0 < generation.length := List.length_pos.mpr hne
  have hr : 0 ≤ randomFitness longDouble RAND_MAX generation d :=
    randomFitness_nonneg hlong RAND_MAX hnn d
  have hw0 : walkAccRounded longDouble generation 0 = 0 := rfl
  have h := grabLoopRounded_spec longDouble generation hn
    (randomFitness longDouble RAND_MAX generation d) i fuel 0
  rw [Nat.zero_mod, hw0] at h
  unfold grabChromosomeRounded
  rw [h]
  constructor
  · rintro ⟨m, _, h1, h2, h3, h4⟩
    refine ⟨m, ?_, by omega, h2, h3, fun j _ hj => h4 j (Nat.zero_le _) hj⟩
    by_contra hm
    have : m = 0 := by omega
    subst this
    rw [hw0] at h3
    exact absurd hr (not_le.mpr h3)
  · rintro ⟨m, _, h1, h2, h3, h4⟩
    refine ⟨m, Nat.zero_le _, by omega, h2, h3, fun j _ hj => ?_⟩
    by_cases hj0 : j = 0
    · subst hj0; rw [hw0]; exact hr
    · exact h4 j (by omega) hj

/-- Witness of C9 (amended): two chromosomes of fitness 1 and the draw `u = 1/2`, with
`long double` taken to be `double`; the walk passes index 1 (accumulated 1, not above
`r = 1`) and stops at index 0. -/
theorem grabChromosome_stop_rule_witness :
    grabChromosomeRounded roundDouble 32767 [chromA, chromB] 2 16384 = some 0 ↔
      ∃ m, 1 ≤ m ∧ m ≤ 2 ∧ 0 = m % [chromA, chromB].length ∧
        randomFitness roundDouble 32767 [chromA, chromB] 16384 <
          walkAccRounded roundDouble [chromA, chromB] m ∧
        ∀ j, 1 ≤ j → j < m →
          walkAccRounded roundDouble [chromA, chromB] j ≤
            randomFitness roundDouble 32767 [chromA, chromB] 16384 :=
  grabChromosome_stop_rule roundDouble (fun _ hx => roundDouble_nonneg hx) 32767
    [chromA, chromB] (by simp) (by simp [chromA, chromB]) 2 16384 0

/-- Claim C10. For every non-empty generation whose fitnesses are all non-negative with at
least one strictly positive, and every draw `u = rand() / (RAND_MAX + 1)` in `[0,1)`, the
selection loop of `grabChromosome` terminates after at most `n` iterations (`n` the
generation size) and returns an index below `n`; a larger iteration bound gives the same
index. -/
theorem grabChromosome_terminates {α : Type} (RAND_MAX : Nat)
    (generation : List (Chromosome α)) (hne : generation ≠ [])
    (hnn : ∀ c ∈ generation, 0 ≤ c.fitness) (hpos : ∃ c ∈ generation, 0 < c.fitness)
    (d : Nat) (hd : d ≤ RAND_MAX) :
    ∃ i, i < generation.length ∧
      grabChromosome RAND_MAX generation generation.length d = some i ∧
      ∀ fuel, generation.length ≤ fuel →
        grabChromosome RAND_MAX generation fuel d = some i := by
  have _ := hne
  obtain ⟨i, hi, hall⟩ := @grabChromosome_some _ RAND_MAX _ hnn hpos _ hd
  exact ⟨i, hi, hall _ (le_refl _), hall⟩

/-- Witness of C10: two chromosomes of fitness 1 and the draw `16384 / 32768`. -/
theorem grabChromosome_terminates_witness :
    ∃ i, i < [chromA, chromB].length ∧
      grabChromosome 32767 [chromA, chromB] [chromA, chromB].length 16384 = some i ∧
      ∀ fuel, [chromA, chromB].length ≤ fuel →
        grabChromosome 32767 [chromA, chromB] fuel 16384 = some i :=
  grabChromosome_terminates 32767 [chromA, chromB] (by simp)
    (by simp [chromA, chromB]) ⟨chromA, by simp, by simp [chromA]⟩ 16384 (by norm_num)

/-- Claim C8. With `equalCrossPoints` set: (1) for parents chosen by `selectParents` that
have the same `subGeneSizes` list `L` and satisfy the shape invariant (hence have the same
length), both children of `crossOver` have exactly the list `L` and as many values as the
parents, for every draw; (2) when all chromosomes of both generation buffers share `L` and
satisfy the shape invariant, every chromosome of the generation built by
`createNewGeneration` has the list `L` and the same length as every chromosome before the
call, the previous generation is the old current one, and the number of chromosomes is
unchanged; (3) `createNewGeneration` does return when `cloneParents` is enabled, the
fitnesses of the current generation are non-negative with one positive, its chromosomes are
well formed with `L` non-empty, the crosspoint ranges are valid and `randFunction` is
defined. -/
theorem equalCrossPoints_keeps_length {α : Type} (P : Population α) (RAND_MAX : Nat)
    (rand : Nat → Nat) (randFunction : ℚ → ℚ → Nat → Option α) (L : List Int)
    (heq : P.equalCrossPoints = true) :
    (∀ generation fuel k i1 i2 k1 k2 p1 p2 b1 b2,
      selectParents P RAND_MAX rand generation fuel k = some ((i1, p1), (i2, p2), k1) →
      p1.subGeneSizes = L → p2.subGeneSizes = L → p1.shapeInvariant → p2.shapeInvariant →
      crossOver P RAND_MAX rand generation fuel k = some (b1, b2, k2) →
      b1.subGeneSizes = L ∧ b2.subGeneSizes = L ∧
        b1.values.length = p1.values.length ∧ b2.values.length = p2.values.length ∧
        p1.values.length = p2.values.length) ∧
    (∀ og ng fuel k P1 k1, P.oldGeneration = some og → P.newGeneration = some ng →
      (∀ c ∈ og ++ ng, c.subGeneSizes = L ∧ c.shapeInvariant) →
      createNewGeneration P RAND_MAX rand randFunction fuel k = some (P1, k1) →
      ∃ g, P1.newGeneration = some g ∧ P1.oldGeneration = some ng ∧ g.length = og.length ∧
        ∀ c1 ∈ g ++ ng, c1.subGeneSizes = L ∧
          ∀ c ∈ og ++ ng, c1.values.length = c.values.length) ∧
    (∀ og ng fuel k, P.oldGeneration = some og → P.newGeneration = some ng →
      1 ≤ og.length → P.cloneParents = true → validRand RAND_MAX rand →
      (∀ c ∈ ng, 0 ≤ c.fitness) → (∃ c ∈ ng, 0 < c.fitness) → ng.length ≤ fuel →
      (∀ c ∈ ng, c.subGeneSizes = L ∧ c.wellFormed) →
      1 ≤ L.length → (L.length : Int) ≤ INT_MAX →
      (∀ j : Fin 2, 0 ≤ P.minCrossValue j ∧ P.minCrossValue j ≤ P.maxCrossValue j ∧
        P.maxCrossValue j ≤ 100) →
      (∀ d, ∃ v, randFunction P.minRandValue P.maxRandValue d = some v) →
      ∃ P1 k1, createNewGeneration P RAND_MAX rand randFunction fuel k = some (P1, k1)) := by
  refine ⟨?_, ?_, ?_⟩
  · intro generation fuel k i1 i2 k1 k2 p1 p2 b1 b2 hsel hL1 hL2 hs1 hs2 h
    exact crossOver_equal_sizes heq hsel hL1 hL2 hs1 hs2 h
  · intro og ng fuel k P1 k1 ho hn hall h
    obtain ⟨g, h1, h2, h3, h4⟩ := createNewGeneration_shared heq ho hn hall h
    refine ⟨g, h1, h2, h3, ?_⟩
    have hall1 : ∀ c1 ∈ g ++ ng, c1.subGeneSizes = L ∧ c1.shapeInvariant := by
      intro c1 hc1
      rcases List.mem_append.mp hc1 with hg | hng
      · exact h4 c1 hg
      · exact hall c1 (List.mem_append_right _ hng)
    intro c1 hc1
    refine ⟨(hall1 c1 hc1).1, fun c hc => ?_⟩
    exact shape_length (hall1 c1 hc1).2 (hall c hc).2 ((hall1 c1 hc1).1.trans (hall c hc).1.symm)
  · intro og ng fuel k ho hn hlen hcl hr hnn hpos hf hL hL1 hL2 hrange hrf
    exact createNewGeneration_total P RAND_MAX rand randFunction fuel k og ng ho hn hlen
      (fun kk => crossOver_shared_total hcl hr hnn hpos hf hL hL1 hL2 hrange kk) hrf

/-- Witness of C8: the population `sharedPopulation`, whose chromosomes all have the
sub-gene list `[2,2]` and 4 values; `createNewGeneration` returns, and every chromosome of
the new generation has the list `[2,2]` and 4 values. -/
theorem equalCrossPoints_keeps_length_witness :
    ∃ P1 k1 g,
      createNewGeneration sharedPopulation 32767 (fun _ => 0) GenInt.randFunction 2 0 =
        some (P1, k1) ∧
      P1.newGeneration = some g ∧ g.length = 2 ∧
      ∀ c1 ∈ g, c1.subGeneSizes = [2, 2] ∧ c1.values.length = 4 := by
  have hthm := equalCrossPoints_keeps_length sharedPopulation 32767 (fun _ => 0)
    GenInt.randFunction [2, 2] rfl
  obtain ⟨P1, k1, hrun⟩ := hthm.2.2 [chromA, chromB] [chromB, chromA] 2 0 rfl rfl
    (by simp) rfl validRand_zero (by simp [chromA, chromB])
    ⟨chromB, by simp, by simp [chromB]⟩ (by simp) sharedPopulation_all (by simp) (by decide)
    (by intro j; simp [sharedPopulation, defaultPopulation]) genInt_randFunction_total
  have hall : ∀ c ∈ [chromA, chromB] ++ [chromB, chromA],
      c.subGeneSizes = [2, 2] ∧ c.shapeInvariant := by
    intro c hc
    simp only [List.cons_append, List.nil_append, List.mem_cons, List.mem_singleton,
      List.not_mem_nil, or_false] at hc
    rcases hc with rfl | rfl | rfl | rfl
    · exact ⟨rfl, chromA_wellFormed.2.1⟩
    · exact ⟨rfl, chromB_wellFormed.2.1⟩
    · exact ⟨rfl, chromB_wellFormed.2.1⟩
    · exact ⟨rfl, chromA_wellFormed.2.1⟩
  obtain ⟨g, h1, _, h3, h4⟩ :=
    hthm.2.1 [chromA, chromB] [chromB, chromA] 2 0 P1 k1 rfl rfl hall hrun
  refine ⟨P1, k1, g, hrun, h1, h3, fun c1 hc1 => ?_⟩
  obtain ⟨hs, hl⟩ := h4 c1 (List.mem_append_left _ hc1)
  exact ⟨hs, hl chromA (by simp)⟩

/-- Claim C11. For a generation of two chromosomes of fitness `3f` (index 0) and `f`
(index 1), `f > 0`, and every draw `u = rand() / (RAND_MAX + 1)` in `[0,1)`,
`grabChromosome` returns (within two iterations) index 1 exactly when `u < 1/4` and index 0
exactly when `u >= 1/4`; when `RAND_MAX + 1 = 4q`, exactly `q` of the `4q` values of
`rand()` select index 1 and `3q` select index 0. -/
theorem grabChromosome_bias {α : Type} (RAND_MAX : Nat) (c0 c1 : Chromosome α) (f : ℚ)
    (hf : 0 < f) (h0 : c0.fitness = 3 * f) (h1 : c1.fitness = f) (fuel : Nat)
    (hfuel : 2 ≤ fuel) :
    (∀ d, d ≤ RAND_MAX →
      (∃ i, grabChromosome RAND_MAX [c0, c1] fuel d = some i) ∧
      (grabChromosome RAND_MAX [c0, c1] fuel d = some 1 ↔ randFloat RAND_MAX d < 1 / 4) ∧
      (grabChromosome RAND_MAX [c0, c1] fuel d = some 0 ↔ 1 / 4 ≤ randFloat RAND_MAX d)) ∧
    (∀ q, RAND_MAX + 1 = 4 * q →
      ((Finset.range (RAND_MAX + 1)).filter
        (fun d => grabChromosome RAND_MAX [c0, c1] fuel d = some 1)).card = q ∧
      ((Finset.range (RAND_MAX + 1)).filter
        (fun d => grabChromosome RAND_MAX [c0, c1] fuel d = some 0)).card = 3 * q) := by
  have hgrab : ∀ d, d ≤ RAND_MAX →
      (grabChromosome RAND_MAX [c0, c1] fuel d = some 1 ↔ randFloat RAND_MAX d < 1 / 4) ∧
      (grabChromosome RAND_MAX [c0, c1] fuel d = some 0 ↔
        ¬ randFloat RAND_MAX d < 1 / 4) := by
    intro d hd
    rw [grabChromosome_ratio RAND_MAX c0 c1 f hf h0 h1 d hd fuel hfuel]
    by_cases hq : randFloat RAND_MAX d < 1 / 4
    · simp [hq]
    · simp [hq]
  refine ⟨fun d hd => ⟨?_, (hgrab d hd).1, ?_⟩, fun q hq => ?_⟩
  · rw [grabChromosome_ratio RAND_MAX c0 c1 f hf h0 h1 d hd fuel hfuel]
    exact ⟨_, rfl⟩
  · rw [(hgrab d hd).2, not_lt]
  · obtain ⟨hc1, hc0⟩ := quarter_count hq
    have e1 : (Finset.range (RAND_MAX + 1)).filter
        (fun d => grabChromosome RAND_MAX [c0, c1] fuel d = some 1) =
        (Finset.range (RAND_MAX + 1)).filter (fun d => randFloat RAND_MAX d < 1 / 4) :=
      Finset.filter_congr fun d hd =>
        (hgrab d (by have := Finset.mem_range.mp hd; omega)).1
    have e0 : (Finset.range (RAND_MAX + 1)).filter
        (fun d => grabChromosome RAND_MAX [c0, c1] fuel d = some 0) =
        (Finset.range (RAND_MAX + 1)).filter (fun d => ¬ randFloat RAND_MAX d < 1 / 4) :=
      Finset.filter_congr fun d hd =>
        (hgrab d (by have := Finset.mem_range.mp hd; omega)).2
    rw [e1, e0]
    exact ⟨hc1, hc0⟩

/-- Witness of C11: fitnesses 3 and 1 with `RAND_MAX = 32767`; the draw `u = 1/4`
(`rand() = 8192`) selects index 0, and 8192 of the 32768 draws select index 1. -/
theorem grabChromosome_bias_witness :
    grabChromosome 32767
      [({ values := [1], subGeneSizes := [1], fitness := 3 } : Chromosome Int),
       { values := [0], subGeneSizes := [1], fitness := 1 }] 2 8192 = some 0 ∧
    ((Finset.range (32767 + 1)).filter
      (fun d => grabChromosome 32767
        [({ values := [1], subGeneSizes := [1], fitness := 3 } : Chromosome Int),
         { values := [0], subGeneSizes := [1], fitness := 1 }] 2 d = some 1)).card = 8192 := by
  have h := grabChromosome_bias 32767
    ({ values := [1], subGeneSizes := [1], fitness := 3 } : Chromosome Int)
    { values := [0], subGeneSizes := [1], fitness := 1 } 1 (by norm_num) (by norm_num) rfl 2
    (le_refl 2)
  refine ⟨((h.1 8192 (by norm_num)).2.2).mpr ?_, (h.2 8192 (by norm_num)).1⟩
  unfold randFloat
  norm_num

/-- Claim C12. When `cloneParents` is disabled, whenever `selectParents` returns, `parent1`
and `parent2` are the chromosomes at two different indices of the generation, and it does
return as soon as a resampled index differs from the first one; when `cloneParents` is
enabled, `parent2` is the chromosome at the index returned by exactly one further call of
`grabChromosome`, which may be the index of `parent1` (as for the generation of the
end-to-end scenario, where both parents are chromosome 0). -/
theorem selectParents_distinctness {α : Type} (P : Population α) (RAND_MAX : Nat)
    (rand : Nat → Nat) (generation : List (Chromosome α)) (fuel k : Nat) :
    (P.cloneParents = false → ∀ i1 p1 i2 p2 k1,
      selectParents P RAND_MAX rand generation fuel k = some ((i1, p1), (i2, p2), k1) →
      i1 ≠ i2 ∧ generation[i1]? = some p1 ∧ generation[i2]? = some p2) ∧
    (P.cloneParents = false → ∀ i1 p1 i2 p2, 1 ≤ fuel →
      grabChromosome RAND_MAX generation fuel (rand k) = some i1 →
      generation[i1]? = some p1 →
      grabChromosome RAND_MAX generation fuel (rand (k + 1)) = some i2 →
      generation[i2]? = some p2 → i2 ≠ i1 →
      selectParents P RAND_MAX rand generation fuel k = some ((i1, p1), (i2, p2), k + 2)) ∧
    (P.cloneParents = true → ∀ i1 p1 i2 p2 k1,
      (selectParents P RAND_MAX rand generation fuel k = some ((i1, p1), (i2, p2), k1) ↔
        grabChromosome RAND_MAX generation fuel (rand k) = some i1 ∧
        generation[i1]? = some p1 ∧
        grabChromosome RAND_MAX generation fuel (rand (k + 1)) = some i2 ∧
        generation[i2]? = some p2 ∧ k1 = k + 2)) ∧
    selectParents (scenarioPopulation true) 32767 (fun _ => 0) [scenarioOnes, scenarioZeros]
      2 0 = some ((0, scenarioOnes), (0, scenarioOnes), 0 + 2) := by
  refine ⟨fun hcl i1 p1 i2 p2 k1 h => ?_, fun hcl i1 p1 i2 p2 hf h1 hp1 h2 hp2 hne => ?_,
    fun hcl i1 p1 i2 p2 k1 => selectParents_clone_iff hcl, ?_⟩
  · obtain ⟨hm1, hm2⟩ := selectParents_mem h
    exact ⟨fun he => selectParents_distinct_of hcl h he.symm, hm1, hm2⟩
  · exact selectParents_resample hcl hf h1 hp1 h2 hp2 hne
  · exact scenario_select_clone (scenarioPopulation true) rfl validRand_zero (le_refl 2) 0

/-- Witness of C12: without `cloneParents`, the draws 0 and 20000 on two chromosomes of
fitness 1 select the indices 1 and 0. -/
theorem selectParents_distinctness_witness :
    selectParents distinctPopulation 32767 randA [chromA, chromB] 2 0 =
      some ((1, chromB), (0, chromA), 2) ∧
    ((1 : Nat) ≠ 0 ∧ [chromA, chromB][1]? = some chromB ∧ [chromA, chromB][0]? = some chromA) :=
  ⟨select_distinct_randA,
    (selectParents_distinctness distinctPopulation 32767 randA [chromA, chromB] 2 0).1 rfl
      1 chromB 0 chromA 2 select_distinct_randA⟩

/-- Claim C20. For every chromosome and every sequence of draws, whenever
`PopulationClass::mutate` returns, the chromosome has the same length, the same
`subGeneSizes` and the same fitness, and every position `i` whose draw
`u_i = randFloat()` (read at the cursor `mutateCursor ... i`) satisfies
`u_i >= mutationRate` holds the same value; with `mutationRate = 0` the call returns the
chromosome unchanged; and the call returns whenever `randFunction` does. -/
theorem mutate_frame {α : Type} (P : Population α) (RAND_MAX : Nat) (rand : Nat → Nat)
    (randFunction : ℚ → ℚ → Nat → Option α) (c : Chromosome α) (k : Nat) :
    (∀ c1 k1, mutate P RAND_MAX rand randFunction c k = some (c1, k1) →
      c1.values.length = c.values.length ∧ c1.subGeneSizes = c.subGeneSizes ∧
      c1.fitness = c.fitness ∧
      ∀ i, i < c.values.length →
        P.mutationRate ≤ randFloat RAND_MAX (rand (mutateCursor P RAND_MAX rand k i)) →
        c1.values[i]? = c.values[i]?) ∧
    (P.mutationRate = 0 →
      mutate P RAND_MAX rand randFunction c k = some (c, k + c.values.length)) ∧
    ((∀ d, ∃ v, randFunction P.minRandValue P.maxRandValue d = some v) →
      ∃ c1 k1, mutate P RAND_MAX rand randFunction c k = some (c1, k1)) := by
  refine ⟨fun c1 k1 h => ?_, fun h0 => ?_, fun hrf => ?_⟩
  · obtain ⟨hs, hl, hfit⟩ := mutate_preserves h
    unfold mutate at h
    obtain ⟨_, hfr⟩ := mutateLoop_frame P RAND_MAX rand randFunction _ _ _ _ _ _ h
    refine ⟨hl, hs, hfit, fun i hi hu => hfr i (Or.inr (Or.inr ⟨Nat.zero_le i, ?_⟩))⟩
    rw [Nat.sub_zero]
    exact hu
  · unfold mutate
    exact mutateLoop_rate_zero P RAND_MAX rand randFunction (le_of_eq h0) _ _ _ _
  · exact mutate_total P RAND_MAX rand randFunction hrf c k

/-- Witness of C20: `mutate` on the chromosome `[1,2,3,4]` with the mutation rate set to 0
returns it unchanged after four draws. -/
theorem mutate_frame_witness :
    mutate (setMutationRate sharedPopulation 0) 32767 (fun _ => 0) GenInt.randFunction chromA 0 =
      some (chromA, 0 + chromA.values.length) :=
  (mutate_frame (setMutationRate sharedPopulation 0) 32767 (fun _ => 0) GenInt.randFunction
    chromA 0).2.1 rfl

/-- Claim C13. For a population whose two generations hold `n` chromosomes each, which is
what `initialize` leaves for `n = generationSize`, every call of `createNewGeneration` that
returns leaves `n` chromosomes in the current and in the previous generation, for every
sequence of draws; and the call returns when `cloneParents` is enabled, the fitnesses of
the current generation are non-negative with one positive, and its chromosomes are well
formed and share a non-empty sub-gene list. -/
theorem createNewGeneration_size {α : Type} (P : Population α) (RAND_MAX : Nat)
    (rand : Nat → Nat) (randFunction : ℚ → ℚ → Nat → Option α) (fuel k n : Nat)
    (og ng : List (Chromosome α)) (ho : P.oldGeneration = some og)
    (hn : P.newGeneration = some ng) (hog : og.length = n) (hng : ng.length = n) :
    (∀ P1 k1, createNewGeneration P RAND_MAX rand randFunction fuel k = some (P1, k1) →
      ∃ og1 ng1, P1.oldGeneration = some og1 ∧ P1.newGeneration = some ng1 ∧
        og1.length = n ∧ ng1.length = n) ∧
    (∀ (P0 P1 : Population α) rand0 now fuel0 generationSize minCSize maxCSize minSubSize
        maxSubSize minRand maxRand k1,
      initializePopulation P0 rand0 randFunction now fuel0 generationSize minCSize maxCSize
        minSubSize maxSubSize minRand maxRand = Checked.returned (P1, k1) →
      ∃ og1 ng1, P1.oldGeneration = some og1 ∧ P1.newGeneration = some ng1 ∧
        og1.length = generationSize ∧ ng1.length = generationSize) ∧
    (∀ L : List Int, 1 ≤ n → P.cloneParents = true → validRand RAND_MAX rand →
      (∀ c ∈ ng, 0 ≤ c.fitness) → (∃ c ∈ ng, 0 < c.fitness) → n ≤ fuel →
      (∀ c ∈ ng, c.subGeneSizes = L ∧ c.wellFormed) →
      1 ≤ L.length → (L.length : Int) ≤ INT_MAX →
      (∀ j : Fin 2, 0 ≤ P.minCrossValue j ∧ P.minCrossValue j ≤ P.maxCrossValue j ∧
        P.maxCrossValue j ≤ 100) →
      (∀ d, ∃ v, randFunction P.minRandValue P.maxRandValue d = some v) →
      ∃ P1 k1, createNewGeneration P RAND_MAX rand randFunction fuel k = some (P1, k1)) := by
  refine ⟨fun P1 k1 h => ?_, ?_, ?_⟩
  · obtain ⟨og1, ng1, g, ho1, hn1, rfl, hlen, _⟩ := createNewGeneration_outcome h
    rw [ho] at ho1
    rw [hn] at hn1
    obtain rfl := Option.some.inj ho1
    obtain rfl := Option.some.inj hn1
    exact ⟨ng, g, rfl, rfl, hng, by rw [hlen, hog]⟩
  · intro P0 P1 rand0 now fuel0 generationSize minCSize maxCSize minSubSize maxSubSize
      minRand maxRand k1 h
    obtain ⟨_, _, _, _, g, _, hnew, hlen, hold⟩ := initializePopulation_returned h
    exact ⟨_, g, hold, hnew, generationClass_new_length generationSize, hlen⟩
  · intro L h1 hcl hr hnn hpos hf hL hL1 hL2 hrange hrf
    exact createNewGeneration_returns ho hn (by omega) hcl hr hnn hpos (by omega) hL hL1 hL2
      hrange hrf k

/-- Witness of C13: `sharedPopulation`, with two chromosomes in each generation. -/
theorem createNewGeneration_size_witness :
    ∃ P1 k1, createNewGeneration sharedPopulation 32767 (fun _ => 0) GenInt.randFunction 2 0 =
        some (P1, k1) ∧
      ∃ og1 ng1, P1.oldGeneration = some og1 ∧ P1.newGeneration = some ng1 ∧
        og1.length = 2 ∧ ng1.length = 2 := by
  obtain ⟨P1, k1, h⟩ := sharedPopulation_returns 0
  exact ⟨P1, k1, h, (createNewGeneration_size sharedPopulation 32767 (fun _ => 0)
    GenInt.randFunction 2 0 2 [chromA, chromB] [chromB, chromA] rfl rfl rfl rfl).1 P1 k1 h⟩

/-- Claim C14, as stated, fails: `createNewGeneration` on generations of three chromosomes
returns normally; the new current generation has three chromosomes, and its last one is
`chromD`, the chromosome that the buffer held before the call, left unpaired. -/
theorem createNewGeneration_odd_counterexample :
    ∃ P1 k1 g, createNewGeneration oddPopulation 32767 (fun _ => 0) GenInt.randFunction 3 0 =
        some (P1, k1) ∧
      oddPopulation.oldGeneration = some [chromA, chromB, chromD] ∧
      P1.newGeneration = some g ∧ g.length = 3 ∧ g[2]? = some chromD := by
  obtain ⟨P1, k1, h⟩ := oddPopulation_returns 0
  obtain ⟨og, ng, g, ho, _, rfl, hlen, hlast⟩ := createNewGeneration_outcome h
  have ho2 : oddPopulation.oldGeneration = some [chromA, chromB, chromD] := rfl
  rw [ho2] at ho
  obtain rfl := Option.some.inj ho
  exact ⟨_, k1, g, h, rfl, rfl, hlen, hlast rfl⟩

/-- Claim C14, amended. `initialize` with an odd `generationSize` fails its `assert`, for
every population and every other argument. `createNewGeneration` checks nothing: on a
buffer with an odd number of chromosomes every call that returns leaves a new current
generation of the same size whose last chromosome is the one the buffer held before the
call; and it returns under the conditions of `createNewGeneration_returns`. -/
theorem odd_size_handling {α : Type} (P : Population α) (RAND_MAX : Nat)
    (rand : Nat → Nat) (randFunction : ℚ → ℚ → Nat → Option α) (fuel k : Nat)
    (og ng : List (Chromosome α)) (ho : P.oldGeneration = some og)
    (hn : P.newGeneration = some ng) (hodd : og.length % 2 = 1) :
    (∀ (P0 : Population α) rand0 now fuel0 generationSize minCSize maxCSize minSubSize
        maxSubSize minRand maxRand, generationSize % 2 = 1 →
      initializePopulation P0 rand0 randFunction now fuel0 generationSize minCSize maxCSize
        minSubSize maxSubSize minRand maxRand = Checked.assertFailed) ∧
    (∀ P1 k1, createNewGeneration P RAND_MAX rand randFunction fuel k = some (P1, k1) →
      ∃ g, P1.newGeneration = some g ∧ g.length = og.length ∧
        g[og.length - 1]? = og[og.length - 1]?) ∧
    (∀ L : List Int, P.cloneParents = true → validRand RAND_MAX rand →
      (∀ c ∈ ng, 0 ≤ c.fitness) → (∃ c ∈ ng, 0 < c.fitness) → ng.length ≤ fuel →
      (∀ c ∈ ng, c.subGeneSizes = L ∧ c.wellFormed) →
      1 ≤ L.length → (L.length : Int) ≤ INT_MAX →
      (∀ j : Fin 2, 0 ≤ P.minCrossValue j ∧ P.minCrossValue j ≤ P.maxCrossValue j ∧
        P.maxCrossValue j ≤ 100) →
      (∀ d, ∃ v, randFunction P.minRandValue P.maxRandValue d = some v) →
      ∃ P1 k1, createNewGeneration P RAND_MAX rand randFunction fuel k = some (P1, k1)) := by
  refine ⟨?_, fun P1 k1 h => ?_, ?_⟩
  · intro P0 rand0 now fuel0 generationSize minCSize maxCSize minSubSize maxSubSize minRand
      maxRand hg
    rw [initializePopulation_assertFailed]
    left; omega
  · obtain ⟨og1, ng1, g, ho1, _, rfl, hlen, hlast⟩ := createNewGeneration_outcome h
    rw [ho] at ho1
    obtain rfl := Option.some.inj ho1
    exact ⟨g, rfl, hlen, hlast hodd⟩
  · intro L hcl hr hnn hpos hf hL hL1 hL2 hrange hrf
    exact createNewGeneration_returns ho hn (by omega) hcl hr hnn hpos hf hL hL1 hL2 hrange
      hrf k

/-- Witness of C14 (amended): `initialize` with `generationSize = 3` on a population that
is not initialised, and `createNewGeneration` on `oddPopulation`, with three chromosomes in
each generation. -/
theorem odd_size_handling_witness :
    initializePopulation constructedPopulation (fun _ => 0) GenInt.randFunction 0 4 3 4 4 2 2
      0 9 = Checked.assertFailed ∧
    ∃ P1 k1 g, createNewGeneration oddPopulation 32767 (fun _ => 0) GenInt.randFunction 3 0 =
        some (P1, k1) ∧
      P1.newGeneration = some g ∧ g.length = 3 ∧ g[2]? = some chromD := by
  have h := odd_size_handling oddPopulation 32767 (fun _ => 0) GenInt.randFunction 3 0
    [chromA, chromB, chromD] [chromB, chromA, chromB] rfl rfl rfl
  obtain ⟨P1, k1, hrun⟩ := oddPopulation_returns 0
  obtain ⟨g, hg, hlen, hlast⟩ := h.2.1 P1 k1 hrun
  exact ⟨h.1 constructedPopulation (fun _ => 0) 0 4 3 4 4 2 2 0 9 rfl, P1, k1, g, hrun, hg, hlen,
    hlast⟩

/-- Claim C15. Every call of `createNewGeneration` that returns leaves as previous
generation exactly the generation that was current before the call, chromosome by
chromosome (values, `subGeneSizes`, fitness); the new current generation is written to the
other buffer and has its size, and no other member of the population is changed. The call
returns under the conditions of `createNewGeneration_returns`. -/
theorem createNewGeneration_frame {α : Type} (P : Population α) (RAND_MAX : Nat)
    (rand : Nat → Nat) (randFunction : ℚ → ℚ → Nat → Option α) (fuel k : Nat) :
    (∀ P1 k1, createNewGeneration P RAND_MAX rand randFunction fuel k = some (P1, k1) →
      P1.oldGeneration = P.newGeneration ∧
      ∃ og g, P.oldGeneration = some og ∧ g.length = og.length ∧
        P1 = { P with oldGeneration := P.newGeneration, newGeneration := some g }) ∧
    (∀ (og ng : List (Chromosome α)) (L : List Int), P.oldGeneration = some og →
      P.newGeneration = some ng → 1 ≤ og.length → P.cloneParents = true →
      validRand RAND_MAX rand →
      (∀ c ∈ ng, 0 ≤ c.fitness) → (∃ c ∈ ng, 0 < c.fitness) → ng.length ≤ fuel →
      (∀ c ∈ ng, c.subGeneSizes = L ∧ c.wellFormed) →
      1 ≤ L.length → (L.length : Int) ≤ INT_MAX →
      (∀ j : Fin 2, 0 ≤ P.minCrossValue j ∧ P.minCrossValue j ≤ P.maxCrossValue j ∧
        P.maxCrossValue j ≤ 100) →
      (∀ d, ∃ v, randFunction P.minRandValue P.maxRandValue d = some v) →
      ∃ P1 k1, createNewGeneration P RAND_MAX rand randFunction fuel k = some (P1, k1)) := by
  refine ⟨fun P1 k1 h => ?_, ?_⟩
  · obtain ⟨og, ng, g, ho, hn, rfl, hlen, _⟩ := createNewGeneration_outcome h
    exact ⟨hn.symm, og, g, ho, hlen, by rw [hn]⟩
  · intro og ng L ho hn hlen hcl hr hnn hpos hf hL hL1 hL2 hrange hrf
    exact createNewGeneration_returns ho hn hlen hcl hr hnn hpos hf hL hL1 hL2 hrange hrf k

/-- Witness of C15: after `createNewGeneration` on `sharedPopulation` the previous
generation is `[chromB, chromA]`, the generation that was current. -/
theorem createNewGeneration_frame_witness :
    ∃ P1 k1, createNewGeneration sharedPopulation 32767 (fun _ => 0) GenInt.randFunction 2 0 =
        some (P1, k1) ∧
      P1.oldGeneration = some [chromB, chromA] := by
  obtain ⟨P1, k1, h⟩ := sharedPopulation_returns 0
  exact ⟨P1, k1, h, ((createNewGeneration_frame sharedPopulation 32767 (fun _ => 0)
    GenInt.randFunction 2 0).1 P1 k1 h).1⟩

/-- Claim C16. For an initialised solver whose solution flag is false, and a run in which
every call of the evaluator returns without calling `foundSolution` and every call of
`createNewGeneration` returns (along states that satisfy `Inv`), `startSolving( m )`
returns after the calls `callLog m`: the evaluator and `createNewGeneration` are called `m`
times each, in strict alternation starting with the evaluator; the flag is still false, and
for `m >= 1` `getCurrentGeneration()` is `m - 1`. -/
theorem startSolving_completes {α : Type}
    (parseChromosomes : Solver α → Nat → Option (Population α × Bool × Nat))
    (RAND_MAX : Nat) (rand : Nat → Nat) (randFunction : ℚ → ℚ → Nat → Option α) (fuel : Nat)
    (Inv : Nat → Solver α → Nat → Prop) (m : Nat) (s : Solver α) (k : Nat)
    (hinit : s.population.initialized = true) (hsol : s._solution = false) (hI : Inv 0 s k)
    (hstep : ∀ j s k, j < m → Inv j s k → s._solution = false →
      ∃ P1 k1 P2 k2, parseChromosomes s k = some (P1, false, k1) ∧
        createNewGeneration P1 RAND_MAX rand randFunction fuel k1 = some (P2, k2) ∧
        Inv (j + 1) { population := P2, _solution := false, _currentGeneration := j } k2) :
    ∃ s1 k1, startSolving parseChromosomes RAND_MAX rand randFunction fuel m s k =
        Checked.returned (s1, k1, callLog m) ∧
      (callLog m).count Call.parseChromosomes = m ∧
      (callLog m).count Call.createNewGeneration = m ∧
      (∀ j, j < 2 * m → (callLog m)[j]? =
        some (if j % 2 = 0 then Call.parseChromosomes else Call.createNewGeneration)) ∧
      s1._solution = false ∧ (1 ≤ m → s1.getCurrentGeneration = m - 1) := by
  obtain ⟨s1, k1, hrun, hs1, _, hidx, _⟩ := solvingLoop_run parseChromosomes RAND_MAX rand
    randFunction fuel Inv m 0 s k [] hI hsol
    (fun j s k _ h2 => hstep j s k (by omega))
  rw [List.nil_append] at hrun
  refine ⟨s1, k1, startSolving_of_loop _ _ _ _ _ _ _ _ hinit _ hrun, (callLog_count m).2.1,
    (callLog_count m).2.2, callLog_alternates m, hs1, fun h => ?_⟩
  unfold Solver.getCurrentGeneration
  rw [hidx h, Nat.zero_add]

/-- Witness of C16: three generations on `sharedPopulation` with an evaluator that gives
every chromosome the fitness 1 and never calls `foundSolution`. -/
theorem startSolving_completes_witness :
    ∃ s1 k1, startSolving (unitEvaluator false) 32767 (fun _ => 0) GenInt.randFunction 2 3
        (Solver.new sharedPopulation) 0 = Checked.returned (s1, k1, callLog 3) ∧
      s1._solution = false ∧ s1.getCurrentGeneration = 2 := by
  obtain ⟨s1, k1, h, _, _, _, hs, hidx⟩ := startSolving_completes (unitEvaluator false) 32767
    (fun _ => 0) GenInt.randFunction 2
    (fun _ s _ => runnable [2, 2] 2 GenInt.randFunction s.population) 3
    (Solver.new sharedPopulation) 0 rfl rfl sharedPopulation_runnable
    (fun j s k _ hI _ => by
      obtain ⟨P1, P2, k2, h1, h2, h3⟩ := @runnable_step Int [2, 2] 2 GenInt.randFunction 32767
        (fun _ => 0) 2 (le_of_lt (by norm_num)) (le_refl 2) (by simp) (by decide)
        validRand_zero false s k hI
      exact ⟨P1, k, P2, k2, h1, h2, h3⟩)
  exact ⟨s1, k1, h, hs, hidx (by norm_num)⟩

/-- Claim C17. In a run of `startSolving( m )` on an initialised solver in which the
evaluator calls `foundSolution` for the first time during its call for generation `g < m`
(every call of the evaluator and of `createNewGeneration` up to there returns),
`createNewGeneration` is still executed for generation `g`, and the call returns right
after it: the calls are `callLog (g + 1)`, that is `g + 1` calls of the evaluator and
`g + 1` of `createNewGeneration`, the last call being `createNewGeneration`; the flag is
set and `getCurrentGeneration()` is `g`. -/
theorem startSolving_early_exit {α : Type}
    (parseChromosomes : Solver α → Nat → Option (Population α × Bool × Nat))
    (RAND_MAX : Nat) (rand : Nat → Nat) (randFunction : ℚ → ℚ → Nat → Option α) (fuel : Nat)
    (Inv : Nat → Solver α → Nat → Prop) (m g : Nat) (s : Solver α) (k : Nat)
    (hinit : s.population.initialized = true) (hg : g < m)
    (hsol : s._solution = true → g = 0) (hI : Inv 0 s k)
    (hstep : ∀ j s k, j < g → Inv j s k → s._solution = false →
      ∃ P1 k1 P2 k2, parseChromosomes s k = some (P1, false, k1) ∧
        createNewGeneration P1 RAND_MAX rand randFunction fuel k1 = some (P2, k2) ∧
        Inv (j + 1) { population := P2, _solution := false, _currentGeneration := j } k2)
    (hfound : ∀ s k, Inv g s k →
      ∃ P1 k1 P2 k2, parseChromosomes s k = some (P1, true, k1) ∧
        createNewGeneration P1 RAND_MAX rand randFunction fuel k1 = some (P2, k2)) :
    ∃ s1 k1, startSolving parseChromosomes RAND_MAX rand randFunction fuel m s k =
        Checked.returned (s1, k1, callLog (g + 1)) ∧
      (callLog (g + 1)).count Call.parseChromosomes = g + 1 ∧
      (callLog (g + 1)).count Call.createNewGeneration = g + 1 ∧
      (callLog (g + 1)).getLast? = some Call.createNewGeneration ∧
      s1._solution = true ∧ s1.getCurrentGeneration = g := by
  obtain ⟨P2, k2, hrun⟩ := solvingLoop_found parseChromosomes RAND_MAX rand randFunction fuel
    Inv g m 0 s k [] hg hI hsol (fun j s k _ h2 => hstep j s k (by omega))
    (by rw [Nat.zero_add]; exact hfound)
  rw [List.nil_append, Nat.zero_add] at hrun
  exact ⟨_, k2, startSolving_of_loop _ _ _ _ _ _ _ _ hinit _ hrun, (callLog_count (g + 1)).2.1,
    (callLog_count (g + 1)).2.2, callLog_getLast g, rfl, rfl⟩

/-- Witness of C17: an evaluator that calls `foundSolution` in generation 0 of a run of at
most three generations on `sharedPopulation`. -/
theorem startSolving_early_exit_witness :
    ∃ s1 k1, startSolving (unitEvaluator true) 32767 (fun _ => 0) GenInt.randFunction 2 3
        (Solver.new sharedPopulation) 0 =
        Checked.returned (s1, k1, [Call.parseChromosomes, Call.createNewGeneration]) ∧
      s1._solution = true ∧ s1.getCurrentGeneration = 0 := by
  obtain ⟨s1, k1, h, _, _, _, hs, hidx⟩ := startSolving_early_exit (unitEvaluator true) 32767
    (fun _ => 0) GenInt.randFunction 2
    (fun _ s _ => runnable [2, 2] 2 GenInt.randFunction s.population) 3 0
    (Solver.new sharedPopulation) 0 rfl (by norm_num) (fun _ => rfl) sharedPopulation_runnable
    (fun j s k hj _ _ => absurd hj (by omega))
    (fun s k hI => by
      obtain ⟨P1, P2, k2, h1, h2, _⟩ := @runnable_step Int [2, 2] 2 GenInt.randFunction 32767
        (fun _ => 0) 2 (le_of_lt (by norm_num)) (le_refl 2) (by simp) (by decide)
        validRand_zero true s k hI
      exact ⟨P1, k, P2, k2, h1, h2⟩)
  exact ⟨s1, k1, h, hs, hidx⟩

/-- Claim C18, as stated, fails. After a run of two generations on a new solver the index
is 1, and a following `startSolving( 0 )` returns with the solver unchanged, the index
still 1. The stale index is also what the evaluator sees in its first call of a run: on a
solver whose index is 5, `indexEvaluator` calls `foundSolution` in generation 0, which it
does not on a new solver. -/
theorem startSolving_reset_counterexample :
    (∃ s1 k1, startSolving (unitEvaluator false) 32767 (fun _ => 0) GenInt.randFunction 2 2
        (Solver.new sharedPopulation) 0 = Checked.returned (s1, k1, callLog 2) ∧
      s1.getCurrentGeneration = 1 ∧
      startSolving (unitEvaluator false) 32767 (fun _ => 0) GenInt.randFunction 2 0 s1 k1 =
        Checked.returned (s1, k1, [])) ∧
    (∃ s1 k1, startSolving indexEvaluator 32767 (fun _ => 0) GenInt.randFunction 2 3
        staleSolver 0 =
        Checked.returned (s1, k1, [Call.parseChromosomes, Call.createNewGeneration]) ∧
      s1._solution = true) ∧
    (∃ s1 k1, startSolving indexEvaluator 32767 (fun _ => 0) GenInt.randFunction 2 1
        (Solver.new sharedPopulation) 0 =
        Checked.returned (s1, k1, [Call.parseChromosomes, Call.createNewGeneration]) ∧
      s1._solution = false) := by
  refine ⟨?_, ?_, ?_⟩
  · obtain ⟨s1, k1, hrun, _, hI, hidx, _⟩ := solvingLoop_run (unitEvaluator false) 32767
      (fun _ => 0) GenInt.randFunction 2
      (fun _ s _ => runnable [2, 2] 2 GenInt.randFunction s.population ∧
        s.population.initialized = true) 2 0
      (Solver.new sharedPopulation) 0 [] ⟨sharedPopulation_runnable, rfl⟩ rfl
      (fun j s k _ _ hI _ => by
        obtain ⟨P1, P2, k2, h1, h2, h3⟩ := @runnable_initialized_step Int [2, 2] 2
          GenInt.randFunction 32767 (fun _ => 0) 2 (le_of_lt (by norm_num)) (le_refl 2)
          (by simp) (by decide) validRand_zero false s k hI
        exact ⟨P1, k, P2, k2, h1, h2, h3⟩)
    rw [List.nil_append] at hrun
    refine ⟨s1, k1, startSolving_of_loop _ _ _ _ _ _ _ _ rfl _ hrun, ?_,
      startSolving_of_loop _ _ _ _ _ _ _ _ hI.2 _ rfl⟩
    unfold Solver.getCurrentGeneration
    rw [hidx (by norm_num)]
  · obtain ⟨P2, k2, hrun⟩ := solvingLoop_found indexEvaluator 32767
      (fun _ => 0) GenInt.randFunction 2
      (fun _ s _ => runnable [2, 2] 2 GenInt.randFunction s.population ∧
        s._currentGeneration = 5) 0 3 0 staleSolver 0 [] (by norm_num)
      ⟨sharedPopulation_runnable, rfl⟩ (fun _ => rfl)
      (fun j s k h1 h2 _ _ => absurd h2 (by omega))
      (fun s k hI => by
        obtain ⟨P1, P2, k2, h1, h2, _⟩ := @runnable_step Int [2, 2] 2 GenInt.randFunction 32767
          (fun _ => 0) 2 (le_of_lt (by norm_num)) (le_refl 2) (by simp) (by decide)
          validRand_zero true s k hI.1
        refine ⟨P1, k, P2, k2, ?_, h2⟩
        unfold indexEvaluator Solver.getCurrentGeneration
        rw [hI.2]
        exact h1)
    exact ⟨_, k2, startSolving_of_loop _ _ _ _ _ _ _ _ rfl _ hrun, rfl⟩
  · obtain ⟨s1, k1, hrun, hs, _, _, _⟩ := solvingLoop_run indexEvaluator 32767
      (fun _ => 0) GenInt.randFunction 2
      (fun j s _ => runnable [2, 2] 2 GenInt.randFunction s.population ∧
        (j = 0 → s._currentGeneration = 0)) 1 0
      (Solver.new sharedPopulation) 0 [] ⟨sharedPopulation_runnable, fun _ => rfl⟩ rfl
      (fun j s k _ hj hI _ => by
        obtain ⟨P1, P2, k2, h1, h2, h3⟩ := @runnable_step Int [2, 2] 2 GenInt.randFunction 32767
          (fun _ => 0) 2 (le_of_lt (by norm_num)) (le_refl 2) (by simp) (by decide)
          validRand_zero false s k hI.1
        refine ⟨P1, k, P2, k2, ?_, h2, h3, fun h => absurd h (by omega)⟩
        unfold indexEvaluator Solver.getCurrentGeneration
        rw [hI.2 (by omega)]
        exact h1)
    rw [List.nil_append] at hrun
    exact ⟨s1, k1, startSolving_of_loop _ _ _ _ _ _ _ _ rfl _ hrun, hs⟩

/-- Claim C18, amended. The index is 0 after construction and `startSolving` does not
reset it: `startSolving( 0 )` returns the solver as it was. In a run in which the evaluator
never calls `foundSolution` (and all calls return), the index is `j` once `j + 1`
generations are completed, so from the end of generation 0 on it only increases. Before
that, during the first evaluator call, the index still holds the value from before the run:
for every solver `t` on a runnable population and every number `v`, the evaluator
`probeEvaluator v`, which calls `foundSolution` exactly when it reads the index `v`, stops
every run after generation 0 when `t` was left with the index `v`, and does not call it in
generation 0 when `t` was left with another index. -/
theorem currentGeneration_tracking {α : Type}
    (parseChromosomes : Solver α → Nat → Option (Population α × Bool × Nat))
    (RAND_MAX : Nat) (rand : Nat → Nat) (randFunction : ℚ → ℚ → Nat → Option α) (fuel : Nat)
    (Inv : Nat → Solver α → Nat → Prop) (m : Nat) (s : Solver α) (k : Nat)
    (hinit : s.population.initialized = true) (hsol : s._solution = false) (hI : Inv 0 s k)
    (hstep : ∀ j s k, j < m → Inv j s k → s._solution = false →
      ∃ P1 k1 P2 k2, parseChromosomes s k = some (P1, false, k1) ∧
        createNewGeneration P1 RAND_MAX rand randFunction fuel k1 = some (P2, k2) ∧
        Inv (j + 1) { population := P2, _solution := false, _currentGeneration := j } k2) :
    (Solver.new s.population).getCurrentGeneration = 0 ∧
    startSolving parseChromosomes RAND_MAX rand randFunction fuel 0 s k =
      Checked.returned (s, k, []) ∧
    (∀ j, j < m → ∃ s1 k1,
      startSolving parseChromosomes RAND_MAX rand randFunction fuel (j + 1) s k =
        Checked.returned (s1, k1, callLog (j + 1)) ∧
      s1.getCurrentGeneration = j) ∧
    (∀ (L : List Int) (n : Nat) (t : Solver α) (k0 v : Nat), 1 ≤ n → n ≤ fuel →
      1 ≤ L.length → (L.length : Int) ≤ INT_MAX → validRand RAND_MAX rand →
      runnable L n randFunction t.population → t.population.initialized = true →
      t._solution = false →
      (t.getCurrentGeneration = v → ∀ m0, ∃ s1 k1,
        startSolving (probeEvaluator v) RAND_MAX rand randFunction fuel (m0 + 1) t k0 =
          Checked.returned (s1, k1, callLog 1) ∧
        s1._solution = true ∧ s1.getCurrentGeneration = 0) ∧
      (t.getCurrentGeneration ≠ v → ∃ s1 k1,
        startSolving (probeEvaluator v) RAND_MAX rand randFunction fuel 1 t k0 =
          Checked.returned (s1, k1, callLog 1) ∧
        s1._solution = false ∧ s1.getCurrentGeneration = 0)) := by
  refine ⟨rfl, ?_, fun j hj => ?_, ?_⟩
  · exact startSolving_of_loop _ _ _ _ _ _ _ _ hinit _ rfl
  · obtain ⟨s1, k1, hrun, _, _, hidx, _⟩ := solvingLoop_run parseChromosomes RAND_MAX rand
      randFunction fuel Inv (j + 1) 0 s k [] hI hsol
      (fun i s k _ h2 => hstep i s k (by omega))
    rw [List.nil_append] at hrun
    refine ⟨s1, k1, startSolving_of_loop _ _ _ _ _ _ _ _ hinit _ hrun, ?_⟩
    unfold Solver.getCurrentGeneration
    rw [hidx (by omega)]
    omega
  · intro L n t k0 v hn1 hnf hL1 hL2 hr hrun hti hts
    refine ⟨fun hv m0 => ?_, fun hne => ?_⟩
    · obtain ⟨P1, P2, k2, h1, h2, _⟩ := runnable_step hn1 hnf hL1 hL2 hr true t k0 hrun
      have hp : probeEvaluator v t k0 = some (P1, true, k0) := by
        have hv2 : t._currentGeneration = v := hv
        rw [probeEvaluator_eq, decide_eq_true hv2]
        exact h1
      refine ⟨_, k2, startSolving_of_loop _ _ _ _ _ _ _ _ hti _
        (solvingLoop_first_found (probeEvaluator v) RAND_MAX rand randFunction fuel m0 0 t k0
          [] hp h2), rfl, rfl⟩
    · obtain ⟨P1, P2, k2, h1, h2, _⟩ := runnable_step hn1 hnf hL1 hL2 hr false t k0 hrun
      have hp : probeEvaluator v t k0 = some (P1, false, k0) := by
        have hne2 : ¬ t._currentGeneration = v := hne
        rw [probeEvaluator_eq, decide_eq_false hne2]
        exact h1
      refine ⟨_, k2, startSolving_of_loop _ _ _ _ _ _ _ _ hti _
        (solvingLoop_one (probeEvaluator v) RAND_MAX rand randFunction fuel 0 t k0 [] hts
          hp h2), rfl, rfl⟩

/-- Witness of C18 (amended): the solver `staleSolver`, whose index is 5; after
`startSolving( 0 )` it is 5, after a run of one generation it is 0, after a run of two
generations it is 1; and a run of three generations with `probeEvaluator 5` stops after
generation 0, because the first evaluator call reads the index 5, while `probeEvaluator 0`
does not call `foundSolution` in generation 0 of a run. -/
theorem currentGeneration_tracking_witness :
    staleSolver.getCurrentGeneration = 5 ∧
    startSolving (unitEvaluator false) 32767 (fun _ => 0) GenInt.randFunction 2 0
        staleSolver 0 = Checked.returned (staleSolver, 0, []) ∧
    (∃ s1 k1, startSolving (unitEvaluator false) 32767 (fun _ => 0) GenInt.randFunction 2 1
        staleSolver 0 = Checked.returned (s1, k1, callLog 1) ∧
      s1.getCurrentGeneration = 0) ∧
    (∃ s1 k1, startSolving (unitEvaluator false) 32767 (fun _ => 0) GenInt.randFunction 2 2
        staleSolver 0 = Checked.returned (s1, k1, callLog 2) ∧
      s1.getCurrentGeneration = 1) ∧
    (∃ s1 k1, startSolving (probeEvaluator 5) 32767 (fun _ => 0) GenInt.randFunction 2 3
        staleSolver 0 = Checked.returned (s1, k1, callLog 1) ∧
      s1._solution = true ∧ s1.getCurrentGeneration = 0) ∧
    (∃ s1 k1, startSolving (probeEvaluator 0) 32767 (fun _ => 0) GenInt.randFunction 2 1
        staleSolver 0 = Checked.returned (s1, k1, callLog 1) ∧
      s1._solution = false ∧ s1.getCurrentGeneration = 0) := by
  have h := currentGeneration_tracking (unitEvaluator false) 32767
    (fun _ => 0) GenInt.randFunction 2
    (fun _ s _ => runnable [2, 2] 2 GenInt.randFunction s.population) 2
    staleSolver 0 rfl rfl sharedPopulation_runnable
    (fun j s k _ hI _ => by
      obtain ⟨P1, P2, k2, h1, h2, h3⟩ := @runnable_step Int [2, 2] 2 GenInt.randFunction 32767
        (fun _ => 0) 2 (le_of_lt (by norm_num)) (le_refl 2) (by simp) (by decide)
        validRand_zero false s k hI
      exact ⟨P1, k, P2, k2, h1, h2, h3⟩)
  exact ⟨rfl, h.2.1, h.2.2.1 0 (by norm_num), h.2.2.1 1 (by norm_num),
    (h.2.2.2 [2, 2] 2 staleSolver 0 5 (by norm_num) (le_refl 2) (by simp) (by decide)
      validRand_zero sharedPopulation_runnable rfl rfl).1 rfl 2,
    (h.2.2.2 [2, 2] 2 staleSolver 0 0 (by norm_num) (le_refl 2) (by simp) (by decide)
      validRand_zero sharedPopulation_runnable rfl rfl).2 (by decide)⟩

/-- Claim C19, as stated, fails: `initialize( 2, 4, 3, 2, 2, 0, 9 )` on a population that is
not initialised passes both assertions (2 is even) and then does not succeed: the size of
the first chromosome is drawn with `randInt( 4, 3 )`, whose modulus `3 - 4 + 1` is 0, a
division by zero for every value of `rand()`; the call has no result, for every random
stream, every `randFunction` and every loop bound. -/
theorem initialize_empty_range_counterexample :
    constructedPopulation.initialized = false ∧ 2 % 2 = 0 ∧
    (∀ r, randInt r 4 3 = none) ∧
    (∀ (rand : Nat → Nat) (randFunction : ℚ → ℚ → Nat → Option Int) (now : Int) (fuel : Nat),
      initializePopulation constructedPopulation rand randFunction now fuel 2 4 3 2 2 0 9 =
        Checked.noResult) := by
  have hr : ∀ r, randInt r 4 3 = none := by
    intro r
    simp [randInt, chkInt, INT_MIN, INT_MAX]
  refine ⟨rfl, rfl, hr, fun rand randFunction now fuel => ?_⟩
  have h4 : uintToInt 4 = 4 := uintToInt_small (by norm_num)
  have h3 : uintToInt 3 = 3 := uintToInt_small (by norm_num)
  have hc : ∀ (c : Chromosome Int) k, c.initializeChromosome rand randFunction fuel 4 3 2 2 0
      9 k = none := by
    intro c k
    unfold Chromosome.initializeChromosome
    rw [h4, h3, hr]
  have hg : initializeChromosomes rand randFunction fuel 4 3 2 2 0 9
      (GenerationClass.new 2) 0 = none := by
    show initializeChromosomes rand randFunction fuel 4 3 2 2 0 9
      (Chromosome.empty :: [Chromosome.empty]) 0 = none
    unfold initializeChromosomes
    rw [hc]
  unfold initializePopulation
  rw [if_neg (by decide), if_neg (by simp [constructedPopulation]), hg]

/-- Claim C19, amended. `initialize` on a population that is not initialised, with an even
`generationSize`, fails no assertion, whatever the other arguments. With chromosome and
sub-gene size ranges that are not empty (`minCSize <= maxCSize`,
`1 <= minSubSize <= maxSubSize`, all below `INT_MAX`) and a `randFunction` that returns, it
returns with `initialized = true`, and every further call of `initialize` on the population
it returns fails its assertion, whatever the arguments. On a population with
`initialized = true`, `initialize` fails its assertion for every argument list, and every
setter, `createNewGeneration` and `startSolving` (with an evaluator that uses these
operations only) leave `initialized = true`. -/
theorem initialize_one_way {α : Type} (P : Population α) (rand : Nat → Nat)
    (randFunction : ℚ → ℚ → Nat → Option α) (now : Int) (fuel : Nat)
    (generationSize minCSize maxCSize minSubSize maxSubSize : Nat) (minRand maxRand : ℚ)
    (heven : generationSize % 2 = 0) (hun : P.initialized = false)
    (hC : minCSize ≤ maxCSize) (hCmax : maxCSize < 2147483647)
    (hS1 : 1 ≤ minSubSize) (hS : minSubSize ≤ maxSubSize) (hSmax : maxSubSize < 2147483647)
    (hrf : ∀ d, ∃ v, randFunction minRand maxRand d = some v) (hfuel : maxCSize ≤ fuel) :
    (∀ rand2 randFunction2 now2 fuel2 gs2 a b c d e f, gs2 % 2 = 0 →
      initializePopulation P rand2 randFunction2 now2 fuel2 gs2 a b c d e f ≠
        Checked.assertFailed) ∧
    (∃ P1 k1, initializePopulation P rand randFunction now fuel generationSize minCSize
        maxCSize minSubSize maxSubSize minRand maxRand = Checked.returned (P1, k1) ∧
      P1.initialized = true ∧
      ∀ rand2 randFunction2 now2 fuel2 gs2 a b c d e f,
        initializePopulation P1 rand2 randFunction2 now2 fuel2 gs2 a b c d e f =
          Checked.assertFailed) ∧
    (∀ Q : Population α, Q.initialized = true →
      (∀ rand2 randFunction2 now2 fuel2 gs2 a b c d e f,
        initializePopulation Q rand2 randFunction2 now2 fuel2 gs2 a b c d e f =
          Checked.assertFailed) ∧
      (∀ v, (enableRealRandom Q v).initialized = true) ∧
      (∀ v, (setSrandValue Q v).initialized = true) ∧
      (∀ v, (enableCloneParents Q v).initialized = true) ∧
      (∀ v, (setCrossOverRate Q v).initialized = true) ∧
      (∀ v, (setMutationRate Q v).initialized = true) ∧
      (∀ a b Q1, setCrossPointRange Q a b = Checked.returned Q1 → Q1.initialized = true) ∧
      (∀ i a b Q1, setCrossPointRangeAt Q i a b = Checked.returned Q1 →
        Q1.initialized = true) ∧
      (∀ v Q1, setEqualCrossPoints Q v = Checked.returned Q1 → Q1.initialized = true) ∧
      (∀ RAND_MAX rand2 randFunction2 fuel2 k Q1 k1,
        createNewGeneration Q RAND_MAX rand2 randFunction2 fuel2 k = some (Q1, k1) →
        Q1.initialized = true) ∧
      (∀ (parseChromosomes : Solver α → Nat → Option (Population α × Bool × Nat)),
        (∀ s k P1 f k1, parseChromosomes s k = some (P1, f, k1) →
          P1.initialized = s.population.initialized) →
        ∀ RAND_MAX rand2 randFunction2 fuel2 m sol cur k s1 k1 log,
          startSolving parseChromosomes RAND_MAX rand2 randFunction2 fuel2 m
            { population := Q, _solution := sol, _currentGeneration := cur } k =
            Checked.returned (s1, k1, log) →
          s1.population.initialized = true)) := by
  refine ⟨?_, ?_, ?_⟩
  · intro rand2 randFunction2 now2 fuel2 gs2 a b c d e f hgs h
    rcases (initializePopulation_assertFailed P rand2 randFunction2 now2 fuel2 gs2 a b c d e
      f).1 h with h1 | h1
    · exact h1 hgs
    · rw [hun] at h1; cases h1
  · obtain ⟨g, k1, hg⟩ := initializeChromosomes_total rand randFunction fuel minCSize maxCSize
      minSubSize maxSubSize minRand maxRand hC hCmax hS1 hS hSmax hrf hfuel
      (GenerationClass.new generationSize) 0
    obtain ⟨P1, hP1⟩ := initializePopulation_of_chromosomes P now heven hun hg
    have hi := (initializePopulation_returned hP1).2.2.1
    exact ⟨P1, k1, hP1, hi, fun rand2 randFunction2 now2 fuel2 gs2 a b c d e f =>
      (initializePopulation_assertFailed P1 rand2 randFunction2 now2 fuel2 gs2 a b c d e
        f).2 (Or.inr hi)⟩
  · intro Q hQ
    obtain ⟨s1, s2, s3, s4, s5, s6, s7, s8⟩ := setters_keep_initialized Q
    refine ⟨fun rand2 randFunction2 now2 fuel2 gs2 a b c d e f =>
      (initializePopulation_assertFailed Q rand2 randFunction2 now2 fuel2 gs2 a b c d e
        f).2 (Or.inr hQ), fun v => (s1 v).trans hQ, fun v => (s2 v).trans hQ,
      fun v => (s3 v).trans hQ, fun v => (s4 v).trans hQ, fun v => (s5 v).trans hQ,
      fun a b Q1 h => (s6 a b Q1 h).trans hQ, fun i a b Q1 h => (s7 i a b Q1 h).trans hQ,
      fun v Q1 h => (s8 v Q1 h).trans hQ, ?_, ?_⟩
    · intro RAND_MAX rand2 randFunction2 fuel2 k Q1 k1 h
      rw [createNewGeneration_initialized h]
      exact hQ
    · intro parseChromosomes hparse RAND_MAX rand2 randFunction2 fuel2 m sol cur k s1 k1 log h
      exact (startSolving_initialized parseChromosomes RAND_MAX rand2 randFunction2 fuel2
        hparse m _ s1 k k1 log h).2

/-- Witness of C19 (amended): `initialize( 2, 4, 4, 2, 2, 0, 9 )` on a population as the
constructor leaves it returns an initialised population, on which the same call fails. -/
theorem initialize_one_way_witness :
    ∃ P1 k1, initializePopulation constructedPopulation (fun _ => 0) GenInt.randFunction 0 4
        2 4 4 2 2 0 9 = Checked.returned (P1, k1) ∧
      P1.initialized = true ∧
      initializePopulation P1 (fun _ => 0) GenInt.randFunction 0 4 2 4 4 2 2 0 9 =
        Checked.assertFailed := by
  obtain ⟨P1, k1, h1, h2, h3⟩ := (initialize_one_way constructedPopulation (fun _ => 0)
    GenInt.randFunction 0 4 2 4 4 2 2 0 9 rfl rfl (le_refl 4) (by norm_num) (by norm_num)
    (le_refl 2) (by norm_num) genInt_randFunction_total (le_refl 4)).2.1
  exact ⟨P1, k1, h1, h2, h3 _ _ _ _ _ _ _ _ _ _ _⟩

/-- Claim C21, as stated, fails for the floating-point type: `randFunction` truncates the
bounds to `int`, so `mutate( 0, 0.5, 1.5 )` with `rand() = 0` writes the value 0, which is
below `minVal = 0.5`. -/
theorem chromosome_mutate_counterexample :
    GenFloat.randFunction 32767 (1 / 2) (3 / 2) 0 = some 0 ∧
    floatChrom.mutate 0 0 = some { values := [0, 1], subGeneSizes := [2], fitness := 0 } ∧
    (1 / 2 : ℚ) ≤ 3 / 2 ∧ ¬ ((1 / 2 : ℚ) ≤ 0) :=
  ⟨genFloat_half, by decide, by norm_num, by norm_num⟩

/-- Claim C21, amended. `mutate( i, minVal, maxVal )` with `i < len(values)` overwrites
position `i` with the drawn value and leaves every other position, `subGeneSizes` and the
fitness unchanged. For the integer type and `minVal <= maxVal` (with `maxVal - minVal + 1`
within `int`) the value lies in `[minVal, maxVal]`. For the floating-point type the bounds
are truncated to `int` first: for `int( minVal ) < int( maxVal )` the value lies in
`[int( minVal ), int( maxVal )]`. -/
theorem chromosome_mutate_amended (ci : Chromosome Int) (cf : Chromosome ℚ) (i : Nat)
    (hi : i < ci.values.length) (hf : i < cf.values.length) :
    (∀ (minVal maxVal : Int) (r : Nat), INT_MIN ≤ minVal → minVal ≤ maxVal →
      maxVal ≤ INT_MAX → maxVal - minVal < INT_MAX →
      ∃ v c1, GenInt.randFunction minVal maxVal r = some v ∧ ci.mutate i v = some c1 ∧
        minVal ≤ v ∧ v ≤ maxVal ∧ c1.values[i]? = some v ∧
        (∀ j, j ≠ i → c1.values[j]? = ci.values[j]?) ∧
        c1.subGeneSizes = ci.subGeneSizes ∧ c1.fitness = ci.fitness) ∧
    (∀ (RAND_MAX r : Nat) (minVal maxVal : ℚ) (a b : Int), r ≤ RAND_MAX →
      doubleToInt minVal = some a → doubleToInt maxVal = some b → a < b →
      b - a ≤ INT_MAX →
      ∃ v c1, GenFloat.randFunction RAND_MAX minVal maxVal r = some v ∧
        cf.mutate i v = some c1 ∧ (a : ℚ) ≤ v ∧ v ≤ (b : ℚ) ∧ c1.values[i]? = some v ∧
        (∀ j, j ≠ i → c1.values[j]? = cf.values[j]?) ∧
        c1.subGeneSizes = cf.subGeneSizes ∧ c1.fitness = cf.fitness) := by
  refine ⟨?_, ?_⟩
  · intro minVal maxVal r h1 h2 h3 h4
    obtain ⟨v, hv, hlo, hhi⟩ := randInt_between r h1 h2 h3 h4
    obtain ⟨c1, hc, hval, hframe, _, hs, hfit⟩ := mutate_position ci i v hi
    refine ⟨v, c1, ?_, hc, hlo, hhi, hval, hframe, hs, hfit⟩
    unfold GenInt.randFunction
    rw [doubleToInt_intCast, doubleToInt_intCast, chkInt_of_range h1 (le_trans h2 h3),
      chkInt_of_range (le_trans h1 h2) h3]
    exact hv
  · intro RAND_MAX r minVal maxVal a b hr ha hb hab hd
    obtain ⟨⟨ha1, _⟩, _⟩ := chkInt_eq_some.mp ha
    obtain ⟨⟨_, hb2⟩, _⟩ := chkInt_eq_some.mp hb
    have ha' : INT_MIN ≤ a := by
      obtain ⟨_, rfl⟩ := chkInt_eq_some.mp ha
      exact ha1
    have hb' : b ≤ INT_MAX := by
      obtain ⟨_, rfl⟩ := chkInt_eq_some.mp hb
      exact hb2
    obtain ⟨v, hv, hlo, hhi⟩ := randFloatBetween_between hr ha' hab hb' hd
    obtain ⟨c1, hc, hval, hframe, _, hs, hfit⟩ := mutate_position cf i v hf
    refine ⟨v, c1, ?_, hc, hlo, hhi, hval, hframe, hs, hfit⟩
    unfold GenFloat.randFunction
    rw [ha, hb]
    exact hv

/-- Witness of C21 (amended): position 0 of `[1,2,3,4]` mutated with the bounds 0 and 9,
and position 0 of the floating-point chromosome `[1, 1]` with the bounds 0.5 and 1.5. -/
theorem chromosome_mutate_amended_witness :
    (∃ v c1, GenInt.randFunction 0 9 12 = some v ∧ chromA.mutate 0 v = some c1 ∧
      (0 : Int) ≤ v ∧ v ≤ 9 ∧ c1.values[0]? = some v ∧ c1.values[1]? = some 2 ∧
      c1.subGeneSizes = [2, 2]) ∧
    (∃ v c1, GenFloat.randFunction 32767 (1 / 2) (3 / 2) 12 = some v ∧
      floatChrom.mutate 0 v = some c1 ∧ (0 : ℚ) ≤ v ∧ v ≤ 1 ∧ c1.values[0]? = some v) := by
  have h := chromosome_mutate_amended chromA floatChrom 0 (by decide) (by decide)
  refine ⟨?_, ?_⟩
  · obtain ⟨v, c1, h1, h2, h3, h4, h5, h6, h7, _⟩ := h.1 0 9 12 (by decide) (by decide)
      (by decide) (by decide)
    refine ⟨v, c1, ?_, h2, h3, h4, h5, ?_, h7⟩
    · simpa using h1
    · rw [h6 1 (by decide)]; rfl
  · have e1 : doubleToInt (1 / 2) = some 0 := by
      rw [doubleToInt_nonneg (by norm_num)]
      have : ⌊(1 / 2 : ℚ)⌋ = 0 := by rw [Int.floor_eq_iff]; norm_num
      rw [this]; rfl
    have e2 : doubleToInt (3 / 2) = some 1 := by
      rw [doubleToInt_nonneg (by norm_num)]
      have : ⌊(3 / 2 : ℚ)⌋ = 1 := by rw [Int.floor_eq_iff]; norm_num
      rw [this]; rfl
    obtain ⟨v, c1, h1, h2, h3, h4, h5, _⟩ := h.2 32767 12 (1 / 2) (3 / 2) 0 1 (by norm_num)
      e1 e2 (by decide) (by decide)
    exact ⟨v, c1, h1, h2, by simpa using h3, by simpa using h4, h5⟩

/-- Claim C22, as stated, fails: the size arguments are `unsigned int` but a sub-gene size
is stored as `int`. `initializeChromosome( 1, 1, 4294967295, 4294967295, 0, 9 )` on an empty
chromosome stores the sub-gene size -1 and draws `2^32 - 1` values, so the sum of the
sub-gene sizes is not the number of values. -/
theorem initializeChromosome_shape_counterexample :
    ∃ (c1 : Chromosome Int) (k1 : Nat),
      (Chromosome.empty : Chromosome Int).initializeChromosome (fun _ => 0)
        GenInt.randFunction 1 1 1 4294967295 4294967295 0 9 0 = some (c1, k1) ∧
      c1.subGeneSizes = [-1] ∧ c1.values.length = 4294967295 ∧ ¬ c1.shapeInvariant := by
  obtain ⟨c1, k1, h, hs, hl⟩ := initializeChromosome_wrapped
  refine ⟨c1, k1, h, hs, hl, ?_⟩
  unfold Chromosome.shapeInvariant
  rw [hs, hl]
  norm_num

/-- Claim C22, amended. For size arguments below `2^31` (they are handled as `int`) and
every sequence of random draws: whenever `initializeChromosome` on an empty chromosome
returns, `sum(subGeneSizes) == len(values)`; whenever `initializeChromosomes` on a newly
constructed generation returns, the generation keeps its size and this holds for every
chromosome of it. Both return when the size ranges are ordered, sub genes have at least one
value, `randFunction` returns and the loop bound is at least `maxCSize`. -/
theorem initialization_shape {α : Type} (rand : Nat → Nat)
    (randFunction : ℚ → ℚ → Nat → Option α) (fuel : Nat)
    (minCSize maxCSize minSubSize maxSubSize : Nat) (minRand maxRand : ℚ)
    (hC1 : minCSize < 2147483648) (hC2 : maxCSize < 2147483648)
    (hS1 : minSubSize < 2147483648) (hS2 : maxSubSize < 2147483648) :
    (∀ (k : Nat) (c1 : Chromosome α) (k1 : Nat),
      (Chromosome.empty : Chromosome α).initializeChromosome rand randFunction fuel minCSize
        maxCSize minSubSize maxSubSize minRand maxRand k = some (c1, k1) →
      c1.shapeInvariant) ∧
    (∀ (n k : Nat) (g : List (Chromosome α)) (k1 : Nat),
      initializeChromosomes rand randFunction fuel minCSize maxCSize minSubSize maxSubSize
        minRand maxRand (GenerationClass.new n) k = some (g, k1) →
      g.length = n ∧ ∀ c ∈ g, c.shapeInvariant) ∧
    (minCSize ≤ maxCSize → maxCSize < 2147483647 → 1 ≤ minSubSize →
      minSubSize ≤ maxSubSize → maxSubSize < 2147483647 →
      (∀ d, ∃ v, randFunction minRand maxRand d = some v) → maxCSize ≤ fuel →
      ∀ n k, ∃ g k1, initializeChromosomes rand randFunction fuel minCSize maxCSize
        minSubSize maxSubSize minRand maxRand (GenerationClass.new n) k = some (g, k1)) := by
  refine ⟨fun k c1 k1 h => ?_, fun n k g k1 h => ?_, fun h1 h2 h3 h4 h5 h6 h7 n k => ?_⟩
  · exact initializeChromosome_shape hC1 hC2 hS1 hS2
      (by simp [Chromosome.shapeInvariant, Chromosome.empty]) h
  · obtain ⟨hlen, hall⟩ := initializeChromosomes_shape hC1 hC2 hS1 hS2 _ g k k1
      (generationClass_new_shape n) h
    exact ⟨by rw [hlen, generationClass_new_length], hall⟩
  · exact initializeChromosomes_total rand randFunction fuel minCSize maxCSize minSubSize
      maxSubSize minRand maxRand h1 h2 h3 h4 h5 h6 h7 _ k

/-- Witness of C22 (amended): a generation of two chromosomes initialised with
`initializeChromosomes( 4, 4, 2, 2, 0, 9 )`. -/
theorem initialization_shape_witness :
    ∃ (g : List (Chromosome Int)) (k1 : Nat),
      initializeChromosomes (fun _ => 0) GenInt.randFunction 4 4 4 2 2 0 9
        (GenerationClass.new 2) 0 = some (g, k1) ∧
      g.length = 2 ∧ ∀ c ∈ g, c.shapeInvariant := by
  have h := initialization_shape (fun _ => 0) GenInt.randFunction 4 4 4 2 2 0 9
    (by norm_num) (by norm_num) (by norm_num) (by norm_num)
  obtain ⟨g, k1, hg⟩ := h.2.2 (le_refl 4) (by norm_num) (by norm_num) (le_refl 2)
    (by norm_num) genInt_randFunction_total (le_refl 4) 2 0
  exact ⟨g, k1, hg, h.2.1 2 0 g k1 hg⟩

/-- Claim C23, as stated, fails: with `minSubLen = maxSubLen = 2147483648` (and
`minLen = maxLen = 1`) the bounds satisfy `1 <= minSubLen <= maxSubLen`, but the sub-gene
size is stored as the `int` -2147483648, which is not in `[minSubLen, maxSubLen]`. -/
theorem initializeChromosome_bound_counterexample :
    ∃ (c1 : Chromosome Int) (k1 : Nat),
      (Chromosome.empty : Chromosome Int).initializeChromosome (fun _ => 0)
        GenInt.randFunction 1 1 1 2147483648 2147483648 0 9 0 = some (c1, k1) ∧
      c1.subGeneSizes = [-2147483648] ∧
      ¬ (∀ s ∈ c1.subGeneSizes, (2147483648 : Int) ≤ s ∧ s ≤ 2147483648) := by
  obtain ⟨c1, k1, h, hs, _⟩ := initializeChromosome_negative
  refine ⟨c1, k1, h, hs, ?_⟩
  rw [hs]
  intro hc
  have := (hc (-2147483648) (List.mem_singleton.mpr rfl)).1
  norm_num at this

/-- Claim C23, amended. For bounds with `1 <= minSubLen <= maxSubLen < 2^31` and
`minLen <= maxLen < 2^31` (the sizes are handled as `int`): whenever `initializeChromosome`
on an empty chromosome returns, a target length `L` in `[minLen, maxLen]` was drawn, every
entry of `subGeneSizes` lies in `[minSubLen, maxSubLen]`, the sum of all entries before the
last is `< L`, and `L <= len(values) < L + maxSubLen`. The call returns when the bounds are
below `2^31 - 1`, `randFunction` returns and the loop bound is at least `maxLen`. -/
theorem initializeChromosome_length_bound {α : Type} (rand : Nat → Nat)
    (randFunction : ℚ → ℚ → Nat → Option α) (fuel : Nat)
    (minLen maxLen minSubLen maxSubLen : Nat) (minRand maxRand : ℚ) (k : Nat)
    (hL : minLen ≤ maxLen) (hLmax : maxLen < 2147483648)
    (hS1 : 1 ≤ minSubLen) (hS : minSubLen ≤ maxSubLen) (hSmax : maxSubLen < 2147483648) :
    (∀ (c1 : Chromosome α) (k1 : Nat),
      (Chromosome.empty : Chromosome α).initializeChromosome rand randFunction fuel minLen
        maxLen minSubLen maxSubLen minRand maxRand k = some (c1, k1) →
      ∃ L : Nat, randInt (rand k) (minLen : Int) (maxLen : Int) = some (L : Int) ∧
        minLen ≤ L ∧ L ≤ maxLen ∧
        (∀ s ∈ c1.subGeneSizes, (minSubLen : Int) ≤ s ∧ s ≤ (maxSubLen : Int)) ∧
        (∀ init last, c1.subGeneSizes = init ++ [last] → init.sum < (L : Int)) ∧
        L ≤ c1.values.length ∧ c1.values.length < L + maxSubLen) ∧
    (maxLen < 2147483647 → maxSubLen < 2147483647 →
      (∀ d, ∃ v, randFunction minRand maxRand d = some v) → maxLen ≤ fuel →
      ∃ c1 k1, (Chromosome.empty : Chromosome α).initializeChromosome rand randFunction fuel
        minLen maxLen minSubLen maxSubLen minRand maxRand k = some (c1, k1)) := by
  refine ⟨fun c1 k1 h => ?_, fun h1 h2 h3 h4 => ?_⟩
  · obtain ⟨L, drawn, hr, hlo, hhi, hsz, _, hlen, hge, hmin, hmax, hinit, hnil⟩ :=
      initializeChromosome_spec (by omega) hLmax (by omega) hSmax h
    have he : c1.subGeneSizes = drawn := by
      rw [hsz]
      exact List.nil_append _
    have hv : (c1.values.length : Int) = drawn.sum := by
      rw [hlen]
      simp [Chromosome.empty]
    refine ⟨L, hr, hlo, hhi hL, ?_, ?_, by omega, ?_⟩
    · intro s hs
      rw [he] at hs
      exact ⟨hmin s hs, hmax hS s hs⟩
    · intro init last hd
      rw [he] at hd
      exact hinit init last hd
    · rcases List.eq_nil_or_concat drawn with hd | ⟨init, last, hd⟩
      · have := hnil hd
        rw [hd] at hv
        simp only [List.sum_nil] at hv
        omega
      · rw [List.concat_eq_append] at hd
        have h1 := hinit init last hd
        have h2 := hmax hS last (by rw [hd]; simp)
        rw [hd, List.sum_append, List.sum_singleton] at hv
        omega
  · exact initializeChromosome_total _ rand randFunction fuel minLen maxLen minSubLen
      maxSubLen minRand maxRand hL h1 hS1 hS h2 h3 h4 k

/-- Witness of C23 (amended): `initializeChromosome( 3, 5, 2, 3, 0, 9 )` on an empty
chromosome. -/
theorem initializeChromosome_length_bound_witness :
    ∃ (c1 : Chromosome Int) (k1 : Nat) (L : Nat),
      (Chromosome.empty : Chromosome Int).initializeChromosome (fun _ => 7)
        GenInt.randFunction 5 3 5 2 3 0 9 0 = some (c1, k1) ∧
      3 ≤ L ∧ L ≤ 5 ∧ (∀ s ∈ c1.subGeneSizes, (2 : Int) ≤ s ∧ s ≤ 3) ∧
      L ≤ c1.values.length ∧ c1.values.length < L + 3 := by
  have h := initializeChromosome_length_bound (fun _ => 7) GenInt.randFunction 5 3 5 2 3 0 9 0
    (by norm_num) (by norm_num) (by norm_num) (by norm_num) (by norm_num)
  obtain ⟨c1, k1, hc⟩ := h.2 (by norm_num) (by norm_num) genInt_randFunction_total
    (le_refl 5)
  obtain ⟨L, _, h1, h2, h3, _, h5, h6⟩ := h.1 c1 k1 hc
  exact ⟨c1, k1, L, hc, h1, h2, h3, h5, h6⟩

/-- Claim C24. For a chromosome that satisfies the shape invariant, has non-negative
sub-gene sizes and holds at most `INT_MAX` values (the bounds of the slice are `int`s), and
for every `k < len(subGeneSizes)`, `getSubGene( k )` returns (no indexed read fails) the
slice `values[s, s + subGeneSizes[k])` with `s` the sum of `subGeneSizes[0..k)`; the slice
lies inside `values` and its length is `subGeneSizes[k]`. -/
theorem getSubGene_slice {α : Type} (c : Chromosome α) (k : Nat)
    (hshape : c.shapeInvariant) (hnn : c.sizesNonneg)
    (hmax : (c.values.length : Int) ≤ INT_MAX) (hk : k < c.subGeneSizes.length) :
    ∃ s sz : Nat, (s : Int) = (c.subGeneSizes.take k).sum ∧
      c.subGeneSizes[k]? = some (sz : Int) ∧ s + sz ≤ c.values.length ∧
      c.getSubGene k = some ((c.values.drop s).take sz) ∧
      ((c.values.drop s).take sz).length = sz := by
  have hI : INT_MAX = 2147483647 := rfl
  have hU : UINT_MOD = 4294967296 := rfl
  have hw : c.wellFormed := ⟨hnn, hshape, by omega⟩
  have hsz : c.subGeneSizes[k]? = some c.subGeneSizes[k] := List.getElem?_eq_getElem hk
  have hs0 : 0 ≤ c.subGeneSizes[k] := hnn _ (List.getElem_mem hk)
  have ht0 : 0 ≤ (c.subGeneSizes.take k).sum := sum_take_nonneg hnn k
  have hle := wellFormed_take_le hw (k + 1)
  rw [take_succ_sum c.subGeneSizes k _ hsz] at hle
  have hget := wellFormed_getSubGene hw hmax k _ hsz
  refine ⟨Int.toNat (c.subGeneSizes.take k).sum, Int.toNat c.subGeneSizes[k],
    Int.toNat_of_nonneg ht0, ?_, by omega, hget, ?_⟩
  · rw [Int.toNat_of_nonneg hs0]
    exact hsz
  · rw [List.length_take, List.length_drop]
    omega

/-- Witness of C24: sub gene 1 of the chromosome `[1 | 2,3,4]` is `[2,3,4]`. -/
theorem getSubGene_slice_witness :
    ∃ s sz : Nat, (s : Int) = (chromC.subGeneSizes.take 1).sum ∧
      chromC.subGeneSizes[1]? = some (sz : Int) ∧ s + sz ≤ chromC.values.length ∧
      chromC.getSubGene 1 = some ((chromC.values.drop s).take sz) ∧
      ((chromC.values.drop s).take sz).length = sz :=
  getSubGene_slice chromC 1 chromC_wellFormed.2.1 chromC_wellFormed.1 (by decide) (by decide)

/-- Claim C25. For every chromosome and every sub index `s`, `getSubGene( 0, s )` returns
what `getSubGene( s )` returns, and for every gene index `k > 0`, `getSubGene( k, s )`
returns what `getSubGene( 2k + s )` returns; the index `2k + s` is computed in
`unsigned int`. -/
theorem getSubGeneAt_mapping {α : Type} (c : Chromosome α) (k s : Nat) :
    (s < UINT_MOD → c.getSubGeneAt 0 s = c.getSubGene s) ∧
    (0 < k → c.getSubGeneAt k s = c.getSubGene ((2 * k + s) % UINT_MOD)) ∧
    (0 < k → 2 * k + s < UINT_MOD → c.getSubGeneAt k s = c.getSubGene (2 * k + s)) := by
  refine ⟨fun hs => ?_, fun hk => ?_, fun hk hlt => ?_⟩
  · unfold Chromosome.getSubGeneAt
    rw [if_pos rfl, Nat.zero_add, Nat.mod_eq_of_lt hs]
  · unfold Chromosome.getSubGeneAt
    rw [if_neg (by omega), Nat.mul_comm]
  · unfold Chromosome.getSubGeneAt
    rw [if_neg (by omega), Nat.mul_comm, Nat.mod_eq_of_lt hlt]

/-- Witness of C25: on a chromosome of two genes, `getSubGene( 0, 1 )` is sub gene 1 and
`getSubGene( 1, 1 )` is sub gene 3. -/
theorem getSubGeneAt_mapping_witness :
    chromE.getSubGeneAt 0 1 = chromE.getSubGene 1 ∧
    chromE.getSubGeneAt 1 1 = chromE.getSubGene 3 ∧
    chromE.getSubGene 1 = some [3, 4] ∧ chromE.getSubGene 3 = some [7, 8] :=
  ⟨(getSubGeneAt_mapping chromE 0 1).1 (by decide),
    (getSubGeneAt_mapping chromE 1 1).2.2 (by decide) (by decide), by decide, by decide⟩

/-- Claim C26, as stated, fails: a header whose version token is `-1` is accepted, although
`-1` is not greater than 0, and so is a header whose version token is `nan`, for which
`atof` returns a NaN: `readHeaderSection` returns true on both, and `loadGeneration` goes on
to the data section of these files. -/
theorem readHeaderSection_negative_counterexample :
    readHeaderSection atofSample negativeFile =
      some (true, ["<header>", "GenSolver-File", "-1", "</header>"], ["<data>", "</data>"]) ∧
    atofSample "-1" = DoubleValue.finite (-1) ∧ ¬ ((0 : ℚ) < -1) ∧
    readHeaderSection atofSample nanFile =
      some (true, ["<header>", "GenSolver-File", "nan", "</header>"], ["<data>", "</data>"]) ∧
    atofSample "nan" = DoubleValue.nan ∧
    (∀ dataSection : List String → Option Bool,
      loadGeneration atofSample dataSection (some negativeFile) =
        dataSection ["<data>", "</data>"]) := by
  obtain ⟨b, hb, hiff⟩ := readHeaderSection_spec atofSample negativeFile (by decide)
  rw [readTokens_samples.2.1] at hb hiff
  have hv := atofSample_values.1
  have ht : b = true := hiff.mpr ⟨"-1", ["</header>"], rfl, rfl, by
    rw [hv]; simp [DoubleValue.isZero], by
    rw [hv, tenth_double]; simp [DoubleValue.greater]; norm_num⟩
  subst ht
  obtain ⟨b2, hb2, hiff2⟩ := readHeaderSection_spec atofSample nanFile (by decide)
  rw [readTokens_samples.2.2.2.2] at hb2 hiff2
  have hn := atofSample_values.2.2.2
  have ht2 : b2 = true := hiff2.mpr ⟨"nan", ["</header>"], rfl, rfl, by
    rw [hn]; rfl, by rw [hn]; rfl⟩
  subst ht2
  exact ⟨hb, hv, by norm_num, hb2, hn, fun ds => loadGeneration_of_sections ds hb⟩

/-- Claim C26, amended. For the tokens read up to and including the first `</header>` (or
to the end of the file), `readHeaderSection` returns, and it returns true if and only if the
first token is `<header>`, the second is `GenSolver-File`, a third token follows, the last
token is `</header>`, and the value `v` that `atof` gives for the third token passes both
comparisons, that is neither `v == 0` nor `v > 0.1` holds: `v` is a finite number other than
0 and not greater than the `double` 0.1, or minus infinity, or a NaN. A header whose third
token has a finite value above 0.1 and a file without a `</header>` token both make
`loadGeneration` return false, whatever the data-section call would do. -/
theorem readHeaderSection_accepts (atof : String → DoubleValue) (f : List String)
    (hf : f ≠ []) :
    (∃ b, readHeaderSection atof f =
        some (b, (readTokens "</header>" f).1, (readTokens "</header>" f).2) ∧
      (b = true ↔ ∃ third tail,
        (readTokens "</header>" f).1 = "<header>" :: "GenSolver-File" :: third :: tail ∧
        (third :: tail).getLast? = some "</header>" ∧
        ((∃ v, atof third = DoubleValue.finite v ∧ v ≠ 0 ∧ v ≤ roundDouble (1 / 10)) ∨
          atof third = DoubleValue.negInf ∨ atof third = DoubleValue.nan))) ∧
    (∀ (dataSection : List String → Option Bool) first second third tail v,
      (readTokens "</header>" f).1 = first :: second :: third :: tail →
      atof third = DoubleValue.finite v → roundDouble (1 / 10) < v →
      loadGeneration atof dataSection (some f) = some false) ∧
    (∀ dataSection : List String → Option Bool,
      "</header>" ∉ f → loadGeneration atof dataSection (some f) = some false) := by
  obtain ⟨b, hb, hiff⟩ := readHeaderSection_spec atof f hf
  have hiff2 : b = true ↔ ∃ third tail,
      (readTokens "</header>" f).1 = "<header>" :: "GenSolver-File" :: third :: tail ∧
      (third :: tail).getLast? = some "</header>" ∧
      ((∃ v, atof third = DoubleValue.finite v ∧ v ≠ 0 ∧ v ≤ roundDouble (1 / 10)) ∨
        atof third = DoubleValue.negInf ∨ atof third = DoubleValue.nan) := by
    rw [hiff]
    constructor
    · rintro ⟨third, tail, h1, h2, h3, h4⟩
      exact ⟨third, tail, h1, h2, (doubleValue_accepted _ _).mp ⟨h3, h4⟩⟩
    · rintro ⟨third, tail, h1, h2, h3⟩
      obtain ⟨h4, h5⟩ := (doubleValue_accepted _ _).mpr h3
      exact ⟨third, tail, h1, h2, h4, h5⟩
  refine ⟨⟨b, hb, hiff2⟩, ?_, ?_⟩
  · intro dataSection first second third tail v hl hv hgt
    cases b with
    | false => exact loadGeneration_of_header hb
    | true =>
      obtain ⟨t, tl, he, _, _, hle⟩ := hiff.mp rfl
      rw [hl] at he
      simp only [List.cons.injEq] at he
      rw [← he.2.2.1, hv] at hle
      simp only [DoubleValue.greater, decide_eq_false_iff_not, not_lt] at hle
      exact absurd hle (not_le.mpr hgt)
  · intro dataSection hno
    cases b with
    | false => exact loadGeneration_of_header hb
    | true =>
      obtain ⟨t, tl, he, hlast, _, _⟩ := hiff.mp rfl
      have hmem : "</header>" ∈ (readTokens "</header>" f).1 := by
        rw [he]
        exact List.mem_cons_of_mem _ (List.mem_cons_of_mem _
          (List.mem_of_getLast?_eq_some hlast))
      exact absurd (readTokens_subset "</header>" f _ hmem) hno

/-- Witness of C26 (amended): the header of a file of version 0.1 is accepted; a file whose
version token is `0.5` and a file without `</header>` make `loadGeneration` return false,
whatever the data-section call would do. -/
theorem readHeaderSection_accepts_witness :
    readHeaderSection atofSample sampleFile =
      some (true, ["<header>", "GenSolver-File", "0.1", "</header>"], ["<data>", "</data>"]) ∧
    (∀ dataSection : List String → Option Bool,
      loadGeneration atofSample dataSection (some newerFile) = some false) ∧
    (∀ dataSection : List String → Option Bool,
      loadGeneration atofSample dataSection (some openFile) = some false) := by
  refine ⟨?_, fun ds => ?_, fun ds => ?_⟩
  · obtain ⟨b, hb, hiff⟩ := (readHeaderSection_accepts atofSample sampleFile (by decide)).1
    rw [readTokens_samples.1] at hb hiff
    have hv := atofSample_values.2.2.1
    have ht : b = true := hiff.mpr ⟨"0.1", ["</header>"], rfl, rfl, Or.inl
      ⟨_, hv, by rw [tenth_double]; norm_num, le_refl _⟩⟩
    subst ht
    exact hb
  · refine (readHeaderSection_accepts atofSample newerFile (by decide)).2.1 ds
      "<header>" "GenSolver-File" "0.5" ["</header>"] (1 / 2) ?_ atofSample_values.2.1 ?_
    · rw [readTokens_samples.2.2.1]
    · rw [tenth_double]
      norm_num
  · exact (readHeaderSection_accepts atofSample openFile (by decide)).2.2 ds (by decide)

/-- Claim C27 fails on the code. The assignment `destination = source` of a generation
never resizes the destination: a destination of four chromosomes that is assigned a source
of two keeps four entries, the last two of them null pointers, and a destination of one
chromosome that is assigned a source of two is written outside its vector. In general the
destination keeps its own size; only for a source of the size of the destination does it
hold exactly the chromosomes of the source. -/
theorem assign_not_resized :
    GenerationClass.assign [chromA, chromB, chromA, chromB] [chromD, chromC] =
      some [some chromD, some chromC, none, none] ∧
    GenerationClass.assign [chromA] [chromD, chromC] = none ∧
    (∀ (destination source : List (Chromosome Int)) (r : List (Option (Chromosome Int))),
      GenerationClass.assign destination source = some r →
      r.length = destination.length ∧ ∀ (i : Nat) (c : Chromosome Int), source[i]? = some c → r[i]? = some (some c)) ∧
    (∀ destination source : List (Chromosome Int), source.length = destination.length →
      GenerationClass.assign destination source = some (source.map some)) := by
  refine ⟨by decide, by decide, ?_, ?_⟩
  · intro destination source r h
    rw [assign_eq] at h
    by_cases hle : source.length ≤ destination.length
    · rw [if_pos hle] at h
      simp only [Option.some.injEq] at h
      subst h
      refine ⟨by simp; omega, fun i c hc => ?_⟩
      have hi := getElem?_lt_length hc
      rw [List.getElem?_append_left (by simpa using hi), List.getElem?_map, hc]
      rfl
    · rw [if_neg hle] at h
      cases h
  · intro destination source h
    rw [assign_eq, if_pos (le_of_eq h), h, Nat.sub_self]
    simp

/-- Claim C28 fails on the code. `initialize` sets `srandValue = 0` before it seeds the
generator, so the value given to `setSrandValue` before `initialize` is lost: whenever
`initialize` returns after `setSrandValue( v )`, the seed used and stored is 0. For
`v = 42` on a constructed population the call returns and `srandValue` is 0. -/
theorem setSrandValue_overwritten :
    (∀ (P : Population Int) (v : Int) (rand : Nat → Nat)
        (randFunction : ℚ → ℚ → Nat → Option Int) (now : Int)
        (fuel generationSize minCSize maxCSize minSubSize maxSubSize : Nat)
        (minRand maxRand : ℚ) (P1 : Population Int) (k1 : Nat),
      initializePopulation (setSrandValue P v) rand randFunction now fuel generationSize
        minCSize maxCSize minSubSize maxSubSize minRand maxRand = Checked.returned (P1, k1) →
      P1.realRandom = false ∧ P1.srandValue = 0) ∧
    (setSrandValue constructedPopulation 42).srandValue = 42 ∧
    ∃ P1 k1, initializePopulation (setSrandValue constructedPopulation 42) (fun _ => 0)
        GenInt.randFunction 0 4 2 4 4 2 2 0 9 = Checked.returned (P1, k1) ∧
      P1.srandValue = 0 := by
  have key : ∀ (P : Population Int) (v : Int) (rand : Nat → Nat)
      (randFunction : ℚ → ℚ → Nat → Option Int) (now : Int)
      (fuel generationSize minCSize maxCSize minSubSize maxSubSize : Nat)
      (minRand maxRand : ℚ) (P1 : Population Int) (k1 : Nat),
      initializePopulation (setSrandValue P v) rand randFunction now fuel generationSize
        minCSize maxCSize minSubSize maxSubSize minRand maxRand = Checked.returned (P1, k1) →
      P1.realRandom = false ∧ P1.srandValue = 0 := by
    intro P v rand randFunction now fuel generationSize minCSize maxCSize minSubSize
      maxSubSize minRand maxRand P1 k1 h
    unfold initializePopulation at h
    split at h
    · cases h
    · split at h
      · cases h
      · split at h
        · cases h
        · simp only [Checked.returned.injEq, Prod.mk.injEq] at h
          rw [← h.1]
          simp [setSrandValue, enableRealRandom]
  refine ⟨key, rfl, ?_⟩
  obtain ⟨g, k1, hg⟩ := initializeChromosomes_total (fun _ => 0) GenInt.randFunction 4 4 4 2 2
    0 9 (le_refl 4) (by norm_num) (by norm_num) (le_refl 2) (by norm_num)
    genInt_randFunction_total (le_refl 4) (GenerationClass.new 2) 0
  obtain ⟨P1, hP1⟩ := initializePopulation_of_chromosomes
    (setSrandValue constructedPopulation 42) 0 (by norm_num : 2 % 2 = 0) rfl hg
  exact ⟨P1, k1, hP1, (key _ _ _ _ _ _ _ _ _ _ _ _ _ _ _ hP1).2⟩

/-- Claim C29 fails on the code. `setEqualCrossPoints( false )` fails the assertion
`assert( value && ( minSubGeneSize == maxSubGeneSize ) )` on every population, so the
caller cannot choose crosspoints that may differ; `setEqualCrossPoints( true )` returns,
with `equalCrossPoints` set, exactly when `minSubGeneSize == maxSubGeneSize`. -/
theorem setEqualCrossPoints_rejects_false {α : Type} (P : Population α) :
    setEqualCrossPoints P false = Checked.assertFailed ∧
    (P.minSubGeneSize = P.maxSubGeneSize →
      setEqualCrossPoints P true = Checked.returned { P with equalCrossPoints := true }) ∧
    (P.minSubGeneSize ≠ P.maxSubGeneSize →
      setEqualCrossPoints P true = Checked.assertFailed) := by
  refine ⟨?_, fun h => ?_, fun h => ?_⟩
  · unfold setEqualCrossPoints
    rw [if_neg (by simp)]
  · unfold setEqualCrossPoints
    rw [if_pos ⟨rfl, h⟩]
  · unfold setEqualCrossPoints
    rw [if_neg (fun hc => h hc.2)]

/-- Claim C30, as stated, fails: with `equalCrossPoints` set and the well-shaped parents
with the sub-gene lists `[1,1,1,1]` and `[4]`, the call of `crossOver` completes, in the
crossing branch with the crosspoint 3 for both parents, and the second baby receives
`subGeneSizes[ 1 ]` and `subGeneSizes[ 2 ]` of parent 2, read with the unchecked
`operator[]` behind the only entry of the vector. The babies hold 3 and 4 sub-gene sizes,
whatever the memory holds, against 4 and 1 of the parents: no permutation. -/
theorem crossOver_conserves_counterexample :
    chromOnes.shapeInvariant ∧ chromWhole.shapeInvariant ∧
    crossOverUnchecked strayV (defaultPopulation true) 32767 randV [chromOnes, chromWhole] 2
        0 =
      some ({ values := [1, 2, 3, 8], subGeneSizes := [1, 1, 1], fitness := 0 },
            { values := [5, 6, 7, 4], subGeneSizes := [4, 5, 0, 1], fitness := 0 }, 5) ∧
    (∀ stray : Nat → Nat → Int, ∃ b1 b2,
      crossOverUnchecked stray (defaultPopulation true) 32767 randV [chromOnes, chromWhole] 2
        0 = some (b1, b2, 5) ∧
      ¬ (b1.subGeneSizes ++ b2.subGeneSizes).Perm
          (chromOnes.subGeneSizes ++ chromWhole.subGeneSizes) ∧
      ¬ (b1.subGeneSizes ++ b2.subGeneSizes).Perm
          (chromWhole.subGeneSizes ++ chromOnes.subGeneSizes)) := by
  refine ⟨by simp [Chromosome.shapeInvariant, chromOnes],
    by simp [Chromosome.shapeInvariant, chromWhole], ?_, fun stray => ?_⟩
  · rw [crossOverUnchecked_randV strayV]
    simp [strayV]
  · refine ⟨_, _, crossOverUnchecked_randV stray, fun hp => ?_, fun hp => ?_⟩
    · have := hp.length_eq
      simp [chromOnes, chromWhole] at this
    · have := hp.length_eq
      simp [chromOnes, chromWhole] at this

/-- Claim C30, amended. `crossOver` is taken with the reads of `subGeneSizes` as the source
makes them (unchecked). Whenever a call of `crossOver` returns, the two babies are made
from two chromosomes `p1`, `p2` of the generation (the parents chosen by `selectParents`),
`baby1.values ++ baby2.values` is a permutation of `p1.values ++ p2.values`, and the two
babies hold together as many values as the two parents.
`baby1.subGeneSizes ++ baby2.subGeneSizes` is a permutation of
`p1.subGeneSizes ++ p2.subGeneSizes` when the call does not cross or both crosspoints lie
within the sub-gene lists (`cp1 <= len(p1.subGeneSizes)`, `cp2 <= len(p2.subGeneSizes)`);
that is so for parents with at least one and at most `INT_MAX` sub genes, crosspoint ranges
`0 <= min <= max <= 100` and, when `equalCrossPoints` is set, no more sub genes in parent 1
than in parent 2. -/
theorem crossOver_conserves {α : Type} (stray : Nat → Nat → Int) (P : Population α)
    (RAND_MAX : Nat) (rand : Nat → Nat)
    (generation : List (Chromosome α)) (fuel k k2 : Nat) (baby1 baby2 : Chromosome α)
    (h : crossOverUnchecked stray P RAND_MAX rand generation fuel k =
      some (baby1, baby2, k2)) :
    ∃ i1 p1 i2 p2 k1 cp1 r1 cp2 r2,
      selectParents P RAND_MAX rand generation fuel k = some ((i1, p1), (i2, p2), k1) ∧
      generation[i1]? = some p1 ∧ generation[i2]? = some p2 ∧
      crossPointsUnchecked (stray i1) (stray i2) P p1 p2 (rand k1) (rand (k1 + 1)) =
        some (cp1, r1, cp2, r2) ∧
      (baby1.values ++ baby2.values).Perm (p1.values ++ p2.values) ∧
      baby1.values.length + baby2.values.length = p1.values.length + p2.values.length ∧
      ((P.crossOverRate ≤ randFloat RAND_MAX (rand (k1 + 2)) ∨
          (cp1 ≤ p1.subGeneSizes.length ∧ cp2 ≤ p2.subGeneSizes.length)) →
        (baby1.subGeneSizes ++ baby2.subGeneSizes).Perm
          (p1.subGeneSizes ++ p2.subGeneSizes)) ∧
      (crossReady P p1 p2 →
        (P.equalCrossPoints = true → p1.subGeneSizes.length ≤ p2.subGeneSizes.length) →
        cp1 ≤ p1.subGeneSizes.length ∧ cp2 ≤ p2.subGeneSizes.length) := by
  obtain ⟨i1, p1, i2, p2, k1, hsel⟩ := crossOverUnchecked_parents h
  obtain ⟨_, hp1, _, hp2⟩ := selectParents_eq_some.mp hsel
  obtain ⟨cp1, r1, cp2, r2, hcp, _, hout⟩ := crossOverUnchecked_outcome hsel h
  have hv : (baby1.values ++ baby2.values).Perm (p1.values ++ p2.values) := by
    rcases hout with ⟨_, _, _, rfl, rfl⟩ | ⟨_, rfl, rfl⟩
    · exact perm_recombined _ _ _ _
    · exact List.Perm.refl _
  refine ⟨i1, p1, i2, p2, k1, cp1, r1, cp2, r2, hsel, hp1, hp2, hcp, hv, ?_, ?_, ?_⟩
  · have hl := hv.length_eq
    rw [List.length_append, List.length_append] at hl
    exact hl
  · intro hin
    rcases hout with ⟨hu, _, _, rfl, rfl⟩ | ⟨_, rfl, rfl⟩
    · rcases hin with hno | ⟨hc1, hc2⟩
      · exact absurd hu (not_lt.mpr hno)
      · show (pushSizes (stray i2) p2.subGeneSizes (p2.subGeneSizes.length - cp2) cp2
            (pushSizes (stray i1) p1.subGeneSizes cp1 0 []) ++
          pushSizes (stray i1) p1.subGeneSizes (p1.subGeneSizes.length - cp1) cp1
            (pushSizes (stray i2) p2.subGeneSizes cp2 0 [])).Perm
          (p1.subGeneSizes ++ p2.subGeneSizes)
        rw [pushSizes_slice (stray i1) p1.subGeneSizes cp1 0 [] (Or.inr (by omega)),
          pushSizes_slice (stray i2) p2.subGeneSizes cp2 0 [] (Or.inr (by omega)),
          pushSizes_slice (stray i2) p2.subGeneSizes _ cp2 _ (Or.inr (by omega)),
          pushSizes_slice (stray i1) p1.subGeneSizes _ cp1 _ (Or.inr (by omega))]
        have e5 : (p1.subGeneSizes.drop cp1).take (p1.subGeneSizes.length - cp1) =
            p1.subGeneSizes.drop cp1 := List.take_of_length_le (by simp)
        have e6 : (p2.subGeneSizes.drop cp2).take (p2.subGeneSizes.length - cp2) =
            p2.subGeneSizes.drop cp2 := List.take_of_length_le (by simp)
        rw [e5, e6]
        simpa using perm_recombined p1.subGeneSizes p2.subGeneSizes cp1 cp2
    · exact List.Perm.refl _
  · intro hready hlen
    rw [crossPointsUnchecked_ready _ _ _ _ hready] at hcp
    obtain ⟨c1, s1, c2, s2, hcp2, hb1, hb2, heq⟩ :=
      crossPoints_total (rand k1) (rand (k1 + 1)) hready
    rw [hcp] at hcp2
    simp only [Option.some.injEq, Prod.mk.injEq] at hcp2
    obtain ⟨rfl, rfl, rfl, rfl⟩ := hcp2
    refine ⟨by omega, ?_⟩
    cases hq : P.equalCrossPoints with
    | false => have := hb2 hq; omega
    | true => have := heq hq; have := hlen hq; omega

/-- Witness of C30 (amended): the crossing of `[1 | 2,3,4]` and `[5,6 | 7,8]` at flat
index 1 gives `[1,6,7,8]` and `[5,2,3,4]`. -/
theorem crossOver_conserves_witness :
    crossOverUnchecked strayV (defaultPopulation true) 32767 randB [chromC, chromB] 2 0 =
      some ({ values := [1, 6, 7, 8], subGeneSizes := [1, 2], fitness := 0 },
            { values := [5, 2, 3, 4], subGeneSizes := [2, 3], fitness := 0 }, 5) ∧
    ∃ p1 p2 : Chromosome Int, p1 ∈ [chromC, chromB] ∧ p2 ∈ [chromC, chromB] ∧
      ([1, 6, 7, 8] ++ [5, 2, 3, 4] : List Int).Perm (p1.values ++ p2.values) ∧
      ([1, 2] ++ [2, 3] : List Int).Perm (p1.subGeneSizes ++ p2.subGeneSizes) := by
  have hrun := crossOverUnchecked_of_checked strayV crossOver_randB
  obtain ⟨i1, p1, i2, p2, k1, cp1, r1, cp2, r2, hsel, h1, h2, _, h3, _, h4, h5⟩ :=
    crossOver_conserves strayV (defaultPopulation true) 32767 randB [chromC, chromB] 2 0 5
      _ _ hrun
  rw [select_randB] at hsel
  simp only [Option.some.injEq, Prod.mk.injEq] at hsel
  obtain ⟨⟨rfl, rfl⟩, ⟨rfl, rfl⟩, rfl⟩ := hsel
  exact ⟨hrun, _, _, List.getElem?_mem h1, List.getElem?_mem h2, h3,
    h4 (Or.inr (h5 (crossReady_default true chromC chromB rfl rfl) (fun _ => by decide)))⟩

/-- Claim C31. With `equalCrossPoints` false, parents that satisfy the shape invariant,
have non-negative sub-gene sizes and at least one (and at most `INT_MAX`) sub genes, and
ranges `0 <= minCrossValue[k] <= maxCrossValue[k] <= 100`, every indexed read of
`crossOver` is in bounds for every draw: the crosspoints are defined (`randInt` does not
divide by zero), they are below the numbers of sub genes, the flat indices are not beyond
the numbers of values, and the body of `crossOver` returns; so does `crossOver` whenever
`selectParents` returns these parents. -/
theorem crossOver_reads_in_bounds {α : Type} (P : Population α) (RAND_MAX : Nat)
    (p1 p2 : Chromosome α) (d1 d2 d3 : Nat) (heq : P.equalCrossPoints = false)
    (hready : crossReady P p1 p2) (hs1 : p1.shapeInvariant) (hs2 : p2.shapeInvariant)
    (hn1 : p1.sizesNonneg) (hn2 : p2.sizesNonneg) :
    (∃ cp1 r1 cp2 r2 b1 b2, crossPoints P p1 p2 d1 d2 = some (cp1, r1, cp2, r2) ∧
      cp1 < p1.subGeneSizes.length ∧ cp2 < p2.subGeneSizes.length ∧
      r1 ≤ p1.values.length ∧ r2 ≤ p2.values.length ∧
      crossOverBody P RAND_MAX p1 p2 d1 d2 d3 = some (b1, b2)) ∧
    (∀ (rand : Nat → Nat) (generation : List (Chromosome α)) (fuel k i1 i2 k1 : Nat),
      selectParents P RAND_MAX rand generation fuel k = some ((i1, p1), (i2, p2), k1) →
      ∃ b1 b2, crossOver P RAND_MAX rand generation fuel k = some (b1, b2, k1 + 3)) := by
  refine ⟨crossOverBody_defined RAND_MAX d1 d2 d3 heq hready hs1 hs2 hn1 hn2, ?_⟩
  intro rand generation fuel k i1 i2 k1 hsel
  obtain ⟨_, _, _, _, b1, b2, _, _, _, _, _, hb⟩ := crossOverBody_defined RAND_MAX (rand k1)
    (rand (k1 + 1)) (rand (k1 + 2)) heq hready hs1 hs2 hn1 hn2
  rw [crossOver_of_select hsel, hb]
  exact ⟨b1, b2, rfl⟩

/-- Witness of C31: the parents `[1 | 2,3,4]` and `[5,6 | 7,8]` with the ranges `[0,100]`
and the draws 5, 6, 7. -/
theorem crossOver_reads_in_bounds_witness :
    ∃ cp1 r1 cp2 r2 b1 b2,
      crossPoints (defaultPopulation false) chromC chromB 5 6 = some (cp1, r1, cp2, r2) ∧
      cp1 < 2 ∧ cp2 < 2 ∧ r1 ≤ 4 ∧ r2 ≤ 4 ∧
      crossOverBody (defaultPopulation false) 32767 chromC chromB 5 6 7 = some (b1, b2) :=
  (crossOver_reads_in_bounds (defaultPopulation false) 32767 chromC chromB 5 6 7 rfl
    (crossReady_default false chromC chromB rfl rfl) chromC_wellFormed.2.1
    chromB_wellFormed.2.1 chromC_wellFormed.1 chromB_wellFormed.1).1

/-- Claim C32. When every chromosome of the generation the parents are chosen from has at
least one sub gene (and at most `INT_MAX`) and the crosspoint ranges satisfy
`0 <= min <= max <= 100`, each baby of a `crossOver` call that returns has at least one
sub gene, in either branch and with either setting of `equalCrossPoints`, so
`subGeneSizes.size() - 1` does not wrap for it. `createNewGeneration` keeps the property:
after a call that returns, every chromosome of both buffers has at least one sub gene and
the ranges are still valid. -/
theorem subGeneSizes_nonempty {α : Type} (P : Population α) (RAND_MAX : Nat)
    (rand : Nat → Nat) (randFunction : ℚ → ℚ → Nat → Option α)
    (generation : List (Chromosome α)) (fuel k : Nat) (hrange : validRanges P)
    (hall : ∀ c ∈ generation,
      1 ≤ c.subGeneSizes.length ∧ (c.subGeneSizes.length : Int) ≤ INT_MAX) :
    (∀ b1 b2 k2, crossOver P RAND_MAX rand generation fuel k = some (b1, b2, k2) →
      1 ≤ b1.subGeneSizes.length ∧ 1 ≤ b2.subGeneSizes.length ∧
      sizeMinusOne b1.subGeneSizes.length = b1.subGeneSizes.length - 1 ∧
      sizeMinusOne b2.subGeneSizes.length = b2.subGeneSizes.length - 1) ∧
    (∀ og P1 k1, P.oldGeneration = some og → P.newGeneration = some generation →
      (∀ c ∈ og, 1 ≤ c.subGeneSizes.length) →
      createNewGeneration P RAND_MAX rand randFunction fuel k = some (P1, k1) →
      ∃ g, P1.newGeneration = some g ∧ P1.oldGeneration = some generation ∧
        g.length = og.length ∧ validRanges P1 ∧
        ∀ c ∈ generation ++ g, 1 ≤ c.subGeneSizes.length ∧
          sizeMinusOne c.subGeneSizes.length = c.subGeneSizes.length - 1) := by
  refine ⟨fun b1 b2 k2 h => ?_, fun og P1 k1 ho hn hog h => ?_⟩
  · obtain ⟨i1, i2, kc, p1, p2, hsel⟩ := crossOver_select h
    obtain ⟨hm1, hm2⟩ := selectParents_mem hsel
    have hp1 := hall p1 (List.getElem?_mem hm1)
    have hp2 := hall p2 (List.getElem?_mem hm2)
    obtain ⟨h1, h2⟩ := crossOver_nonempty hsel ⟨hp1.1, hp1.2, hp2.1, hp2.2, hrange⟩ h
    exact ⟨h1, h2, sizeMinusOne_pos h1, sizeMinusOne_pos h2⟩
  · obtain ⟨g, h1, h2, h3, h4, h5⟩ := createNewGeneration_nonempty hrange ho hn
      (fun c hc => by
        rcases List.mem_append.mp hc with hc | hc
        · exact hog c hc
        · exact (hall c hc).1)
      (fun c hc => (hall c hc).2) h
    exact ⟨g, h1, h2, h3, h5, fun c hc => ⟨h4 c hc, sizeMinusOne_pos (h4 c hc)⟩⟩

/-- Witness of C32: the babies `[1,6,7,8]` with sub genes `[1,2]` and `[5,2,3,4]` with sub
genes `[2,3]` of a crossing with `equalCrossPoints`. -/
theorem subGeneSizes_nonempty_witness :
    crossOver (defaultPopulation true) 32767 randB [chromC, chromB] 2 0 =
      some ({ values := [1, 6, 7, 8], subGeneSizes := [1, 2], fitness := 0 },
            { values := [5, 2, 3, 4], subGeneSizes := [2, 3], fitness := 0 }, 5) ∧
    1 ≤ ([1, 2] : List Int).length ∧ 1 ≤ ([2, 3] : List Int).length := by
  have h := (subGeneSizes_nonempty (defaultPopulation true) 32767 randB GenInt.randFunction
    [chromC, chromB] 2 0 (validRanges_default true)
    (fun c hc => by
      simp only [List.mem_cons, List.mem_singleton, List.not_mem_nil, or_false] at hc
      rcases hc with rfl | rfl <;> exact ⟨by decide, by decide⟩)).1 _ _ _ crossOver_randB
  exact ⟨crossOver_randB, h.1, h.2.1⟩

/-- Claim C33. For a generation with non-negative fitnesses and a positive total, and every
draw `u = rand() / (RAND_MAX + 1)` in `[0,1)`: `grabChromosome` returns within one pass, and
the index it returns is the index of a chromosome of positive fitness. When exactly one
index `i0` holds a chromosome of positive fitness, `grabChromosome` returns `i0` for every
draw, and `selectParents` with `cloneParents` disabled never finds a second parent: it does
not return, whatever the bound on the iterations of its loop. -/
theorem grabChromosome_skips_zero {α : Type} (RAND_MAX : Nat)
    (generation : List (Chromosome α)) (hnn : ∀ c ∈ generation, 0 ≤ c.fitness)
    (hpos : 0 < totalFitness generation) :
    (∀ d, d ≤ RAND_MAX → ∃ i c, generation[i]? = some c ∧ 0 < c.fitness ∧
      ∀ fuel, generation.length ≤ fuel →
        grabChromosome RAND_MAX generation fuel d = some i) ∧
    (∀ fuel d i, grabChromosome RAND_MAX generation fuel d = some i →
      ∃ c, generation[i]? = some c ∧ 0 < c.fitness) ∧
    (∀ i0, (∀ j c, generation[j]? = some c → 0 < c.fitness → j = i0) →
      (∀ fuel d, d ≤ RAND_MAX → generation.length ≤ fuel →
        grabChromosome RAND_MAX generation fuel d = some i0) ∧
      (∀ (P : Population α) (rand : Nat → Nat) (fuel k : Nat), P.cloneParents = false →
        selectParents P RAND_MAX rand generation fuel k = none)) := by
  have hex := exists_pos_of_totalFitness_pos hpos
  have hsome : ∀ fuel d i, grabChromosome RAND_MAX generation fuel d = some i →
      ∃ c, generation[i]? = some c ∧ 0 < c.fitness :=
    fun fuel d i h => grabChromosome_positive hnn h
  refine ⟨fun d hd => ?_, hsome, fun i0 huniq => ⟨fun fuel d hd hf => ?_, ?_⟩⟩
  · obtain ⟨i, _, hi⟩ := @grabChromosome_some α RAND_MAX generation hnn hex d hd
    obtain ⟨c, hc, hcp⟩ := hsome _ d i (hi generation.length (le_refl _))
    exact ⟨i, c, hc, hcp, hi⟩
  · obtain ⟨i, _, hi⟩ := @grabChromosome_some α RAND_MAX generation hnn hex d hd
    obtain ⟨c, hc, hcp⟩ := hsome _ d i (hi fuel hf)
    rw [hi fuel hf, huniq i c hc hcp]
  · intro P rand fuel k hcl
    refine @selectParents_stuck α P RAND_MAX rand generation i0 hcl fuel (fun kk i h => ?_) k
    obtain ⟨c, hc, hcp⟩ := hsome _ _ i h
    exact huniq i c hc hcp

/-- Witness of C33: in the generation of the chromosomes of fitness 10 and 0, every draw
selects chromosome 0, and `selectParents` without `cloneParents` does not return. -/
theorem grabChromosome_skips_zero_witness :
    (∀ d, d ≤ 32767 → grabChromosome 32767 [scenarioOnes, scenarioZeros] 2 d = some 0) ∧
    (∀ (rand : Nat → Nat) (fuel k : Nat),
      selectParents distinctPopulation 32767 rand [scenarioOnes, scenarioZeros] fuel k =
        none) := by
  have h := (grabChromosome_skips_zero 32767 [scenarioOnes, scenarioZeros]
    (fun c hc => by
      simp only [List.mem_cons, List.mem_singleton, List.not_mem_nil, or_false] at hc
      rcases hc with rfl | rfl <;> simp [scenarioOnes, scenarioZeros])
    (by rw [scenario_total]; norm_num)).2.2 0
    (fun j c hj hc => by
      match j with
      | 0 => rfl
      | 1 =>
        simp only [List.getElem?_cons_succ, List.getElem?_cons_zero, Option.some.injEq] at hj
        rw [← hj] at hc
        simp [scenarioZeros] at hc
      | j + 2 => simp at hj)
  exact ⟨fun d hd => h.1 2 d hd (le_refl _), fun rand fuel k =>
    h.2 distinctPopulation rand fuel k rfl⟩

/-- Claim C34. Sub genes partition the chromosome: for a chromosome that satisfies the shape
invariant, has non-negative sub-gene sizes and holds at most `INT_MAX` values (the slice
bounds of `getSubGene` are `int`s), every call `getSubGene( k )` with
`k < n = len(subGeneSizes)` returns, and the concatenation of `getSubGene( 0 )`,
`getSubGene( 1 )`, ..., `getSubGene( n - 1 )` equals `values`. -/
theorem subGenes_partition {α : Type} (c : Chromosome α)
    (hshape : c.shapeInvariant) (hnn : c.sizesNonneg)
    (hmax : (c.values.length : Int) ≤ INT_MAX) :
    ∃ genes : List (List α), genes.length = c.subGeneSizes.length ∧
      (∀ k, k < c.subGeneSizes.length → c.getSubGene k = genes[k]?) ∧
      genes.flatten = c.values := by
  have hI : INT_MAX = 2147483647 := rfl
  have hU : UINT_MOD = 4294967296 := rfl
  have hw : c.wellFormed := ⟨hnn, hshape, by omega⟩
  refine ⟨(List.range c.subGeneSizes.length).map (fun j => (c.getSubGene j).getD []),
    by simp, fun k hk => ?_, ?_⟩
  · have hsz : c.subGeneSizes[k]? = some c.subGeneSizes[k] := List.getElem?_eq_getElem hk
    have hget := wellFormed_getSubGene hw hmax k _ hsz
    rw [List.getElem?_map, List.getElem?_range hk, Option.map_some', hget, Option.getD_some]
  · rw [subGenes_upto hw hmax _ (Nat.le_refl _), List.take_length]
    have hs : c.subGeneSizes.sum = (c.values.length : Int) := hshape
    rw [hs, Int.toNat_ofNat, List.take_length]

/-- Witness of C34: the sub genes `[1,2]`, `[3,4]`, `[5,6]`, `[7,8]` of the chromosome
`[1,2 | 3,4 | 5,6 | 7,8]` concatenate to its values. -/
theorem subGenes_partition_witness :
    (chromE.getSubGene 0 = some [1, 2] ∧ chromE.getSubGene 1 = some [3, 4] ∧
      chromE.getSubGene 2 = some [5, 6] ∧ chromE.getSubGene 3 = some [7, 8]) ∧
    ∃ genes : List (List Int), genes.length = chromE.subGeneSizes.length ∧
      (∀ k, k < chromE.subGeneSizes.length → chromE.getSubGene k = genes[k]?) ∧
      genes.flatten = chromE.values :=
  ⟨by decide, subGenes_partition chromE (by simp [Chromosome.shapeInvariant, chromE])
    (by simp [Chromosome.sizesNonneg, chromE]) (by decide)⟩

/-- Claim C35. The two-argument `getSubGene` agrees with the uniform formula: for every gene
index `g`, `g = 0` included, and every sub index `s`, `getSubGene( g, s )` returns what
`getSubGene( 2*g + s )` returns, the index being the `unsigned int` expression `2*g + s`.
Hence, when the flat indices `0 .. 2*numberOfGenes() - 1` are `unsigned int` values, the
pairs `(g, s)` with `g < numberOfGenes()` and `s` in `{0, 1}`, taken in order, address the
flat sub-gene indices `0 .. 2*numberOfGenes() - 1` once each, in order; all these indices are
below `len(subGeneSizes)`. -/
theorem getSubGeneAt_uniform {α : Type} (c : Chromosome α) :
    (∀ g s, c.getSubGeneAt g s = c.getSubGene ((2 * g + s) % UINT_MOD)) ∧
    (2 * c.numberOfGenes ≤ UINT_MOD →
      (∀ g s, g < c.numberOfGenes → s < 2 →
        2 * g + s < 2 * c.numberOfGenes ∧ 2 * g + s < c.subGeneSizes.length ∧
        c.getSubGeneAt g s = c.getSubGene (2 * g + s)) ∧
      ((List.range c.numberOfGenes).map (fun g => [2 * g + 0, 2 * g + 1])).flatten =
        List.range (2 * c.numberOfGenes) ∧
      ((List.range c.numberOfGenes).map
          (fun g => [c.getSubGeneAt g 0, c.getSubGeneAt g 1])).flatten =
        (List.range (2 * c.numberOfGenes)).map c.getSubGene) := by
  refine ⟨getSubGeneAt_eq c, fun hN => ⟨fun g s hg hs => ⟨by omega, ?_, ?_⟩, ?_,
    getSubGeneAt_enumerates c _ hN⟩⟩
  · have h1 : c.numberOfGenes ≤ c.subGeneSizes.length / 2 := Nat.mod_le _ _
    omega
  · rw [getSubGeneAt_eq, Nat.mod_eq_of_lt (by omega)]
  · generalize c.numberOfGenes = N
    induction N with
    | zero => rfl
    | succ N ih =>
      have e : 2 * (N + 1) = (2 * N + 1) + 1 := by omega
      rw [List.range_succ, List.map_append, List.flatten_append, ih, e, List.range_succ,
        List.range_succ, List.append_assoc]
      rfl

/-- Witness of C35: on the chromosome `[1,2 | 3,4 | 5,6 | 7,8]` of two genes the pairs
`(0,0)`, `(0,1)`, `(1,0)`, `(1,1)` return the sub genes 0, 1, 2, 3. -/
theorem getSubGeneAt_uniform_witness :
    chromE.numberOfGenes = 2 ∧
    [chromE.getSubGeneAt 0 0, chromE.getSubGeneAt 0 1, chromE.getSubGeneAt 1 0,
      chromE.getSubGeneAt 1 1] = [some [1, 2], some [3, 4], some [5, 6], some [7, 8]] ∧
    ((List.range chromE.numberOfGenes).map
        (fun g => [chromE.getSubGeneAt g 0, chromE.getSubGeneAt g 1])).flatten =
      (List.range (2 * chromE.numberOfGenes)).map chromE.getSubGene :=
  ⟨by decide, by decide, ((getSubGeneAt_uniform chromE).2 (by decide)).2.2⟩

/-- Claim C36. Whenever a call of `crossOver` that returns takes the crossing branch (the
draw `u` is below `crossOverRate`), both babies have fitness 0, whatever the fitness of the
parents; the babies do not depend on what the slots they overwrite held. In the other branch
(`u >= crossOverRate`) the babies are the parents, with the fitness of the parents. -/
theorem crossOver_fitness {α : Type} (P : Population α) (RAND_MAX : Nat) (rand : Nat → Nat)
    (generation : List (Chromosome α)) (fuel k k2 : Nat) (baby1 baby2 : Chromosome α)
    (h : crossOver P RAND_MAX rand generation fuel k = some (baby1, baby2, k2)) :
    ∃ i1 p1 i2 p2 k1,
      selectParents P RAND_MAX rand generation fuel k = some ((i1, p1), (i2, p2), k1) ∧
      (randFloat RAND_MAX (rand (k1 + 2)) < P.crossOverRate →
        baby1.fitness = 0 ∧ baby2.fitness = 0) ∧
      (P.crossOverRate ≤ randFloat RAND_MAX (rand (k1 + 2)) →
        baby1 = p1 ∧ baby2 = p2 ∧ baby1.fitness = p1.fitness ∧
          baby2.fitness = p2.fitness) := by
  obtain ⟨i1, p1, i2, p2, k1, hsel⟩ := crossOver_parents h
  obtain ⟨cp1, r1, cp2, r2, _, _, hout⟩ := crossOver_outcome hsel h
  refine ⟨i1, p1, i2, p2, k1, hsel, fun hu => ?_, fun hu => ?_⟩
  · rcases hout with ⟨_, _, _, _, _, rfl, rfl⟩ | ⟨hno, _, _⟩
    · exact ⟨rfl, rfl⟩
    · exact absurd hu (not_lt.mpr hno)
  · rcases hout with ⟨hyes, _⟩ | ⟨_, rfl, rfl⟩
    · exact absurd hyes (not_lt.mpr hu)
    · exact ⟨rfl, rfl, rfl, rfl⟩

/-- Witness of C36: a crossing of two parents of fitness 1 gives two babies of fitness 0. -/
theorem crossOver_fitness_witness :
    selectParents (defaultPopulation true) 32767 randB [chromC, chromB] 2 0 =
      some ((0, chromC), (1, chromB), 2) ∧
    chromC.fitness = 1 ∧ chromB.fitness = 1 ∧
    randFloat 32767 (randB (2 + 2)) < (defaultPopulation true).crossOverRate ∧
    ∃ b1 b2 : Chromosome Int,
      crossOver (defaultPopulation true) 32767 randB [chromC, chromB] 2 0 = some (b1, b2, 5) ∧
      b1.fitness = 0 ∧ b2.fitness = 0 := by
  have hu : randFloat 32767 (randB (2 + 2)) < (defaultPopulation true).crossOverRate := by
    simp [randFloat, randB, defaultPopulation]
  obtain ⟨i1, p1, i2, p2, k1, hsel, hyes, _⟩ := crossOver_fitness (defaultPopulation true)
    32767 randB [chromC, chromB] 2 0 5 _ _ crossOver_randB
  rw [select_randB] at hsel
  simp only [Option.some.injEq, Prod.mk.injEq] at hsel
  obtain ⟨_, _, rfl⟩ := hsel
  exact ⟨select_randB, rfl, rfl, hu, _, _, crossOver_randB, hyes hu⟩

/-- Claim C37. The solution flag is sticky: `foundSolution` sets it, and no `startSolving`
call that returns clears it. So on a solver whose flag is set (and whose population is
initialised), every `startSolving( m )` with `m >= 1` in which the evaluator and
`createNewGeneration` return performs exactly one evaluator call and one
`createNewGeneration` call and stops with `getCurrentGeneration() = 0` and the flag still
set, so that the same holds for every later call. -/
theorem solution_flag_sticky {α : Type}
    (parseChromosomes : Solver α → Nat → Option (Population α × Bool × Nat))
    (RAND_MAX : Nat) (rand : Nat → Nat) (randFunction : ℚ → ℚ → Nat → Option α) (fuel : Nat)
    (s : Solver α) :
    s.foundSolution._solution = true ∧
    (∀ m k s1 k1 log, s._solution = true →
      startSolving parseChromosomes RAND_MAX rand randFunction fuel m s k =
        Checked.returned (s1, k1, log) → s1._solution = true) ∧
    (∀ m k P1 f k1 P2 k2, s._solution = true → s.population.initialized = true → 1 ≤ m →
      parseChromosomes s k = some (P1, f, k1) →
      createNewGeneration P1 RAND_MAX rand randFunction fuel k1 = some (P2, k2) →
      ∃ s1, startSolving parseChromosomes RAND_MAX rand randFunction fuel m s k =
          Checked.returned (s1, k2, [Call.parseChromosomes, Call.createNewGeneration]) ∧
        s1.population = P2 ∧ s1._solution = true ∧ s1.getCurrentGeneration = 0) := by
  refine ⟨rfl, ?_, ?_⟩
  · intro m k s1 k1 log hs h
    unfold startSolving at h
    by_cases hi : s.population.initialized = true
    · rw [if_pos hi] at h
      cases hl : solvingLoop parseChromosomes RAND_MAX rand randFunction fuel m 0 s k [] with
      | none => rw [hl] at h; cases h
      | some r =>
        rw [hl] at h
        simp only [Checked.returned.injEq] at h
        subst h
        exact solvingLoop_sticky parseChromosomes RAND_MAX rand randFunction fuel m 0 s k []
          s1 k1 log hl hs
    · rw [if_neg hi] at h; cases h
  · intro m k P1 f k1 P2 k2 hs hi hm hp hc
    obtain ⟨n, rfl⟩ : ∃ n, m = n + 1 := ⟨m - 1, by omega⟩
    refine ⟨{ population := P2, _solution := true, _currentGeneration := 0 }, ?_, rfl, rfl,
      rfl⟩
    apply startSolving_of_loop parseChromosomes RAND_MAX rand randFunction fuel (n + 1) s k hi
    rw [solvingLoop_flag_set parseChromosomes RAND_MAX rand randFunction fuel n 0 s k [] hs hp
      hc]
    rfl

/-- Witness of C37: on a solver over `sharedPopulation` on which `foundSolution` has been
called, `startSolving( 5 )` with an evaluator that does not call `foundSolution` makes two
calls and stops with `getCurrentGeneration() = 0`; a following `startSolving( 3 )` does the
same. -/
theorem solution_flag_sticky_witness :
    ∃ s1 k1 s2 k2,
      startSolving (unitEvaluator false) 32767 (fun _ => 0) GenInt.randFunction 2 5
          (Solver.new sharedPopulation).foundSolution 0 =
        Checked.returned (s1, k1, [Call.parseChromosomes, Call.createNewGeneration]) ∧
      s1._solution = true ∧ s1.getCurrentGeneration = 0 ∧
      startSolving (unitEvaluator false) 32767 (fun _ => 0) GenInt.randFunction 2 3 s1 k1 =
        Checked.returned (s2, k2, [Call.parseChromosomes, Call.createNewGeneration]) ∧
      s2._solution = true ∧ s2.getCurrentGeneration = 0 := by
  obtain ⟨P1, P2, k2, hp, hc, hrun⟩ := @runnable_step Int [2, 2] 2 GenInt.randFunction 32767
    (fun _ => 0) 2 (by decide) (by decide) (by decide) (by decide) validRand_zero false
    (Solver.new sharedPopulation).foundSolution 0 sharedPopulation_runnable
  obtain ⟨s1, h1, hP, hs1, hg1⟩ := (solution_flag_sticky (unitEvaluator false) 32767
    (fun _ => 0) GenInt.randFunction 2 (Solver.new sharedPopulation).foundSolution).2.2 5 0 P1
    false 0 P2 k2 rfl rfl (by decide) hp hc
  have hrun1 : runnable [2, 2] 2 GenInt.randFunction s1.population := by rw [hP]; exact hrun
  obtain ⟨Q1, Q2, k3, hp2, hc2, _⟩ := @runnable_step Int [2, 2] 2 GenInt.randFunction 32767
    (fun _ => 0) 2 (by decide) (by decide) (by decide) (by decide) validRand_zero false
    s1 k2 hrun1
  have hi1 : s1.population.initialized = true := by
    have := createNewGeneration_initialized hc
    rw [hP, this]
    have e := hp
    unfold unitEvaluator at e
    simp only [Option.some.injEq, Prod.mk.injEq] at e
    rw [← e.1]
    rfl
  obtain ⟨s2, h2, _, hs2, hg2⟩ := (solution_flag_sticky (unitEvaluator false) 32767
    (fun _ => 0) GenInt.randFunction 2 s1).2.2 3 k2 Q1 false k2 Q2 k3 hs1 hi1 (by decide) hp2
    hc2
  exact ⟨s1, k2, s2, k3, h1, hs1, hg1, h2, hs2, hg2⟩

/-- Claim C38 at the generation size 0. `initialize( 0, 4, 4, 2, 2, 0, 9 )` returns (0 is
even) and leaves two generations without chromosomes. On this population the loop test of
`createNewGeneration`, `i < newGeneration->size() - 1`, holds for `i = 0`, because the
`size_t` value `size() - 1` wraps to `2^64 - 1`; the loop body is entered and reads the
slots 0 and 1 of a generation without chromosomes. The call has no result, for every random
stream, every `randFunction` and every bound on the number of iterations. -/
theorem createNewGeneration_empty (RAND_MAX : Nat) (rand : Nat → Nat)
    (randFunction : ℚ → ℚ → Nat → Option Int) (now : Int) (fuel k : Nat) :
    ∃ P0, initializePopulation constructedPopulation rand randFunction now fuel 0 4 4 2 2 0 9 =
        Checked.returned (P0, 0) ∧
      P0.newGeneration = some [] ∧ P0.oldGeneration = some [] ∧
      sizeMinusOne ([] : List (Chromosome Int)).length = 18446744073709551615 ∧
      (∀ steps, generationLoop P0 RAND_MAX rand randFunction [] (sizeMinusOne 0) fuel steps 0 k
        [] = none) ∧
      createNewGeneration P0 RAND_MAX rand randFunction fuel k = none ∧
      createNewGeneration emptyPopulation RAND_MAX rand randFunction fuel k = none := by
  have hloop : ∀ (P : Population Int) steps, generationLoop P RAND_MAX rand randFunction []
      (sizeMinusOne 0) fuel steps 0 k [] = none := by
    intro P steps
    cases steps with
    | zero =>
      unfold generationLoop
      rw [if_pos (by decide)]
    | succ n =>
      unfold generationLoop
      rw [if_pos (by decide), if_neg (by decide)]
  refine ⟨_, rfl, rfl, rfl, rfl, hloop _, ?_, ?_⟩
  · simp only [createNewGeneration, GenerationClass.new, List.replicate, List.length_nil,
      hloop]
  · simp only [createNewGeneration, emptyPopulation, List.length_nil, hloop]

/-- Claim C39. Crosspoint percentage ranges stay valid: in every population state reached
from a returning `initialize` by any sequence of successful `setCrossPointRange( min, max )`
and `setCrossPointRange( cpIndex, min, max )` calls,
`0 <= minCrossValue[k] <= maxCrossValue[k] <= 100` holds for `k = 0` and `k = 1`. -/
theorem crossPointRanges_valid {α : Type} (P P0 P1 : Population α) (rand : Nat → Nat)
    (randFunction : ℚ → ℚ → Nat → Option α) (now : Int) (fuel : Nat)
    (generationSize minCSize maxCSize minSubSize maxSubSize : Nat) (minRand maxRand : ℚ)
    (k : Nat) (calls : List RangeCall)
    (hinit : initializePopulation P rand randFunction now fuel generationSize minCSize maxCSize
      minSubSize maxSubSize minRand maxRand = Checked.returned (P0, k))
    (hcalls : applyRangeCalls P0 calls = Checked.returned P1) :
    validRanges P0 ∧ validRanges P1 := by
  obtain ⟨hmin, hmax⟩ := initializePopulation_ranges hinit
  have h0 : validRanges P0 := by
    intro j
    rw [hmin j, hmax j]
    norm_num
  exact ⟨h0, applyRangeCalls_valid calls P0 P1 h0 hcalls⟩

/-- Witness of C39: after `initialize( 2, 4, 4, 2, 2, 0, 9 )`, `setCrossPointRange( 10, 90 )`
and `setCrossPointRange( 1, 0, 100 )` the ranges are `[10,90]` and `[0,100]`, both valid. -/
theorem crossPointRanges_valid_witness :
    ∃ P0 k P1, initializePopulation constructedPopulation (fun _ => 0) GenInt.randFunction 0 4
        2 4 4 2 2 0 9 = Checked.returned (P0, k) ∧
      applyRangeCalls P0 [RangeCall.both 10 90, RangeCall.one 1 0 100] =
        Checked.returned P1 ∧
      P1.minCrossValue 0 = 10 ∧ P1.maxCrossValue 0 = 90 ∧
      P1.minCrossValue 1 = 0 ∧ P1.maxCrossValue 1 = 100 ∧
      validRanges P0 ∧ validRanges P1 := by
  obtain ⟨g, k1, hg⟩ := initializeChromosomes_total (fun _ => 0) GenInt.randFunction 4 4 4 2 2
    0 9 (le_refl 4) (by norm_num) (by norm_num) (le_refl 2) (by norm_num)
    genInt_randFunction_total (le_refl 4) (GenerationClass.new 2) 0
  obtain ⟨P0, h0⟩ := initializePopulation_of_chromosomes constructedPopulation 0
    (show 2 % 2 = 0 from rfl) rfl hg
  have hc1 : setCrossPointRange P0 10 90 = Checked.returned
      { P0 with minCrossValue := fun _ => 10, maxCrossValue := fun _ => 90 } := by
    unfold setCrossPointRange
    rw [if_pos (by norm_num)]
  have hc2 : ∀ Q : Population Int, setCrossPointRangeAt Q 1 0 100 = Checked.returned
      { Q with minCrossValue := Function.update Q.minCrossValue 1 0,
               maxCrossValue := Function.update Q.maxCrossValue 1 100 } := by
    intro Q
    unfold setCrossPointRangeAt
    rw [dif_pos (by norm_num)]
    rfl
  have hcalls : applyRangeCalls P0 [RangeCall.both 10 90, RangeCall.one 1 0 100] =
      Checked.returned
        { P0 with minCrossValue := Function.update (fun _ => 10) 1 0,
                  maxCrossValue := Function.update (fun _ => 90) 1 100 } := by
    simp only [applyRangeCalls, hc1, hc2]
  exact ⟨P0, k1, _, h0, hcalls, by simp [Function.update], by simp [Function.update],
    by simp [Function.update], by simp [Function.update],
    crossPointRanges_valid constructedPopulation P0 _ (fun _ => 0) GenInt.randFunction 0 4 2 4
      4 2 2 0 9 k1 [RangeCall.both 10 90, RangeCall.one 1 0 100] h0 hcalls⟩

/-- Claim C40 at equal bounds. `randFloat( x, x )` has no result for any `x` and any value
of `rand()`: after `y -= 1` the modulus `y - x + 1` is 0, so `tmp % ( y - x + 1 )` divides
by zero; hence `GenFloat`'s `randFunction( 3, 3 )` has no result either, while
`randInt( 3, 3 )` returns 3. -/
theorem randFloatBetween_equal_bounds (RAND_MAX r : Nat) (x : Int) :
    randFloatBetween RAND_MAX r x x = none ∧
    GenFloat.randFunction RAND_MAX 3 3 r = none ∧
    randInt r 3 3 = some 3 := by
  have h : ∀ z : Int, randFloatBetween RAND_MAX r z z = none := by
    intro z
    unfold randFloatBetween
    cases h1 : chkInt (z - 1) with
    | none => rfl
    | some y1 =>
      have hy : y1 = z - 1 := by
        unfold chkInt at h1
        split at h1
        · exact (Option.some.inj h1).symm
        · cases h1
      subst hy
      have e : z - 1 - z = -1 := by omega
      simp only [e]
      rfl
  refine ⟨h x, ?_, ?_⟩
  · have h3 : doubleToInt 3 = some 3 := by
      simp [doubleToInt, chkInt, INT_MIN, INT_MAX]
    unfold GenFloat.randFunction
    rw [h3]
    exact h 3
  · simp [randInt, chkInt, INT_MIN, INT_MAX, Int.tmod_one]

end GenSolver
